import Mathlib

/-!
# HAP accessory server: session and pairing stack

A shallow embedding of `Hap/Hap.h`, `Hap/HapHttp.cpp`, `Hap/HapSrp.cpp` and of the
transport loop of `Win/HapTcp.cpp`.

Bytes are natural numbers below 256, buffers are lists of bytes, machine counters are
natural numbers reduced explicitly modulo their width.  The collaborators whose bodies are
not part of the sources (HTTP parser and writer, TLV byte codec, SRP library,
cryptographic primitives, attribute database) are gathered in the record `Ext`; every
function of the server takes it as its first argument, and every theorem holds for all
of its values.
-/

namespace Hap

/-! ## Constants of `Hap.h` -/

/-- Max number of pairings the accessory supports. -/
def MaxPairings : Nat := 10
/-- Max HTTP sessions. -/
def MaxHttpSessions : Nat := 8
/-- Max number of HTTP headers in a request. -/
def MaxHttpHeaders : Nat := 20
/-- Max number of items in an incoming TLV. -/
def MaxHttpTlv : Nat := 10
/-- Max size of an encrypted block. -/
def MaxHttpBlock : Nat := 1024
/-- Max HTTP frame: block, two length bytes, tag. -/
def MaxHttpFrame : Nat := MaxHttpBlock + 2 + 16
/-- The invalid session id, `sid_invalid = 0xFF`. -/
def sid_invalid : Nat := 0xFF
/-- The largest session id, `sid_max = MaxHttpSessions - 1`. -/
def sid_max : Nat := MaxHttpSessions - 1

/-- The bytes of a C string literal (without the terminating NUL). -/
def cstr (s : String) : List Nat := s.toList.map Char.toNat

/-- Content type of JSON bodies, `ContentTypeJson`. -/
def ContentTypeJson : String := "application/hap+json"
/-- Content type of TLV bodies, `ContentTypeTlv8`. -/
def ContentTypeTlv8 : String := "application/pairing+tlv8"

/-! ## Controllers and the pairings store -/

/-- Permissions of a controller, `enum Controller::Perm`, as the byte it is stored in. -/
abbrev Controller.Perm := Nat
/-- The permission `None = 0xFF`, which marks a free record. -/
def Controller.None : Controller.Perm := 0xFF
/-- The permission `Regular = 0`. -/
def Controller.Regular : Controller.Perm := 0
/-- The permission `Admin = 1`. -/
def Controller.Admin : Controller.Perm := 1

/-- Max size of a controller id, `Controller::IdLen`. -/
def Controller.IdLen : Nat := 36
/-- Size of a controller public key, `Controller::KeyLen`. -/
def Controller.KeyLen : Nat := 32

/-- An iOS device record, `struct Controller`: `id` and `key` are fixed-size arrays. -/
structure Controller where
  perm : Controller.Perm
  id : List Nat
  key : List Nat
deriving DecidableEq, Repr

/-- Copy `bs` into a zeroed array of `n` bytes. -/
def padTo (n : Nat) (bs : List Nat) : List Nat :=
  (bs ++ List.replicate n 0).take n

/-- Modelled from the spec: the pairings store `class Pairings` of `Hap.h`, whose member
functions are declared there but whose bodies are not in the sources.  It is the array
`Controller _db[MaxPairings]`; a record whose permission is `None` is free. -/
structure Pairings where
  db : List Controller
deriving DecidableEq, Repr

namespace Pairings

/-- A free record. -/
def free : Controller := ⟨Controller.None, List.replicate Controller.IdLen 0, List.replicate Controller.KeyLen 0⟩

/-- Modelled from the spec: `Pairings::Init`, destroy all existing records. -/
def Init : Pairings := ⟨List.replicate MaxPairings free⟩

/-- Modelled from the spec: `Pairings::Count`, count the records with matching permissions;
with `perm = None` count all records. -/
def Count (p : Pairings) (perm : Controller.Perm) : Nat :=
  p.db.countP (fun c => if perm = Controller.None then c.perm ≠ Controller.None else c.perm = perm)

/-- Does the record `c` hold the identifier `id`. -/
def holds (id : List Nat) (c : Controller) : Bool :=
  c.perm ≠ Controller.None && c.id == padTo Controller.IdLen id

/-- Modelled from the spec: `Pairings::Get`, the pairing record of an identifier; the
result is the position of the record in `_db` (the source returns a pointer to it), `none`
for `nullptr`. -/
def Get (p : Pairings) (id : List Nat) : Option Nat :=
  let i := p.db.findIdx (holds id)
  if i < p.db.length then some i else none

/-- Modelled from the spec: `Pairings::Add`, store a record in the first free place;
fails when the store is full. -/
def Add (p : Pairings) (id key : List Nat) (perm : Controller.Perm) : Bool × Pairings :=
  let i := p.db.findIdx (fun c => c.perm = Controller.None)
  if i < p.db.length then
    (true, ⟨p.db.set i ⟨perm, padTo Controller.IdLen id, padTo Controller.KeyLen key⟩⟩)
  else
    (false, p)

/-- Modelled from the spec: `Pairings::Update`, replace the permissions of a controller. -/
def Update (p : Pairings) (id : List Nat) (perm : Controller.Perm) : Bool × Pairings :=
  match p.Get id with
  | some i => (true, ⟨p.db.modify (fun c => { c with perm := perm }) i⟩)
  | none => (false, p)

/-- Modelled from the spec: `Pairings::Remove`, free the record of a controller. -/
def Remove (p : Pairings) (id : List Nat) : Bool × Pairings :=
  match p.Get id with
  | some i => (true, ⟨p.db.set i free⟩)
  | none => (false, p)

/-- The record a controller pointer refers to. -/
def deref (p : Pairings) (i : Nat) : Controller :=
  p.db.getD i free

/-- Modelled from the spec: the records `Pairings::forEach` visits, in array order. -/
def records (p : Pairings) : List Controller :=
  p.db.filter (fun c => c.perm ≠ Controller.None)

end Pairings

/-! ## TLV items -/

namespace Tlv

/-- Modelled from the spec: the item types of `Tlv::Type` (`HapTlv.h` is not in the
sources). -/
inductive Kind where
  | Method | Identifier | Salt | PublicKey | Proof | EncryptedData | State | Error
  | RetryDelay | Certificate | Signature | Permissions | FragmentData | FragmentLast
  | Separator
deriving DecidableEq, Repr

/-- A TLV item after the fragments of its value are concatenated, `Tlv::Item`. -/
structure Item where
  type : Kind
  val : List Nat
deriving DecidableEq, Repr

/-- Modelled from the spec: values of `Tlv::State`, `M1 = 0x01` to `M6 = 0x06`. -/
def State.M1 : Nat := 1
/-- State M2. -/
def State.M2 : Nat := 2
/-- State M3. -/
def State.M3 : Nat := 3
/-- State M4. -/
def State.M4 : Nat := 4
/-- State M5. -/
def State.M5 : Nat := 5
/-- State M6. -/
def State.M6 : Nat := 6

/-- Modelled from the spec: values of `Tlv::Method`, `PairSetupNonMfi = 0x00`; the others
follow the HAP table. -/
def Method.PairSetupNonMfi : Nat := 0
/-- Method AddPairing. -/
def Method.AddPairing : Nat := 3
/-- Method RemovePairing. -/
def Method.RemovePairing : Nat := 4
/-- Method ListPairing. -/
def Method.ListPairing : Nat := 5

/-- Modelled from the spec: values of `Tlv::Error`, `Busy = 0x07`. -/
def Error.Unknown : Nat := 1
/-- Error Authentication. -/
def Error.Authentication : Nat := 2
/-- Error Backoff. -/
def Error.Backoff : Nat := 3
/-- Error MaxPeers. -/
def Error.MaxPeers : Nat := 4
/-- Error MaxTries. -/
def Error.MaxTries : Nat := 5
/-- Error Unavailable. -/
def Error.Unavailable : Nat := 6
/-- Error Busy. -/
def Error.Busy : Nat := 7

/-- Modelled from the spec: `Parse::get(type, item)`, the first item of a type. -/
def get (items : List Item) (t : Kind) : Option (List Nat) :=
  (items.find? (fun i => i.type = t)).map (fun i => i.val)

/-- Modelled from the spec: `Parse::get(type, value)` for a one-byte value (state, method,
permissions): the first item of the type, read as a byte. -/
def getByte (items : List Item) (t : Kind) : Option Nat :=
  match get items t with
  | some (b :: _) => some b
  | _ => none

/-- Modelled from the spec: `Parse::get(type, buf, size)`, copy the value of the first
item of a type into a buffer of `size` bytes; fails when it does not fit. -/
def getBuf (items : List Item) (t : Kind) (size : Nat) : Option (List Nat) :=
  match get items t with
  | some v => if v.length ≤ size then some v else none
  | none => none

/-- Bytes an item with a value of `n` bytes takes: a type and a length byte per fragment
of up to 255 bytes, a lone header for an empty value. -/
def itemSize (n : Nat) : Nat :=
  if n = 0 then 2 else n + 2 * ((n + 254) / 255)

/-- Modelled from the spec: the TLV builder `Tlv::Create` over a writable region of `size`
bytes. -/
structure Create where
  size : Nat
  items : List Item
  length : Nat
deriving DecidableEq, Repr

/-- Modelled from the spec: `Create::create(buf, size)`. -/
def Create.create (size : Nat) : Create := ⟨size, [], 0⟩

/-- Modelled from the spec: `Create::add`, append an item; fails, writing nothing, when
out of room. -/
def Create.add (c : Create) (t : Kind) (v : List Nat) : Bool × Create :=
  if c.length + itemSize v.length ≤ c.size then
    (true, { c with items := c.items ++ [⟨t, v⟩], length := c.length + itemSize v.length })
  else
    (false, c)

/-- An `add` whose result the caller ignores. -/
def Create.put (c : Create) (t : Kind) (v : List Nat) : Create :=
  (c.add t v).2

end Tlv

/-! ## HTTP requests and responses -/

namespace Http

/-- Modelled from the spec: the HTTP statuses of `Http::Status` (`HapHttp.h` is not in the
sources). -/
inductive Status where
  | HTTP_200 | HTTP_204 | HTTP_207 | HTTP_400 | HTTP_470
deriving DecidableEq, Repr

/-- What the dispatcher reads from a parsed request: `req.method()`, `req.path()`,
`req.data()` and the three header queries it makes. -/
structure Request where
  method : String
  path : String
  data : List Nat
  /-- The value of `req.hdr(ContentType, ContentTypeTlv8)`. -/
  hdrContentTypeTlv8 : Bool
  /-- The value of `req.hdr(ContentType, ContentTypeJson)`. -/
  hdrContentTypeJson : Bool
  /-- The value of `req.hdr(ContentLength, len)`. -/
  hdrContentLength : Bool
deriving DecidableEq, Repr

/-- Result of `req.parse`. -/
inductive ParseStatus where
  | Error
  | Incomplete
  | Success (req : Request)
deriving DecidableEq, Repr

/-- A call of the response writer. -/
inductive Call where
  /-- The call `rsp.start(status)`, status line `HTTP/1.1`. -/
  | start (s : Status)
  /-- The call `rsp.event(status)`, status line `EVENT/1.0`. -/
  | event (s : Status)
  /-- The call `rsp.add(ContentType, value)`. -/
  | addContentType (v : String)
  /-- The call `rsp.add(ContentLength, n)`. -/
  | addContentLength (n : Nat)
  /-- The call `rsp.end()`, headers finished, no body. -/
  | end_
  /-- The call `rsp.end(body)` or `rsp.end(body, len)`. -/
  | endBody (body : List Nat)
  /-- The call `rsp.setContentLength(n)`, patch of the content length. -/
  | setContentLength (n : Nat)
deriving DecidableEq, Repr

/-- What a handler writes in place after the headers, at `rsp.data()`. -/
inductive Data where
  | none
  /-- The items the TLV builder `tlvo` wrote. -/
  | tlv (items : List Tlv.Item)
  /-- The JSON the attribute database wrote. -/
  | json (bytes : List Nat)
deriving DecidableEq, Repr

/-- The response under construction, `sess->rsp`: the writer calls made since the last
`Init`, in order, and the data written in place after the headers. -/
structure Response where
  calls : List Call
  data : Data
deriving DecidableEq, Repr

/-- The response buffer after `Session::Init`. -/
def Response.init : Response := ⟨[], Data.none⟩

/-- The call `rsp.start(status)`: a new response from the start of the buffer. -/
def Response.start (s : Status) : Response := ⟨[Call.start s], Data.none⟩

/-- The call `rsp.event(status)`: a new event response from the start of the buffer. -/
def Response.event (s : Status) : Response := ⟨[Call.event s], Data.none⟩

/-- Record one writer call. -/
def Response.call (r : Response) (c : Call) : Response :=
  { r with calls := r.calls ++ [c] }

end Http

open Http

/-! ## Sessions and the server state -/

/-- Ephemeral Curve25519 state of a session, `sess->curve`. -/
structure Curve where
  pub : List Nat
  prv : List Nat
  shared : List Nat
deriving DecidableEq, Repr

/-- An SRP context as the handlers configure it (`SRP*` of `srp/srp.h`). -/
structure SRP where
  username : List Nat
  modulus : List Nat
  generator : List Nat
  salt : List Nat
  password : List Nat
deriving DecidableEq, Repr

/-- Per-connection state, `Http::Session`. -/
structure Session where
  /-- The value of `isOpen()`. -/
  opened : Bool
  sid : Nat
  secured : Bool
  /-- Bound controller: a pointer into the pairings array, `none` for `nullptr`. -/
  ios : Option Nat
  sendSeq : Nat
  recvSeq : Nat
  /-- Session key used during pairing. -/
  key : List Nat
  AccessoryToControllerKey : List Nat
  ControllerToAccessoryKey : List Nat
  curve : Curve
  /-- Incoming TLV, `sess->tlvi`. -/
  tlvi : List Tlv.Item
  /-- Outgoing TLV, `sess->tlvo`. -/
  tlvo : Tlv.Create
  rsp : Response
deriving DecidableEq, Repr

/-- Modelled from the spec: a closed session slot (`Session::Close`); the counters are
zero at session open, `secured` is false and no controller is bound. -/
def Session.closed : Session :=
  { opened := false, sid := sid_invalid, secured := false, ios := none, sendSeq := 0, recvSeq := 0,
    key := [], AccessoryToControllerKey := [], ControllerToAccessoryKey := [],
    curve := ⟨[], [], []⟩, tlvi := [], tlvo := Tlv.Create.create 0, rsp := Response.init }

/-- Modelled from the spec: `Session::Open(sid, buf)`. -/
def Session.Open (sid : Nat) : Session :=
  { Session.closed with opened := true, sid := sid }

/-- Modelled from the spec: `Session::Init`, prepare the request and response buffers for
a new request. -/
def Session.Init (s : Session) : Session :=
  { s with rsp := Response.init }

/-- What the server does that is visible outside of its own state. -/
inductive Event where
  /-- A chunk handed to the `send` callback. -/
  | send (sid : Nat) (bytes : List Nat)
  /-- A call of `Hap::Crypt::aead`: direction, key, nonce, length of the data. -/
  | aead (encrypt : Bool) (key nonce : List Nat) (len : Nat)
  /-- A call of `req.parse(http_len)` with the bytes of the request buffer it covers. -/
  | parse (bytes : List Nat)
  /-- A call of `SRP_new`, whatever it returns. -/
  | SRP_new
  /-- A call of `SRP_free`. -/
  | SRP_free
  /-- The configuration update callback `Hap::config->Update()`. -/
  | configUpdate
  /-- The call `_db.Open(sid)`. -/
  | dbOpen (sid : Nat)
  /-- The call `_db.Close(sid)`. -/
  | dbClose (sid : Nat)
  /-- The call `_db.getDb`. -/
  | getDb (sid : Nat)
  /-- The call `_db.Read`. -/
  | Read (sid : Nat)
  /-- The call `_db.Write`. -/
  | Write (sid : Nat)
  /-- The call `_db.getEvents`. -/
  | getEvents (sid : Nat)
  /-- Entry of one of the pairing or pairings handlers. -/
  | handler (name : String)
deriving DecidableEq, Repr

/-- State of `Http::Server` with the file-level pairing state of `HapHttp.cpp`. -/
structure Server where
  /-- The session array `_sess`. -/
  sess : Nat → Session
  /-- Number of entries of `_sess`. -/
  nsess : Nat
  pairings : Pairings
  /-- Current pairing session, `srp`; `none` is `NULL`. -/
  srp : Option SRP
  srp_shared_secret : List Nat
  /-- Session owning the srp. -/
  srp_owner : Nat
  /-- Auth attempts counter, a `uint8_t`. -/
  srp_auth_count : Nat
  /-- Events so far, oldest first. -/
  log : List Event

/-- Replace one session. -/
def Server.setSess (st : Server) (sid : Nat) (s : Session) : Server :=
  { st with sess := fun i => if i = sid then s else st.sess i }

/-- Append an event. -/
def Server.emit (st : Server) (ev : Event) : Server :=
  { st with log := st.log ++ [ev] }

/-- The server at process start: no session open, no pairing in progress. -/
def Server.start (nsess : Nat) (pairings : Pairings) : Server :=
  { sess := fun _ => Session.closed, nsess := nsess, pairings := pairings, srp := none,
    srp_shared_secret := List.replicate 64 0, srp_owner := sid_invalid, srp_auth_count := 0,
    log := [] }

/-- The collaborators of the server whose bodies are not in the sources, and the sizes of
the buffers it is given. -/
structure Ext where
  /-- Size of the scratch buffer, `sess->sizeofdata()`. -/
  sizeofdata : Nat
  /-- Room left after the headers in the response buffer, `sess->rsp.size()`. -/
  rspSize : Nat
  /-- The HTTP parser `req.parse` on the bytes received so far. -/
  parse : List Nat → ParseStatus
  /-- The TLV parser `tlvi.parse`. -/
  tlvParse : List Nat → List Tlv.Item
  /-- The bytes the TLV builder writes for a list of items. -/
  tlvEncode : List Tlv.Item → List Nat
  /-- The bytes `rsp.buf()` of length `rsp.len()` of a response. -/
  render : Response → List Nat
  /-- The cipher behind `Hap::Crypt::aead`, from direction, key, nonce, data and
  associated data to result data and tag. -/
  cipher : Bool → List Nat → List Nat → List Nat → List Nat → List Nat × List Nat
  /-- The primitive `Hap::Crypt::hkdf salt key info len`. -/
  hkdf : List Nat → List Nat → List Nat → Nat → List Nat
  /-- The bytes `t_random` produces. -/
  random : Nat → List Nat
  /-- The bytes of `config->setupCode`. -/
  setupCode : List Nat
  /-- The bytes of `config->deviceId`. -/
  deviceId : List Nat
  /-- The accessory long-term public key, `_keys.PubKey()`. -/
  PubKey : List Nat
  /-- The signature `_keys.Sign` produces. -/
  Sign : List Nat → List Nat
  /-- A fresh Curve25519 key pair, `curve.Init()`: public and private key. -/
  curveInit : List Nat × List Nat
  /-- The Curve25519 shared secret of a private and a peer public key. -/
  curveShared : List Nat → List Nat → List Nat
  /-- Whether `SRP_new` returns a context. -/
  SRP_new : Bool
  /-- Whether `SRP_set_username` succeeds. -/
  SRP_set_username : Bool
  /-- Whether `SRP_set_params` succeeds. -/
  SRP_set_params : Bool
  /-- Whether `SRP_set_auth_password` succeeds. -/
  SRP_set_auth_password : Bool
  /-- The public key `SRP_gen_pub` produces, `none` on failure. -/
  SRP_gen_pub : SRP → Option (List Nat)
  /-- The key `SRP_compute_key` produces, `none` on failure. -/
  SRP_compute_key : SRP → List Nat → Option (List Nat)
  /-- Whether `SRP_verify` accepts the proof. -/
  SRP_verify : SRP → List Nat → Bool
  /-- The proof `SRP_respond` produces, `none` on failure. -/
  SRP_respond : SRP → Option (List Nat)
  /-- The JSON `_db.getDb` writes into a buffer of the given size. -/
  getDb : Nat → Nat → List Nat
  /-- Status and JSON of `_db.Read sid query size`. -/
  Read : Nat → List Nat → Nat → Status × List Nat
  /-- Status and JSON of `_db.Write sid body size`. -/
  Write : Nat → List Nat → Nat → Status × List Nat
  /-- Status and JSON of `_db.getEvents sid size`. -/
  getEvents : Nat → Nat → Status × List Nat
  /-- Bytes that follow a TLV value copied to the start of the scratch buffer. -/
  scratch : List Nat

/-- The primitive `Hap::Crypt::aead(direction, out, tag, key, nonce, data, len, aad, aad_len)`:
it writes as many bytes as it reads and a tag of 16 bytes. -/
def Ext.aead (e : Ext) (encrypt : Bool) (key nonce data aad : List Nat) : List Nat × List Nat :=
  let r := e.cipher encrypt key nonce data aad
  (padTo data.length r.1, padTo 16 r.2)

/-! ## Record layer, outbound: `Server::_send` -/

/-- The 64-bit counter as the eight bytes `memcpy` takes from it (little endian). -/
def le64 (n : Nat) : List Nat :=
  (List.range 8).map (fun i => (n / 256 ^ i) % 256)

/-- The 96-bit nonce made from a sequential number: four zero bytes, then the counter. -/
def nonceOf (seq : Nat) : List Nat :=
  List.replicate 4 0 ++ le64 seq

/-- The two length bytes `b[0] = aad & 0xFF`, `b[1] = (aad >> 8) & 0xFF`. -/
def lenBytes (aad : Nat) : List Nat :=
  [aad % 256, (aad / 256) % 256]

/-- The loop `while (len > 0)` of `_send`: `p` is the data still to send, `seq` the send
counter; the recursion is on a bound of the number of rounds. -/
def sendLoop (e : Ext) (sid : Nat) (key : List Nat) :
    Nat → List Nat → Nat → List Event → Nat × List Event
  | 0, _, seq, log => (seq, log)
  | fuel + 1, p, seq, log =>
    if p.length = 0 then (seq, log)
    else
      let aad := if p.length > MaxHttpBlock then MaxHttpBlock else p.length
      let nonce := nonceOf seq
      let out := e.aead true key nonce (p.take aad) (lenBytes aad)
      let log := log ++ [Event.aead true key nonce aad,
        Event.send sid (lenBytes aad ++ out.1 ++ out.2)]
      sendLoop e sid key fuel (p.drop aad) ((seq + 1) % 2 ^ 64) log

/-- The function `Server::_send`: the response buffer goes to `send`, as records when the
session is secured, as is otherwise. -/
def Server._send (e : Ext) (st : Server) (i : Nat) : Bool × Server :=
  let sess := st.sess i
  if sess.secured then
    let p := e.render sess.rsp
    let r := sendLoop e sess.sid sess.AccessoryToControllerKey p.length p sess.sendSeq st.log
    (true, ({ st with log := r.2 }).setSess i { sess with sendSeq := r.1 })
  else
    (true, st.emit (Event.send sess.sid (e.render sess.rsp)))

/-! ## Pairing handlers -/

/-- The common start of the handlers: response `HTTP_200` with TLV content type and a
zero content length, then a new TLV in the response buffer with the `State` item. -/
def Session.tlvBegin (e : Ext) (s : Session) (state : Nat) : Session :=
  { s with
    rsp := (((Response.start Status.HTTP_200).call
      (Call.addContentType ContentTypeTlv8)).call (Call.addContentLength 0)).call Call.end_
    tlvo := (Tlv.Create.create e.rspSize).put Tlv.Kind.State [state] }

/-- The call `sess->tlvo.add(Tlv::Type::Error, err)`. -/
def Session.addError (s : Session) (err : Nat) : Session :=
  { s with tlvo := s.tlvo.put Tlv.Kind.Error [err] }

/-- The common label `Ret`: `sess->rsp.setContentLength(sess->tlvo.length())`. -/
def Session.tlvEnd (s : Session) : Session :=
  { s with rsp := { calls := s.rsp.calls ++ [Call.setContentLength s.tlvo.length],
                    data := Data.tlv s.tlvo.items } }

/-- Label `RetErr` of `_pairSetup1`: free the context whoever owns it, answer `Unknown`. -/
def Server.pairSetup1_RetErr (st : Server) (i : Nat) (sess : Session) : Server :=
  let st := if st.srp.isSome then st.emit Event.SRP_free else st
  ({ st with srp := none, srp_owner := sid_invalid }).setSess i
    (sess.addError Tlv.Error.Unknown).tlvEnd

/-- An SRP context fresh from `SRP_new`. -/
def SRP.new : SRP := ⟨[], [], [], [], []⟩

/-- The 3072-bit modulus `srp_modulus` of `HapSrp.cpp`. -/
def srp_modulus : List Nat := [
  0xFF, 0xFF, 0xFF, 0xFF, 0xFF, 0xFF, 0xFF, 0xFF, 0xC9, 0x0F, 0xDA, 0xA2, 0x21, 0x68, 0xC2, 0x34,
  0xC4, 0xC6, 0x62, 0x8B, 0x80, 0xDC, 0x1C, 0xD1, 0x29, 0x02, 0x4E, 0x08, 0x8A, 0x67, 0xCC, 0x74,
  0x02, 0x0B, 0xBE, 0xA6, 0x3B, 0x13, 0x9B, 0x22, 0x51, 0x4A, 0x08, 0x79, 0x8E, 0x34, 0x04, 0xDD,
  0xEF, 0x95, 0x19, 0xB3, 0xCD, 0x3A, 0x43, 0x1B, 0x30, 0x2B, 0x0A, 0x6D, 0xF2, 0x5F, 0x14, 0x37,
  0x4F, 0xE1, 0x35, 0x6D, 0x6D, 0x51, 0xC2, 0x45, 0xE4, 0x85, 0xB5, 0x76, 0x62, 0x5E, 0x7E, 0xC6,
  0xF4, 0x4C, 0x42, 0xE9, 0xA6, 0x37, 0xED, 0x6B, 0x0B, 0xFF, 0x5C, 0xB6, 0xF4, 0x06, 0xB7, 0xED,
  0xEE, 0x38, 0x6B, 0xFB, 0x5A, 0x89, 0x9F, 0xA5, 0xAE, 0x9F, 0x24, 0x11, 0x7C, 0x4B, 0x1F, 0xE6,
  0x49, 0x28, 0x66, 0x51, 0xEC, 0xE4, 0x5B, 0x3D, 0xC2, 0x00, 0x7C, 0xB8, 0xA1, 0x63, 0xBF, 0x05,
  0x98, 0xDA, 0x48, 0x36, 0x1C, 0x55, 0xD3, 0x9A, 0x69, 0x16, 0x3F, 0xA8, 0xFD, 0x24, 0xCF, 0x5F,
  0x83, 0x65, 0x5D, 0x23, 0xDC, 0xA3, 0xAD, 0x96, 0x1C, 0x62, 0xF3, 0x56, 0x20, 0x85, 0x52, 0xBB,
  0x9E, 0xD5, 0x29, 0x07, 0x70, 0x96, 0x96, 0x6D, 0x67, 0x0C, 0x35, 0x4E, 0x4A, 0xBC, 0x98, 0x04,
  0xF1, 0x74, 0x6C, 0x08, 0xCA, 0x18, 0x21, 0x7C, 0x32, 0x90, 0x5E, 0x46, 0x2E, 0x36, 0xCE, 0x3B,
  0xE3, 0x9E, 0x77, 0x2C, 0x18, 0x0E, 0x86, 0x03, 0x9B, 0x27, 0x83, 0xA2, 0xEC, 0x07, 0xA2, 0x8F,
  0xB5, 0xC5, 0x5D, 0xF0, 0x6F, 0x4C, 0x52, 0xC9, 0xDE, 0x2B, 0xCB, 0xF6, 0x95, 0x58, 0x17, 0x18,
  0x39, 0x95, 0x49, 0x7C, 0xEA, 0x95, 0x6A, 0xE5, 0x15, 0xD2, 0x26, 0x18, 0x98, 0xFA, 0x05, 0x10,
  0x15, 0x72, 0x8E, 0x5A, 0x8A, 0xAA, 0xC4, 0x2D, 0xAD, 0x33, 0x17, 0x0D, 0x04, 0x50, 0x7A, 0x33,
  0xA8, 0x55, 0x21, 0xAB, 0xDF, 0x1C, 0xBA, 0x64, 0xEC, 0xFB, 0x85, 0x04, 0x58, 0xDB, 0xEF, 0x0A,
  0x8A, 0xEA, 0x71, 0x57, 0x5D, 0x06, 0x0C, 0x7D, 0xB3, 0x97, 0x0F, 0x85, 0xA6, 0xE1, 0xE4, 0xC7,
  0xAB, 0xF5, 0xAE, 0x8C, 0xDB, 0x09, 0x33, 0xD7, 0x1E, 0x8C, 0x94, 0xE0, 0x4A, 0x25, 0x61, 0x9D,
  0xCE, 0xE3, 0xD2, 0x26, 0x1A, 0xD2, 0xEE, 0x6B, 0xF1, 0x2F, 0xFA, 0x06, 0xD9, 0x8A, 0x08, 0x64,
  0xD8, 0x76, 0x02, 0x73, 0x3E, 0xC8, 0x6A, 0x64, 0x52, 0x1F, 0x2B, 0x18, 0x17, 0x7B, 0x20, 0x0C,
  0xBB, 0xE1, 0x17, 0x57, 0x7A, 0x61, 0x5D, 0x6C, 0x77, 0x09, 0x88, 0xC0, 0xBA, 0xD9, 0x46, 0xE2,
  0x08, 0xE2, 0x4F, 0xA0, 0x74, 0xE5, 0xAB, 0x31, 0x43, 0xDB, 0x5B, 0xFC, 0xE0, 0xFD, 0x10, 0x8E,
  0x4B, 0x82, 0xD1, 0x20, 0xA9, 0x3A, 0xD2, 0xCA, 0xFF, 0xFF, 0xFF, 0xFF, 0xFF, 0xFF, 0xFF, 0xFF]

/-- The generator `srp_generator` of `HapSrp.cpp`. -/
def srp_generator : List Nat := [0x05]

/-- The part of `_pairSetup1` after `SRP_new` succeeded and ownership was claimed. -/
def Server.pairSetup1_params (e : Ext) (st : Server) (i : Nat) (sess : Session) : Server :=
  if !e.SRP_set_username then st.pairSetup1_RetErr i sess
  else
    let srp := { SRP.new with username := cstr "Pair-Setup" }
    let st := { st with srp := some srp }
    let salt := e.random 16
    if !e.SRP_set_params then st.pairSetup1_RetErr i sess
    else
      let srp := { srp with modulus := srp_modulus, generator := srp_generator, salt := salt }
      let st := { st with srp := some srp }
      if !e.SRP_set_auth_password then st.pairSetup1_RetErr i sess
      else
        let srp := { srp with password := e.setupCode }
        let st := { st with srp := some srp }
        match e.SRP_gen_pub srp with
        | none => st.pairSetup1_RetErr i sess
        | some pub =>
          let sess := { sess with
            tlvo := (sess.tlvo.put Tlv.Kind.PublicKey pub).put Tlv.Kind.Salt salt }
          st.setSess i sess.tlvEnd

/-- The handler `Server::_pairSetup1` on the session in slot `i`. -/
def Server._pairSetup1 (e : Ext) (st : Server) (i : Nat) : Server :=
  let st := st.emit (Event.handler "_pairSetup1")
  let sess := (st.sess i).tlvBegin e Tlv.State.M2
  match Tlv.getByte sess.tlvi Tlv.Kind.Method with
  | none => st.pairSetup1_RetErr i sess
  | some method =>
    if method ≠ Tlv.Method.PairSetupNonMfi then st.pairSetup1_RetErr i sess
    else if st.pairings.Count Controller.None ≠ 0 then
      st.setSess i (sess.addError Tlv.Error.Unavailable).tlvEnd
    else if st.srp_auth_count > 100 then
      st.setSess i (sess.addError Tlv.Error.MaxTries).tlvEnd
    else if st.srp.isSome && st.srp_owner ≠ sess.sid then
      st.setSess i (sess.addError Tlv.Error.Busy).tlvEnd
    else
      let st := st.emit Event.SRP_new
      if !e.SRP_new then ({ st with srp := none }).pairSetup1_RetErr i sess
      else
        let st := { st with srp := some SRP.new, srp_owner := sess.sid,
                            srp_auth_count := (st.srp_auth_count + 1) % 256 }
        st.pairSetup1_params e i sess

/-- Label `RetErr` of `_pairSetup3`: cancel the pairing if this session owns it, answer
`Unknown`. -/
def Server.pairSetup3_RetErr (st : Server) (i : Nat) (sess : Session) : Server :=
  let st :=
    if st.srp.isSome && st.srp_owner = sess.sid then
      { (st.emit Event.SRP_free) with srp := none, srp_owner := sid_invalid }
    else st
  st.setSess i (sess.addError Tlv.Error.Unknown).tlvEnd

/-- Write `src` over the start of the array `dst` (`memcpy` into a fixed array). -/
def overwrite (dst src : List Nat) : List Nat :=
  (src ++ dst.drop src.length).take dst.length

/-- The handler `Server::_pairSetup3` on the session in slot `i`. -/
def Server._pairSetup3 (e : Ext) (st : Server) (i : Nat) : Server :=
  let st := st.emit (Event.handler "_pairSetup3")
  let sess := (st.sess i).tlvBegin e Tlv.State.M4
  match st.srp with
  | none => st.pairSetup3_RetErr i sess
  | some srp =>
    if st.srp_owner ≠ sess.sid then st.pairSetup3_RetErr i sess
    else
      match Tlv.getBuf sess.tlvi Tlv.Kind.PublicKey 384 with
      | none => st.pairSetup3_RetErr i sess
      | some iosKey =>
        match Tlv.getBuf sess.tlvi Tlv.Kind.Proof 64 with
        | none => st.pairSetup3_RetErr i sess
        | some iosProof =>
          match e.SRP_compute_key srp iosKey with
          | none => st.pairSetup3_RetErr i sess
          | some key =>
            let st := { st with srp_shared_secret := overwrite st.srp_shared_secret key }
            let k := e.hkdf (cstr "Pair-Setup-Encrypt-Salt") st.srp_shared_secret
              (cstr "Pair-Setup-Encrypt-Info") 32
            let sess := { sess with key := k }
            if !e.SRP_verify srp ((iosProof ++ e.scratch).take 64) then
              st.setSess i (sess.addError Tlv.Error.Authentication).tlvEnd
            else
              match e.SRP_respond srp with
              | none => st.pairSetup3_RetErr i sess
              | some rsp =>
                st.setSess i (Session.tlvEnd { sess with tlvo := sess.tlvo.put Tlv.Kind.Proof rsp })

/-- The layout the handlers of M5 and of Pair-Verify M3 give the scratch buffer once an
`EncryptedData` value of `n` bytes is at its start: the 16-bit length after
`iosTlv_size -= 16`, the encrypted bytes, and the tag the controller sent. -/
def splitEncrypted (e : Ext) (enc : List Nat) : Nat × List Nat × List Nat :=
  let size := (enc.length + 65536 - 16) % 65536
  let mem := enc ++ e.scratch
  (size, mem.take size, (mem.drop size).take 16)

/-- Decryption of an `EncryptedData` value under the session key, as M5 and Pair-Verify M3
do it: the length given to `aead`, the decrypted sub-TLV, and whether the tag the
controller sent equals the computed one (`memcmp(iosTag, srvTag, 16) == 0`). -/
def openEncrypted (e : Ext) (key nonce enc : List Nat) : Nat × List Nat × Bool :=
  let sp := splitEncrypted e enc
  let out := e.aead false key nonce sp.2.1 []
  (sp.1, out.1, sp.2.2 == out.2)

/-- The nonce of Pair-Setup M5. -/
def noncePS05 : List Nat := [0, 0, 0, 0] ++ cstr "PS-Msg05"
/-- The nonce of Pair-Setup M6. -/
def noncePS06 : List Nat := [0, 0, 0, 0] ++ cstr "PS-Msg06"
/-- The nonce of Pair-Verify M2. -/
def noncePV02 : List Nat := [0, 0, 0, 0] ++ cstr "PV-Msg02"
/-- The nonce of Pair-Verify M3. -/
def noncePV03 : List Nat := [0, 0, 0, 0] ++ cstr "PV-Msg03"

/-- Labels `RetDone` and `Ret` of `_pairSetup5`: release the pairing if this session owns
it, then patch the content length. -/
def Server.pairSetup5_RetDone (st : Server) (i : Nat) (sess : Session) : Server :=
  let st :=
    if st.srp.isSome && st.srp_owner = sess.sid then
      { (st.emit Event.SRP_free) with srp := none, srp_owner := sid_invalid }
    else st
  st.setSess i sess.tlvEnd

/-- Label `RetErr` of `_pairSetup5`: answer `Unknown`, then `RetDone`. -/
def Server.pairSetup5_RetErr (st : Server) (i : Nat) (sess : Session) : Server :=
  st.pairSetup5_RetDone i (sess.addError Tlv.Error.Unknown)

/-- The accessory sub-TLV of M6, encrypted: `AccessoryX`, device id and LTPK are signed,
the sub-TLV of identifier, public key and signature is encrypted under the session key. -/
def accessoryM6 (e : Ext) (st : Server) (sess : Session) : List Nat × Event :=
  let x := e.hkdf (cstr "Pair-Setup-Accessory-Sign-Salt") st.srp_shared_secret
    (cstr "Pair-Setup-Accessory-Sign-Info") 32
  let info := x ++ e.deviceId ++ e.PubKey
  let sig := e.Sign info
  let sub := e.tlvEncode [⟨Tlv.Kind.Identifier, e.deviceId⟩, ⟨Tlv.Kind.PublicKey, e.PubKey⟩,
    ⟨Tlv.Kind.Signature, sig⟩]
  let out := e.aead true sess.key noncePS06 sub []
  (out.1 ++ out.2, Event.aead true sess.key noncePS06 sub.length)

/-- The handler `Server::_pairSetup5` on the session in slot `i`. -/
def Server._pairSetup5 (e : Ext) (st : Server) (i : Nat) : Server :=
  let st := st.emit (Event.handler "_pairSetup5")
  let sess := (st.sess i).tlvBegin e Tlv.State.M6
  if st.srp.isNone || st.srp_owner ≠ sess.sid then st.pairSetup5_RetErr i sess
  else
    match Tlv.getBuf sess.tlvi Tlv.Kind.EncryptedData e.sizeofdata with
    | none => st.pairSetup5_RetErr i sess
    | some enc =>
      let dec := openEncrypted e sess.key noncePS05 enc
      let st := st.emit (Event.aead false sess.key noncePS05 dec.1)
      if !dec.2.2 then
        st.setSess i (sess.addError Tlv.Error.Authentication).tlvEnd
      else
        let tlv := e.tlvParse dec.2.1
        match Tlv.get tlv Tlv.Kind.Identifier with
        | none => st.pairSetup5_RetErr i sess
        | some id =>
          match Tlv.get tlv Tlv.Kind.PublicKey with
          | none => st.pairSetup5_RetErr i sess
          | some ltpk =>
            match Tlv.get tlv Tlv.Kind.Signature with
            | none => st.pairSetup5_RetErr i sess
            | some _ =>
              let added := st.pairings.Add id ltpk Controller.Admin
              if !added.1 then
                st.setSess i (sess.addError Tlv.Error.MaxPeers).tlvEnd
              else
                let st := { st with pairings := added.2 }
                let m6 := accessoryM6 e st sess
                let st := st.emit m6.2
                let sess := { sess with tlvo := sess.tlvo.put Tlv.Kind.EncryptedData m6.1 }
                let st := st.emit Event.configUpdate
                st.pairSetup5_RetDone i sess

/-- The handler `Server::_pairVerify1` on the session in slot `i`. -/
def Server._pairVerify1 (e : Ext) (st : Server) (i : Nat) : Server :=
  let st := st.emit (Event.handler "_pairVerify1")
  let sess := (st.sess i).tlvBegin e Tlv.State.M2
  match Tlv.get sess.tlvi Tlv.Kind.PublicKey with
  | none => st.setSess i (sess.addError Tlv.Error.Unknown).tlvEnd
  | some iosKey =>
    let kp := e.curveInit
    let shared := e.curveShared kp.2 iosKey
    let sess := { sess with curve := ⟨kp.1, kp.2, shared⟩ }
    let k := e.hkdf (cstr "Pair-Verify-Encrypt-Salt") shared (cstr "Pair-Verify-Encrypt-Info") 32
    let sess := { sess with key := k }
    let info := sess.curve.pub ++ e.deviceId ++ iosKey
    let sig := e.Sign info
    let sub := e.tlvEncode [⟨Tlv.Kind.Identifier, e.deviceId⟩, ⟨Tlv.Kind.Signature, sig⟩]
    let out := e.aead true sess.key noncePV02 sub []
    let st := st.emit (Event.aead true sess.key noncePV02 sub.length)
    let sess := { sess with tlvo :=
      (sess.tlvo.put Tlv.Kind.PublicKey sess.curve.pub).put Tlv.Kind.EncryptedData (out.1 ++ out.2) }
    st.setSess i sess.tlvEnd

/-- The handler `Server::_pairVerify3` on the session in slot `i`. -/
def Server._pairVerify3 (e : Ext) (st : Server) (i : Nat) : Server :=
  let st := st.emit (Event.handler "_pairVerify3")
  let sess := (st.sess i).tlvBegin e Tlv.State.M4
  match Tlv.getBuf sess.tlvi Tlv.Kind.EncryptedData e.sizeofdata with
  | none => st.setSess i (sess.addError Tlv.Error.Unknown).tlvEnd
  | some enc =>
    let dec := openEncrypted e sess.key noncePV03 enc
    let st := st.emit (Event.aead false sess.key noncePV03 dec.1)
    if !dec.2.2 then
      st.setSess i (sess.addError Tlv.Error.Authentication).tlvEnd
    else
      let tlv := e.tlvParse dec.2.1
      match Tlv.get tlv Tlv.Kind.Identifier with
      | none => st.setSess i (sess.addError Tlv.Error.Unknown).tlvEnd
      | some id =>
        match Tlv.get tlv Tlv.Kind.Signature with
        | none => st.setSess i (sess.addError Tlv.Error.Unknown).tlvEnd
        | some _ =>
          match st.pairings.Get id with
          | none => st.setSess i (sess.addError Tlv.Error.Authentication).tlvEnd
          | some ios =>
            let a2c := e.hkdf (cstr "Control-Salt") sess.curve.shared
              (cstr "Control-Read-Encryption-Key") 32
            let c2a := e.hkdf (cstr "Control-Salt") sess.curve.shared
              (cstr "Control-Write-Encryption-Key") 32
            let sess := { sess with AccessoryToControllerKey := a2c,
                                    ControllerToAccessoryKey := c2a, ios := some ios }
            st.setSess i sess.tlvEnd

/-! ## Handlers of `/pairings` -/

/-- The permission `sess->ios->perm` of the bound controller.  The handlers that read it
run on secured sessions only, whose `ios` is set; for a null `ios` the model reads a free
record. -/
def Server.iosPerm (st : Server) (sess : Session) : Controller.Perm :=
  match sess.ios with
  | some p => (st.pairings.deref p).perm
  | none => Controller.None

/-- The handler `Server::_pairingAdd` on the session in slot `i`. -/
def Server._pairingAdd (e : Ext) (st : Server) (i : Nat) : Server :=
  let st := st.emit (Event.handler "_pairingAdd")
  let sess := (st.sess i).tlvBegin e Tlv.State.M2
  let retErr := st.setSess i (sess.addError Tlv.Error.Unknown).tlvEnd
  if st.iosPerm sess ≠ Controller.Admin then
    st.setSess i (sess.addError Tlv.Error.Authentication).tlvEnd
  else
    match Tlv.get sess.tlvi Tlv.Kind.Identifier with
    | none => retErr
    | some id =>
      match Tlv.get sess.tlvi Tlv.Kind.PublicKey with
      | none => retErr
      | some key =>
        match Tlv.getByte sess.tlvi Tlv.Kind.Permissions with
        | none => retErr
        | some perm =>
          match st.pairings.Get id with
          | some ios =>
            if key.length ≠ Controller.KeyLen || key ≠ (st.pairings.deref ios).key then retErr
            else
              let st := { st with pairings := (st.pairings.Update id perm).2 }
              (st.emit Event.configUpdate).setSess i sess.tlvEnd
          | none =>
            let added := st.pairings.Add id key perm
            if !added.1 then
              st.setSess i (sess.addError Tlv.Error.MaxPeers).tlvEnd
            else
              let st := { st with pairings := added.2 }
              (st.emit Event.configUpdate).setSess i sess.tlvEnd

/-- The handler `Server::_pairingRemove` on the session in slot `i`. -/
def Server._pairingRemove (e : Ext) (st : Server) (i : Nat) : Server :=
  let st := st.emit (Event.handler "_pairingRemove")
  let sess := (st.sess i).tlvBegin e Tlv.State.M2
  let retErr := st.setSess i (sess.addError Tlv.Error.Unknown).tlvEnd
  if st.iosPerm sess ≠ Controller.Admin then
    st.setSess i (sess.addError Tlv.Error.Authentication).tlvEnd
  else
    match Tlv.get sess.tlvi Tlv.Kind.Identifier with
    | none => retErr
    | some id =>
      let removed := st.pairings.Remove id
      if !removed.1 then retErr
      else
        let st := { st with pairings := removed.2 }
        (st.emit Event.configUpdate).setSess i sess.tlvEnd

/-- The callback `_pairingList` gives `forEach`, run over the records in order: a
separator before every group but the first, then identifier (all `Controller.IdLen` bytes), public
key and permissions; the first `add` that fails stops the iteration with `false`. -/
def listRecords : List Controller → Bool → Tlv.Create → Bool × Tlv.Create
  | [], _, t => (true, t)
  | ios :: rest, first, t =>
    let sep := if !first then t.add Tlv.Kind.Separator [] else (true, t)
    if !sep.1 then (false, sep.2)
    else
      let a := sep.2.add Tlv.Kind.Identifier ios.id
      if !a.1 then (false, a.2)
      else
        let b := a.2.add Tlv.Kind.PublicKey ios.key
        if !b.1 then (false, b.2)
        else
          let c := b.2.add Tlv.Kind.Permissions [ios.perm]
          if !c.1 then (false, c.2)
          else listRecords rest false c.2

/-- The handler `Server::_pairingList` on the session in slot `i`. -/
def Server._pairingList (e : Ext) (st : Server) (i : Nat) : Server :=
  let st := st.emit (Event.handler "_pairingList")
  let sess := (st.sess i).tlvBegin e Tlv.State.M2
  if st.iosPerm sess ≠ Controller.Admin then
    st.setSess i (sess.addError Tlv.Error.Authentication).tlvEnd
  else
    let r := listRecords st.pairings.records true sess.tlvo
    let sess := { sess with tlvo := r.2 }
    if r.1 then st.setSess i sess.tlvEnd
    else st.setSess i (sess.addError Tlv.Error.Unknown).tlvEnd

/-! ## The dispatcher: `Server::Process` -/

/-- The response `start(status); end()`. -/
def Session.reply (s : Session) (status : Status) : Session :=
  { s with rsp := (Response.start status).call Call.end_ }

/-- The response to a read or write of characteristics: `start(status)`, then content
type and body when the database produced any, a bare `end()` otherwise. -/
def Session.replyJson (s : Session) (r : Status × List Nat) : Session :=
  if r.2.length > 0 then
    let rsp := ((Response.start r.1).call (Call.addContentType ContentTypeJson)).call
      (Call.endBody r.2)
    { s with rsp := rsp }
  else
    { s with rsp := (Response.start r.1).call Call.end_ }

/-- The branch `POST /pair-setup` once the headers are accepted. -/
def Server.postPairSetup (e : Ext) (st : Server) (i : Nat) (d : List Nat) : Server :=
  let st := st.setSess i { st.sess i with tlvi := e.tlvParse d }
  match Tlv.getByte (st.sess i).tlvi Tlv.Kind.State with
  | none => st
  | some state =>
    if state = Tlv.State.M1 then st._pairSetup1 e i
    else if state = Tlv.State.M3 then st._pairSetup3 e i
    else if state = Tlv.State.M5 then st._pairSetup5 e i
    else st

/-- The branch `POST /pair-verify` once the headers are accepted; the second component
is the local variable `secured` of `Process`. -/
def Server.postPairVerify (e : Ext) (st : Server) (i : Nat) (d : List Nat) (secured : Bool) :
    Server × Bool :=
  let st := st.setSess i { st.sess i with tlvi := e.tlvParse d }
  match Tlv.getByte (st.sess i).tlvi Tlv.Kind.State with
  | none => (st, secured)
  | some state =>
    if state = Tlv.State.M1 then (st._pairVerify1 e i, secured)
    else if state = Tlv.State.M3 then
      let st := st._pairVerify3 e i
      (st, (st.sess i).ios.isSome)
    else (st, secured)

/-- The branch `POST /pairings` once the session is known to be secured and the headers
are accepted. -/
def Server.postPairings (e : Ext) (st : Server) (i : Nat) (d : List Nat) : Server :=
  let st := st.setSess i { st.sess i with tlvi := e.tlvParse d }
  let sess := st.sess i
  match Tlv.getByte sess.tlvi Tlv.Kind.State with
  | none => st.setSess i (sess.reply Status.HTTP_400)
  | some state =>
    if state ≠ Tlv.State.M1 then st.setSess i (sess.reply Status.HTTP_400)
    else
      match Tlv.getByte sess.tlvi Tlv.Kind.Method with
      | none => st.setSess i (sess.reply Status.HTTP_400)
      | some method =>
        if method = Tlv.Method.AddPairing then st._pairingAdd e i
        else if method = Tlv.Method.RemovePairing then st._pairingRemove e i
        else if method = Tlv.Method.ListPairing then st._pairingList e i
        else st.setSess i (sess.reply Status.HTTP_400)

/-- The routing part of `Process`, from the parsed request to the response left in the
response buffer; the second component is the local variable `secured`. -/
def Server.route (e : Ext) (st : Server) (i : Nat) (req : Request) (secured : Bool) :
    Server × Bool :=
  let sess := st.sess i
  let bad := st.setSess i (sess.reply Status.HTTP_400)
  if req.method = "POST" then
    if req.path = "/identify" then
      if st.pairings.Count Controller.None = 0 then
        (st.setSess i (sess.reply Status.HTTP_204), secured)
      else
        let rsp := ((Response.start Status.HTTP_400).call
          (Call.addContentType ContentTypeJson)).call
            (Call.endBody (cstr "\x7b\"status\":-70401\x7d"))
        (st.setSess i { sess with rsp := rsp }, secured)
    else if req.path = "/pair-setup" then
      if !req.hdrContentTypeTlv8 then (bad, secured)
      else if !req.hdrContentLength then (bad, secured)
      else (st.postPairSetup e i req.data, secured)
    else if req.path = "/pair-verify" then
      if !req.hdrContentTypeTlv8 then (bad, secured)
      else if !req.hdrContentLength then (bad, secured)
      else st.postPairVerify e i req.data secured
    else if req.path = "/pairings" then
      if !sess.secured then (st.setSess i (sess.reply Status.HTTP_470), secured)
      else if !req.hdrContentTypeTlv8 then (bad, secured)
      else if !req.hdrContentLength then (bad, secured)
      else (st.postPairings e i req.data, secured)
    else (bad, secured)
  else if req.method = "GET" then
    if !sess.secured then (st.setSess i (sess.reply Status.HTTP_470), secured)
    else if req.path = "/accessories" then
      let db := e.getDb sess.sid e.rspSize
      let rsp := (((Response.start Status.HTTP_200).call
        (Call.addContentType ContentTypeJson)).call (Call.addContentLength 0)).call Call.end_
      let rsp : Response :=
        { calls := rsp.calls ++ [Call.setContentLength db.length], data := Data.json db }
      ((st.emit (Event.getDb sess.sid)).setSess i { sess with rsp := rsp }, secured)
    else if (cstr "/characteristics?").isPrefixOf (cstr req.path) then
      let r := e.Read sess.sid ((cstr req.path).drop 17) e.sizeofdata
      ((st.emit (Event.Read sess.sid)).setSess i (sess.replyJson r), secured)
    else (bad, secured)
  else if req.method = "PUT" then
    if req.path = "/characteristics" then
      if !sess.secured then (st.setSess i (sess.reply Status.HTTP_470), secured)
      else if !req.hdrContentTypeJson then (bad, secured)
      else if !req.hdrContentLength then (bad, secured)
      else
        let r := e.Write sess.sid req.data e.sizeofdata
        ((st.emit (Event.Write sess.sid)).setSess i (sess.replyJson r), secured)
    else (bad, secured)
  else (st, secured)

/-- One return of the `recv` callback: a read error (negative), end of file (zero), or
the bytes it wrote into the buffer. -/
inductive RecvEv where
  | error
  | eof
  | data (bytes : List Nat)
deriving DecidableEq, Repr

/-- How the read loop of `Process` ends. -/
inductive Read where
  /-- The transport has nothing more yet: `Process` is still inside `recv`. -/
  | blocked (st : Server)
  /-- The statement `return false`. -/
  | fail (st : Server)
  /-- The statement `break`: a request is parsed. -/
  | request (st : Server) (req : Request)

/-- The call `sess->req.parse(http_len)` on the bytes `bytes` of the request buffer and
what the loop does with its status; `none` stands for `continue`. -/
def Server.tryParse (e : Ext) (st : Server) (i sid : Nat) (bytes : List Nat) : Option Read :=
  let st := st.emit (Event.parse bytes)
  match e.parse bytes with
  | ParseStatus.Error => some (Read.fail (st.emit (Event.send sid (e.render (st.sess i).rsp))))
  | ParseStatus.Success req => some (Read.request st req)
  | ParseStatus.Incomplete => if (st.sess i).secured then some (Read.fail st) else none

/-- The loop `while (true)` of `Process`: `buf` holds the `len` bytes received so far in
the scratch buffer, the list holds the next returns of `recv`.  A call of `recv` is given
the room left in the buffer, so no more than that many bytes of a chunk are taken; a chunk
that leaves nothing to take is a return of zero. -/
def Server.readLoop (e : Ext) (i sid : Nat) : List RecvEv → Server → List Nat → Read
  | [], st, _ => Read.blocked st
  | RecvEv.error :: _, st, _ => Read.fail st
  | RecvEv.eof :: _, st, _ => Read.fail st
  | RecvEv.data bytes :: rest, st, buf =>
    let got := bytes.take (e.sizeofdata - buf.length)
    if got.length = 0 then Read.fail st
    else
      let buf := buf ++ got
      let sess := st.sess i
      if sess.secured then
        if buf.length < 2 then Server.readLoop e i sid rest st buf
        else
          let aad := buf.getD 0 0 + buf.getD 1 0 * 256
          if aad > MaxHttpBlock then Read.fail st
          else if buf.length < 2 + aad + 16 then Server.readLoop e i sid rest st buf
          else
            let nonce := nonceOf sess.recvSeq
            let out := e.aead false sess.ControllerToAccessoryKey nonce
              ((buf.drop 2).take aad) (buf.take 2)
            let st := st.emit (Event.aead false sess.ControllerToAccessoryKey nonce aad)
            let st := st.setSess i { sess with recvSeq := (sess.recvSeq + 1) % 2 ^ 64 }
            if out.2 ≠ (buf.drop (2 + aad)).take 16 then Read.fail st
            else
              match st.tryParse e i sid out.1 with
              | some r => r
              | none => Server.readLoop e i sid rest st buf
      else
        match st.tryParse e i sid buf with
        | some r => r
        | none => Server.readLoop e i sid rest st buf

/-- The end of `Process` once a request is parsed: route it, send the response, then
commit the local variable `secured` to the session. -/
def Server.respond (e : Ext) (st : Server) (i : Nat) (req : Request) (secured : Bool) :
    Bool × Server :=
  let r := st.route e i req secured
  let s := r.1._send e i
  if !s.1 then (false, s.2)
  else (true, s.2.setSess i { s.2.sess i with secured := r.2 })

/-- The function `Server::Process(sid, recv, send)`.  The result is the returned value
and the state; no returned value means that `recv` has not delivered enough yet. -/
def Server.Process (e : Ext) (st : Server) (sid : Nat) (recv : List RecvEv) :
    Option Bool × Server :=
  if sid > MaxHttpSessions then (some false, st)
  else
    let sess := st.sess sid
    if sid = MaxHttpSessions then
      (some false, st.emit (Event.send sid (e.render sess.rsp)))
    else
      let st := st.setSess sid sess.Init
      match st.readLoop e sid sid recv [] with
      | Read.blocked st => (none, st)
      | Read.fail st => (some false, st)
      | Read.request st req =>
        let r := st.respond e sid req sess.secured
        (some r.1, r.2)

/-- The function `Server::Poll(sid, send)`. -/
def Server.Poll (e : Ext) (st : Server) (sid : Nat) : Server :=
  let sess := st.sess sid
  if !sess.secured then st
  else
    let r := e.getEvents sid e.sizeofdata
    let st := st.emit (Event.getEvents sid)
    if r.1 ≠ Status.HTTP_200 then st
    else if r.2.length = 0 then st
    else
      let rsp := ((Response.event r.1).call (Call.addContentType ContentTypeJson)).call
        (Call.endBody r.2)
      ((st.setSess sid { sess with rsp := rsp })._send e sid).2

/-- The function `Server::Open`: the first slot that is not open, or `sid_invalid`. -/
def Server.Open (st : Server) : Nat × Server :=
  match (List.range st.nsess).find? (fun sid => !(st.sess sid).opened) with
  | some sid => (sid, (st.setSess sid (Session.Open sid)).emit (Event.dbOpen sid))
  | none => (sid_invalid, st)

/-- The function `Server::Close(sid)`. -/
def Server.Close (st : Server) (sid : Nat) : Bool × Server :=
  if sid > sid_max then (false, st)
  else if !(st.sess sid).opened then (false, st)
  else
    let st := (st.emit (Event.dbClose sid)).setSess sid Session.closed
    if st.srp.isSome && st.srp_owner = sid then
      (true, { (st.emit Event.SRP_free) with srp := none, srp_owner := sid_invalid })
    else (true, st)

/-! ## The transport: read event of `TcpImpl::run` -/

/-- One entry of the client table of `TcpImpl`: the socket (`0` when free) and the
session bound to it. -/
structure TcpSlot where
  client : Nat
  sess : Nat
deriving DecidableEq, Repr

/-- The body of `if (FD_ISSET(sd, &readfds))` in `TcpImpl::run` for one client: open a
session if the client has none, run `Process`, and on `false` close the socket and the
session.  No result while `Process` is still inside `recv`. -/
def TcpImpl.readEvent (e : Ext) (st : Server) (slot : TcpSlot) (recv : List RecvEv) :
    Option (TcpSlot × Server) :=
  let o := if slot.sess = sid_invalid then st.Open else (slot.sess, st)
  let sid := o.1
  let st := o.2
  let slot := { slot with sess := sid }
  if sid = sid_invalid then
    some (⟨0, sid_invalid⟩, (st.Close sid).2)
  else
    match st.Process e sid recv with
    | (none, _) => none
    | (some rc, st) =>
      if !rc then some (⟨0, sid_invalid⟩, (st.Close sid).2)
      else some (slot, st)

/-! ## Runs of the dispatcher -/

/-- An operation of the dispatcher as the transport calls it, with what the environment
does during the call. -/
inductive Op where
  | Open
  | Close (sid : Nat)
  | Process (e : Ext) (sid : Nat) (recv : List RecvEv)
  | Poll (e : Ext) (sid : Nat)

/-- The state after one operation. -/
def Server.step (st : Server) : Op → Server
  | Op.Open => st.Open.2
  | Op.Close sid => (st.Close sid).2
  | Op.Process e sid recv => (st.Process e sid recv).2
  | Op.Poll e sid => st.Poll e sid

/-- The state after a sequence of operations. -/
def Server.run (st : Server) : List Op → Server
  | [] => st
  | op :: ops => (st.step op).run ops

/-- The events a call added to the log: those of `st2` after the ones of `st1`. -/
def Server.since (st1 st2 : Server) : List Event :=
  st2.log.drop st1.log.length

/-- The request `Process` parses from what `recv` delivers, if it gets that far. -/
def Server.request (e : Ext) (st : Server) (sid : Nat) (recv : List RecvEv) : Option Request :=
  match (st.setSess sid (st.sess sid).Init).readLoop e sid sid recv [] with
  | Read.request _ req => some req
  | _ => none

/-- A request the dispatcher takes as a TLV request: content type
`application/pairing+tlv8` and a content length. -/
def Http.Request.isTlv (req : Request) : Bool :=
  req.hdrContentTypeTlv8 && req.hdrContentLength

/-- The value of the `State` item of the TLV in the body of a request. -/
def Http.Request.state (e : Ext) (req : Request) : Option Nat :=
  Tlv.getByte (e.tlvParse req.data) Tlv.Kind.State

/-- The value of the `Method` item of the TLV in the body of a request. -/
def Http.Request.tlvMethod (e : Ext) (req : Request) : Option Nat :=
  Tlv.getByte (e.tlvParse req.data) Tlv.Kind.Method

/-- A Pair-Setup M1 request: `POST /pair-setup`, a TLV request, `State = M1`. -/
def Http.Request.isPairSetupM1 (e : Ext) (req : Request) : Bool :=
  req.method = "POST" && req.path = "/pair-setup" && req.isTlv &&
    req.state e = some Tlv.State.M1

/-- A Pair-Verify M3 request: `POST /pair-verify`, a TLV request, `State = M3`. -/
def Http.Request.isPairVerifyM3 (e : Ext) (req : Request) : Bool :=
  req.method = "POST" && req.path = "/pair-verify" && req.isTlv &&
    req.state e = some Tlv.State.M3

/-- A pairings request: `POST /pairings`, a TLV request, `State = M1`, and the method is
one of `AddPairing`, `RemovePairing`, `ListPairing`. -/
def Http.Request.isPairings (e : Ext) (req : Request) : Bool :=
  req.method = "POST" && req.path = "/pairings" && req.isTlv &&
    req.state e = some Tlv.State.M1 &&
    (req.tlvMethod e = some Tlv.Method.AddPairing ||
     req.tlvMethod e = some Tlv.Method.RemovePairing ||
     req.tlvMethod e = some Tlv.Method.ListPairing)

/-- A request for one of the secured resources: `POST /pairings`, `GET /accessories`,
`GET /characteristics?...`, `PUT /characteristics`. -/
def Http.Request.isSecuredResource (req : Request) : Bool :=
  (req.method = "POST" && req.path = "/pairings") ||
  (req.method = "GET" && req.path = "/accessories") ||
  (req.method = "GET" && (cstr "/characteristics?").isPrefixOf (cstr req.path)) ||
  (req.method = "PUT" && req.path = "/characteristics")

/-- The two bytes of the length of a record as `recv` can deliver them: both in the
first chunk, or one in each of the first two chunks. -/
def firstTwo : List RecvEv → Option (Nat × Nat)
  | RecvEv.data (b0 :: b1 :: _) :: _ => some (b0, b1)
  | RecvEv.data [b0] :: RecvEv.data (b1 :: _) :: _ => some (b0, b1)
  | _ => none

/-! ## A small environment to run the server on concrete inputs -/

/-- An environment in which the HTTP parser answers `p` and the TLV parser answers
`items` whatever the bytes, the cipher copies the data and computes the tag `tag`, the
library calls succeed, and the scratch buffer holds one frame, as the one of
`Win/HapTest.cpp`. -/
def Ext.sample (p : ParseStatus) (items : List Tlv.Item) (tag : List Nat) : Ext :=
  { sizeofdata := MaxHttpFrame
    rspSize := 4000
    parse := fun _ => p
    tlvParse := fun _ => items
    tlvEncode := fun l => l.map (fun i => i.val.length)
    render := fun r => [r.calls.length]
    cipher := fun _ _ _ d _ => (d, tag)
    hkdf := fun _ _ _ n => List.replicate n 0
    random := fun n => List.range n
    setupCode := cstr "000-11-000"
    deviceId := cstr "00:11:22:33:44:55"
    PubKey := List.replicate 32 1
    Sign := fun _ => List.replicate 64 2
    curveInit := (List.replicate 32 3, List.replicate 32 4)
    curveShared := fun _ _ => List.replicate 32 5
    SRP_new := true
    SRP_set_username := true
    SRP_set_params := true
    SRP_set_auth_password := true
    SRP_gen_pub := fun _ => some (List.replicate 384 6)
    SRP_compute_key := fun _ _ => some (List.replicate 64 7)
    SRP_verify := fun _ _ => true
    SRP_respond := fun _ => some (List.replicate 64 8)
    getDb := fun _ _ => cstr "db"
    Read := fun _ _ _ => (Status.HTTP_200, cstr "rd")
    Write := fun _ _ _ => (Status.HTTP_204, [])
    getEvents := fun _ _ => (Status.HTTP_200, [])
    scratch := [] }

/-- A request with the given verb and path, TLV headers and an empty body. -/
def Http.Request.sample (method path : String) : Request :=
  { method := method, path := path, data := [], hdrContentTypeTlv8 := true,
    hdrContentTypeJson := false, hdrContentLength := true }

/-- A server with `MaxHttpSessions + 1` slots, an empty pairings store and sessions 0 and
1 open. -/
def Server.sample : Server :=
  (Server.start (MaxHttpSessions + 1) Pairings.Init).Open.2.Open.2

/-- The conditions under which `_pairSetup1` gets to create an SRP context, but for the
cap on attempts: the request is a Pair-Setup M1 with `Method = PairSetupNonMfi`, the
pairings store is empty, no other session owns the pairing, and `SRP_new` succeeds. -/
def Server.goodM1 (e : Ext) (st : Server) (sid : Nat) (req : Request) : Bool :=
  req.isPairSetupM1 e && decide (req.tlvMethod e = some Tlv.Method.PairSetupNonMfi) &&
  decide (st.pairings.Count Controller.None = 0) &&
  !(st.srp.isSome && decide (st.srp_owner ≠ (st.sess sid).sid)) && e.SRP_new

/-- An accepted Pair-Setup M1: one under the conditions of `goodM1` that arrives while
the attempt counter is at most 100. -/
def Server.acceptedM1 (e : Ext) (st : Server) (sid : Nat) (req : Request) : Bool :=
  st.goodM1 e sid req && decide (st.srp_auth_count ≤ 100)

/-- The operation is a call of `Process` on a valid session that parses a request under
the conditions of `goodM1`. -/
def Op.isGoodM1 (st : Server) : Op → Bool
  | Op.Process e sid recv =>
    decide (sid < MaxHttpSessions) &&
      match st.request e sid recv with
      | some req => st.goodM1 e sid req
      | none => false
  | _ => false

/-- The operation is a call of `Process` on a valid session that parses an accepted
Pair-Setup M1. -/
def Op.isAcceptedM1 (st : Server) : Op → Bool
  | Op.Process e sid recv =>
    decide (sid < MaxHttpSessions) &&
      match st.request e sid recv with
      | some req => st.acceptedM1 e sid req
      | none => false
  | _ => false

/-- Every operation of the sequence is a good Pair-Setup M1 in the state it is made in. -/
def Server.allGoodM1 (st : Server) : List Op → Bool
  | [] => true
  | op :: ops => op.isGoodM1 st && (st.step op).allGoodM1 ops

/-- The session answers with the error `err`: the TLV of its response has the item
`Error = err`. -/
def Session.answers (s : Session) (err : Nat) : Prop :=
  ∃ items, s.rsp.data = Data.tlv items ∧ (⟨Tlv.Kind.Error, [err]⟩ : Tlv.Item) ∈ items

/-- The `EncryptedData` value `_pairVerify3` copies from the TLV of a request. -/
def Http.Request.m3Data (e : Ext) (req : Request) : Option (List Nat) :=
  Tlv.getBuf (e.tlvParse req.data) Tlv.Kind.EncryptedData e.sizeofdata

/-- Whether the tag of the `EncryptedData` of a Pair-Verify M3 verifies under the session
key `key`; `none` when the request has no `EncryptedData`. -/
def Http.Request.m3TagOk (e : Ext) (key : List Nat) (req : Request) : Option Bool :=
  (req.m3Data e).map (fun enc => (openEncrypted e key noncePV03 enc).2.2)

/-- The sub-TLV of a Pair-Verify M3 decrypted under the session key `key`. -/
def Http.Request.m3Sub (e : Ext) (key : List Nat) (req : Request) : List Tlv.Item :=
  match req.m3Data e with
  | some enc => e.tlvParse (openEncrypted e key noncePV03 enc).2.1
  | none => []

/-- The state `st` with the log replaced and the receive counter of session `i` replaced:
all the read loop of `Process` may change. -/
def Server.touched (st : Server) (i : Nat) (log : List Event) (seq : Nat) : Server :=
  { st with log := log
            sess := fun j => if j = i then { st.sess i with recvSeq := seq } else st.sess j }

/-- The state in which `Process` routes a request: the session initialised, IO events
`l` logged by the read loop, and the receive counter at `s`. -/
def Server.parsed (st : Server) (sid : Nat) (l : List Event) (s : Nat) : Server :=
  (st.setSess sid (st.sess sid).Init).touched sid (st.log ++ l) s

/-- The state of `Process` when the handler of the request has returned, the read loop
having logged the events `l` and left the receive counter at `s`. -/
def Server.handled (e : Ext) (st : Server) (sid : Nat) (req : Request) (l : List Event)
    (s : Nat) : Server :=
  ((st.parsed sid l s).route e sid req (st.sess sid).secured).1

/-- The state of `Process` when `_send` has returned, before `secured` is committed. -/
def Server.handedOff (e : Ext) (st : Server) (sid : Nat) (req : Request) (l : List Event)
    (s : Nat) : Server :=
  ((st.handled e sid req l s)._send e sid).2

/-- The state of the read loop when a record is decrypted: the cipher call logged and the
receive counter advanced. -/
def Server.decrypted (st : Server) (i n : Nat) : Server :=
  (st.emit (Event.aead false (st.sess i).ControllerToAccessoryKey
    (nonceOf (st.sess i).recvSeq) n)).setSess i
      { st.sess i with recvSeq := ((st.sess i).recvSeq + 1) % 2 ^ 64 }

/-- The bytes of a record on the wire: the two length bytes, the encrypted data, the
tag. -/
def record (ct tag : List Nat) : List Nat :=
  lenBytes ct.length ++ ct ++ tag

/-! ## Sample states and environments -/

/-- A pairings store with one controller, of the given permission. -/
def Pairings.sample (perm : Controller.Perm) : Pairings :=
  (Pairings.Init.Add (cstr "controller") (List.replicate 32 9) perm).2

/-- A server with one paired controller and sessions 0 and 1 open. -/
def Server.paired (perm : Controller.Perm) : Server :=
  (Server.start (MaxHttpSessions + 1) (Pairings.sample perm)).Open.2.Open.2

/-- The server `paired` with session 0 secured and bound to the paired controller. -/
def Server.securedSample (perm : Controller.Perm) : Server :=
  (Server.paired perm).setSess 0 { (Server.paired perm).sess 0 with secured := true, ios := some 0 }

/-- The Pair-Setup M1 request of the sample runs. -/
def Http.Request.sampleM1 : Request := Request.sample "POST" "/pair-setup"

/-- The environment of the sample runs of Pair-Setup M1: the body is the TLV
`{State=M1, Method=PairSetupNonMfi}`. -/
def Ext.sampleM1 : Ext :=
  Ext.sample (ParseStatus.Success Request.sampleM1)
    [⟨Tlv.Kind.State, [Tlv.State.M1]⟩, ⟨Tlv.Kind.Method, [Tlv.Method.PairSetupNonMfi]⟩] []

/-- One Pair-Setup M1 on session 0 in the sample environment. -/
def Op.sampleM1 : Op := Op.Process Ext.sampleM1 0 [RecvEv.data [80]]

/-- The sample server after 101 Pair-Setup M1 requests on session 0. -/
def Server.capped : Server := Server.sample.run (List.replicate 101 Op.sampleM1)

/-- The Pair-Verify M3 request of the sample runs. -/
def Http.Request.sampleM3 : Request := Request.sample "POST" "/pair-verify"

/-- The environment of the sample runs of Pair-Verify M3: the TLV has `State = M3`, an
`EncryptedData` of a lone zero tag, the identifier of the sample controller and a
signature; the cipher computes the tag `tag`. -/
def Ext.sampleM3 (tag : List Nat) : Ext :=
  Ext.sample (ParseStatus.Success Request.sampleM3)
    [⟨Tlv.Kind.State, [Tlv.State.M3]⟩, ⟨Tlv.Kind.EncryptedData, List.replicate 16 0⟩,
     ⟨Tlv.Kind.Identifier, cstr "controller"⟩, ⟨Tlv.Kind.Signature, List.replicate 64 0⟩] tag

/-- The pairings request of the sample runs. -/
def Http.Request.samplePairings : Request := Request.sample "POST" "/pairings"

/-- The environment of the sample runs of `/pairings`: the TLV is
`{State=M1, Method=ListPairing}`. -/
def Ext.samplePairings : Ext :=
  Ext.sample (ParseStatus.Success Request.samplePairings)
    [⟨Tlv.Kind.State, [Tlv.State.M1]⟩, ⟨Tlv.Kind.Method, [Tlv.Method.ListPairing]⟩] []

/-- The identify request of the sample runs. -/
def Http.Request.sampleIdentify : Request := Request.sample "POST" "/identify"

/-- The environment of the sample runs of `/identify`. -/
def Ext.sampleIdentify : Ext :=
  Ext.sample (ParseStatus.Success Request.sampleIdentify) [] []

/-- The environment of the sample runs of the record layer: the cipher computes a zero
tag and the parser finds the identify request. -/
def Ext.sampleRecord : Ext :=
  Ext.sample (ParseStatus.Success Request.sampleIdentify) [] (List.replicate 16 0)

/-! ## Definitions used to state the effects of the operations -/

/-- An event of the read loop and of `_send`: a chunk sent, a cipher call, a parser
call. -/
def Event.isWire : Event → Bool
  | Event.send _ _ => true
  | Event.aead _ _ _ _ => true
  | Event.parse _ => true
  | _ => false

/-- The state at the end of the read loop. -/
def Read.state : Read → Server
  | Read.blocked st => st
  | Read.fail st => st
  | Read.request st _ => st

/-- What the read loop leaves behind: the state it started from but for new IO events in
the log and the receive counter of the session. -/
def Read.FromState (st : Server) (i : Nat) (r : Read) : Prop :=
  ∃ l s, r.state = st.touched i (st.log ++ l) s ∧ ∀ ev ∈ l, ev.isWire = true

/-- The state `st` with events `L` added to the log and, in session `i`, the send counter
set to `q` and the flag `secured` set to `sec`: all that sending the response and the
end of `Process` may change. -/
def Server.sent (st : Server) (i : Nat) (L : List Event) (q : Nat) (sec : Bool) : Server :=
  { st with log := st.log ++ L
            sess := fun j =>
              if j = i then { st.sess i with sendSeq := q, secured := sec } else st.sess j }

/-- The state in which a pairing handler starts: the TLV of the body parsed into `tlvi`
of the session. -/
def Server.withTlv (e : Ext) (st : Server) (i : Nat) (d : List Nat) : Server :=
  st.setSess i { st.sess i with tlvi := e.tlvParse d }

/-- The checks an M1 passes before `_pairSetup1` creates an SRP context and counts the
attempt, and the success of `SRP_new`. -/
def Server.acceptsM1 (e : Ext) (st : Server) (i : Nat) : Prop :=
  Tlv.getByte (st.sess i).tlvi Tlv.Kind.Method = some Tlv.Method.PairSetupNonMfi ∧
  st.pairings.Count Controller.None = 0 ∧ st.srp_auth_count ≤ 100 ∧
  ¬ (st.srp.isSome = true ∧ st.srp_owner ≠ (st.sess i).sid) ∧ e.SRP_new = true

/-- The item is none of the items the builder holds. -/
def Tlv.Create.Avoids (x : Tlv.Item) (c : Tlv.Create) : Prop := x ∉ c.items

/-- Two values of a session agree on its link state: open flag, id, `secured` and the two
sequence counters. -/
def Session.SameLink (a b : Session) : Prop :=
  a.opened = b.opened ∧ a.sid = b.sid ∧ a.secured = b.secured ∧ a.sendSeq = b.sendSeq ∧
    a.recvSeq = b.recvSeq

/-- The state `st2` has the sessions of `st` but for session `i`, whose link state is
kept. -/
def Server.SameLinks (st st2 : Server) (i : Nat) : Prop :=
  (∀ j, j ≠ i → st2.sess j = st.sess j) ∧ (st2.sess i).SameLink (st.sess i)

/-- The slices of at most `MaxHttpBlock` bytes a response of `L` bytes is cut into, in
order: `⌈L / 1024⌉` of them, the slice number `k` starting at byte `1024 * k`. -/
def blocks (p : List Nat) : List (List Nat) :=
  (List.range ((p.length + (MaxHttpBlock - 1)) / MaxHttpBlock)).map
    (fun k => (p.drop (k * MaxHttpBlock)).take MaxHttpBlock)

/-- The record that carries the block `b` under a key and a nonce: the two length bytes,
which are also the associated data of the cipher, the encrypted block and the tag. -/
def sealed (e : Ext) (key nonce b : List Nat) : List Nat :=
  lenBytes b.length ++ (e.aead true key nonce b (lenBytes b.length)).1 ++
    (e.aead true key nonce b (lenBytes b.length)).2

/-- The events of sending blocks as records on session `sid`, the first under the counter
`seq`, each next one under the next counter: for every block the cipher call, then the
chunk handed to `send`. -/
def recordEvents (e : Ext) (sid : Nat) (key : List Nat) : Nat → List (List Nat) → List Event
  | _, [] => []
  | seq, b :: bs =>
    Event.aead true key (nonceOf seq) b.length ::
      Event.send sid (sealed e key (nonceOf seq) b) :: recordEvents e sid key (seq + 1) bs

/-- The send counter after `n` records: a 64-bit counter incremented `n` times. -/
def seqAfter (seq n : Nat) : Nat :=
  if n = 0 then seq else (seq + n) % 2 ^ 64

/-- A chunk handed to `send`. -/
def Event.isSend : Event → Bool
  | Event.send _ _ => true
  | _ => false

/-- The log of `st2` is the log of `st` with more events, none of which is a chunk handed
to `send`. -/
structure Server.Quiet (st st2 : Server) : Prop where
  more : ∃ l, st2.log = st.log ++ l ∧ ∀ ev ∈ l, ev.isSend = false

/-- The session at the entry of `Process`, once `Session::Init` has run. -/
def Server.entered (st : Server) (sid : Nat) : Server :=
  st.setSess sid (st.sess sid).Init

/-- An event is no cipher call, or it is one in the direction `enc` under the key
`key`. -/
def Event.cipherIs (enc : Bool) (key : List Nat) : Event → Prop
  | Event.aead b k _ _ => b = enc ∧ k = key
  | _ => True

/-- A Pair-Setup M3 request: `POST /pair-setup`, a TLV request, `State = M3`. -/
def Http.Request.isPairSetupM3 (e : Ext) (req : Request) : Bool :=
  req.method = "POST" && req.path = "/pair-setup" && req.isTlv &&
    req.state e = some Tlv.State.M3

/-- A Pair-Setup M5 request: `POST /pair-setup`, a TLV request, `State = M5`. -/
def Http.Request.isPairSetupM5 (e : Ext) (req : Request) : Bool :=
  req.method = "POST" && req.path = "/pair-setup" && req.isTlv &&
    req.state e = some Tlv.State.M5

/-- The session key `_pairSetup3` derives from a shared secret. -/
def setupKey (e : Ext) (secret : List Nat) : List Nat :=
  e.hkdf (cstr "Pair-Setup-Encrypt-Salt") secret (cstr "Pair-Setup-Encrypt-Info") 32

/-- The `EncryptedData` value `_pairSetup5` copies from the TLV of a request. -/
def Http.Request.m5Data (e : Ext) (req : Request) : Option (List Nat) :=
  Tlv.getBuf (e.tlvParse req.data) Tlv.Kind.EncryptedData e.sizeofdata

/-- Whether the tag of the `EncryptedData` of a Pair-Setup M5 verifies under the session
key `key` with the nonce `PS-Msg05`; `none` when the request has no `EncryptedData`. -/
def Http.Request.m5TagOk (e : Ext) (key : List Nat) (req : Request) : Option Bool :=
  (req.m5Data e).map (fun enc => (openEncrypted e key noncePS05 enc).2.2)

/-- The sub-TLV of a Pair-Setup M5 decrypted under the session key `key`. -/
def Http.Request.m5Sub (e : Ext) (key : List Nat) (req : Request) : List Tlv.Item :=
  match req.m5Data e with
  | some enc => e.tlvParse (openEncrypted e key noncePS05 enc).2.1
  | none => []

/-- An environment for requests that differ in the signature only: the HTTP parser hands
the bytes received as the body of a `POST` to `path` with TLV headers; the TLV parser
finds, whatever bytes `d` it is given, the state `state`, an `EncryptedData` of `d`
followed by a zero tag, the identifier and the public key of the sample controller, and
the signature `d`; the cipher copies the data and computes a zero tag. -/
def Ext.sampleSigned (path : String) (state : Nat) : Ext :=
  { Ext.sample (ParseStatus.Success (Request.sample "POST" path)) [] (List.replicate 16 0) with
    parse := fun b => ParseStatus.Success { Request.sample "POST" path with data := b }
    tlvParse := fun d =>
      [⟨Tlv.Kind.State, [state]⟩, ⟨Tlv.Kind.EncryptedData, d ++ List.replicate 16 0⟩,
       ⟨Tlv.Kind.Identifier, cstr "controller"⟩, ⟨Tlv.Kind.PublicKey, List.replicate 32 9⟩,
       ⟨Tlv.Kind.Signature, d⟩] }

/-- The request the environment `sampleSigned` parses from the bytes `b`. -/
def Http.Request.sampleSigned (path : String) (b : List Nat) : Request :=
  { Request.sample "POST" path with data := b }

/-- The sample server after the Pair-Setup M1 of session 0: session 0 owns the pairing. -/
def Server.pairing : Server := Server.sample.run [Op.sampleM1]

/-- One request in a record whose tag verifies, on session 0 of the sample runs of the
record layer. -/
def Op.sampleRecord : Op :=
  Op.Process Ext.sampleRecord 0 [RecvEv.data (record [5, 6, 7] (List.replicate 16 0))]

/-- The SRP context of the sample pairing. -/
def SRP.sample : SRP := Server.pairing.srp.getD SRP.new

/-- The environment of the sample runs of Pair-Setup M3 and M5 on a session: the TLV of
the body is `items`, `SRP_verify` answers `verify` and `SRP_respond` answers `respond`. -/
def Ext.sampleSetup (items : List Tlv.Item) (verify : Bool) (respond : Option (List Nat)) :
    Ext :=
  { Ext.sample (ParseStatus.Success Request.sampleM1) items [] with
    SRP_verify := fun _ _ => verify
    SRP_respond := fun _ => respond }

/-- The TLV of the sample Pair-Setup M3: state, public key and proof. -/
def Tlv.sampleM3 : List Tlv.Item :=
  [⟨Tlv.Kind.State, [Tlv.State.M3]⟩, ⟨Tlv.Kind.PublicKey, List.replicate 384 6⟩,
   ⟨Tlv.Kind.Proof, List.replicate 64 7⟩]

/-- The sample pairing with a pairings store that has no free record. -/
def Server.pairingFull : Server :=
  { Server.pairing with pairings := ⟨List.replicate MaxPairings
      ⟨Controller.Admin, List.replicate Controller.IdLen 1, List.replicate Controller.KeyLen 1⟩⟩ }

/-- The environment of the sample runs of `Poll`: the database has the two bytes of an
event notification to deliver. -/
def Ext.sampleEvents : Ext :=
  { Ext.sampleRecord with getEvents := fun _ _ => (Status.HTTP_200, [123, 125]) }

/-- A pairings store with two records: the sample controller, an admin, at index 0 and the
controller `other`, a regular one, at index 1. -/
def Pairings.sampleTwo : Pairings :=
  ((Pairings.sample Controller.Admin).Add (cstr "other") (List.replicate 32 8)
    Controller.Regular).2

/-- The environment of a Pair-Verify M3 of the controller `id` whose tag verifies. -/
def Ext.sampleVerifyOf (id : List Nat) : Ext :=
  Ext.sample (ParseStatus.Success Request.sampleM3)
    [⟨Tlv.Kind.State, [Tlv.State.M3]⟩, ⟨Tlv.Kind.EncryptedData, List.replicate 16 0⟩,
     ⟨Tlv.Kind.Identifier, id⟩, ⟨Tlv.Kind.Signature, List.replicate 64 0⟩]
    (List.replicate 16 0)

/-- The environment of a `/pairings` request with the TLV `items`, on a secured session
(the cipher computes a zero tag). -/
def Ext.samplePairingsOf (items : List Tlv.Item) : Ext :=
  Ext.sample (ParseStatus.Success Request.samplePairings) items (List.replicate 16 0)

/-- The environment of a `GET /accessories` on a secured session. -/
def Ext.sampleAccessories : Ext :=
  Ext.sample (ParseStatus.Success (Request.sample "GET" "/accessories")) []
    (List.replicate 16 0)

/-- A server with the two sample controllers paired, sessions 0 and 1 open, session 0
verified as the admin and session 1 as the controller `other`. -/
def Server.twoBound : Server :=
  (Server.start (MaxHttpSessions + 1) Pairings.sampleTwo).run
    [Op.Open, Op.Open,
     Op.Process (Ext.sampleVerifyOf (cstr "controller")) 0 [RecvEv.data [80]],
     Op.Process (Ext.sampleVerifyOf (cstr "other")) 1 [RecvEv.data [80]]]

/-- The `RemovePairing` of the controller `other`, sent in a record on session 0. -/
def Op.sampleRemove : Op :=
  Op.Process (Ext.samplePairingsOf [⟨Tlv.Kind.State, [Tlv.State.M1]⟩,
      ⟨Tlv.Kind.Method, [Tlv.Method.RemovePairing]⟩, ⟨Tlv.Kind.Identifier, cstr "other"⟩])
    0 [RecvEv.data (record [5, 6, 7] (List.replicate 16 0))]

/-- Is the event a chunk handed to `send` for the session `sid`. -/
def Event.isSendTo (sid : Nat) : Event → Bool
  | Event.send s _ => s = sid
  | _ => false

/-- The TLV of an `AddPairing` request for the controller `id` with the key `key` and the
permission `perm`. -/
def Tlv.sampleAdd (id key : List Nat) (perm : Nat) : List Tlv.Item :=
  [⟨Tlv.Kind.State, [Tlv.State.M1]⟩, ⟨Tlv.Kind.Method, [Tlv.Method.AddPairing]⟩,
   ⟨Tlv.Kind.Identifier, id⟩, ⟨Tlv.Kind.PublicKey, key⟩, ⟨Tlv.Kind.Permissions, [perm]⟩]

/-- The bytes of the sample record `recv` delivers on a secured session. -/
def RecvEv.sampleRecord : List RecvEv :=
  [RecvEv.data (record [5, 6, 7] (List.replicate 16 0))]

/-- The `AddPairing` of the controller `id` as an admin with the key of the sample
controller, sent in a record on session 0. -/
def Op.sampleAdd (id : List Nat) : Op :=
  Op.Process (Ext.samplePairingsOf (Tlv.sampleAdd id (List.replicate 32 9) Controller.Admin))
    0 RecvEv.sampleRecord

/-- Ten identifiers: the sample controller and nine more. -/
def sampleIds : List (List Nat) :=
  cstr "controller" :: (List.range 9).map (fun k => [k + 1])

/-- The sample server with session 0 secured, after the `AddPairing` of the ten sample
identifiers. -/
def Server.tenAdded : Server :=
  (Server.securedSample Controller.Admin).run (sampleIds.map Op.sampleAdd)

/-- The environment of a `ListPairing` request on a secured session. -/
def Ext.sampleList : Ext :=
  Ext.samplePairingsOf [⟨Tlv.Kind.State, [Tlv.State.M1]⟩,
    ⟨Tlv.Kind.Method, [Tlv.Method.ListPairing]⟩]

/-- The bytes in the scratch buffer once `recv` has returned the events `recv`, from a
buffer holding `buf`: each call is given the room left in the buffer. -/
def buffered (e : Ext) : List RecvEv → List Nat → List Nat
  | [], buf => buf
  | RecvEv.data bytes :: rest, buf =>
    buffered e rest (buf ++ bytes.take (e.sizeofdata - buf.length))
  | _ :: rest, buf => buffered e rest buf

/-- The reasons for which the specification has `Process` return false, at the return `ev`
of `recv` when the scratch buffer of session `i` holds `buf`: a read error; an end of
file, which for `recv` is a return of zero; on a secured session, a length prefix above
`MaxHttpBlock`, or a complete record whose tag differs from the computed one; a parser
that answers `Error`, on the bytes received or on those of the decrypted record; on a
secured session, a parser that answers `Incomplete` on the decrypted record. -/
def Server.rejects (e : Ext) (st : Server) (i : Nat) (buf : List Nat) : RecvEv → Prop
  | RecvEv.error => True
  | RecvEv.eof => True
  | RecvEv.data bytes =>
    let b := buf ++ bytes.take (e.sizeofdata - buf.length)
    let n := b.getD 0 0 + b.getD 1 0 * 256
    let out := e.aead false (st.sess i).ControllerToAccessoryKey (nonceOf (st.sess i).recvSeq)
      ((b.drop 2).take n) (b.take 2)
    (bytes.take (e.sizeofdata - buf.length)).length = 0 ∨
    ((st.sess i).secured = true ∧ 2 ≤ b.length ∧ MaxHttpBlock < n) ∨
    ((st.sess i).secured = true ∧ 2 ≤ b.length ∧ n ≤ MaxHttpBlock ∧ 2 + n + 16 ≤ b.length ∧
      out.2 ≠ (b.drop (2 + n)).take 16) ∨
    ((st.sess i).secured = true ∧ 2 ≤ b.length ∧ n ≤ MaxHttpBlock ∧ 2 + n + 16 ≤ b.length ∧
      out.2 = (b.drop (2 + n)).take 16 ∧ e.parse out.1 = ParseStatus.Error) ∨
    ((st.sess i).secured = false ∧ e.parse b = ParseStatus.Error) ∨
    ((st.sess i).secured = true ∧ 2 ≤ b.length ∧ n ≤ MaxHttpBlock ∧ 2 + n + 16 ≤ b.length ∧
      out.2 = (b.drop (2 + n)).take 16 ∧ e.parse out.1 = ParseStatus.Incomplete)

/-- The nonces of the records a call sent, read off the events it logged: a cipher call
for encryption immediately followed by a chunk handed to `send` is one turn of the loop
of `_send`. -/
def sentNonces : List Event → List (List Nat)
  | [] => []
  | ev :: rest =>
    match ev, rest with
    | Event.aead true _ nonce _, Event.send _ _ :: _ => nonce :: sentNonces rest
    | _, _ => sentNonces rest

/-- The nonce of the record a call received, read off the events it logged: the read loop
of `Process` decrypts one record at most, and its cipher call is the first event of the
call. -/
def recvNonces : List Event → List (List Nat)
  | Event.aead false _ nonce _ :: _ => [nonce]
  | _ => []

/-- The session a call of `Process` or `Poll` is made on. -/
def Op.session : Op → Option Nat
  | Op.Process _ sid _ => some sid
  | Op.Poll _ sid => some sid
  | _ => none

/-- Whether the operation is `Close` of session `i`. -/
def Op.closes (i : Nat) : Op → Bool
  | Op.Close sid => sid == i
  | _ => false

/-- The nonces of the records session `i` sent over a run, call by call, in the calls of
`Process` and `Poll` that find the session secured. -/
def Server.sentOver (i : Nat) : Server → List Op → List (List Nat)
  | _, [] => []
  | st, op :: ops =>
    (if op.session = some i ∧ (st.sess i).secured = true then
      sentNonces (st.since (st.step op)) else []) ++ Server.sentOver i (st.step op) ops

/-- The nonces of the records session `i` received over a run, call by call, in the calls
of `Process` that find the session secured. -/
def Server.recvOver (i : Nat) : Server → List Op → List (List Nat)
  | _, [] => []
  | st, op :: ops =>
    (if op.session = some i ∧ (st.sess i).secured = true then
      recvNonces (st.since (st.step op)) else []) ++ Server.recvOver i (st.step op) ops

/-- A pairings request of the method `m`: `POST /pairings`, a TLV request, `State = M1`
and `Method = m`. -/
def Http.Request.isPairingsOf (e : Ext) (req : Request) (m : Nat) : Bool :=
  req.method = "POST" && req.path = "/pairings" && req.isTlv &&
    req.state e = some Tlv.State.M1 && req.tlvMethod e = some m

/-- The state a handler of `/pairings` leaves when it answers an error: the entry in the
log and the response `{State=M2, Error=err}`. -/
def Server.answeredError (e : Ext) (st : Server) (i : Nat) (name : String) (err : Nat) :
    Server :=
  (st.emit (Event.handler name)).setSess i
    ((((st.sess i).tlvBegin e Tlv.State.M2).addError err).tlvEnd)

/-- The state a handler of `/pairings` leaves when it has changed the store to `P`: the
entry in the log, the store, the call of the update callback and the response
`{State=M2}`. -/
def Server.answeredDone (e : Ext) (st : Server) (i : Nat) (name : String) (P : Pairings) :
    Server :=
  (({ st.emit (Event.handler name) with pairings := P }).emit Event.configUpdate).setSess i
    ((st.sess i).tlvBegin e Tlv.State.M2).tlvEnd

/-- The operation is a call of `Process` on a valid secured session whose bound
controller is an admin that parses an `AddPairing` request for the identifier `id`, with a
public key and a permission that is not `None`; the response region has room for two
one-byte items. -/
def Op.isAddPairing (st : Server) (id : List Nat) : Op → Bool
  | Op.Process e sid recv =>
    decide (sid < MaxHttpSessions) && (st.sess sid).secured &&
    decide (st.iosPerm (st.sess sid) = Controller.Admin) && decide (6 ≤ e.rspSize) &&
      match st.request e sid recv with
      | some req =>
        req.isPairingsOf e Tlv.Method.AddPairing &&
        decide (Tlv.get (e.tlvParse req.data) Tlv.Kind.Identifier = some id) &&
        (Tlv.get (e.tlvParse req.data) Tlv.Kind.PublicKey).isSome &&
        (match Tlv.getByte (e.tlvParse req.data) Tlv.Kind.Permissions with
          | some perm => decide (perm ≠ Controller.None)
          | none => false)
      | none => false
  | _ => false

/-- The operation is a successful `AddPairing` for the identifier `id`: one that is
answered `{State=M2}`, with no `Error` item. -/
def Op.isAddPairingOk (st : Server) (id : List Nat) (op : Op) : Bool :=
  op.isAddPairing st id &&
    match op with
    | Op.Process e sid recv =>
      decide (((st.Process e sid recv).2.sess sid).rsp.data =
        Data.tlv [⟨Tlv.Kind.State, [Tlv.State.M2]⟩])
    | _ => false

/-- The run `ops` from `st` has successful `AddPairing` calls for the identifiers `ids`,
in this order, and its other operations leave the pairings store as it is. -/
def Server.addsOnly : Server → List Op → List (List Nat) → Bool
  | _, [], ids => ids.isEmpty
  | st, op :: ops, ids =>
    (match ids with
      | id :: rest => op.isAddPairingOk st id && (st.step op).addsOnly ops rest
      | [] => false) ||
    (decide ((st.step op).pairings = st.pairings) && (st.step op).addsOnly ops ids)

/-- The identifiers of `ids` are all in the store. -/
def Pairings.HoldsAll (p : Pairings) (ids : List (List Nat)) : Prop :=
  ∀ id ∈ ids, ∃ j, j < p.db.length ∧ Pairings.holds id (p.deref j) = true

/-- The bytes a list of items takes in a TLV. -/
def Tlv.size (items : List Tlv.Item) : Nat :=
  (items.map (fun x => Tlv.itemSize x.val.length)).sum

/-- The three items of a record in the answer to `ListPairing`. -/
def Controller.group (c : Controller) : List Tlv.Item :=
  [⟨Tlv.Kind.Identifier, c.id⟩, ⟨Tlv.Kind.PublicKey, c.key⟩, ⟨Tlv.Kind.Permissions, [c.perm]⟩]

/-- The groups of the records `rs`, each with a separator in front but the first when
`first` is set. -/
def listLayout : List Controller → Bool → List Tlv.Item
  | [], _ => []
  | c :: rest, first =>
    (if first then [] else [⟨Tlv.Kind.Separator, []⟩]) ++ c.group ++ listLayout rest false

/-- Add the items in order until one does not fit. -/
def Tlv.Create.fill (t : Tlv.Create) : List Tlv.Item → Bool × Tlv.Create
  | [] => (true, t)
  | x :: xs =>
    if !(t.add x.type x.val).1 then (false, (t.add x.type x.val).2)
    else Tlv.Create.fill (t.add x.type x.val).2 xs

/-- The call `Hap::config->Update()`. -/
def Event.isUpdate : Event → Bool
  | Event.configUpdate => true
  | _ => false

/-- The state `st2` has the pairings store of `st`, and its log is the log of `st` with
more events, none of which is a call of the update callback. -/
structure Server.Still (st st2 : Server) : Prop where
  pairings : st2.pairings = st.pairings
  more : ∃ m, st2.log = st.log ++ m ∧ ∀ ev ∈ m, ev.isUpdate = false

/-- The state `st2` has the pairings store `P`, and its log is the log of `st` with more
events, one of which is a call of the update callback. -/
structure Server.Once (st st2 : Server) (P : Pairings) : Prop where
  pairings : st2.pairings = P
  more : ∃ m, st2.log = st.log ++ m ∧ m.count Event.configUpdate = 1

/-- The response of the session is the TLV its builder holds, which has no `Error`
item. -/
structure Session.Clean (s : Session) : Prop where
  data : s.rsp.data = Data.tlv s.tlvo.items
  noError : ∀ x ∈ s.tlvo.items, x.type ≠ Tlv.Kind.Error

/-- The store `_pairings` when `_pairSetup5` calls `Hap::config->Update()`: the one `Add`
left; `none` when the handler does not get to the call. -/
def Server.pairSetup5_update (e : Ext) (st : Server) (i : Nat) : Option Pairings :=
  let sess := st.sess i
  if st.srp.isNone || st.srp_owner ≠ sess.sid then none
  else
    match Tlv.getBuf sess.tlvi Tlv.Kind.EncryptedData e.sizeofdata with
    | none => none
    | some enc =>
      let dec := openEncrypted e sess.key noncePS05 enc
      if !dec.2.2 then none
      else
        let tlv := e.tlvParse dec.2.1
        match Tlv.get tlv Tlv.Kind.Identifier with
        | none => none
        | some id =>
          match Tlv.get tlv Tlv.Kind.PublicKey with
          | none => none
          | some ltpk =>
            match Tlv.get tlv Tlv.Kind.Signature with
            | none => none
            | some _ =>
              let added := st.pairings.Add id ltpk Controller.Admin
              if !added.1 then none else some added.2

/-- The store `_pairings` when `_pairingAdd` calls `Hap::config->Update()`: the one
`Update` or `Add` left; `none` when the handler does not get to the call. -/
def Server.pairingAdd_update (st : Server) (i : Nat) : Option Pairings :=
  let sess := st.sess i
  if st.iosPerm sess ≠ Controller.Admin then none
  else
    match Tlv.get sess.tlvi Tlv.Kind.Identifier with
    | none => none
    | some id =>
      match Tlv.get sess.tlvi Tlv.Kind.PublicKey with
      | none => none
      | some key =>
        match Tlv.getByte sess.tlvi Tlv.Kind.Permissions with
        | none => none
        | some perm =>
          match st.pairings.Get id with
          | some ios =>
            if key.length ≠ Controller.KeyLen || key ≠ (st.pairings.deref ios).key then none
            else some (st.pairings.Update id perm).2
          | none =>
            let added := st.pairings.Add id key perm
            if !added.1 then none else some added.2

/-- The store `_pairings` when `_pairingRemove` calls `Hap::config->Update()`: the one
`Remove` left; `none` when the handler does not get to the call. -/
def Server.pairingRemove_update (st : Server) (i : Nat) : Option Pairings :=
  let sess := st.sess i
  if st.iosPerm sess ≠ Controller.Admin then none
  else
    match Tlv.get sess.tlvi Tlv.Kind.Identifier with
    | none => none
    | some id =>
      let removed := st.pairings.Remove id
      if !removed.1 then none else some removed.2

/-- The store `_pairings` when the handler of a request calls `Hap::config->Update()`,
by the routing of `Process`: `POST /pair-setup` with `State = M5`, and `POST /pairings`
on a secured session with `State = M1` and the method `AddPairing` or `RemovePairing`,
get to a handler that can call it; `none` when the callback is not called. -/
def Server.route_update (e : Ext) (st : Server) (i : Nat) (req : Request) : Option Pairings :=
  if req.method = "POST" then
    if req.path = "/pair-setup" then
      if !req.hdrContentTypeTlv8 then none
      else if !req.hdrContentLength then none
      else
        match Tlv.getByte (e.tlvParse req.data) Tlv.Kind.State with
        | none => none
        | some state =>
          if state = Tlv.State.M5 then (st.withTlv e i req.data).pairSetup5_update e i
          else none
    else if req.path = "/pairings" then
      if !(st.sess i).secured then none
      else if !req.hdrContentTypeTlv8 then none
      else if !req.hdrContentLength then none
      else
        match Tlv.getByte (e.tlvParse req.data) Tlv.Kind.State with
        | none => none
        | some state =>
          if state ≠ Tlv.State.M1 then none
          else
            match Tlv.getByte (e.tlvParse req.data) Tlv.Kind.Method with
            | none => none
            | some method =>
              if method = Tlv.Method.AddPairing then
                (st.withTlv e i req.data).pairingAdd_update i
              else if method = Tlv.Method.RemovePairing then
                (st.withTlv e i req.data).pairingRemove_update i
              else none
    else none
  else none

/-- The store `_pairings` when a call of `Process` calls `Hap::config->Update()`; `none`
when the call does not: no request is parsed, or its handler does not call it. -/
def Server.Process_update (e : Ext) (st : Server) (sid : Nat) (recv : List RecvEv) :
    Option Pairings :=
  if sid < MaxHttpSessions then
    match st.request e sid recv with
    | some req => st.route_update e sid req
    | none => none
  else none

/-- Bit `NotPaired` of `Hap::Bonjour::StatusFlag`. -/
def Bonjour.NotPaired : Nat := 0x01

/-- Bit `NotConfiguredForWiFi` of `Hap::Bonjour::StatusFlag`. -/
def Bonjour.NotConfiguredForWiFi : Nat := 0x02

/-- Bit `ProblemDetected` of `Hap::Bonjour::StatusFlag`. -/
def Bonjour.ProblemDetected : Nat := 0x04

/-- The callback `myConfig.Update` of `HapTest.cpp` on the status flags, a byte, when
`pairings.Count()` is `count`: the flags it leaves, and whether it calls
`mdns->Update()`. -/
def Config.Update (statusFlags count : Nat) : Nat × Bool :=
  let paired := decide (count ≠ 0)
  if paired && decide (statusFlags &&& Bonjour.NotPaired ≠ 0) then
    (statusFlags &&& (0xFF ^^^ Bonjour.NotPaired), true)
  else if !paired && !decide (statusFlags &&& Bonjour.NotPaired ≠ 0) then
    (statusFlags ||| Bonjour.NotPaired, true)
  else (statusFlags, false)

/-- The status flags after a call of `Process`, and whether `mdns->Update()` is called
during it: the callback runs when the handler of the request calls it, on the store it
finds then. -/
def Server.ProcessFlags (e : Ext) (st : Server) (sid : Nat) (recv : List RecvEv)
    (statusFlags : Nat) : Nat × Bool :=
  match st.Process_update e sid recv with
  | some P => Config.Update statusFlags (P.Count Controller.None)
  | none => (statusFlags, false)

/-- The environment of a Pair-Setup M1 whose TLV has no `Method` item. -/
def Ext.sampleNoMethod : Ext :=
  Ext.sample (ParseStatus.Success Request.sampleM1) [⟨Tlv.Kind.State, [Tlv.State.M1]⟩] []

/-- The environment of a Pair-Setup M1 whose TLV has the `Method` item `m`. -/
def Ext.sampleMethod (m : Nat) : Ext :=
  Ext.sample (ParseStatus.Success Request.sampleM1)
    [⟨Tlv.Kind.State, [Tlv.State.M1]⟩, ⟨Tlv.Kind.Method, [m]⟩] []

/-- The environment of a Pair-Setup M5 whose `EncryptedData` item has four bytes. -/
def Ext.sampleShortM5 : Ext :=
  Ext.sampleSetup [⟨Tlv.Kind.State, [Tlv.State.M5]⟩, ⟨Tlv.Kind.EncryptedData, [1, 2, 3, 4]⟩]
    true none

/-- The environment of a Pair-Verify M3 whose `EncryptedData` item has four bytes. -/
def Ext.sampleShortM3 : Ext :=
  Ext.sample (ParseStatus.Success Request.sampleM3)
    [⟨Tlv.Kind.State, [Tlv.State.M3]⟩, ⟨Tlv.Kind.EncryptedData, [1, 2, 3, 4]⟩] []

/-- The environment of a `POST` to `path` with TLV headers whose TLV is `items`. -/
def Ext.sampleStray (path : String) (items : List Tlv.Item) : Ext :=
  Ext.sample (ParseStatus.Success (Request.sample "POST" path)) items []

/-- The environment `sampleSigned` with a signature that is the message itself and a TLV
encoding that is the values of the items one after the other, so that the bytes the
accessory signs can be read in its reply. -/
def Ext.sampleSigner (path : String) (state : Nat) : Ext :=
  { Ext.sampleSigned path state with
    Sign := fun m => m
    tlvEncode := fun l => l.flatMap (fun i => i.val) }

/-- The environment of a Pair-Verify M1 with the Curve25519 public key of the controller. -/
def Ext.sampleVerifyM1 : Ext :=
  Ext.sample (ParseStatus.Success Request.sampleM3)
    [⟨Tlv.Kind.State, [Tlv.State.M1]⟩, ⟨Tlv.Kind.PublicKey, List.replicate 32 9⟩] []

/-- The sample server with one paired controller after a Pair-Verify M1 on session 0. -/
def Server.verifying : Server :=
  ((Server.paired Controller.Admin).Process Ext.sampleVerifyM1 0 [RecvEv.data [80]]).2

/-- The table `h` of `bin2hex`: the characters `0123456789ABCDEF`. -/
def hexTable : List Nat := cstr "0123456789ABCDEF"

/-- The function `bin2hex(buf, size, s)`: the characters written to `s`.  Each round of
the loop `while (size-- > 0)` takes the byte `b = *buf++` and writes `h[b >> 4]` and
`h[b & 0xF]`; a NUL follows the last round.  A read past the end of the list reads 0. -/
def bin2hex : List Nat → Nat → List Nat
  | _, 0 => [0]
  | buf, size + 1 =>
    let b := buf.headD 0
    hexTable.getD (b / 16) 0 :: hexTable.getD (b % 16) 0 :: bin2hex buf.tail size

/-- The value `hex2bin` gives a character: `c - '0'` for a digit, `c - 'A' + 10` for any
other character, as the `uint8_t` it is stored in. -/
def hexValue (c : Nat) : Nat :=
  if 48 ≤ c ∧ c ≤ 57 then (c - 48) % 256 else (c + 256 + 10 - 65) % 256

/-- The function `hex2bin(s, buf, size)`: the bytes written to `buf`.  Each round of the
loop `while (size-- > 0)` reads two characters; the value of the first, shifted left by
four bits in a `uint8_t`, plus the value of the second is the byte.  A read past the end
of the list reads 0. -/
def hex2bin : List Nat → Nat → List Nat
  | _, 0 => []
  | s, size + 1 =>
    let b := hexValue (s.headD 0)
    let b := (b * 16) % 256
    let b := (b + hexValue (s.tail.headD 0)) % 256
    b :: hex2bin s.tail.tail size

/-- The hexadecimal text of a byte sequence in the words of the specification: for each
byte the digit of the high nibble, then the digit of the low nibble. -/
def hexText (b : List Nat) : List Nat :=
  b.flatMap (fun x => [hexTable.getD (x / 16) 0, hexTable.getD (x % 16) 0])

/-- Is the character one of `0-9A-F`. -/
def isHexChar (c : Nat) : Bool :=
  (48 ≤ c && c ≤ 57) || (65 ≤ c && c ≤ 70)

/-- A `POST /pair-setup` or `POST /pair-verify` request with the TLV content type and a
content length whose TLV has no `State` item, or a `State` that the branch has no case
for: other than M1, M3, M5 for `/pair-setup`, other than M1, M3 for `/pair-verify`. -/
def Http.Request.isStrayState (e : Ext) (req : Request) : Bool :=
  req.method = "POST" && req.isTlv &&
    ((req.path = "/pair-setup" && req.state e ≠ some Tlv.State.M1 &&
        req.state e ≠ some Tlv.State.M3 && req.state e ≠ some Tlv.State.M5) ||
     (req.path = "/pair-verify" && req.state e ≠ some Tlv.State.M1 &&
        req.state e ≠ some Tlv.State.M3))

/-- Is the event the entry of a pairing handler. -/
def Event.isHandler : Event → Bool
  | Event.handler _ => true
  | _ => false

/-- A Pair-Verify M1 request: `POST /pair-verify`, a TLV request, `State = M1`. -/
def Http.Request.isPairVerifyM1 (e : Ext) (req : Request) : Bool :=
  req.method = "POST" && req.path = "/pair-verify" && req.isTlv &&
    req.state e = some Tlv.State.M1

/-- The value `AccessoryX` in the words of the specification: 32 bytes of HKDF over the
SRP shared secret with the salt `Pair-Setup-Accessory-Sign-Salt` and the info
`Pair-Setup-Accessory-Sign-Info`. -/
def AccessoryX (e : Ext) (secret : List Nat) : List Nat :=
  e.hkdf (cstr "Pair-Setup-Accessory-Sign-Salt") secret
    (cstr "Pair-Setup-Accessory-Sign-Info") 32

/-- The message signed in Pair-Setup M5 in the words of the specification:
`AccessoryX || device_id || accessory_LTPK`. -/
def setupAccessoryInfo (e : Ext) (secret : List Nat) : List Nat :=
  AccessoryX e secret ++ e.deviceId ++ e.PubKey

/-- The message signed in Pair-Verify M1 in the words of the specification:
`accessory_curve_pub || device_id || ios_curve_pub`. -/
def verifyAccessoryInfo (e : Ext) (curvePub iosKey : List Nat) : List Nat :=
  curvePub ++ e.deviceId ++ iosKey

/-- The sub-TLV of Pair-Setup M6 in the words of the specification: the device id, the
accessory LTPK and the signature of `msg`. -/
def setupSubTlv (e : Ext) (msg : List Nat) : List Nat :=
  e.tlvEncode [⟨Tlv.Kind.Identifier, e.deviceId⟩, ⟨Tlv.Kind.PublicKey, e.PubKey⟩,
    ⟨Tlv.Kind.Signature, e.Sign msg⟩]

/-- The sub-TLV of Pair-Verify M2 in the words of the specification: the device id and the
signature of `msg`. -/
def verifySubTlv (e : Ext) (msg : List Nat) : List Nat :=
  e.tlvEncode [⟨Tlv.Kind.Identifier, e.deviceId⟩, ⟨Tlv.Kind.Signature, e.Sign msg⟩]

/-- The value of an `EncryptedData` item: the bytes `sub` encrypted under a key and a
nonce, followed by the tag. -/
def sealedSub (e : Ext) (key nonce sub : List Nat) : List Nat :=
  (e.aead true key nonce sub []).1 ++ (e.aead true key nonce sub []).2

/-- The session key `_pairVerify1` derives from a shared secret. -/
def verifyKey (e : Ext) (shared : List Nat) : List Nat :=
  e.hkdf (cstr "Pair-Verify-Encrypt-Salt") shared (cstr "Pair-Verify-Encrypt-Info") 32

/-- The value of a byte sequence read as a big-endian number. -/
def beValue (bs : List Nat) : Nat :=
  bs.foldl (fun a b => a * 256 + b) 0

/-- The SRP context `_pairSetup1` sets up with the salt `salt` and the setup code
`code`. -/
def SRP.pairSetup (salt code : List Nat) : SRP :=
  ⟨cstr "Pair-Setup", srp_modulus, srp_generator, salt, code⟩

/-- Singleton consistency: `srp` is `NULL` exactly when `srp_owner` is `sid_invalid`. -/
def Server.Consistent (st : Server) : Prop :=
  st.srp = none ↔ st.srp_owner = sid_invalid

/-- Every open slot of the session table holds the session of its index. -/
def Server.Indexed (st : Server) : Prop :=
  ∀ i, (st.sess i).opened = true → (st.sess i).sid = i

/-- The operation is one the transport makes in the state: `Process` is called for an
open session. -/
def Op.legal (st : Server) : Op → Bool
  | Op.Process _ sid _ => (st.sess sid).opened
  | _ => true

/-- Every operation of the sequence is one the transport makes in the state it is made
in. -/
def Server.legalRun : Server → List Op → Bool
  | _, [] => true
  | st, op :: ops => op.legal st && (st.step op).legalRun ops

/-- The 2500 bytes of a long response: byte `n` is `n % 251`. -/
def sampleLongBytes : List Nat :=
  (List.range 2500).map (fun n => n % 251)

/-- The environment of the record layer when the response buffer renders to the 2500
bytes `sampleLongBytes`. -/
def Ext.sampleLong : Ext :=
  { Ext.sampleRecord with render := fun _ => sampleLongBytes }

/-- The environment of a `ListPairing` request when the response region has 100 bytes. -/
def Ext.sampleListTight : Ext :=
  { Ext.sampleList with rspSize := 100 }

/-! ## Theorems -/

set_option maxRecDepth 100000

/-! ## Basic facts about the state -/

@[simp] theorem setSess_sess_same (st : Server) (i : Nat) (s : Session) :
    (st.setSess i s).sess i = s := by
  simp [Server.setSess]

theorem setSess_sess_other (st : Server) (i j : Nat) (s : Session) (h : j ≠ i) :
    (st.setSess i s).sess j = st.sess j := by
  simp [Server.setSess, h]

@[simp] theorem setSess_pairings (st : Server) (i : Nat) (s : Session) :
    (st.setSess i s).pairings = st.pairings := rfl

@[simp] theorem setSess_srp (st : Server) (i : Nat) (s : Session) :
    (st.setSess i s).srp = st.srp := rfl

@[simp] theorem setSess_srp_owner (st : Server) (i : Nat) (s : Session) :
    (st.setSess i s).srp_owner = st.srp_owner := rfl

@[simp] theorem setSess_srp_auth_count (st : Server) (i : Nat) (s : Session) :
    (st.setSess i s).srp_auth_count = st.srp_auth_count := rfl

@[simp] theorem setSess_log (st : Server) (i : Nat) (s : Session) :
    (st.setSess i s).log = st.log := rfl

@[simp] theorem setSess_nsess (st : Server) (i : Nat) (s : Session) :
    (st.setSess i s).nsess = st.nsess := rfl

@[simp] theorem setSess_shared (st : Server) (i : Nat) (s : Session) :
    (st.setSess i s).srp_shared_secret = st.srp_shared_secret := rfl

@[simp] theorem emit_sess (st : Server) (ev : Event) : (st.emit ev).sess = st.sess := rfl

@[simp] theorem emit_pairings (st : Server) (ev : Event) :
    (st.emit ev).pairings = st.pairings := rfl

@[simp] theorem emit_srp (st : Server) (ev : Event) : (st.emit ev).srp = st.srp := rfl

@[simp] theorem emit_srp_owner (st : Server) (ev : Event) :
    (st.emit ev).srp_owner = st.srp_owner := rfl

@[simp] theorem emit_srp_auth_count (st : Server) (ev : Event) :
    (st.emit ev).srp_auth_count = st.srp_auth_count := rfl

@[simp] theorem emit_log (st : Server) (ev : Event) : (st.emit ev).log = st.log ++ [ev] := rfl

@[simp] theorem emit_nsess (st : Server) (ev : Event) : (st.emit ev).nsess = st.nsess := rfl

@[simp] theorem emit_shared (st : Server) (ev : Event) :
    (st.emit ev).srp_shared_secret = st.srp_shared_secret := rfl

theorem touched_self (st : Server) (i : Nat) :
    st.touched i st.log (st.sess i).recvSeq = st := by
  cases st with
  | mk sess nsess pairings srp sh owner cnt log =>
    simp only [Server.touched]
    congr
    funext j
    by_cases h : j = i
    · subst h; simp
    · simp [h]

theorem touched_touched (st : Server) (i : Nat) (l1 l2 : List Event) (s1 s2 : Nat) :
    (st.touched i l1 s1).touched i l2 s2 = st.touched i l2 s2 := by
  simp only [Server.touched]
  congr
  funext j
  by_cases h : j = i <;> simp [h]

theorem touched_emit (st : Server) (i : Nat) (l : List Event) (s : Nat) (ev : Event) :
    (st.touched i l s).emit ev = st.touched i (l ++ [ev]) s := rfl

theorem touched_setSeq (st : Server) (i : Nat) (l l0 : List Event) (s s0 s2 : Nat) :
    (st.touched i l s).setSess i { (st.touched i l0 s0).sess i with recvSeq := s2 }
      = st.touched i l s2 := by
  simp only [Server.touched, Server.setSess]
  congr
  funext j
  by_cases h : j = i <;> simp [h]

theorem isWire_snoc (l : List Event) (hl : ∀ ev ∈ l, ev.isWire = true) (ev : Event)
    (h : ev.isWire = true) : ∀ x ∈ l ++ [ev], x.isWire = true := by
  intro x hx
  rcases List.mem_append.mp hx with h1 | h1
  · exact hl x h1
  · rw [List.mem_singleton.mp h1]; exact h

theorem tryParse_from (e : Ext) (st : Server) (i sid : Nat) (l : List Event) (s : Nat)
    (hl : ∀ ev ∈ l, ev.isWire = true) (bytes : List Nat) :
    ∀ r, (st.touched i (st.log ++ l) s).tryParse e i sid bytes = some r → r.FromState st i := by
  intro r hr
  unfold Server.tryParse at hr
  have hp := isWire_snoc l hl (Event.parse bytes) rfl
  cases hparse : e.parse bytes with
  | Error =>
    rw [hparse] at hr
    simp only [Option.some.injEq] at hr
    subst hr
    refine ⟨(l ++ [Event.parse bytes]) ++ [Event.send sid
      (e.render (((st.touched i (st.log ++ l) s).emit (Event.parse bytes)).sess i).rsp)], s, ?_, ?_⟩
    · simp [Read.state, touched_emit, List.append_assoc]
    · exact isWire_snoc _ hp _ rfl
  | Incomplete =>
    rw [hparse] at hr
    simp only at hr
    split at hr
    · simp only [Option.some.injEq] at hr
      subst hr
      exact ⟨l ++ [Event.parse bytes], s, by simp [Read.state, touched_emit, List.append_assoc], hp⟩
    · cases hr
  | Success req =>
    rw [hparse] at hr
    simp only [Option.some.injEq] at hr
    subst hr
    exact ⟨l ++ [Event.parse bytes], s, by simp [Read.state, touched_emit, List.append_assoc], hp⟩

theorem readLoop_from_aux (e : Ext) (st : Server) (i sid : Nat) (recv : List RecvEv) :
    ∀ (l : List Event) (s : Nat) (buf : List Nat), (∀ ev ∈ l, ev.isWire = true) →
      ((st.touched i (st.log ++ l) s).readLoop e i sid recv buf).FromState st i := by
  induction recv with
  | nil =>
    intro l s buf hl
    exact ⟨l, s, rfl, hl⟩
  | cons ev rest ih =>
    intro l s buf hl
    cases ev with
    | error => exact ⟨l, s, rfl, hl⟩
    | eof => exact ⟨l, s, rfl, hl⟩
    | data bytes =>
      simp only [Server.readLoop]
      split
      · exact ⟨l, s, rfl, hl⟩
      · split
        · split
          · exact ih l s _ hl
          · split
            · exact ⟨l, s, rfl, hl⟩
            · split
              · exact ih l s _ hl
              · have hl2 := isWire_snoc l hl (Event.aead false
                  ((st.touched i (st.log ++ l) s).sess i).ControllerToAccessoryKey
                  (nonceOf ((st.touched i (st.log ++ l) s).sess i).recvSeq)
                  ((buf ++ List.take (e.sizeofdata - buf.length) bytes).getD 0 0 +
                    (buf ++ List.take (e.sizeofdata - buf.length) bytes).getD 1 0 * 256)) rfl
                rw [touched_emit, touched_setSeq, List.append_assoc]
                split
                · exact ⟨_, _, rfl, hl2⟩
                · split
                  · rename_i r hr
                    exact tryParse_from e st i sid _ _ hl2 _ r hr
                  · exact ih _ _ _ hl2
        · split
          · rename_i r hr
            exact tryParse_from e st i sid _ _ hl _ r hr
          · exact ih l s _ hl

theorem readLoop_from (e : Ext) (st : Server) (i sid : Nat) (recv : List RecvEv)
    (buf : List Nat) : (st.readLoop e i sid recv buf).FromState st i := by
  have h := readLoop_from_aux e st i sid recv [] (st.sess i).recvSeq buf (by simp)
  simpa [touched_self] using h

@[simp] theorem touched_sess_same (st : Server) (i : Nat) (l : List Event) (s : Nat) :
    (st.touched i l s).sess i = { st.sess i with recvSeq := s } := by
  simp [Server.touched]

theorem touched_sess_other (st : Server) (i j : Nat) (l : List Event) (s : Nat) (h : j ≠ i) :
    (st.touched i l s).sess j = st.sess j := by
  simp [Server.touched, h]

@[simp] theorem touched_pairings (st : Server) (i : Nat) (l : List Event) (s : Nat) :
    (st.touched i l s).pairings = st.pairings := rfl

@[simp] theorem touched_srp (st : Server) (i : Nat) (l : List Event) (s : Nat) :
    (st.touched i l s).srp = st.srp := rfl

@[simp] theorem touched_srp_owner (st : Server) (i : Nat) (l : List Event) (s : Nat) :
    (st.touched i l s).srp_owner = st.srp_owner := rfl

@[simp] theorem touched_srp_auth_count (st : Server) (i : Nat) (l : List Event) (s : Nat) :
    (st.touched i l s).srp_auth_count = st.srp_auth_count := rfl

@[simp] theorem touched_log (st : Server) (i : Nat) (l : List Event) (s : Nat) :
    (st.touched i l s).log = l := rfl

@[simp] theorem touched_shared (st : Server) (i : Nat) (l : List Event) (s : Nat) :
    (st.touched i l s).srp_shared_secret = st.srp_shared_secret := rfl

theorem request_some (e : Ext) (st : Server) (sid : Nat) (recv : List RecvEv) (req : Request)
    (h : st.request e sid recv = some req) :
    ∃ l s, (∀ ev ∈ l, ev.isWire = true) ∧
      (st.setSess sid (st.sess sid).Init).readLoop e sid sid recv [] =
        Read.request (st.parsed sid l s) req := by
  unfold Server.request at h
  have hf := readLoop_from e (st.setSess sid (st.sess sid).Init) sid sid recv []
  cases hr : (st.setSess sid (st.sess sid).Init).readLoop e sid sid recv [] with
  | blocked st1 => rw [hr] at h; cases h
  | fail st1 => rw [hr] at h; cases h
  | request st1 r =>
    rw [hr] at h hf
    simp only [Option.some.injEq] at h
    subst h
    obtain ⟨l, s, h1, h2⟩ := hf
    simp only [Read.state] at h1
    exact ⟨l, s, h2, by rw [h1]; rfl⟩

/-- How `Process` ends once a request is parsed on a valid session. -/
theorem Process_request (e : Ext) (st : Server) (sid : Nat) (recv : List RecvEv) (req : Request)
    (hsid : sid < MaxHttpSessions) (h : st.request e sid recv = some req) :
    ∃ l s, (∀ ev ∈ l, ev.isWire = true) ∧
      st.Process e sid recv =
        (some ((st.parsed sid l s).respond e sid req (st.sess sid).secured).1,
          ((st.parsed sid l s).respond e sid req (st.sess sid).secured).2) := by
  obtain ⟨l, s, hl, hr⟩ := request_some e st sid recv req h
  refine ⟨l, s, hl, ?_⟩
  unfold Server.Process
  have h1 : ¬ sid > MaxHttpSessions := by omega
  have h2 : ¬ sid = MaxHttpSessions := by omega
  simp only [h1, h2, if_false]
  rw [hr]

@[simp] theorem parsed_sess (st : Server) (sid : Nat) (l : List Event) (s : Nat) :
    (st.parsed sid l s).sess sid = { (st.sess sid).Init with recvSeq := s } := by
  simp [Server.parsed]

@[simp] theorem parsed_pairings (st : Server) (sid : Nat) (l : List Event) (s : Nat) :
    (st.parsed sid l s).pairings = st.pairings := rfl

@[simp] theorem parsed_srp (st : Server) (sid : Nat) (l : List Event) (s : Nat) :
    (st.parsed sid l s).srp = st.srp := rfl

@[simp] theorem parsed_srp_owner (st : Server) (sid : Nat) (l : List Event) (s : Nat) :
    (st.parsed sid l s).srp_owner = st.srp_owner := rfl

@[simp] theorem parsed_srp_auth_count (st : Server) (sid : Nat) (l : List Event) (s : Nat) :
    (st.parsed sid l s).srp_auth_count = st.srp_auth_count := rfl

@[simp] theorem parsed_log (st : Server) (sid : Nat) (l : List Event) (s : Nat) :
    (st.parsed sid l s).log = st.log ++ l := rfl

theorem sendLoop_log_aux (e : Ext) (sid : Nat) (key : List Nat) (log : List Event) :
    ∀ (fuel : Nat) (p : List Nat) (seq : Nat) (L0 : List Event), (∀ ev ∈ L0, ev.isWire = true) →
      ∃ L, (sendLoop e sid key fuel p seq (log ++ L0)).2 = log ++ L ∧
        ∀ ev ∈ L, ev.isWire = true := by
  intro fuel
  induction fuel with
  | zero =>
    intro p seq L0 h0
    exact ⟨L0, by simp [sendLoop], h0⟩
  | succ n ih =>
    intro p seq L0 h0
    simp only [sendLoop]
    split
    · exact ⟨L0, rfl, h0⟩
    · rw [List.append_assoc]
      apply ih
      intro ev hev
      simp only [List.mem_append, List.mem_cons, List.mem_singleton, List.not_mem_nil,
        or_false] at hev
      rcases hev with h | h | h
      · exact h0 ev h
      · subst h; rfl
      · subst h; rfl

theorem sendLoop_log (e : Ext) (sid : Nat) (key : List Nat) (fuel : Nat) (p : List Nat)
    (seq : Nat) (log : List Event) :
    ∃ L, (sendLoop e sid key fuel p seq log).2 = log ++ L ∧ ∀ ev ∈ L, ev.isWire = true := by
  have h := sendLoop_log_aux e sid key log fuel p seq [] (by simp)
  simpa using h

@[simp] theorem sent_sess_same (st : Server) (i : Nat) (L : List Event) (q : Nat) (sec : Bool) :
    (st.sent i L q sec).sess i = { st.sess i with sendSeq := q, secured := sec } := by
  simp [Server.sent]

theorem sent_sess_other (st : Server) (i j : Nat) (L : List Event) (q : Nat) (sec : Bool)
    (h : j ≠ i) : (st.sent i L q sec).sess j = st.sess j := by
  simp [Server.sent, h]

@[simp] theorem sent_pairings (st : Server) (i : Nat) (L : List Event) (q : Nat) (sec : Bool) :
    (st.sent i L q sec).pairings = st.pairings := rfl

@[simp] theorem sent_srp (st : Server) (i : Nat) (L : List Event) (q : Nat) (sec : Bool) :
    (st.sent i L q sec).srp = st.srp := rfl

@[simp] theorem sent_srp_owner (st : Server) (i : Nat) (L : List Event) (q : Nat) (sec : Bool) :
    (st.sent i L q sec).srp_owner = st.srp_owner := rfl

@[simp] theorem sent_srp_auth_count (st : Server) (i : Nat) (L : List Event) (q : Nat)
    (sec : Bool) : (st.sent i L q sec).srp_auth_count = st.srp_auth_count := rfl

@[simp] theorem sent_log (st : Server) (i : Nat) (L : List Event) (q : Nat) (sec : Bool) :
    (st.sent i L q sec).log = st.log ++ L := rfl

theorem send_spec (e : Ext) (st : Server) (i : Nat) :
    ∃ L q, (∀ ev ∈ L, ev.isWire = true) ∧
      st._send e i = (true, st.sent i L q (st.sess i).secured) ∧
      ((st.sess i).secured = false →
        L = [Event.send (st.sess i).sid (e.render (st.sess i).rsp)] ∧ q = (st.sess i).sendSeq) := by
  unfold Server._send
  by_cases hs : (st.sess i).secured = true
  · obtain ⟨L, hL, hio⟩ := sendLoop_log e (st.sess i).sid (st.sess i).AccessoryToControllerKey
      (e.render (st.sess i).rsp).length (e.render (st.sess i).rsp) (st.sess i).sendSeq st.log
    refine ⟨L, (sendLoop e (st.sess i).sid (st.sess i).AccessoryToControllerKey
      (e.render (st.sess i).rsp).length (e.render (st.sess i).rsp) (st.sess i).sendSeq st.log).1,
      hio, ?_, ?_⟩
    · simp only [hs, if_true, hL, Server.sent, Server.setSess]
    · intro h; rw [h] at hs; cases hs
  · have hs2 : (st.sess i).secured = false := by simpa using hs
    refine ⟨[Event.send (st.sess i).sid (e.render (st.sess i).rsp)], (st.sess i).sendSeq,
      ?_, ?_, ?_⟩
    · intro ev hev
      rw [List.mem_singleton.mp hev]; rfl
    · simp only [hs2, Server.sent, Server.emit]
      simp only [Bool.false_eq_true, if_false]
      congr
      funext j
      by_cases h : j = i
      · subst h; simp [hs2]
        cases hh : st.sess j
        simp [hh] at hs2
        simp [hs2]
      · simp [h]
    · intro _; exact ⟨rfl, rfl⟩

theorem sent_commit (st : Server) (i : Nat) (L : List Event) (q : Nat) (sec sec2 : Bool) :
    (st.sent i L q sec).setSess i { (st.sent i L q sec).sess i with secured := sec2 }
      = st.sent i L q sec2 := by
  simp only [Server.sent, Server.setSess]
  congr
  funext j
  by_cases h : j = i <;> simp [h]

theorem respond_spec (e : Ext) (st : Server) (i : Nat) (req : Request) (sec : Bool) :
    ∃ L q, (∀ ev ∈ L, ev.isWire = true) ∧
      st.respond e i req sec =
        (true, (st.route e i req sec).1.sent i L q (st.route e i req sec).2) ∧
      (((st.route e i req sec).1.sess i).secured = false →
        L = [Event.send ((st.route e i req sec).1.sess i).sid
              (e.render ((st.route e i req sec).1.sess i).rsp)] ∧
        q = ((st.route e i req sec).1.sess i).sendSeq) := by
  obtain ⟨L, q, hio, hs, hu⟩ := send_spec e (st.route e i req sec).1 i
  refine ⟨L, q, hio, ?_, hu⟩
  unfold Server.respond
  simp only [hs, Bool.not_true, Bool.false_eq_true, if_false]
  rw [sent_commit]

/-- What a call of `Process` that parses a request comes to: the request is routed in
the state the read loop left, the response is sent, `secured` is committed, and the call
returns true. -/
theorem Process_parsed (e : Ext) (st : Server) (sid : Nat) (recv : List RecvEv) (req : Request)
    (hsid : sid < MaxHttpSessions) (h : st.request e sid recv = some req) :
    ∃ l s L q, (∀ ev ∈ l, ev.isWire = true) ∧ (∀ ev ∈ L, ev.isWire = true) ∧
      st.Process e sid recv =
        (some true, ((st.parsed sid l s).route e sid req (st.sess sid).secured).1.sent sid L q
          ((st.parsed sid l s).route e sid req (st.sess sid).secured).2) ∧
      ((((st.parsed sid l s).route e sid req (st.sess sid).secured).1.sess sid).secured = false →
        L = [Event.send (((st.parsed sid l s).route e sid req (st.sess sid).secured).1.sess sid).sid
              (e.render (((st.parsed sid l s).route e sid req
                (st.sess sid).secured).1.sess sid).rsp)] ∧
        q = (((st.parsed sid l s).route e sid req (st.sess sid).secured).1.sess sid).sendSeq) := by
  obtain ⟨l, s, hl, hP⟩ := Process_request e st sid recv req hsid h
  obtain ⟨L, q, hL, hr, hu⟩ := respond_spec e (st.parsed sid l s) sid req (st.sess sid).secured
  refine ⟨l, s, L, q, hl, hL, ?_, hu⟩
  rw [hP, hr]

theorem isPairSetupM1_iff (e : Ext) (req : Request) :
    req.isPairSetupM1 e = true ↔
      req.method = "POST" ∧ req.path = "/pair-setup" ∧ req.hdrContentTypeTlv8 = true ∧
        req.hdrContentLength = true ∧
        Tlv.getByte (e.tlvParse req.data) Tlv.Kind.State = some Tlv.State.M1 := by
  simp [Request.isPairSetupM1, Request.isTlv, Request.state, and_assoc]

theorem route_pairSetupM1 (e : Ext) (st : Server) (i : Nat) (req : Request) (sec : Bool)
    (h : req.isPairSetupM1 e = true) :
    st.route e i req sec = ((st.withTlv e i req.data)._pairSetup1 e i, sec) := by
  obtain ⟨hm, hp, hct, hcl, hs⟩ := (isPairSetupM1_iff e req).mp h
  simp [Server.route, hm, hp, hct, hcl, Server.postPairSetup, hs, Server.withTlv]

theorem tlv_put2 (n : Nat) (t1 t2 : Tlv.Kind) (a b : Nat) (h : 6 ≤ n) :
    ((Tlv.Create.create n).put t1 [a]).put t2 [b] = ⟨n, [⟨t1, [a]⟩, ⟨t2, [b]⟩], 6⟩ := by
  have h3 : 3 ≤ n := by omega
  simp [Tlv.Create.create, Tlv.Create.put, Tlv.Create.add, Tlv.itemSize, h, h3]

/-- The response of a handler that answers its state and one error: `HTTP 200`, TLV
content type, the two items. -/
theorem error_reply (e : Ext) (s : Session) (state err : Nat) (h : 6 ≤ e.rspSize) :
    (((s.tlvBegin e state).addError err).tlvEnd).rsp =
      ⟨[Call.start Status.HTTP_200, Call.addContentType ContentTypeTlv8,
        Call.addContentLength 0, Call.end_, Call.setContentLength 6],
       Data.tlv [⟨Tlv.Kind.State, [state]⟩, ⟨Tlv.Kind.Error, [err]⟩]⟩ := by
  simp [Session.tlvBegin, Session.addError, Session.tlvEnd, tlv_put2 _ _ _ _ _ h,
    Response.start, Response.call]

theorem io_not_SRP_new (l : List Event) (h : ∀ ev ∈ l, ev.isWire = true) : Event.SRP_new ∉ l := by
  intro hm
  have := h _ hm
  simp [Event.isWire] at this

theorem io_not_configUpdate (l : List Event) (h : ∀ ev ∈ l, ev.isWire = true) :
    Event.configUpdate ∉ l := by
  intro hm
  have := h _ hm
  simp [Event.isWire] at this

theorem since_append (st st2 : Server) (l : List Event) (h : st2.log = st.log ++ l) :
    st.since st2 = l := by
  simp [Server.since, h]

/-- The handler `_pairSetup1` when the method is valid and the store is not empty. -/
theorem pairSetup1_unavailable (e : Ext) (st : Server) (i : Nat)
    (hm : Tlv.getByte (st.sess i).tlvi Tlv.Kind.Method = some Tlv.Method.PairSetupNonMfi)
    (hp : st.pairings.Count Controller.None ≠ 0) :
    st._pairSetup1 e i = (st.emit (Event.handler "_pairSetup1")).setSess i
      ((((st.sess i).tlvBegin e Tlv.State.M2).addError Tlv.Error.Unavailable).tlvEnd) := by
  have hm2 : Tlv.getByte ((st.sess i).tlvBegin e Tlv.State.M2).tlvi Tlv.Kind.Method =
      some Tlv.Method.PairSetupNonMfi := hm
  simp [Server._pairSetup1, hm2, hp]

/-! ### Effects of `_pairSetup1` -/

theorem pairSetup1_RetErr_count (st : Server) (i : Nat) (sess : Session) :
    (st.pairSetup1_RetErr i sess).srp_auth_count = st.srp_auth_count := by
  unfold Server.pairSetup1_RetErr
  split <;> rfl

theorem pairSetup1_params_count (e : Ext) (st : Server) (i : Nat) (sess : Session) :
    (st.pairSetup1_params e i sess).srp_auth_count = st.srp_auth_count := by
  unfold Server.pairSetup1_params
  split
  · rw [pairSetup1_RetErr_count]
  · split
    · rw [pairSetup1_RetErr_count]
    · split
      · rw [pairSetup1_RetErr_count]
      · dsimp only
        split
        · rw [pairSetup1_RetErr_count]
        · rfl

theorem pairSetup1_count (e : Ext) (st : Server) (i : Nat) :
    (st._pairSetup1 e i).srp_auth_count = st.srp_auth_count ∨
    ((st._pairSetup1 e i).srp_auth_count = (st.srp_auth_count + 1) % 256 ∧ st.acceptsM1 e i) := by
  unfold Server._pairSetup1
  simp only []
  split
  · left; rw [pairSetup1_RetErr_count]; rfl
  · rename_i method hm
    split
    · left; rw [pairSetup1_RetErr_count]; rfl
    · rename_i hmeth
      split
      · left; rfl
      · rename_i hcount
        split
        · left; rfl
        · rename_i hmax
          split
          · left; rfl
          · rename_i hbusy
            split
            · left; rw [pairSetup1_RetErr_count]; rfl
            · rename_i hnew
              right
              refine ⟨by rw [pairSetup1_params_count]; rfl, ?_, ?_, ?_, ?_, ?_⟩
              · simp only [ne_eq, Decidable.not_not] at hmeth
                rw [← hmeth]; exact hm
              · simpa using hcount
              · simpa using hmax
              · simpa using hbusy
              · simpa using hnew

/-! ### The attempt counter under the other handlers -/

theorem pairSetup3_count (e : Ext) (st : Server) (i : Nat) :
    (st._pairSetup3 e i).srp_auth_count = st.srp_auth_count := by
  unfold Server._pairSetup3 Server.pairSetup3_RetErr
  repeat' (first | split | dsimp only | rfl)

theorem pairSetup5_count (e : Ext) (st : Server) (i : Nat) :
    (st._pairSetup5 e i).srp_auth_count = st.srp_auth_count := by
  unfold Server._pairSetup5 Server.pairSetup5_RetErr Server.pairSetup5_RetDone
  repeat' (first | split | dsimp only | rfl)

theorem pairVerify1_count (e : Ext) (st : Server) (i : Nat) :
    (st._pairVerify1 e i).srp_auth_count = st.srp_auth_count := by
  unfold Server._pairVerify1
  repeat' (first | split | dsimp only | rfl)

theorem pairVerify3_count (e : Ext) (st : Server) (i : Nat) :
    (st._pairVerify3 e i).srp_auth_count = st.srp_auth_count := by
  unfold Server._pairVerify3
  repeat' (first | split | dsimp only | rfl)

theorem pairingAdd_count (e : Ext) (st : Server) (i : Nat) :
    (st._pairingAdd e i).srp_auth_count = st.srp_auth_count := by
  unfold Server._pairingAdd
  repeat' (first | split | dsimp only | rfl)

theorem pairingRemove_count (e : Ext) (st : Server) (i : Nat) :
    (st._pairingRemove e i).srp_auth_count = st.srp_auth_count := by
  unfold Server._pairingRemove
  repeat' (first | split | dsimp only | rfl)

theorem pairingList_count (e : Ext) (st : Server) (i : Nat) :
    (st._pairingList e i).srp_auth_count = st.srp_auth_count := by
  unfold Server._pairingList
  repeat' (first | split | dsimp only | rfl)

theorem withTlv_count (e : Ext) (st : Server) (i : Nat) (d : List Nat) :
    (st.withTlv e i d).srp_auth_count = st.srp_auth_count := rfl

/-- The shapes the result of routing can take. -/
theorem route_cases (e : Ext) (st : Server) (i : Nat) (req : Request) (sec : Bool) :
    (∃ s, st.route e i req sec = (st.setSess i s, sec)) ∨
    (∃ ev s, ev ≠ Event.SRP_new ∧ ev ≠ Event.configUpdate ∧ (st.sess i).secured = true ∧
      st.route e i req sec = ((st.emit ev).setSess i s, sec)) ∨
    (req.method = "POST" ∧ req.path = "/pair-setup" ∧ req.isTlv = true ∧
      st.route e i req sec = (st.postPairSetup e i req.data, sec)) ∨
    (req.method = "POST" ∧ req.path = "/pair-verify" ∧ req.isTlv = true ∧
      st.route e i req sec = st.postPairVerify e i req.data sec) ∨
    (req.method = "POST" ∧ req.path = "/pairings" ∧ req.isTlv = true ∧
      (st.sess i).secured = true ∧
      st.route e i req sec = (st.postPairings e i req.data, sec)) ∨
    st.route e i req sec = (st, sec) := by
  by_cases hm : req.method = "POST"
  · by_cases hp1 : req.path = "/identify"
    · left
      by_cases hc : st.pairings.Count Controller.None = 0
      · exact ⟨_, by simp [Server.route, hm, hp1, hc]; rfl⟩
      · exact ⟨_, by simp [Server.route, hm, hp1, hc]; rfl⟩
    · by_cases hp2 : req.path = "/pair-setup"
      · by_cases hct : req.hdrContentTypeTlv8 = true
        · by_cases hcl : req.hdrContentLength = true
          · right; right; left
            exact ⟨hm, hp2, by simp [Request.isTlv, hct, hcl],
              by simp [Server.route, hm, hp2, hct, hcl]⟩
          · left
            exact ⟨_, by simp [Server.route, hm, hp2, hct, hcl]; rfl⟩
        · left
          exact ⟨_, by simp [Server.route, hm, hp2, hct]; rfl⟩
      · by_cases hp3 : req.path = "/pair-verify"
        · by_cases hct : req.hdrContentTypeTlv8 = true
          · by_cases hcl : req.hdrContentLength = true
            · right; right; right; left
              exact ⟨hm, hp3, by simp [Request.isTlv, hct, hcl],
                by simp [Server.route, hm, hp3, hct, hcl]⟩
            · left
              exact ⟨_, by simp [Server.route, hm, hp3, hct, hcl]; rfl⟩
          · left
            exact ⟨_, by simp [Server.route, hm, hp3, hct]; rfl⟩
        · by_cases hp4 : req.path = "/pairings"
          · by_cases hs : (st.sess i).secured = true
            · by_cases hct : req.hdrContentTypeTlv8 = true
              · by_cases hcl : req.hdrContentLength = true
                · right; right; right; right; left
                  exact ⟨hm, hp4, by simp [Request.isTlv, hct, hcl], hs,
                    by simp [Server.route, hm, hp4, hs, hct, hcl]⟩
                · left
                  exact ⟨_, by simp [Server.route, hm, hp4, hs, hct, hcl]; rfl⟩
              · left
                exact ⟨_, by simp [Server.route, hm, hp4, hs, hct]; rfl⟩
            · left
              exact ⟨_, by simp [Server.route, hm, hp4, hs]; rfl⟩
          · left
            exact ⟨_, by simp [Server.route, hm, hp1, hp2, hp3, hp4]; rfl⟩
  · by_cases hg : req.method = "GET"
    · by_cases hs : (st.sess i).secured = true
      · by_cases hp1 : req.path = "/accessories"
        · right; left
          exact ⟨Event.getDb (st.sess i).sid, _, by simp, by simp, hs,
            by simp [Server.route, hg, hs, hp1]; rfl⟩
        · by_cases hp2 : (cstr "/characteristics?").isPrefixOf (cstr req.path) = true
          · right; left
            exact ⟨Event.Read (st.sess i).sid, _, by simp, by simp, hs,
              by simp [Server.route, hg, hs, hp1, hp2]; rfl⟩
          · left
            exact ⟨_, by simp [Server.route, hg, hs, hp1, hp2]; rfl⟩
      · left
        exact ⟨_, by simp [Server.route, hg, hs]; rfl⟩
    · by_cases hu : req.method = "PUT"
      · by_cases hp1 : req.path = "/characteristics"
        · by_cases hs : (st.sess i).secured = true
          · by_cases hct : req.hdrContentTypeJson = true
            · by_cases hcl : req.hdrContentLength = true
              · right; left
                exact ⟨Event.Write (st.sess i).sid, _, by simp, by simp, hs,
                  by simp [Server.route, hu, hs, hp1, hct, hcl]; rfl⟩
              · left
                exact ⟨_, by simp [Server.route, hu, hs, hp1, hct, hcl]; rfl⟩
            · left
              exact ⟨_, by simp [Server.route, hu, hs, hp1, hct]; rfl⟩
          · left
            exact ⟨_, by simp [Server.route, hu, hs, hp1]; rfl⟩
        · left
          exact ⟨_, by simp [Server.route, hu, hp1]; rfl⟩
      · right; right; right; right; right
        simp [Server.route, hm, hg, hu]

theorem postPairSetup_count (e : Ext) (st : Server) (i : Nat) (d : List Nat) :
    (st.postPairSetup e i d).srp_auth_count = st.srp_auth_count ∨
    ((st.postPairSetup e i d).srp_auth_count = (st.srp_auth_count + 1) % 256 ∧
      Tlv.getByte (e.tlvParse d) Tlv.Kind.State = some Tlv.State.M1 ∧
      (st.withTlv e i d).acceptsM1 e i) := by
  unfold Server.postPairSetup
  dsimp only
  rw [setSess_sess_same]
  cases hs : Tlv.getByte (e.tlvParse d) Tlv.Kind.State with
  | none => left; rfl
  | some state =>
    dsimp only
    by_cases h1 : state = Tlv.State.M1
    · rw [if_pos h1]
      rcases pairSetup1_count e (st.withTlv e i d) i with h | ⟨h, ha⟩
      · left; exact h
      · right; exact ⟨h, by rw [h1], ha⟩
    · rw [if_neg h1]
      left
      split
      · rw [pairSetup3_count]; rfl
      · split
        · rw [pairSetup5_count]; rfl
        · rfl

theorem postPairVerify_count (e : Ext) (st : Server) (i : Nat) (d : List Nat) (sec : Bool) :
    (st.postPairVerify e i d sec).1.srp_auth_count = st.srp_auth_count := by
  unfold Server.postPairVerify
  dsimp only
  split
  · rfl
  · split
    · dsimp only; rw [pairVerify1_count]; rfl
    · split
      · dsimp only; rw [pairVerify3_count]; rfl
      · rfl

theorem postPairings_count (e : Ext) (st : Server) (i : Nat) (d : List Nat) :
    (st.postPairings e i d).srp_auth_count = st.srp_auth_count := by
  unfold Server.postPairings
  dsimp only
  split
  · rfl
  · split
    · rfl
    · split
      · rfl
      · split
        · rw [pairingAdd_count]; rfl
        · split
          · rw [pairingRemove_count]; rfl
          · split
            · rw [pairingList_count]; rfl
            · rfl

theorem route_count (e : Ext) (st : Server) (i : Nat) (req : Request) (sec : Bool) :
    (st.route e i req sec).1.srp_auth_count = st.srp_auth_count ∨
    ((st.route e i req sec).1.srp_auth_count = (st.srp_auth_count + 1) % 256 ∧
      req.isPairSetupM1 e = true ∧ (st.withTlv e i req.data).acceptsM1 e i) := by
  rcases route_cases e st i req sec with ⟨s, h⟩ | ⟨ev, s, _, _, _, h⟩ | ⟨hm, hp, ht, h⟩ |
    ⟨_, _, _, h⟩ | ⟨_, _, _, _, h⟩ | h
  · left; rw [h]; rfl
  · left; rw [h]; rfl
  · rw [h]
    rcases postPairSetup_count e st i req.data with h1 | ⟨h1, h2, h3⟩
    · left; exact h1
    · right
      refine ⟨h1, ?_, h3⟩
      simp only [Request.isTlv, Bool.and_eq_true] at ht
      rw [isPairSetupM1_iff]
      exact ⟨hm, hp, ht.1, ht.2, h2⟩
  · left; rw [h]; exact postPairVerify_count e st i req.data sec
  · left; rw [h]; exact postPairings_count e st i req.data
  · left; rw [h]

/-! ### The attempt counter under the operations of the dispatcher -/

theorem goodM1_iff (e : Ext) (st : Server) (sid : Nat) (req : Request) :
    st.goodM1 e sid req = true ↔
      req.isPairSetupM1 e = true ∧ req.tlvMethod e = some Tlv.Method.PairSetupNonMfi ∧
      st.pairings.Count Controller.None = 0 ∧
      ¬ (st.srp.isSome = true ∧ st.srp_owner ≠ (st.sess sid).sid) ∧ e.SRP_new = true := by
  simp only [Server.goodM1, Bool.and_eq_true, decide_eq_true_eq, Bool.not_eq_true',
    Bool.and_eq_false_imp, decide_eq_false_iff_not, and_assoc, not_and, ne_eq]

theorem acceptedM1_iff (e : Ext) (st : Server) (sid : Nat) (req : Request) :
    st.acceptedM1 e sid req = true ↔ st.goodM1 e sid req = true ∧ st.srp_auth_count ≤ 100 := by
  simp [Server.acceptedM1]

theorem isGoodM1_iff (e : Ext) (st : Server) (sid : Nat) (recv : List RecvEv) :
    (Op.Process e sid recv).isGoodM1 st = true ↔
      sid < MaxHttpSessions ∧ ∃ req, st.request e sid recv = some req ∧
        st.goodM1 e sid req = true := by
  simp only [Op.isGoodM1, Bool.and_eq_true, decide_eq_true_eq]
  cases st.request e sid recv <;> simp

theorem isAcceptedM1_iff (e : Ext) (st : Server) (sid : Nat) (recv : List RecvEv) :
    (Op.Process e sid recv).isAcceptedM1 st = true ↔
      sid < MaxHttpSessions ∧ ∃ req, st.request e sid recv = some req ∧
        st.acceptedM1 e sid req = true := by
  simp only [Op.isAcceptedM1, Bool.and_eq_true, decide_eq_true_eq]
  cases st.request e sid recv <;> simp

theorem acceptsM1_parsed (e : Ext) (st : Server) (sid : Nat) (req : Request)
    (l : List Event) (s : Nat) (hM1 : req.isPairSetupM1 e = true) :
    ((st.parsed sid l s).withTlv e sid req.data).acceptsM1 e sid ↔
      st.acceptedM1 e sid req = true := by
  rw [acceptedM1_iff, goodM1_iff]
  simp only [Server.acceptsM1, Server.withTlv,
    setSess_sess_same, setSess_pairings, parsed_pairings, setSess_srp_auth_count,
    parsed_srp_auth_count, setSess_srp, parsed_srp, setSess_srp_owner, parsed_srp_owner,
    parsed_sess, Request.tlvMethod, hM1, true_and]
  constructor
  · rintro ⟨h1, h2, h3, h4, h5⟩
    exact ⟨⟨h1, h2, h4, h5⟩, h3⟩
  · rintro ⟨⟨h1, h2, h4, h5⟩, h3⟩
    exact ⟨h1, h2, h3, h4, h5⟩

theorem Process_count (e : Ext) (st : Server) (sid : Nat) (recv : List RecvEv) :
    (st.Process e sid recv).2.srp_auth_count = st.srp_auth_count ∨
    ((st.Process e sid recv).2.srp_auth_count = (st.srp_auth_count + 1) % 256 ∧
      (Op.Process e sid recv).isAcceptedM1 st = true) := by
  by_cases h1 : sid > MaxHttpSessions
  · left; simp [Server.Process, h1]
  · by_cases h2 : sid = MaxHttpSessions
    · left; simp [Server.Process, h2]
    · have hsid : sid < MaxHttpSessions := by omega
      cases hreq : st.request e sid recv with
      | none =>
        left
        have hf := readLoop_from e (st.setSess sid (st.sess sid).Init) sid sid recv []
        unfold Server.request at hreq
        unfold Server.Process
        simp only [h1, h2, if_false]
        cases hr : (st.setSess sid (st.sess sid).Init).readLoop e sid sid recv [] with
        | blocked st1 =>
          rw [hr] at hf
          obtain ⟨l, s, hst, _⟩ := hf
          simp only [Read.state] at hst
          simp [hst]
        | fail st1 =>
          rw [hr] at hf
          obtain ⟨l, s, hst, _⟩ := hf
          simp only [Read.state] at hst
          simp [hst]
        | request st1 req => rw [hr] at hreq; cases hreq
      | some req =>
        obtain ⟨l, s, L, q, _, _, hP, _⟩ := Process_parsed e st sid recv req hsid hreq
        rw [hP]
        rcases route_count e (st.parsed sid l s) sid req (st.sess sid).secured with h | ⟨h, hM1, ha⟩
        · left; simpa using h
        · right
          refine ⟨by simpa using h, ?_⟩
          rw [isAcceptedM1_iff]
          exact ⟨hsid, req, hreq, (acceptsM1_parsed e st sid req l s hM1).mp ha⟩

theorem send_count (e : Ext) (st : Server) (i : Nat) :
    (st._send e i).2.srp_auth_count = st.srp_auth_count := by
  obtain ⟨L, q, _, hs, _⟩ := send_spec e st i
  rw [hs]
  rfl

theorem step_count (st : Server) (op : Op) :
    (st.step op).srp_auth_count = st.srp_auth_count ∨
    ((st.step op).srp_auth_count = (st.srp_auth_count + 1) % 256 ∧
      op.isAcceptedM1 st = true) := by
  cases op with
  | Open =>
    left
    simp only [Server.step, Server.Open]
    split <;> rfl
  | Close sid =>
    left
    simp only [Server.step, Server.Close]
    split
    · rfl
    · split
      · rfl
      · split <;> rfl
  | Process e sid recv => exact Process_count e st sid recv
  | Poll e sid =>
    left
    simp only [Server.step, Server.Poll]
    split
    · rfl
    · split
      · rfl
      · split
        · rfl
        · rw [send_count]; rfl

theorem isAcceptedM1_le (st : Server) (op : Op) (h : op.isAcceptedM1 st = true) :
    st.srp_auth_count ≤ 100 := by
  cases op with
  | Process e sid recv =>
    obtain ⟨_, req, _, ha⟩ := (isAcceptedM1_iff e st sid recv).mp h
    exact ((acceptedM1_iff e st sid req).mp ha).2
  | Open => cases h
  | Close sid => cases h
  | Poll e sid => cases h

/-- One operation leaves the counter or adds exactly one to it, the latter only for an
accepted Pair-Setup M1, and keeps it within 101. -/
theorem step_count_exact (st : Server) (op : Op) :
    (st.step op).srp_auth_count = st.srp_auth_count ∨
    ((st.step op).srp_auth_count = st.srp_auth_count + 1 ∧ op.isAcceptedM1 st = true) := by
  rcases step_count st op with h | ⟨h, ha⟩
  · left; exact h
  · right
    have := isAcceptedM1_le st op ha
    refine ⟨?_, ha⟩
    rw [h]
    omega

theorem run_count_le (ops : List Op) :
    ∀ st : Server, st.srp_auth_count ≤ 101 → (st.run ops).srp_auth_count ≤ 101 := by
  induction ops with
  | nil => intro st h; exact h
  | cons op ops ih =>
    intro st h
    apply ih
    rcases step_count_exact st op with h1 | ⟨h1, ha⟩
    · rw [h1]; exact h
    · have := isAcceptedM1_le st op ha
      rw [h1]; omega

theorem run_count_ge (ops : List Op) :
    ∀ st : Server, st.srp_auth_count ≤ (st.run ops).srp_auth_count := by
  induction ops with
  | nil => intro st; exact Nat.le_refl _
  | cons op ops ih =>
    intro st
    refine Nat.le_trans ?_ (ih (st.step op))
    rcases step_count_exact st op with h1 | ⟨h1, _⟩
    · rw [h1]
    · rw [h1]; omega

/-! ### The answers of `_pairSetup1` -/

theorem pairSetup1_maxTries (e : Ext) (st : Server) (i : Nat)
    (hm : Tlv.getByte (st.sess i).tlvi Tlv.Kind.Method = some Tlv.Method.PairSetupNonMfi)
    (hp : st.pairings.Count Controller.None = 0) (hc : st.srp_auth_count > 100) :
    st._pairSetup1 e i = (st.emit (Event.handler "_pairSetup1")).setSess i
      ((((st.sess i).tlvBegin e Tlv.State.M2).addError Tlv.Error.MaxTries).tlvEnd) := by
  have hm2 : Tlv.getByte ((st.sess i).tlvBegin e Tlv.State.M2).tlvi Tlv.Kind.Method =
      some Tlv.Method.PairSetupNonMfi := hm
  simp [Server._pairSetup1, hm2, hp, hc]

theorem pairSetup1_busy (e : Ext) (st : Server) (i : Nat)
    (hm : Tlv.getByte (st.sess i).tlvi Tlv.Kind.Method = some Tlv.Method.PairSetupNonMfi)
    (hp : st.pairings.Count Controller.None = 0) (hc : st.srp_auth_count ≤ 100)
    (hs : st.srp.isSome = true) (ho : st.srp_owner ≠ (st.sess i).sid) :
    st._pairSetup1 e i = (st.emit (Event.handler "_pairSetup1")).setSess i
      ((((st.sess i).tlvBegin e Tlv.State.M2).addError Tlv.Error.Busy).tlvEnd) := by
  have hm2 : Tlv.getByte ((st.sess i).tlvBegin e Tlv.State.M2).tlvi Tlv.Kind.Method =
      some Tlv.Method.PairSetupNonMfi := hm
  have hc2 : ¬ st.srp_auth_count > 100 := by omega
  have ho2 : st.srp_owner ≠ ((st.sess i).tlvBegin e Tlv.State.M2).sid := ho
  simp [Server._pairSetup1, hm2, hp, hc2, hs, ho2]

theorem mem_put (c : Tlv.Create) (t : Tlv.Kind) (v : List Nat) (x : Tlv.Item)
    (h : x ∈ (c.put t v).items) : x ∈ c.items ∨ x = ⟨t, v⟩ := by
  unfold Tlv.Create.put Tlv.Create.add at h
  split at h
  · simp only [List.mem_append, List.mem_singleton] at h
    exact h
  · left; exact h

theorem avoids_create (x : Tlv.Item) (n : Nat) : (Tlv.Create.create n).Avoids x := by
  simp [Tlv.Create.Avoids, Tlv.Create.create]

theorem avoids_put (x : Tlv.Item) (c : Tlv.Create) (t : Tlv.Kind) (v : List Nat)
    (hc : c.Avoids x) (hx : x ≠ ⟨t, v⟩) : (c.put t v).Avoids x := by
  intro hmem
  rcases mem_put c t v x hmem with h | h
  · exact hc h
  · exact hx h

theorem answers_tlvEnd (s : Session) (err : Nat) :
    s.tlvEnd.answers err ↔ ¬ s.tlvo.Avoids ⟨Tlv.Kind.Error, [err]⟩ := by
  simp [Session.answers, Session.tlvEnd, Tlv.Create.Avoids]

theorem avoids_begin (e : Ext) (s : Session) (state err : Nat) :
    (s.tlvBegin e state).tlvo.Avoids ⟨Tlv.Kind.Error, [err]⟩ := by
  simp only [Session.tlvBegin]
  exact avoids_put _ _ _ _ (avoids_create _ _) (by simp)

theorem avoids_addError (s : Session) (err err2 : Nat) (h : s.tlvo.Avoids ⟨Tlv.Kind.Error, [err]⟩)
    (hne : err ≠ err2) : (s.addError err2).tlvo.Avoids ⟨Tlv.Kind.Error, [err]⟩ := by
  simp only [Session.addError]
  exact avoids_put _ _ _ _ h (by simp [hne])

theorem pairSetup1_RetErr_sess (st : Server) (i : Nat) (sess : Session) :
    (st.pairSetup1_RetErr i sess).sess i = (sess.addError Tlv.Error.Unknown).tlvEnd := by
  unfold Server.pairSetup1_RetErr
  split <;> simp

theorem pairSetup1_params_sess (e : Ext) (st : Server) (i : Nat) (sess : Session) :
    (st.pairSetup1_params e i sess).sess i = (sess.addError Tlv.Error.Unknown).tlvEnd ∨
    ∃ pub salt, (st.pairSetup1_params e i sess).sess i =
      Session.tlvEnd { sess with
        tlvo := (sess.tlvo.put Tlv.Kind.PublicKey pub).put Tlv.Kind.Salt salt } := by
  unfold Server.pairSetup1_params
  split
  · left; rw [pairSetup1_RetErr_sess]
  · split
    · left; rw [pairSetup1_RetErr_sess]
    · split
      · left; rw [pairSetup1_RetErr_sess]
      · dsimp only
        split
        · left; rw [pairSetup1_RetErr_sess]
        · rename_i pub _
          right
          exact ⟨pub, e.random 16, by simp⟩

theorem pairSetup1_params_not_maxTries (e : Ext) (st : Server) (i : Nat) (sess : Session)
    (hb : sess.tlvo.Avoids ⟨Tlv.Kind.Error, [Tlv.Error.MaxTries]⟩) :
    ¬ ((st.pairSetup1_params e i sess).sess i).answers Tlv.Error.MaxTries := by
  rcases pairSetup1_params_sess e st i sess with h | ⟨pub, salt, h⟩
  · rw [h, answers_tlvEnd, not_not]
    exact avoids_addError _ _ _ hb (by decide)
  · rw [h, answers_tlvEnd, not_not]
    exact avoids_put _ _ _ _ (avoids_put _ _ _ _ hb (by simp)) (by simp)

/-- While the counter is at most 100, `_pairSetup1` never answers `MaxTries`. -/
theorem pairSetup1_not_maxTries (e : Ext) (st : Server) (i : Nat)
    (hc : st.srp_auth_count ≤ 100) :
    ¬ ((st._pairSetup1 e i).sess i).answers Tlv.Error.MaxTries := by
  have hc2 : ¬ st.srp_auth_count > 100 := by omega
  have hb := avoids_begin e (st.sess i) Tlv.State.M2 Tlv.Error.MaxTries
  have hunk : ¬ (((st.sess i).tlvBegin e Tlv.State.M2).addError
      Tlv.Error.Unknown).tlvEnd.answers Tlv.Error.MaxTries := by
    rw [answers_tlvEnd, not_not]
    exact avoids_addError _ _ _ hb (by decide)
  unfold Server._pairSetup1
  simp only []
  split
  · rw [pairSetup1_RetErr_sess]; exact hunk
  · split
    · rw [pairSetup1_RetErr_sess]; exact hunk
    · split
      · rw [setSess_sess_same, answers_tlvEnd, not_not]
        exact avoids_addError _ _ _ hb (by decide)
      · split
        · rename_i h; exact absurd h hc2
        · split
          · rw [setSess_sess_same, answers_tlvEnd, not_not]
            exact avoids_addError _ _ _ hb (by decide)
          · split
            · rw [pairSetup1_RetErr_sess]; exact hunk
            · exact pairSetup1_params_not_maxTries e _ i _ hb

theorem pairSetup1_accept (e : Ext) (st : Server) (i : Nat) (h : st.acceptsM1 e i) :
    (st._pairSetup1 e i).srp_auth_count = (st.srp_auth_count + 1) % 256 := by
  obtain ⟨hm, hp, hc, hb, hn⟩ := h
  have hm2 : Tlv.getByte ((st.sess i).tlvBegin e Tlv.State.M2).tlvi Tlv.Kind.Method =
      some Tlv.Method.PairSetupNonMfi := hm
  have hc2 : ¬ st.srp_auth_count > 100 := by omega
  have hb2 : ¬ (st.srp.isSome = true ∧ ¬ st.srp_owner = ((st.sess i).tlvBegin e Tlv.State.M2).sid) :=
    hb
  unfold Server._pairSetup1
  simp only []
  split
  · rename_i h; cases h.symm.trans hm2
  · rename_i method h
    have h2 : some method = some Tlv.Method.PairSetupNonMfi := h.symm.trans hm2
    simp only [Option.some.injEq] at h2
    subst h2
    split
    · rename_i h; exact absurd rfl h
    · split
      · rename_i h; exact absurd hp h
      · split
        · rename_i h; exact absurd h hc2
        · split
          · rename_i h
            simp only [Bool.and_eq_true, decide_eq_true_eq] at h
            exact absurd h hb2
          · split
            · rename_i h; simp [hn] at h
            · rw [pairSetup1_params_count]; rfl

theorem Process_goodM1_count (e : Ext) (st : Server) (sid : Nat) (recv : List RecvEv)
    (req : Request) (hsid : sid < MaxHttpSessions) (hreq : st.request e sid recv = some req)
    (hg : st.goodM1 e sid req = true) (hc : st.srp_auth_count ≤ 100) :
    (st.Process e sid recv).2.srp_auth_count = st.srp_auth_count + 1 := by
  obtain ⟨l, s, L, q, _, _, hP, _⟩ := Process_parsed e st sid recv req hsid hreq
  have hM1 := ((goodM1_iff e st sid req).mp hg).1
  rw [hP, route_pairSetupM1 e _ sid req _ hM1]
  have ha := (acceptsM1_parsed e st sid req l s hM1).mpr
    ((acceptedM1_iff e st sid req).mpr ⟨hg, hc⟩)
  have h1 := pairSetup1_accept e _ sid ha
  have h2 : ((st.parsed sid l s).withTlv e sid req.data).srp_auth_count = st.srp_auth_count :=
    rfl
  rw [h2] at h1
  rw [sent_srp_auth_count, h1]
  omega

theorem run_goodM1_count (ops : List Op) :
    ∀ st : Server, st.allGoodM1 ops = true → st.srp_auth_count + ops.length ≤ 101 →
      (st.run ops).srp_auth_count = st.srp_auth_count + ops.length := by
  induction ops with
  | nil => intro st _ _; rfl
  | cons op ops ih =>
    intro st hg hle
    simp only [List.length_cons] at hle
    simp only [Server.allGoodM1, Bool.and_eq_true] at hg
    obtain ⟨h1, h2⟩ := hg
    cases op with
    | Process e sid recv =>
      obtain ⟨hsid, req, hreq, hgood⟩ := (isGoodM1_iff e st sid recv).mp h1
      have hstep : (st.step (Op.Process e sid recv)).srp_auth_count = st.srp_auth_count + 1 :=
        Process_goodM1_count e st sid recv req hsid hreq hgood (by omega)
      have := ih _ h2 (by rw [hstep]; omega)
      simp only [Server.run, List.length_cons]
      rw [this, hstep]
      omega
    | Open => cases h1
    | Close sid => cases h1
    | Poll e sid => cases h1

theorem tlvMethod_withTlv (e : Ext) (st : Server) (sid : Nat) (req : Request) (m : Nat)
    (h : req.tlvMethod e = some m) :
    Tlv.getByte ((st.withTlv e sid req.data).sess sid).tlvi Tlv.Kind.Method = some m := by
  simpa [Server.withTlv, Request.tlvMethod] using h

/-- A Pair-Setup M1 with a valid method, on an empty store, past the cap. -/
theorem Process_M1_maxTries (e : Ext) (st : Server) (sid : Nat) (recv : List RecvEv)
    (req : Request) (hsid : sid < MaxHttpSessions) (hreq : st.request e sid recv = some req)
    (hM1 : req.isPairSetupM1 e = true)
    (hmeth : req.tlvMethod e = some Tlv.Method.PairSetupNonMfi)
    (hp : st.pairings.Count Controller.None = 0) (hc : st.srp_auth_count > 100)
    (hroom : 6 ≤ e.rspSize) :
    ((st.Process e sid recv).2.sess sid).rsp.data =
      Data.tlv [⟨Tlv.Kind.State, [Tlv.State.M2]⟩, ⟨Tlv.Kind.Error, [Tlv.Error.MaxTries]⟩] ∧
    (st.Process e sid recv).2.srp = st.srp ∧
    (st.Process e sid recv).2.srp_owner = st.srp_owner ∧
    (st.Process e sid recv).2.srp_auth_count = st.srp_auth_count ∧
    Event.SRP_new ∉ st.since (st.Process e sid recv).2 := by
  obtain ⟨l, s, L, q, hl, hL, hP, _⟩ := Process_parsed e st sid recv req hsid hreq
  rw [hP, route_pairSetupM1 e _ sid req _ hM1]
  rw [pairSetup1_maxTries e _ sid (tlvMethod_withTlv e _ sid req _ hmeth)
    (by simpa [Server.withTlv] using hp) (by simpa [Server.withTlv] using hc)]
  refine ⟨?_, rfl, rfl, rfl, ?_⟩
  · simp [error_reply _ _ _ _ hroom]
  · rw [since_append st _ (l ++ [Event.handler "_pairSetup1"] ++ L)
      (by simp [Server.withTlv, List.append_assoc])]
    intro hmem
    simp only [List.mem_append, List.mem_singleton] at hmem
    rcases hmem with (h | h) | h
    · exact io_not_SRP_new l hl h
    · cases h
    · exact io_not_SRP_new L hL h

/-- A Pair-Setup M1 with a valid method, on an empty store, within the cap, while another
session owns the pairing. -/
theorem Process_M1_busy (e : Ext) (st : Server) (sid : Nat) (recv : List RecvEv)
    (req : Request) (hsid : sid < MaxHttpSessions) (hreq : st.request e sid recv = some req)
    (hM1 : req.isPairSetupM1 e = true)
    (hmeth : req.tlvMethod e = some Tlv.Method.PairSetupNonMfi)
    (hp : st.pairings.Count Controller.None = 0) (hc : st.srp_auth_count ≤ 100)
    (hs : st.srp.isSome = true) (ho : st.srp_owner ≠ (st.sess sid).sid)
    (hroom : 6 ≤ e.rspSize) :
    ((st.Process e sid recv).2.sess sid).rsp.data =
      Data.tlv [⟨Tlv.Kind.State, [Tlv.State.M2]⟩, ⟨Tlv.Kind.Error, [Tlv.Error.Busy]⟩] ∧
    (st.Process e sid recv).2.srp = st.srp ∧
    (st.Process e sid recv).2.srp_owner = st.srp_owner ∧
    (st.Process e sid recv).2.srp_auth_count = st.srp_auth_count ∧
    Event.SRP_new ∉ st.since (st.Process e sid recv).2 := by
  obtain ⟨l, s, L, q, hl, hL, hP, _⟩ := Process_parsed e st sid recv req hsid hreq
  rw [hP, route_pairSetupM1 e _ sid req _ hM1]
  rw [pairSetup1_busy e _ sid (tlvMethod_withTlv e _ sid req _ hmeth)
    (by simpa [Server.withTlv] using hp) (by simpa [Server.withTlv] using hc)
    (by simpa [Server.withTlv] using hs) (by simpa [Server.withTlv, Session.Init] using ho)]
  refine ⟨?_, rfl, rfl, rfl, ?_⟩
  · simp [error_reply _ _ _ _ hroom]
  · rw [since_append st _ (l ++ [Event.handler "_pairSetup1"] ++ L)
      (by simp [Server.withTlv, List.append_assoc])]
    intro hmem
    simp only [List.mem_append, List.mem_singleton] at hmem
    rcases hmem with (h | h) | h
    · exact io_not_SRP_new l hl h
    · cases h
    · exact io_not_SRP_new L hL h

theorem Process_M1_not_maxTries (e : Ext) (st : Server) (sid : Nat) (recv : List RecvEv)
    (req : Request) (hsid : sid < MaxHttpSessions) (hreq : st.request e sid recv = some req)
    (hM1 : req.isPairSetupM1 e = true) (hc : st.srp_auth_count ≤ 100) :
    ¬ ((st.Process e sid recv).2.sess sid).answers Tlv.Error.MaxTries := by
  obtain ⟨l, s, L, q, hl, hL, hP, _⟩ := Process_parsed e st sid recv req hsid hreq
  rw [hP, route_pairSetupM1 e _ sid req _ hM1]
  have := pairSetup1_not_maxTries e ((st.parsed sid l s).withTlv e sid req.data) sid
    (by simpa [Server.withTlv] using hc)
  simpa [Session.answers] using this

/-- A Pair-Setup M1 with a valid method while the store is not empty. -/
theorem Process_M1_unavailable (e : Ext) (st : Server) (sid : Nat)
    (recv : List RecvEv) (req : Request) (hsid : sid < MaxHttpSessions)
    (hreq : st.request e sid recv = some req) (hM1 : req.isPairSetupM1 e = true)
    (hmeth : req.tlvMethod e = some Tlv.Method.PairSetupNonMfi)
    (hpaired : st.pairings.Count Controller.None ≠ 0) (hroom : 6 ≤ e.rspSize) :
    ((st.Process e sid recv).2.sess sid).rsp.data =
      Data.tlv [⟨Tlv.Kind.State, [Tlv.State.M2]⟩, ⟨Tlv.Kind.Error, [Tlv.Error.Unavailable]⟩] ∧
    (st.Process e sid recv).2.srp = st.srp ∧
    (st.Process e sid recv).2.srp_owner = st.srp_owner ∧
    (st.Process e sid recv).2.srp_auth_count = st.srp_auth_count ∧
    Event.SRP_new ∉ st.since (st.Process e sid recv).2 := by
  obtain ⟨l, s, L, q, hl, hL, hP, _⟩ := Process_parsed e st sid recv req hsid hreq
  rw [hP, route_pairSetupM1 e _ sid req _ hM1]
  have hm : Tlv.getByte (((st.parsed sid l s).withTlv e sid req.data).sess sid).tlvi
      Tlv.Kind.Method = some Tlv.Method.PairSetupNonMfi := by
    simpa [Server.withTlv, Request.tlvMethod] using hmeth
  rw [pairSetup1_unavailable e _ sid hm (by simpa [Server.withTlv] using hpaired)]
  refine ⟨?_, rfl, rfl, rfl, ?_⟩
  · simp [error_reply _ _ _ _ hroom]
  · rw [since_append st _ (l ++ [Event.handler "_pairSetup1"] ++ L)
      (by simp [Server.withTlv, List.append_assoc])]
    intro hmem
    simp only [List.mem_append, List.mem_singleton] at hmem
    rcases hmem with (h | h) | h
    · exact io_not_SRP_new l hl h
    · cases h
    · exact io_not_SRP_new L hL h

/-! ### Secured resources on a session that is not secured -/

theorem route_unsecured (e : Ext) (st : Server) (i : Nat) (req : Request) (sec : Bool)
    (hs : (st.sess i).secured = false) (hr : req.isSecuredResource = true) :
    st.route e i req sec = (st.setSess i ((st.sess i).reply Status.HTTP_470), sec) := by
  simp only [Request.isSecuredResource, Bool.or_eq_true, Bool.and_eq_true,
    decide_eq_true_eq] at hr
  rcases hr with ((⟨hm, hp⟩ | ⟨hm, hp⟩) | ⟨hm, hp⟩) | ⟨hm, hp⟩
  · simp [Server.route, hm, hp, hs]
  · simp [Server.route, hm, hs]
  · simp [Server.route, hm, hs]
  · simp [Server.route, hm, hp, hs]

theorem io_not_handler (ev : Event) (h : ev.isWire = true) :
    (∀ name, ev ≠ Event.handler name) ∧ (∀ s, ev ≠ Event.getDb s) ∧
    (∀ s, ev ≠ Event.Read s) ∧ (∀ s, ev ≠ Event.Write s) := by
  refine ⟨?_, ?_, ?_, ?_⟩ <;> intro x hx <;> subst hx <;> simp [Event.isWire] at h

theorem Process_unsecured (e : Ext) (st : Server) (sid : Nat) (recv : List RecvEv)
    (req : Request) (hsid : sid < MaxHttpSessions) (hreq : st.request e sid recv = some req)
    (hs : (st.sess sid).secured = false) (hr : req.isSecuredResource = true) :
    (st.Process e sid recv).1 = some true ∧
    ((st.Process e sid recv).2.sess sid).rsp = ⟨[Call.start Status.HTTP_470, Call.end_], Data.none⟩ ∧
    ((st.Process e sid recv).2.sess sid).secured = false ∧
    (st.Process e sid recv).2.pairings = st.pairings ∧
    ∀ ev ∈ st.since (st.Process e sid recv).2,
      (∀ name, ev ≠ Event.handler name) ∧ (∀ s, ev ≠ Event.getDb s) ∧
      (∀ s, ev ≠ Event.Read s) ∧ (∀ s, ev ≠ Event.Write s) := by
  obtain ⟨l, s, L, q, hl, hL, hP, _⟩ := Process_parsed e st sid recv req hsid hreq
  have hs2 : ((st.parsed sid l s).sess sid).secured = false := by simpa [Session.Init] using hs
  rw [hP, route_unsecured e _ sid req _ hs2 hr]
  refine ⟨rfl, ?_, ?_, rfl, ?_⟩
  · simp [Session.reply, Response.start, Response.call]
  · simpa using hs
  · rw [since_append st _ (l ++ L) (by simp [List.append_assoc])]
    intro ev hev
    apply io_not_handler
    rcases List.mem_append.mp hev with h | h
    · exact hl ev h
    · exact hL ev h

/-! ### The admin gate of `/pairings` -/

theorem isPairings_iff (e : Ext) (req : Request) :
    req.isPairings e = true ↔
      req.method = "POST" ∧ req.path = "/pairings" ∧ req.hdrContentTypeTlv8 = true ∧
        req.hdrContentLength = true ∧
        Tlv.getByte (e.tlvParse req.data) Tlv.Kind.State = some Tlv.State.M1 ∧
        (Tlv.getByte (e.tlvParse req.data) Tlv.Kind.Method = some Tlv.Method.AddPairing ∨
         Tlv.getByte (e.tlvParse req.data) Tlv.Kind.Method = some Tlv.Method.RemovePairing ∨
         Tlv.getByte (e.tlvParse req.data) Tlv.Kind.Method = some Tlv.Method.ListPairing) := by
  simp [Request.isPairings, Request.isTlv, Request.state, Request.tlvMethod, and_assoc,
    or_assoc]

theorem pairingAdd_nonadmin (e : Ext) (st : Server) (i : Nat)
    (h : st.iosPerm (st.sess i) ≠ Controller.Admin) :
    st._pairingAdd e i = (st.emit (Event.handler "_pairingAdd")).setSess i
      ((((st.sess i).tlvBegin e Tlv.State.M2).addError Tlv.Error.Authentication).tlvEnd) := by
  have h2 : (st.emit (Event.handler "_pairingAdd")).iosPerm
      (((st.emit (Event.handler "_pairingAdd")).sess i).tlvBegin e Tlv.State.M2) ≠ Controller.Admin := h
  unfold Server._pairingAdd
  simp only []
  rw [if_pos h2]
  rfl

theorem pairingRemove_nonadmin (e : Ext) (st : Server) (i : Nat)
    (h : st.iosPerm (st.sess i) ≠ Controller.Admin) :
    st._pairingRemove e i = (st.emit (Event.handler "_pairingRemove")).setSess i
      ((((st.sess i).tlvBegin e Tlv.State.M2).addError Tlv.Error.Authentication).tlvEnd) := by
  have h2 : (st.emit (Event.handler "_pairingRemove")).iosPerm
      (((st.emit (Event.handler "_pairingRemove")).sess i).tlvBegin e Tlv.State.M2) ≠
        Controller.Admin := h
  unfold Server._pairingRemove
  simp only []
  rw [if_pos h2]
  rfl

theorem pairingList_nonadmin (e : Ext) (st : Server) (i : Nat)
    (h : st.iosPerm (st.sess i) ≠ Controller.Admin) :
    st._pairingList e i = (st.emit (Event.handler "_pairingList")).setSess i
      ((((st.sess i).tlvBegin e Tlv.State.M2).addError Tlv.Error.Authentication).tlvEnd) := by
  have h2 : (st.emit (Event.handler "_pairingList")).iosPerm
      (((st.emit (Event.handler "_pairingList")).sess i).tlvBegin e Tlv.State.M2) ≠
        Controller.Admin := h
  unfold Server._pairingList
  simp only []
  rw [if_pos h2]
  rfl

/-- A pairings request from a controller that is not an admin: the handler writes the
error and nothing else happens. -/
theorem route_pairings_nonadmin (e : Ext) (st : Server) (i : Nat) (req : Request) (sec : Bool)
    (hs : (st.sess i).secured = true) (hp : req.isPairings e = true)
    (hperm : st.iosPerm (st.sess i) ≠ Controller.Admin) :
    ∃ name, st.route e i req sec =
      (((st.withTlv e i req.data).emit (Event.handler name)).setSess i
        (((((st.withTlv e i req.data).sess i).tlvBegin e Tlv.State.M2).addError
          Tlv.Error.Authentication).tlvEnd), sec) := by
  obtain ⟨hm, hpath, hct, hcl, hstate, hmeth⟩ := (isPairings_iff e req).mp hp
  have hperm2 : (st.withTlv e i req.data).iosPerm ((st.withTlv e i req.data).sess i) ≠
      Controller.Admin := by
    simpa [Server.withTlv, Server.iosPerm] using hperm
  have hr : st.route e i req sec = (st.postPairings e i req.data, sec) := by
    simp [Server.route, hm, hpath, hs, hct, hcl]
  rw [hr]
  unfold Server.postPairings
  simp only []
  have hw : st.setSess i { st.sess i with tlvi := e.tlvParse req.data } =
      st.withTlv e i req.data := rfl
  rw [hw]
  have hst : Tlv.getByte ((st.withTlv e i req.data).sess i).tlvi Tlv.Kind.State =
      some Tlv.State.M1 := by simpa [Server.withTlv] using hstate
  rcases hmeth with h | h | h
  · have hme : Tlv.getByte ((st.withTlv e i req.data).sess i).tlvi Tlv.Kind.Method =
        some Tlv.Method.AddPairing := by simpa [Server.withTlv] using h
    refine ⟨"_pairingAdd", ?_⟩
    simp only [hst, hme]
    simp [pairingAdd_nonadmin e _ i hperm2]
  · have hme : Tlv.getByte ((st.withTlv e i req.data).sess i).tlvi Tlv.Kind.Method =
        some Tlv.Method.RemovePairing := by simpa [Server.withTlv] using h
    refine ⟨"_pairingRemove", ?_⟩
    simp only [hst, hme]
    simp [pairingRemove_nonadmin e _ i hperm2, Tlv.Method.RemovePairing, Tlv.Method.AddPairing]
  · have hme : Tlv.getByte ((st.withTlv e i req.data).sess i).tlvi Tlv.Kind.Method =
        some Tlv.Method.ListPairing := by simpa [Server.withTlv] using h
    refine ⟨"_pairingList", ?_⟩
    simp only [hst, hme]
    simp [pairingList_nonadmin e _ i hperm2, Tlv.Method.RemovePairing, Tlv.Method.AddPairing,
      Tlv.Method.ListPairing]

theorem Process_pairings_nonadmin (e : Ext) (st : Server) (sid : Nat) (recv : List RecvEv)
    (req : Request) (hsid : sid < MaxHttpSessions) (hreq : st.request e sid recv = some req)
    (hs : (st.sess sid).secured = true) (hp : req.isPairings e = true)
    (hperm : st.iosPerm (st.sess sid) ≠ Controller.Admin) (hroom : 6 ≤ e.rspSize) :
    ((st.Process e sid recv).2.sess sid).rsp.data =
      Data.tlv [⟨Tlv.Kind.State, [Tlv.State.M2]⟩,
        ⟨Tlv.Kind.Error, [Tlv.Error.Authentication]⟩] ∧
    (st.Process e sid recv).2.pairings = st.pairings ∧
    Event.configUpdate ∉ st.since (st.Process e sid recv).2 := by
  obtain ⟨l, s, L, q, hl, hL, hP, _⟩ := Process_parsed e st sid recv req hsid hreq
  have hs2 : ((st.parsed sid l s).sess sid).secured = true := by simpa [Session.Init] using hs
  have hperm2 : (st.parsed sid l s).iosPerm ((st.parsed sid l s).sess sid) ≠ Controller.Admin := by
    simpa [Server.iosPerm, Session.Init] using hperm
  obtain ⟨name, hr⟩ := route_pairings_nonadmin e _ sid req (st.sess sid).secured hs2 hp hperm2
  rw [hP, hr]
  refine ⟨?_, rfl, ?_⟩
  · simp [error_reply _ _ _ _ hroom]
  · rw [since_append st _ (l ++ [Event.handler name] ++ L)
      (by simp [Server.withTlv, List.append_assoc])]
    intro hmem
    simp only [List.mem_append, List.mem_singleton] at hmem
    rcases hmem with (h | h) | h
    · exact io_not_configUpdate l hl h
    · cases h
    · exact io_not_configUpdate L hL h

/-! ### Pair-Verify M3 -/

theorem isPairVerifyM3_iff (e : Ext) (req : Request) :
    req.isPairVerifyM3 e = true ↔
      req.method = "POST" ∧ req.path = "/pair-verify" ∧ req.hdrContentTypeTlv8 = true ∧
        req.hdrContentLength = true ∧
        Tlv.getByte (e.tlvParse req.data) Tlv.Kind.State = some Tlv.State.M3 := by
  simp [Request.isPairVerifyM3, Request.isTlv, Request.state, and_assoc]

theorem route_pairVerifyM3 (e : Ext) (st : Server) (i : Nat) (req : Request) (sec : Bool)
    (h : req.isPairVerifyM3 e = true) :
    st.route e i req sec = ((st.withTlv e i req.data)._pairVerify3 e i,
      (((st.withTlv e i req.data)._pairVerify3 e i).sess i).ios.isSome) := by
  obtain ⟨hm, hp, hct, hcl, hs⟩ := (isPairVerifyM3_iff e req).mp h
  simp [Server.route, hm, hp, hct, hcl, Server.postPairVerify, hs, Server.withTlv,
    Tlv.State.M3, Tlv.State.M1]

/-- The local variable `secured` leaves the routing as it entered it, but for a
Pair-Verify M3. -/
theorem route_snd (e : Ext) (st : Server) (i : Nat) (req : Request) (sec : Bool) :
    (st.route e i req sec).2 = sec ∨ req.isPairVerifyM3 e = true := by
  rcases route_cases e st i req sec with ⟨s, h⟩ | ⟨ev, s, _, _, _, h⟩ | ⟨_, _, _, h⟩ |
    ⟨hm, hp, ht, h⟩ | ⟨_, _, _, _, h⟩ | h
  · left; rw [h]
  · left; rw [h]
  · left; rw [h]
  · rw [h]
    unfold Server.postPairVerify
    simp only [setSess_sess_same]
    cases hs : Tlv.getByte (e.tlvParse req.data) Tlv.Kind.State with
    | none => left; rfl
    | some state =>
      by_cases h1 : state = Tlv.State.M1
      · left; simp [h1]
      · by_cases h3 : state = Tlv.State.M3
        · right
          simp only [Request.isTlv, Bool.and_eq_true] at ht
          rw [isPairVerifyM3_iff]
          exact ⟨hm, hp, ht.1, ht.2, by rw [hs, h3]⟩
        · left; simp [h1, h3]
  · left; rw [h]
  · left; rw [h]

/-- The three ways `_pairVerify3` ends that the claims speak of, from the value of
`EncryptedData` in `tlvi`: the tag does not verify; the tag verifies and the identifier of
the sub-TLV is not paired; the tag verifies and the identifier is paired. -/
theorem pairVerify3_cases (e : Ext) (st : Server) (i : Nat) (enc : List Nat)
    (henc : Tlv.getBuf (st.sess i).tlvi Tlv.Kind.EncryptedData e.sizeofdata = some enc) :
    ((openEncrypted e (st.sess i).key noncePV03 enc).2.2 = false →
      st._pairVerify3 e i =
        ((st.emit (Event.handler "_pairVerify3")).emit
          (Event.aead false (st.sess i).key noncePV03
            (openEncrypted e (st.sess i).key noncePV03 enc).1)).setSess i
          ((((st.sess i).tlvBegin e Tlv.State.M4).addError Tlv.Error.Authentication).tlvEnd)) ∧
    (∀ id sg, (openEncrypted e (st.sess i).key noncePV03 enc).2.2 = true →
      Tlv.get (e.tlvParse (openEncrypted e (st.sess i).key noncePV03 enc).2.1)
        Tlv.Kind.Identifier = some id →
      Tlv.get (e.tlvParse (openEncrypted e (st.sess i).key noncePV03 enc).2.1)
        Tlv.Kind.Signature = some sg →
      st.pairings.Get id = none →
      st._pairVerify3 e i =
        ((st.emit (Event.handler "_pairVerify3")).emit
          (Event.aead false (st.sess i).key noncePV03
            (openEncrypted e (st.sess i).key noncePV03 enc).1)).setSess i
          ((((st.sess i).tlvBegin e Tlv.State.M4).addError Tlv.Error.Authentication).tlvEnd)) ∧
    (∀ id sg ios, (openEncrypted e (st.sess i).key noncePV03 enc).2.2 = true →
      Tlv.get (e.tlvParse (openEncrypted e (st.sess i).key noncePV03 enc).2.1)
        Tlv.Kind.Identifier = some id →
      Tlv.get (e.tlvParse (openEncrypted e (st.sess i).key noncePV03 enc).2.1)
        Tlv.Kind.Signature = some sg →
      st.pairings.Get id = some ios →
      st._pairVerify3 e i =
        ((st.emit (Event.handler "_pairVerify3")).emit
          (Event.aead false (st.sess i).key noncePV03
            (openEncrypted e (st.sess i).key noncePV03 enc).1)).setSess i
          (Session.tlvEnd { (st.sess i).tlvBegin e Tlv.State.M4 with
            AccessoryToControllerKey := e.hkdf (cstr "Control-Salt") (st.sess i).curve.shared
              (cstr "Control-Read-Encryption-Key") 32
            ControllerToAccessoryKey := e.hkdf (cstr "Control-Salt") (st.sess i).curve.shared
              (cstr "Control-Write-Encryption-Key") 32
            ios := some ios })) := by
  have henc2 : Tlv.getBuf (((st.emit (Event.handler "_pairVerify3")).sess i).tlvBegin e
      Tlv.State.M4).tlvi Tlv.Kind.EncryptedData e.sizeofdata = some enc := henc
  refine ⟨?_, ?_, ?_⟩
  · intro htag
    have htag2 : (openEncrypted e (((st.emit (Event.handler "_pairVerify3")).sess i).tlvBegin e
      Tlv.State.M4).key noncePV03 enc).2.2 = false := htag
    unfold Server._pairVerify3
    simp only [henc2, htag2]
    rfl
  · intro id sg htag hid hsg hget
    have htag2 : (openEncrypted e (((st.emit (Event.handler "_pairVerify3")).sess i).tlvBegin e
      Tlv.State.M4).key noncePV03 enc).2.2 = true := htag
    have hid2 : Tlv.get (e.tlvParse (openEncrypted e
      (((st.emit (Event.handler "_pairVerify3")).sess i).tlvBegin e Tlv.State.M4).key
        noncePV03 enc).2.1) Tlv.Kind.Identifier = some id := hid
    have hsg2 : Tlv.get (e.tlvParse (openEncrypted e
      (((st.emit (Event.handler "_pairVerify3")).sess i).tlvBegin e Tlv.State.M4).key
        noncePV03 enc).2.1) Tlv.Kind.Signature = some sg := hsg
    unfold Server._pairVerify3
    simp only [henc2, htag2, hid2, hsg2]
    simp [hget]
    rfl
  · intro id sg ios htag hid hsg hget
    have htag2 : (openEncrypted e (((st.emit (Event.handler "_pairVerify3")).sess i).tlvBegin e
      Tlv.State.M4).key noncePV03 enc).2.2 = true := htag
    have hid2 : Tlv.get (e.tlvParse (openEncrypted e
      (((st.emit (Event.handler "_pairVerify3")).sess i).tlvBegin e Tlv.State.M4).key
        noncePV03 enc).2.1) Tlv.Kind.Identifier = some id := hid
    have hsg2 : Tlv.get (e.tlvParse (openEncrypted e
      (((st.emit (Event.handler "_pairVerify3")).sess i).tlvBegin e Tlv.State.M4).key
        noncePV03 enc).2.1) Tlv.Kind.Signature = some sg := hsg
    unfold Server._pairVerify3
    simp only [henc2, htag2, hid2, hsg2]
    simp [hget]
    rfl

theorem error_ios (e : Ext) (s : Session) (state err : Nat) :
    (((s.tlvBegin e state).addError err).tlvEnd).ios = s.ios := rfl

/-- On a session with no bound controller `_pairVerify3` binds one only when the tag of
`EncryptedData` verifies, the sub-TLV has identifier and signature, and the identifier is
paired. -/
theorem pairVerify3_binds (e : Ext) (st : Server) (i : Nat) (h0 : (st.sess i).ios = none)
    (h : (((st._pairVerify3 e i).sess i).ios).isSome = true) :
    ∃ enc id sg ios,
      Tlv.getBuf (st.sess i).tlvi Tlv.Kind.EncryptedData e.sizeofdata = some enc ∧
      (openEncrypted e (st.sess i).key noncePV03 enc).2.2 = true ∧
      Tlv.get (e.tlvParse (openEncrypted e (st.sess i).key noncePV03 enc).2.1)
        Tlv.Kind.Identifier = some id ∧
      Tlv.get (e.tlvParse (openEncrypted e (st.sess i).key noncePV03 enc).2.1)
        Tlv.Kind.Signature = some sg ∧
      st.pairings.Get id = some ios := by
  unfold Server._pairVerify3 at h
  simp only [] at h
  split at h
  · simp [error_ios, h0] at h
  · rename_i enc henc
    split at h
    · simp [error_ios, h0] at h
    · rename_i htag
      split at h
      · simp [error_ios, h0] at h
      · rename_i id hid
        split at h
        · simp [error_ios, h0] at h
        · rename_i sg hsg
          split at h
          · simp [error_ios, h0] at h
          · rename_i ios hget
            exact ⟨enc, id, sg, ios, henc, by simpa using htag, hid, hsg, hget⟩

/-- A call of `Process` that does not get to a parsed request leaves the flag `secured`
and the bound controller of the session as they were. -/
theorem Process_unparsed (e : Ext) (st : Server) (sid : Nat) (recv : List RecvEv)
    (h : ¬ sid < MaxHttpSessions ∨ st.request e sid recv = none) :
    ((st.Process e sid recv).2.sess sid).secured = (st.sess sid).secured ∧
    ((st.Process e sid recv).2.sess sid).ios = (st.sess sid).ios := by
  by_cases h1 : sid > MaxHttpSessions
  · simp [Server.Process, h1]
  · by_cases h2 : sid = MaxHttpSessions
    · simp [Server.Process, h2]
    · have hsid : sid < MaxHttpSessions := by omega
      rcases h with h | hreq
      · exact absurd hsid h
      · have hf := readLoop_from e (st.setSess sid (st.sess sid).Init) sid sid recv []
        unfold Server.request at hreq
        unfold Server.Process
        simp only [h1, h2, if_false]
        cases hr : (st.setSess sid (st.sess sid).Init).readLoop e sid sid recv [] with
        | blocked st1 =>
          rw [hr] at hf
          obtain ⟨l, s, hst, _⟩ := hf
          simp only [Read.state] at hst
          simp [hst, Session.Init]
        | fail st1 =>
          rw [hr] at hf
          obtain ⟨l, s, hst, _⟩ := hf
          simp only [Read.state] at hst
          simp [hst, Session.Init]
        | request st1 req => rw [hr] at hreq; cases hreq

theorem m3_of_tlvi (e : Ext) (st : Server) (sid : Nat) (req : Request) (l : List Event)
    (s : Nat) :
    Tlv.getBuf (((st.parsed sid l s).withTlv e sid req.data).sess sid).tlvi
        Tlv.Kind.EncryptedData e.sizeofdata = req.m3Data e ∧
    (((st.parsed sid l s).withTlv e sid req.data).sess sid).key = (st.sess sid).key ∧
    (((st.parsed sid l s).withTlv e sid req.data).sess sid).ios = (st.sess sid).ios ∧
    (((st.parsed sid l s).withTlv e sid req.data).sess sid).secured = (st.sess sid).secured ∧
    (((st.parsed sid l s).withTlv e sid req.data).sess sid).sendSeq = (st.sess sid).sendSeq ∧
    (((st.parsed sid l s).withTlv e sid req.data).sess sid).sid = (st.sess sid).sid ∧
    ((st.parsed sid l s).withTlv e sid req.data).pairings = st.pairings := by
  simp [Server.withTlv, Request.m3Data, Session.Init]

/-- What `Process` does with a Pair-Verify M3 whose tag does not verify or whose
identifier is not paired. -/
theorem Process_M3_rejected (e : Ext) (st : Server) (sid : Nat) (recv : List RecvEv)
    (req : Request) (hsid : sid < MaxHttpSessions) (hreq : st.request e sid recv = some req)
    (hi : (st.sess sid).ios = none) (hroom : 6 ≤ e.rspSize)
    (hM3 : req.isPairVerifyM3 e = true)
    (hbad : req.m3TagOk e (st.sess sid).key = some false ∨
      (req.m3TagOk e (st.sess sid).key = some true ∧
        ∃ id sg, Tlv.get (req.m3Sub e (st.sess sid).key) Tlv.Kind.Identifier = some id ∧
          Tlv.get (req.m3Sub e (st.sess sid).key) Tlv.Kind.Signature = some sg ∧
          st.pairings.Get id = none)) :
    ((st.Process e sid recv).2.sess sid).rsp.data =
      Data.tlv [⟨Tlv.Kind.State, [Tlv.State.M4]⟩,
        ⟨Tlv.Kind.Error, [Tlv.Error.Authentication]⟩] ∧
    ((st.Process e sid recv).2.sess sid).secured = false ∧
    ((st.Process e sid recv).2.sess sid).ios = none := by
  obtain ⟨l, s, L, q, hl, hL, hP, _⟩ := Process_parsed e st sid recv req hsid hreq
  obtain ⟨hdata, hkey, hios, _, _, _, hpair⟩ := m3_of_tlvi e st sid req l s
  rw [hP, route_pairVerifyM3 e _ sid req _ hM3]
  have key : ∃ enc, Tlv.getBuf (((st.parsed sid l s).withTlv e sid req.data).sess sid).tlvi
      Tlv.Kind.EncryptedData e.sizeofdata = some enc ∧
      ((st.parsed sid l s).withTlv e sid req.data)._pairVerify3 e sid =
        ((((st.parsed sid l s).withTlv e sid req.data).emit (Event.handler "_pairVerify3")).emit
          (Event.aead false (((st.parsed sid l s).withTlv e sid req.data).sess sid).key noncePV03
            (openEncrypted e (((st.parsed sid l s).withTlv e sid req.data).sess sid).key
              noncePV03 enc).1)).setSess sid
          ((((((st.parsed sid l s).withTlv e sid req.data).sess sid).tlvBegin e
            Tlv.State.M4).addError Tlv.Error.Authentication).tlvEnd) := by
    rcases hbad with hbad | ⟨htag, id, sg, hid, hsg, hget⟩
    · simp only [Request.m3TagOk, Option.map_eq_some'] at hbad
      obtain ⟨enc, henc, htag⟩ := hbad
      refine ⟨enc, by rw [hdata, henc], ?_⟩
      exact (pairVerify3_cases e _ sid enc (by rw [hdata, henc])).1 (by rw [hkey]; exact htag)
    · simp only [Request.m3TagOk, Option.map_eq_some'] at htag
      obtain ⟨enc, henc, htag⟩ := htag
      simp only [Request.m3Sub, henc] at hid hsg
      refine ⟨enc, by rw [hdata, henc], ?_⟩
      exact (pairVerify3_cases e _ sid enc (by rw [hdata, henc])).2.1 id sg
        (by rw [hkey]; exact htag) (by rw [hkey]; exact hid) (by rw [hkey]; exact hsg)
        (by rw [hpair]; exact hget)
  obtain ⟨enc, _, hh⟩ := key
  rw [hh]
  refine ⟨?_, ?_, ?_⟩
  · simp [error_reply _ _ _ _ hroom]
  · simp [error_ios, hios, hi]
  · simp [error_ios, hios, hi]

/-- On a session that is neither secured nor bound, `Process` ends with `secured` set
only for a Pair-Verify M3 whose tag verifies and whose identifier is paired. -/
theorem Process_secured_only (e : Ext) (st : Server) (sid : Nat) (recv : List RecvEv)
    (hs : (st.sess sid).secured = false) (hi : (st.sess sid).ios = none)
    (h : ((st.Process e sid recv).2.sess sid).secured = true) :
    ∃ req id ios, st.request e sid recv = some req ∧ req.isPairVerifyM3 e = true ∧
      req.m3TagOk e (st.sess sid).key = some true ∧
      Tlv.get (req.m3Sub e (st.sess sid).key) Tlv.Kind.Identifier = some id ∧
      st.pairings.Get id = some ios := by
  by_cases hsid : sid < MaxHttpSessions
  · cases hreq : st.request e sid recv with
    | none =>
      have := (Process_unparsed e st sid recv (Or.inr hreq)).1
      rw [this, hs] at h
      cases h
    | some req =>
      obtain ⟨l, s, L, q, hl, hL, hP, _⟩ := Process_parsed e st sid recv req hsid hreq
      obtain ⟨hdata, hkey, hios, _, _, _, hpair⟩ := m3_of_tlvi e st sid req l s
      rw [hP] at h
      simp only [sent_sess_same] at h
      rcases route_snd e (st.parsed sid l s) sid req (st.sess sid).secured with h2 | hM3
      · rw [h2, hs] at h
        cases h
      · rw [route_pairVerifyM3 e _ sid req _ hM3] at h
        simp only [] at h
        obtain ⟨enc, id, sg, ios, henc, htag, hid, hsg, hget⟩ :=
          pairVerify3_binds e _ sid (by rw [hios, hi]) h
        rw [hdata] at henc
        rw [hkey] at htag hid
        rw [hpair] at hget
        refine ⟨req, id, ios, rfl, hM3, ?_, ?_, hget⟩
        · simp [Request.m3TagOk, henc, htag]
        · simp [Request.m3Sub, henc, hid]
  · have := (Process_unparsed e st sid recv (Or.inl hsid)).1
    rw [this, hs] at h
    cases h

theorem tlv_put1 (n : Nat) (t1 : Tlv.Kind) (a : Nat) (h : 3 ≤ n) :
    (Tlv.Create.create n).put t1 [a] = ⟨n, [⟨t1, [a]⟩], 3⟩ := by
  simp [Tlv.Create.create, Tlv.Create.put, Tlv.Create.add, Tlv.itemSize, h]

/-- What `Process` does with a Pair-Verify M3 that verifies, phase by phase. -/
theorem Process_M3_accepted (e : Ext) (st : Server) (sid : Nat) (recv : List RecvEv)
    (req : Request) (id sg : List Nat) (ios : Nat) (hsid : sid < MaxHttpSessions)
    (hreq : st.request e sid recv = some req) (hs : (st.sess sid).secured = false)
    (hM3 : req.isPairVerifyM3 e = true)
    (htag : req.m3TagOk e (st.sess sid).key = some true)
    (hid : Tlv.get (req.m3Sub e (st.sess sid).key) Tlv.Kind.Identifier = some id)
    (hsg : Tlv.get (req.m3Sub e (st.sess sid).key) Tlv.Kind.Signature = some sg)
    (hget : st.pairings.Get id = some ios) (hroom : 3 ≤ e.rspSize) :
    ∃ l s, (∀ ev ∈ l, ev.isWire = true) ∧
      ((st.handled e sid req l s).sess sid).secured = false ∧
      ((st.handled e sid req l s).sess sid).ios = some ios ∧
      ((st.handled e sid req l s).sess sid).rsp.data =
        Data.tlv [⟨Tlv.Kind.State, [Tlv.State.M4]⟩] ∧
      (st.handedOff e sid req l s).log = (st.handled e sid req l s).log ++
        [Event.send (st.sess sid).sid (e.render ((st.handled e sid req l s).sess sid).rsp)] ∧
      ((st.handedOff e sid req l s).sess sid).secured = false ∧
      ((st.handedOff e sid req l s).sess sid).sendSeq = (st.sess sid).sendSeq ∧
      ((st.handedOff e sid req l s).sess sid).rsp = ((st.handled e sid req l s).sess sid).rsp ∧
      st.Process e sid recv = (some true, (st.handedOff e sid req l s).setSess sid
        { (st.handedOff e sid req l s).sess sid with secured := true }) := by
  obtain ⟨l, s, hl, hP⟩ := Process_request e st sid recv req hsid hreq
  obtain ⟨hdata, hkey, hios, hsec, hseq, hsidf, hpair⟩ := m3_of_tlvi e st sid req l s
  simp only [Request.m3TagOk, Option.map_eq_some'] at htag
  obtain ⟨enc, henc, htag⟩ := htag
  simp only [Request.m3Sub, henc] at hid hsg
  have hh := (pairVerify3_cases e ((st.parsed sid l s).withTlv e sid req.data) sid enc
    (by rw [hdata, henc])).2.2 id sg ios
    (by rw [hkey]; exact htag) (by rw [hkey]; exact hid) (by rw [hkey]; exact hsg)
    (by rw [hpair]; exact hget)
  have hroute := route_pairVerifyM3 e (st.parsed sid l s) sid req (st.sess sid).secured hM3
  have h1 : ((st.handled e sid req l s).sess sid).secured = false := by
    simp only [Server.handled, hroute, hh, setSess_sess_same]
    simpa [Session.tlvEnd, Session.tlvBegin] using hsec.trans hs
  have h2 : ((st.handled e sid req l s).sess sid).ios = some ios := by
    simp only [Server.handled, hroute, hh, setSess_sess_same]
    rfl
  have h3 : ((st.handled e sid req l s).sess sid).sid = (st.sess sid).sid := by
    simp only [Server.handled, hroute, hh, setSess_sess_same]
    simpa [Session.tlvEnd, Session.tlvBegin] using hsidf
  have h4 : ((st.handled e sid req l s).sess sid).sendSeq = (st.sess sid).sendSeq := by
    simp only [Server.handled, hroute, hh, setSess_sess_same]
    simpa [Session.tlvEnd, Session.tlvBegin] using hseq
  have h5 : ((st.parsed sid l s).route e sid req (st.sess sid).secured).2 = true := by
    have : (((st.parsed sid l s).route e sid req (st.sess sid).secured).1.sess sid).ios =
      some ios := h2
    rw [hroute] at this ⊢
    simp only [] at this ⊢
    rw [this]
    rfl
  obtain ⟨L, q, _, hsend, hu⟩ := send_spec e (st.handled e sid req l s) sid
  obtain ⟨hL, hq⟩ := hu h1
  refine ⟨l, s, hl, h1, h2, ?_, ?_, ?_, ?_, ?_, ?_⟩
  · simp only [Server.handled, hroute, hh, setSess_sess_same]
    simp [Session.tlvEnd, Session.tlvBegin, tlv_put1 _ _ _ hroom]
  · simp only [Server.handedOff, hsend, sent_log, hL, h3]
  · simp only [Server.handedOff, hsend, sent_sess_same, h1]
  · simp only [Server.handedOff, hsend, sent_sess_same, hq, h4]
  · simp only [Server.handedOff, hsend, sent_sess_same]
  · rw [hP]
    unfold Server.respond
    have hsend2 : ((st.parsed sid l s).route e sid req (st.sess sid).secured).1._send e sid =
      (true, (st.handled e sid req l s).sent sid L q
        ((st.handled e sid req l s).sess sid).secured) := hsend
    simp only [hsend2, h5, Server.handedOff, hsend]
    rfl

/-! ### The record layer, inbound -/

theorem readLoop_oversize (e : Ext) (st : Server) (i sid : Nat) (recv : List RecvEv)
    (b0 b1 : Nat) (hsec : (st.sess i).secured = true) (hsize : 2 ≤ e.sizeofdata)
    (hfirst : firstTwo recv = some (b0, b1)) (hbig : MaxHttpBlock < b0 + b1 * 256) :
    st.readLoop e i sid recv [] = Read.fail st := by
  obtain ⟨n, hn⟩ : ∃ n, e.sizeofdata = n + 2 := ⟨e.sizeofdata - 2, by omega⟩
  match recv, hfirst with
  | RecvEv.data (c0 :: c1 :: rest) :: tl, hfirst =>
    simp only [firstTwo, Option.some.injEq, Prod.mk.injEq] at hfirst
    obtain ⟨h0, h1⟩ := hfirst
    subst h0 h1
    simp [Server.readLoop, hn, hsec, hbig]
  | RecvEv.data [c0] :: RecvEv.data (c1 :: rest) :: tl, hfirst =>
    simp only [firstTwo, Option.some.injEq, Prod.mk.injEq] at hfirst
    obtain ⟨h0, h1⟩ := hfirst
    subst h0 h1
    simp [Server.readLoop, hn, hsec, hbig]

theorem tryParse_secured (e : Ext) (st : Server) (i sid : Nat) (bytes : List Nat)
    (hsec : (st.sess i).secured = true) : ∃ r, st.tryParse e i sid bytes = some r := by
  unfold Server.tryParse
  cases e.parse bytes with
  | Error => exact ⟨_, rfl⟩
  | Success req => exact ⟨_, rfl⟩
  | Incomplete =>
    have : ((st.emit (Event.parse bytes)).sess i).secured = true := hsec
    simp only [this, if_true]
    exact ⟨_, rfl⟩

theorem take_of_append (r rest full : List Nat) (k : Nat) (h : r ++ rest = full) (hk : k ≤ r.length) :
    r.take k = full.take k := by
  rw [← h, List.take_append_of_le_length hk]

theorem drop_take_of_append (r rest full : List Nat) (k m : Nat) (h : r ++ rest = full)
    (hk : k + m ≤ r.length) : (r.drop k).take m = (full.drop k).take m := by
  rw [← h, List.drop_append_of_le_length (by omega), List.take_append_of_le_length
    (by rw [List.length_drop]; omega)]

/-- The read loop on a secured session to which `recv` delivers, in any number of
non-empty chunks, a record of at most `MaxHttpBlock` bytes whose tag verifies, possibly
followed by more bytes: the record is decrypted once and the decrypted bytes are parsed. -/
theorem readLoop_record (e : Ext) (st : Server) (i sid : Nat) (ct tag extra : List Nat)
    (tl : List RecvEv) (hn : ct.length ≤ MaxHttpBlock) (htl : tag.length = 16)
    (hsec : (st.sess i).secured = true)
    (hfit : (record ct tag ++ extra).length ≤ e.sizeofdata)
    (hok : (e.aead false (st.sess i).ControllerToAccessoryKey (nonceOf (st.sess i).recvSeq) ct
      (lenBytes ct.length)).2 = tag) :
    ∀ (chunks : List (List Nat)) (buf : List Nat), (∀ c ∈ chunks, c ≠ []) →
      buf ++ chunks.flatten = record ct tag ++ extra → buf.length < 2 + ct.length + 16 →
      ∃ r, (st.decrypted i ct.length).tryParse e i sid
          (e.aead false (st.sess i).ControllerToAccessoryKey (nonceOf (st.sess i).recvSeq) ct
            (lenBytes ct.length)).1 = some r ∧
        st.readLoop e i sid (chunks.map RecvEv.data ++ tl) buf = r := by
  intro chunks
  induction chunks with
  | nil =>
    intro buf _ heq hlen
    simp only [List.flatten_nil, List.append_nil] at heq
    have := congrArg List.length heq
    simp [record, lenBytes, htl] at this
    omega
  | cons c cs ih =>
    intro buf hne heq hlen
    have hc : c ≠ [] := hne c (List.mem_cons_self _ _)
    have hcs : ∀ c ∈ cs, c ≠ [] := fun x hx => hne x (List.mem_cons_of_mem _ hx)
    have heq2 : (buf ++ c) ++ cs.flatten = record ct tag ++ extra := by
      rw [List.append_assoc]; simpa using heq
    have hrec : (record ct tag).length = 2 + ct.length + 16 := by
      simp [record, lenBytes, htl]; omega
    have hbc : buf.length + c.length ≤ e.sizeofdata := by
      have := congrArg List.length heq2
      simp only [List.length_append] at this hfit
      omega
    have htake : c.take (e.sizeofdata - buf.length) = c :=
      List.take_of_length_le (by omega)
    have hcl : c.length ≠ 0 := by
      intro h; exact hc (List.length_eq_zero.mp h)
    simp only [List.map_cons, List.cons_append, Server.readLoop, htake, hcl, if_false, hsec,
      if_true]
    by_cases h2 : (buf ++ c).length < 2
    · simp only [h2, if_true]
      exact ih (buf ++ c) hcs heq2 (by omega)
    · simp only [h2, if_false]
      have hg0 : (buf ++ c).getD 0 0 = ct.length % 256 := by
        have h := take_of_append (buf ++ c) cs.flatten _ 1 heq2 (by omega)
        rcases hb : buf ++ c with _ | ⟨x, r⟩
        · rw [hb] at h2; simp at h2
        · rw [hb] at h
          simp [record, lenBytes] at h
          simp [h]
      have hg1 : (buf ++ c).getD 1 0 = ct.length / 256 % 256 := by
        have h := take_of_append (buf ++ c) cs.flatten _ 2 heq2 (by omega)
        rcases hb : buf ++ c with _ | ⟨x, _ | ⟨y, r⟩⟩
        · rw [hb] at h2; simp at h2
        · rw [hb] at h2; simp at h2
        · rw [hb] at h
          simp [record, lenBytes] at h
          simp [h]
      have haad : (buf ++ c).getD 0 0 + (buf ++ c).getD 1 0 * 256 = ct.length := by
        rw [hg0, hg1]
        have : ct.length ≤ 1024 := hn
        omega
      have hnb : ¬ ct.length > MaxHttpBlock := by omega
      simp only [haad, hnb, if_false]
      by_cases h3 : (buf ++ c).length < 2 + ct.length + 16
      · simp only [h3, if_true]
        exact ih (buf ++ c) hcs heq2 h3
      · simp only [h3, if_false]
        have ht2 : (buf ++ c).take 2 = lenBytes ct.length := by
          rw [take_of_append (buf ++ c) cs.flatten _ 2 heq2 (by omega)]
          simp [record, lenBytes]
        have hct : ((buf ++ c).drop 2).take ct.length = ct := by
          rw [drop_take_of_append (buf ++ c) cs.flatten _ 2 ct.length heq2 (by omega)]
          simp [record, lenBytes]
        have htg : ((buf ++ c).drop (2 + ct.length)).take 16 = tag := by
          rw [drop_take_of_append (buf ++ c) cs.flatten _ (2 + ct.length) 16 heq2 (by omega)]
          have : List.drop (2 + ct.length) (record ct tag ++ extra) = tag ++ extra := by
            have h1 : record ct tag ++ extra = (lenBytes ct.length ++ ct) ++ (tag ++ extra) := by
              simp [record]
            rw [h1, List.drop_left' (by simp [lenBytes]; omega)]
          rw [this, List.take_left' htl]
        simp only [ht2, hct, htg, hok, ne_eq, not_true_eq_false, if_false]
        obtain ⟨r, hr⟩ := tryParse_secured e (st.decrypted i ct.length) i sid
          (e.aead false (st.sess i).ControllerToAccessoryKey (nonceOf (st.sess i).recvSeq) ct
            (lenBytes ct.length)).1 (by simpa [Server.decrypted] using hsec)
        refine ⟨r, hr, ?_⟩
        have hr2 := hr
        simp only [Server.decrypted, hsec] at hr2
        simp only [hr2]

theorem Process_oversize (e : Ext) (st : Server) (sid : Nat) (recv : List RecvEv)
    (b0 b1 : Nat) (hsid : sid < MaxHttpSessions) (hsec : (st.sess sid).secured = true)
    (hsize : MaxHttpFrame ≤ e.sizeofdata) (hfirst : firstTwo recv = some (b0, b1))
    (hbig : MaxHttpBlock < b0 + b1 * 256) :
    st.Process e sid recv = (some false, st.setSess sid (st.sess sid).Init) := by
  have h1 : ¬ sid > MaxHttpSessions := by omega
  have h2 : ¬ sid = MaxHttpSessions := by omega
  have hs : 2 ≤ e.sizeofdata := by
    have : MaxHttpFrame = 1042 := rfl
    omega
  unfold Server.Process
  simp only [h1, h2, if_false]
  rw [readLoop_oversize e _ sid sid recv b0 b1 (by simpa [Session.Init] using hsec) hs hfirst hbig]

theorem readEvent_closes (e : Ext) (st st1 : Server) (sd sid : Nat) (recv : List RecvEv)
    (hsid : sid < MaxHttpSessions) (hP : st.Process e sid recv = (some false, st1))
    (hopen : (st1.sess sid).opened = true) :
    ∃ st2, TcpImpl.readEvent e st ⟨sd, sid⟩ recv = some (⟨0, sid_invalid⟩, st2) ∧
      (st2.sess sid).opened = false := by
  have hne : sid ≠ sid_invalid := by
    have : MaxHttpSessions = 8 := rfl
    have : sid_invalid = 255 := rfl
    omega
  have hmax : ¬ sid > sid_max := by
    have : MaxHttpSessions = 8 := rfl
    have : sid_max = 7 := rfl
    omega
  refine ⟨(st1.Close sid).2, ?_, ?_⟩
  · simp [TcpImpl.readEvent, hne, hP]
  · unfold Server.Close
    simp only [hmax, if_false, hopen]
    simp only [Bool.not_true, Bool.false_eq_true, if_false]
    split <;> simp [Session.closed]

theorem aead_length (e : Ext) (enc : Bool) (key nonce data aad : List Nat) :
    (e.aead enc key nonce data aad).1.length = data.length := by
  simp [Ext.aead, padTo]

theorem Process_record (e : Ext) (st : Server) (sid : Nat) (ct tag extra : List Nat)
    (chunks : List (List Nat)) (tl : List RecvEv) (hsid : sid < MaxHttpSessions)
    (hsec : (st.sess sid).secured = true) (hn : ct.length ≤ MaxHttpBlock)
    (htl : tag.length = 16) (hfit : (record ct tag ++ extra).length ≤ e.sizeofdata)
    (hok : (e.aead false (st.sess sid).ControllerToAccessoryKey (nonceOf (st.sess sid).recvSeq)
      ct (lenBytes ct.length)).2 = tag)
    (hne : ∀ c ∈ chunks, c ≠ []) (hdel : chunks.flatten = record ct tag ++ extra) :
    (e.aead false (st.sess sid).ControllerToAccessoryKey (nonceOf (st.sess sid).recvSeq)
      ct (lenBytes ct.length)).1.length = ct.length ∧
    (∃ r, ((st.setSess sid (st.sess sid).Init).decrypted sid ct.length).tryParse e sid sid
        (e.aead false (st.sess sid).ControllerToAccessoryKey (nonceOf (st.sess sid).recvSeq)
          ct (lenBytes ct.length)).1 = some r ∧
      (st.setSess sid (st.sess sid).Init).readLoop e sid sid
        (chunks.map RecvEv.data ++ tl) [] = r) ∧
    (∀ req, e.parse (e.aead false (st.sess sid).ControllerToAccessoryKey
        (nonceOf (st.sess sid).recvSeq) ct (lenBytes ct.length)).1 = ParseStatus.Success req →
      st.request e sid (chunks.map RecvEv.data ++ tl) = some req ∧
      (st.Process e sid (chunks.map RecvEv.data ++ tl)).1 = some true) := by
  have hloop := readLoop_record e (st.setSess sid (st.sess sid).Init) sid sid ct tag extra tl hn
    htl (by simpa [Session.Init] using hsec) hfit
    (by simpa [Session.Init] using hok) chunks [] hne (by simpa using hdel)
    (by simp only [List.length_nil]; omega)
  simp only [setSess_sess_same] at hloop
  have hloop2 : ∃ r, ((st.setSess sid (st.sess sid).Init).decrypted sid ct.length).tryParse e
      sid sid (e.aead false (st.sess sid).ControllerToAccessoryKey
        (nonceOf (st.sess sid).recvSeq) ct (lenBytes ct.length)).1 = some r ∧
      (st.setSess sid (st.sess sid).Init).readLoop e sid sid
        (chunks.map RecvEv.data ++ tl) [] = r := hloop
  refine ⟨aead_length _ _ _ _ _ _, hloop2, ?_⟩
  intro req hparse
  obtain ⟨r, hr, hrl⟩ := hloop2
  unfold Server.tryParse at hr
  rw [hparse] at hr
  simp only [Option.some.injEq] at hr
  have hreq : st.request e sid (chunks.map RecvEv.data ++ tl) = some req := by
    unfold Server.request
    rw [hrl, ← hr]
  refine ⟨hreq, ?_⟩
  obtain ⟨l, s, L, q, _, _, hP, _⟩ := Process_parsed e st sid _ req hsid hreq
  rw [hP]

/-! ### The link state of a session under the handlers -/

theorem sameLinks_refl (st : Server) (i : Nat) : st.SameLinks st i :=
  ⟨fun _ _ => rfl, rfl, rfl, rfl, rfl, rfl⟩

theorem sameLinks_trans (a b c : Server) (i : Nat) (h1 : a.SameLinks b i)
    (h2 : b.SameLinks c i) : a.SameLinks c i := by
  obtain ⟨f1, o1, s1, c1, q1, r1⟩ := h1
  obtain ⟨f2, o2, s2, c2, q2, r2⟩ := h2
  exact ⟨fun j hj => (f2 j hj).trans (f1 j hj), o2.trans o1, s2.trans s1, c2.trans c1,
    q2.trans q1, r2.trans r1⟩

theorem sameLinks_set (st st1 : Server) (i : Nat) (s : Session) (h1 : st1.sess = st.sess)
    (h : s.SameLink (st.sess i)) : st.SameLinks (st1.setSess i s) i := by
  refine ⟨fun j hj => ?_, ?_⟩
  · simp [Server.setSess, hj, h1]
  · simpa using h

theorem sameLinks_withTlv (e : Ext) (st : Server) (i : Nat) (d : List Nat) :
    st.SameLinks (st.withTlv e i d) i :=
  sameLinks_set st st i _ rfl ⟨rfl, rfl, rfl, rfl, rfl⟩

theorem pairSetup1_RetErr_links (st0 st : Server) (i : Nat) (sess : Session)
    (h1 : st.sess = st0.sess) (h : sess.SameLink (st0.sess i)) :
    st0.SameLinks (st.pairSetup1_RetErr i sess) i := by
  unfold Server.pairSetup1_RetErr
  dsimp only
  split
  · exact sameLinks_set _ _ _ _ h1 h
  · exact sameLinks_set _ _ _ _ h1 h

theorem pairSetup1_params_links (e : Ext) (st0 st : Server) (i : Nat) (sess : Session)
    (h1 : st.sess = st0.sess) (h : sess.SameLink (st0.sess i)) :
    st0.SameLinks (st.pairSetup1_params e i sess) i := by
  unfold Server.pairSetup1_params
  repeat' (first
    | split
    | dsimp only
    | exact pairSetup1_RetErr_links st0 _ i _ h1 h
    | exact sameLinks_set _ _ _ _ h1 h)

theorem pairSetup1_links (e : Ext) (st : Server) (i : Nat) :
    st.SameLinks (st._pairSetup1 e i) i := by
  have hb : ((st.sess i).tlvBegin e Tlv.State.M2).SameLink (st.sess i) :=
    ⟨rfl, rfl, rfl, rfl, rfl⟩
  unfold Server._pairSetup1
  repeat' (first
    | split
    | dsimp only
    | exact pairSetup1_RetErr_links st _ i _ rfl hb
    | exact pairSetup1_params_links e st _ i _ rfl hb
    | exact sameLinks_set _ _ _ _ rfl hb)

theorem pairSetup3_RetErr_links (st0 st : Server) (i : Nat) (sess : Session)
    (h1 : st.sess = st0.sess) (h : sess.SameLink (st0.sess i)) :
    st0.SameLinks (st.pairSetup3_RetErr i sess) i := by
  unfold Server.pairSetup3_RetErr
  dsimp only
  split
  · exact sameLinks_set _ _ _ _ h1 h
  · exact sameLinks_set _ _ _ _ h1 h

theorem pairSetup3_links (e : Ext) (st : Server) (i : Nat) :
    st.SameLinks (st._pairSetup3 e i) i := by
  have hb : ((st.sess i).tlvBegin e Tlv.State.M4).SameLink (st.sess i) :=
    ⟨rfl, rfl, rfl, rfl, rfl⟩
  unfold Server._pairSetup3
  repeat' (first
    | split
    | dsimp only
    | exact pairSetup3_RetErr_links st _ i _ rfl hb
    | exact sameLinks_set _ _ _ _ rfl hb)

theorem pairSetup5_RetDone_links (st0 st : Server) (i : Nat) (sess : Session)
    (h1 : st.sess = st0.sess) (h : sess.SameLink (st0.sess i)) :
    st0.SameLinks (st.pairSetup5_RetDone i sess) i := by
  unfold Server.pairSetup5_RetDone
  dsimp only
  split
  · exact sameLinks_set _ _ _ _ h1 h
  · exact sameLinks_set _ _ _ _ h1 h

theorem pairSetup5_links (e : Ext) (st : Server) (i : Nat) :
    st.SameLinks (st._pairSetup5 e i) i := by
  have hb : ((st.sess i).tlvBegin e Tlv.State.M6).SameLink (st.sess i) :=
    ⟨rfl, rfl, rfl, rfl, rfl⟩
  unfold Server._pairSetup5 Server.pairSetup5_RetErr
  repeat' (first
    | split
    | dsimp only
    | exact pairSetup5_RetDone_links st _ i _ rfl hb
    | exact sameLinks_set _ _ _ _ rfl hb)

theorem pairVerify1_links (e : Ext) (st : Server) (i : Nat) :
    st.SameLinks (st._pairVerify1 e i) i := by
  have hb : ((st.sess i).tlvBegin e Tlv.State.M2).SameLink (st.sess i) :=
    ⟨rfl, rfl, rfl, rfl, rfl⟩
  unfold Server._pairVerify1
  repeat' (first
    | split
    | dsimp only
    | exact sameLinks_set _ _ _ _ rfl hb)

theorem pairVerify3_links (e : Ext) (st : Server) (i : Nat) :
    st.SameLinks (st._pairVerify3 e i) i := by
  have hb : ((st.sess i).tlvBegin e Tlv.State.M4).SameLink (st.sess i) :=
    ⟨rfl, rfl, rfl, rfl, rfl⟩
  unfold Server._pairVerify3
  repeat' (first
    | split
    | dsimp only
    | exact sameLinks_set _ _ _ _ rfl hb)

theorem pairingAdd_links (e : Ext) (st : Server) (i : Nat) :
    st.SameLinks (st._pairingAdd e i) i := by
  have hb : ((st.sess i).tlvBegin e Tlv.State.M2).SameLink (st.sess i) :=
    ⟨rfl, rfl, rfl, rfl, rfl⟩
  unfold Server._pairingAdd
  repeat' (first
    | split
    | dsimp only
    | exact sameLinks_set _ _ _ _ rfl hb)

theorem pairingRemove_links (e : Ext) (st : Server) (i : Nat) :
    st.SameLinks (st._pairingRemove e i) i := by
  have hb : ((st.sess i).tlvBegin e Tlv.State.M2).SameLink (st.sess i) :=
    ⟨rfl, rfl, rfl, rfl, rfl⟩
  unfold Server._pairingRemove
  repeat' (first
    | split
    | dsimp only
    | exact sameLinks_set _ _ _ _ rfl hb)

theorem pairingList_links (e : Ext) (st : Server) (i : Nat) :
    st.SameLinks (st._pairingList e i) i := by
  have hb : ((st.sess i).tlvBegin e Tlv.State.M2).SameLink (st.sess i) :=
    ⟨rfl, rfl, rfl, rfl, rfl⟩
  unfold Server._pairingList
  repeat' (first
    | split
    | dsimp only
    | exact sameLinks_set _ _ _ _ rfl hb)

theorem postPairSetup_links (e : Ext) (st : Server) (i : Nat) (d : List Nat) :
    st.SameLinks (st.postPairSetup e i d) i := by
  have hw := sameLinks_withTlv e st i d
  unfold Server.postPairSetup
  dsimp only
  split
  · exact hw
  · split
    · exact sameLinks_trans _ _ _ i hw (pairSetup1_links e _ i)
    · split
      · exact sameLinks_trans _ _ _ i hw (pairSetup3_links e _ i)
      · split
        · exact sameLinks_trans _ _ _ i hw (pairSetup5_links e _ i)
        · exact hw

theorem postPairVerify_links (e : Ext) (st : Server) (i : Nat) (d : List Nat) (sec : Bool) :
    st.SameLinks (st.postPairVerify e i d sec).1 i := by
  have hw := sameLinks_withTlv e st i d
  unfold Server.postPairVerify
  dsimp only
  split
  · exact hw
  · split
    · exact sameLinks_trans _ _ _ i hw (pairVerify1_links e _ i)
    · split
      · exact sameLinks_trans _ _ _ i hw (pairVerify3_links e _ i)
      · exact hw

theorem postPairings_links (e : Ext) (st : Server) (i : Nat) (d : List Nat) :
    st.SameLinks (st.postPairings e i d) i := by
  have hw := sameLinks_withTlv e st i d
  have hr : ∀ status, st.SameLinks ((st.withTlv e i d).setSess i
      (((st.withTlv e i d).sess i).reply status)) i := fun status =>
    sameLinks_trans _ _ _ i hw (sameLinks_set _ _ _ _ rfl ⟨rfl, rfl, rfl, rfl, rfl⟩)
  unfold Server.postPairings
  dsimp only
  split
  · exact hr _
  · split
    · exact hr _
    · split
      · exact hr _
      · split
        · exact sameLinks_trans _ _ _ i hw (pairingAdd_links e _ i)
        · split
          · exact sameLinks_trans _ _ _ i hw (pairingRemove_links e _ i)
          · split
            · exact sameLinks_trans _ _ _ i hw (pairingList_links e _ i)
            · exact hr _

theorem replyJson_link (s : Session) (r : Status × List Nat) : (s.replyJson r).SameLink s := by
  unfold Session.replyJson
  split <;> exact ⟨rfl, rfl, rfl, rfl, rfl⟩

/-- Routing a request keeps the other sessions and the link state of the session. -/
theorem route_links (e : Ext) (st : Server) (i : Nat) (req : Request) (sec : Bool) :
    st.SameLinks (st.route e i req sec).1 i := by
  have hset : ∀ (st1 : Server) (s : Session), st1.sess = st.sess → s.SameLink (st.sess i) →
      st.SameLinks (st1.setSess i s) i := fun st1 s h1 h => sameLinks_set st st1 i s h1 h
  by_cases hm : req.method = "POST"
  · by_cases hp1 : req.path = "/identify"
    · by_cases hc : st.pairings.Count Controller.None = 0
      · simp only [Server.route, hm, hp1, hc, if_true]
        refine hset _ _ rfl ⟨?_, ?_, ?_, ?_, ?_⟩ <;> rfl
      · simp only [Server.route, hm, hp1, hc, if_true, if_false]
        refine hset _ _ rfl ⟨?_, ?_, ?_, ?_, ?_⟩ <;> rfl
    · by_cases hp2 : req.path = "/pair-setup"
      · by_cases hct : req.hdrContentTypeTlv8 = true
        · by_cases hcl : req.hdrContentLength = true
          · simp [Server.route, hm, hp2, hct, hcl]
            exact postPairSetup_links e st i req.data
          · simp [Server.route, hm, hp2, hct, hcl]
            refine hset _ _ rfl ⟨?_, ?_, ?_, ?_, ?_⟩ <;> rfl
        · simp [Server.route, hm, hp2, hct]
          refine hset _ _ rfl ⟨?_, ?_, ?_, ?_, ?_⟩ <;> rfl
      · by_cases hp3 : req.path = "/pair-verify"
        · by_cases hct : req.hdrContentTypeTlv8 = true
          · by_cases hcl : req.hdrContentLength = true
            · simp [Server.route, hm, hp3, hct, hcl]
              exact postPairVerify_links e st i req.data sec
            · simp [Server.route, hm, hp3, hct, hcl]
              refine hset _ _ rfl ⟨?_, ?_, ?_, ?_, ?_⟩ <;> rfl
          · simp [Server.route, hm, hp3, hct]
            refine hset _ _ rfl ⟨?_, ?_, ?_, ?_, ?_⟩ <;> rfl
        · by_cases hp4 : req.path = "/pairings"
          · by_cases hs : (st.sess i).secured = true
            · by_cases hct : req.hdrContentTypeTlv8 = true
              · by_cases hcl : req.hdrContentLength = true
                · simp [Server.route, hm, hp4, hs, hct, hcl]
                  exact postPairings_links e st i req.data
                · simp [Server.route, hm, hp4, hs, hct, hcl]
                  refine hset _ _ rfl ⟨?_, ?_, ?_, ?_, ?_⟩ <;> rfl
              · simp [Server.route, hm, hp4, hs, hct]
                refine hset _ _ rfl ⟨?_, ?_, ?_, ?_, ?_⟩ <;> rfl
            · simp [Server.route, hm, hp4, hs]
              refine hset _ _ rfl ⟨?_, ?_, ?_, ?_, ?_⟩ <;> rfl
          · simp [Server.route, hm, hp1, hp2, hp3, hp4]
            refine hset _ _ rfl ⟨?_, ?_, ?_, ?_, ?_⟩ <;> rfl
  · by_cases hg : req.method = "GET"
    · by_cases hs : (st.sess i).secured = true
      · by_cases hp1 : req.path = "/accessories"
        · simp [Server.route, hg, hs, hp1]
          refine hset _ _ rfl ⟨?_, ?_, ?_, ?_, ?_⟩ <;> first | rfl | simp [*]
        · by_cases hp2 : (cstr "/characteristics?").isPrefixOf (cstr req.path) = true
          · simp [Server.route, hg, hs, hp1, hp2]
            refine hset _ _ rfl ⟨?_, ?_, ?_, ?_, ?_⟩ <;>
            (unfold Session.replyJson; split <;> rfl)
          · simp [Server.route, hg, hs, hp1, hp2]
            refine hset _ _ rfl ⟨?_, ?_, ?_, ?_, ?_⟩ <;> rfl
      · simp [Server.route, hg, hs]
        refine hset _ _ rfl ⟨?_, ?_, ?_, ?_, ?_⟩ <;> rfl
    · by_cases hu : req.method = "PUT"
      · by_cases hp1 : req.path = "/characteristics"
        · by_cases hs : (st.sess i).secured = true
          · by_cases hct : req.hdrContentTypeJson = true
            · by_cases hcl : req.hdrContentLength = true
              · simp [Server.route, hu, hs, hp1, hct, hcl]
                refine hset _ _ rfl ⟨?_, ?_, ?_, ?_, ?_⟩ <;>
            (unfold Session.replyJson; split <;> rfl)
              · simp [Server.route, hu, hs, hp1, hct, hcl]
                refine hset _ _ rfl ⟨?_, ?_, ?_, ?_, ?_⟩ <;> rfl
            · simp [Server.route, hu, hs, hp1, hct]
              refine hset _ _ rfl ⟨?_, ?_, ?_, ?_, ?_⟩ <;> rfl
          · simp [Server.route, hu, hs, hp1]
            refine hset _ _ rfl ⟨?_, ?_, ?_, ?_, ?_⟩ <;> rfl
        · simp [Server.route, hu, hp1]
          refine hset _ _ rfl ⟨?_, ?_, ?_, ?_, ?_⟩ <;> rfl
      · simp [Server.route, hm, hg, hu]
        exact sameLinks_refl st i

/-! ### The record layer, outbound -/

theorem blocks_nil : blocks [] = [] := by
  simp [blocks, MaxHttpBlock]

theorem blocks_cons (p : List Nat) (h : p.length ≠ 0) :
    blocks p = p.take MaxHttpBlock :: blocks (p.drop MaxHttpBlock) := by
  have hn : (p.length + (MaxHttpBlock - 1)) / MaxHttpBlock =
      ((p.drop MaxHttpBlock).length + (MaxHttpBlock - 1)) / MaxHttpBlock + 1 := by
    simp only [List.length_drop, MaxHttpBlock]
    omega
  unfold blocks
  rw [hn, List.range_succ_eq_map, List.map_cons, List.map_map]
  simp only [Nat.zero_mul, List.drop_zero, List.cons.injEq, true_and]
  apply List.map_congr_left
  intro k _
  simp only [Function.comp, List.drop_drop]
  congr 2
  simp only [Nat.succ_eq_add_one]
  ring

theorem le64_mod (n : Nat) : le64 (n % 2 ^ 64) = le64 n := by
  unfold le64
  apply List.map_congr_left
  intro i hi
  have hi8 : i < 8 := List.mem_range.mp hi
  have h64 : (2 : Nat) ^ 64 = 256 ^ i * 256 * 256 ^ (7 - i) := by
    have : (2 : Nat) ^ 64 = 256 ^ 8 := by norm_num
    rw [this, ← pow_succ, ← pow_add]
    congr 1
    omega
  rw [h64, Nat.mul_assoc, Nat.mod_mul_right_div_self, Nat.mod_mul_right_mod]

theorem nonceOf_mod (n : Nat) : nonceOf (n % 2 ^ 64) = nonceOf n := by
  unfold nonceOf
  rw [le64_mod]

theorem recordEvents_mod (e : Ext) (sid : Nat) (key : List Nat) (bs : List (List Nat)) :
    ∀ seq, recordEvents e sid key (seq % 2 ^ 64) bs = recordEvents e sid key seq bs := by
  induction bs with
  | nil => intro seq; rfl
  | cons b bs ih =>
    intro seq
    simp only [recordEvents, nonceOf_mod]
    rw [← ih (seq % 2 ^ 64 + 1), ← ih (seq + 1)]
    congr 3
    omega

theorem seqAfter_succ (seq n : Nat) : seqAfter ((seq + 1) % 2 ^ 64) n = seqAfter seq (n + 1) := by
  unfold seqAfter
  by_cases h : n = 0
  · simp [h]
  · simp only [h, if_false, Nat.add_eq_zero_iff, one_ne_zero, and_false]
    omega

/-- The loop of `_send` comes to an end and sends the blocks of the data, in order, each as
one record. -/
theorem sendLoop_blocks (e : Ext) (sid : Nat) (key : List Nat) :
    ∀ (fuel : Nat) (p : List Nat) (seq : Nat) (log : List Event), p.length ≤ fuel →
      sendLoop e sid key fuel p seq log =
        (seqAfter seq (blocks p).length, log ++ recordEvents e sid key seq (blocks p)) := by
  intro fuel
  induction fuel with
  | zero =>
    intro p seq log h
    have hp : p = [] := List.length_eq_zero.mp (by omega)
    subst hp
    simp [sendLoop, blocks_nil, recordEvents, seqAfter]
  | succ n ih =>
    intro p seq log h
    by_cases hp : p.length = 0
    · have hp2 : p = [] := List.length_eq_zero.mp hp
      subst hp2
      simp [sendLoop, blocks_nil, recordEvents, seqAfter]
    · have htake : p.take (if p.length > MaxHttpBlock then MaxHttpBlock else p.length) =
          p.take MaxHttpBlock := by
        split
        · rfl
        · rw [List.take_of_length_le (Nat.le_refl _), List.take_of_length_le (by omega)]
      have hdrop : p.drop (if p.length > MaxHttpBlock then MaxHttpBlock else p.length) =
          p.drop MaxHttpBlock := by
        split
        · rfl
        · rw [List.drop_of_length_le (Nat.le_refl _), List.drop_of_length_le (by omega)]
      have hlen : (if p.length > MaxHttpBlock then MaxHttpBlock else p.length) =
          (p.take MaxHttpBlock).length := by
        rw [List.length_take]
        split <;> omega
      simp only [sendLoop, hp, if_false, htake, hdrop]
      have hfuel : (p.drop MaxHttpBlock).length ≤ n := by
        rw [List.length_drop]; simp only [MaxHttpBlock]; omega
      rw [ih (p.drop MaxHttpBlock) _ _ hfuel, blocks_cons p hp]
      simp only [List.length_cons, seqAfter_succ, recordEvents, recordEvents_mod, hlen, sealed,
        List.append_assoc, List.cons_append, List.nil_append]

theorem length_blocks (p : List Nat) :
    (blocks p).length = (p.length + (MaxHttpBlock - 1)) / MaxHttpBlock := by
  simp [blocks]

theorem flatten_blocks (p : List Nat) : ∀ n, p.length ≤ n → (blocks p).flatten = p := by
  intro n
  induction n generalizing p with
  | zero =>
    intro h
    have hp : p = [] := List.length_eq_zero.mp (by omega)
    subst hp
    simp [blocks_nil]
  | succ n ih =>
    intro h
    by_cases hp : p.length = 0
    · have hp2 : p = [] := List.length_eq_zero.mp hp
      subst hp2
      simp [blocks_nil]
    · rw [blocks_cons p hp, List.flatten_cons,
        ih (p.drop MaxHttpBlock) (by rw [List.length_drop]; simp only [MaxHttpBlock]; omega),
        List.take_append_drop]

/-- Every block is a slice of `MaxHttpBlock` bytes but the last, which holds the bytes
that remain, at least one. -/
theorem block_length (p : List Nat) (k : Nat) (hk : k < (blocks p).length) :
    ((blocks p).getD k []).length =
      if k + 1 < (blocks p).length then MaxHttpBlock else p.length - k * MaxHttpBlock := by
  have hb := length_blocks p
  rw [hb] at hk
  rw [hb]
  have hk3 : k < (blocks p).length := by rw [hb]; exact hk
  simp only [List.getD_eq_getElem?_getD, List.getElem?_eq_getElem hk3, Option.getD_some]
  simp only [blocks, List.getElem_map, List.getElem_range, List.length_take, List.length_drop]
  simp only [MaxHttpBlock] at hk ⊢
  split <;> omega

theorem aead_tag_length (e : Ext) (enc : Bool) (key nonce data aad : List Nat) :
    (e.aead enc key nonce data aad).2.length = 16 := by
  simp [Ext.aead, padTo]

theorem length_sealed (e : Ext) (key nonce b : List Nat) :
    (sealed e key nonce b).length = 2 + b.length + 16 := by
  simp [sealed, lenBytes, aead_length, aead_tag_length]
  omega

/-- What `_send` does on a secured session: the blocks of the response buffer go out as
records under the key `AccessoryToControllerKey`, the first under the send counter, and
the counter advances by their number. -/
theorem send_records (e : Ext) (st : Server) (i : Nat) (hs : (st.sess i).secured = true) :
    st._send e i = (true, st.sent i
      (recordEvents e (st.sess i).sid (st.sess i).AccessoryToControllerKey (st.sess i).sendSeq
        (blocks (e.render (st.sess i).rsp)))
      (seqAfter (st.sess i).sendSeq (blocks (e.render (st.sess i).rsp)).length)
      (st.sess i).secured) := by
  unfold Server._send
  simp only [hs, if_true]
  rw [sendLoop_blocks e _ _ _ _ _ _ (Nat.le_refl _)]
  simp only [Server.sent, Server.setSess, hs]

theorem block_mem_length (p b : List Nat) (h : b ∈ blocks p) :
    1 ≤ b.length ∧ b.length ≤ MaxHttpBlock := by
  simp only [blocks, List.mem_map, List.mem_range] at h
  obtain ⟨k, hk, rfl⟩ := h
  simp only [List.length_take, List.length_drop]
  simp only [MaxHttpBlock] at hk ⊢
  omega

/-- The record number `k` of a sequence of blocks is made under the counter `seq + k`:
its cipher call is the event number `2 * k`, its chunk the event after it. -/
theorem recordEvents_get (e : Ext) (sid : Nat) (key : List Nat) (bs : List (List Nat)) :
    ∀ (seq k : Nat), k < bs.length →
      (recordEvents e sid key seq bs)[2 * k]? =
        some (Event.aead true key (nonceOf (seq + k)) (bs.getD k []).length) ∧
      (recordEvents e sid key seq bs)[2 * k + 1]? =
        some (Event.send sid (sealed e key (nonceOf (seq + k)) (bs.getD k []))) := by
  induction bs with
  | nil => intro seq k hk; simp at hk
  | cons b bs ih =>
    intro seq k hk
    cases k with
    | zero => simp [recordEvents]
    | succ k =>
      have hk2 : k < bs.length := by simpa using hk
      obtain ⟨h1, h2⟩ := ih (seq + 1) k hk2
      have e1 : 2 * (k + 1) = (2 * k + 1) + 1 := by ring
      have e2 : 2 * (k + 1) + 1 = ((2 * k + 1) + 1) + 1 := by ring
      have e3 : seq + (k + 1) = seq + 1 + k := by ring
      refine ⟨?_, ?_⟩
      · rw [e1, e3]
        simpa [recordEvents] using h1
      · rw [e2, e3]
        simpa [recordEvents] using h2

theorem length_recordEvents (e : Ext) (sid : Nat) (key : List Nat) (bs : List (List Nat)) :
    ∀ seq, (recordEvents e sid key seq bs).length = 2 * bs.length := by
  induction bs with
  | nil => intro seq; rfl
  | cons b bs ih =>
    intro seq
    simp only [recordEvents, List.length_cons, ih]
    ring

/-! ### The record layer, inbound: the receive counter -/

/-- The read loop on a secured session to which `recv` delivers, in any number of
non-empty chunks, a record of at most `MaxHttpBlock` bytes whose tag differs from the one
the cipher computes: the record is decrypted, the receive counter advances, and the loop
ends with `return false`. -/
theorem readLoop_badTag (e : Ext) (st : Server) (i sid : Nat) (ct tag extra : List Nat)
    (tl : List RecvEv) (hn : ct.length ≤ MaxHttpBlock) (htl : tag.length = 16)
    (hsec : (st.sess i).secured = true)
    (hfit : (record ct tag ++ extra).length ≤ e.sizeofdata)
    (hbad : (e.aead false (st.sess i).ControllerToAccessoryKey (nonceOf (st.sess i).recvSeq) ct
      (lenBytes ct.length)).2 ≠ tag) :
    ∀ (chunks : List (List Nat)) (buf : List Nat), (∀ c ∈ chunks, c ≠ []) →
      buf ++ chunks.flatten = record ct tag ++ extra → buf.length < 2 + ct.length + 16 →
      st.readLoop e i sid (chunks.map RecvEv.data ++ tl) buf =
        Read.fail (st.decrypted i ct.length) := by
  intro chunks
  induction chunks with
  | nil =>
    intro buf _ heq hlen
    simp only [List.flatten_nil, List.append_nil] at heq
    have := congrArg List.length heq
    simp [record, lenBytes, htl] at this
    omega
  | cons c cs ih =>
    intro buf hne heq hlen
    have hc : c ≠ [] := hne c (List.mem_cons_self _ _)
    have hcs : ∀ c ∈ cs, c ≠ [] := fun x hx => hne x (List.mem_cons_of_mem _ hx)
    have heq2 : (buf ++ c) ++ cs.flatten = record ct tag ++ extra := by
      rw [List.append_assoc]; simpa using heq
    have hrec : (record ct tag).length = 2 + ct.length + 16 := by
      simp [record, lenBytes, htl]; omega
    have hbc : buf.length + c.length ≤ e.sizeofdata := by
      have := congrArg List.length heq2
      simp only [List.length_append] at this hfit
      omega
    have htake : c.take (e.sizeofdata - buf.length) = c :=
      List.take_of_length_le (by omega)
    have hcl : c.length ≠ 0 := by
      intro h; exact hc (List.length_eq_zero.mp h)
    simp only [List.map_cons, List.cons_append, Server.readLoop, htake, hcl, if_false, hsec,
      if_true]
    by_cases h2 : (buf ++ c).length < 2
    · simp only [h2, if_true]
      exact ih (buf ++ c) hcs heq2 (by omega)
    · simp only [h2, if_false]
      have hg0 : (buf ++ c).getD 0 0 = ct.length % 256 := by
        have h := take_of_append (buf ++ c) cs.flatten _ 1 heq2 (by omega)
        rcases hb : buf ++ c with _ | ⟨x, r⟩
        · rw [hb] at h2; simp at h2
        · rw [hb] at h
          simp [record, lenBytes] at h
          simp [h]
      have hg1 : (buf ++ c).getD 1 0 = ct.length / 256 % 256 := by
        have h := take_of_append (buf ++ c) cs.flatten _ 2 heq2 (by omega)
        rcases hb : buf ++ c with _ | ⟨x, _ | ⟨y, r⟩⟩
        · rw [hb] at h2; simp at h2
        · rw [hb] at h2; simp at h2
        · rw [hb] at h
          simp [record, lenBytes] at h
          simp [h]
      have haad : (buf ++ c).getD 0 0 + (buf ++ c).getD 1 0 * 256 = ct.length := by
        rw [hg0, hg1]
        have : ct.length ≤ 1024 := hn
        omega
      have hnb : ¬ ct.length > MaxHttpBlock := by omega
      simp only [haad, hnb, if_false]
      by_cases h3 : (buf ++ c).length < 2 + ct.length + 16
      · simp only [h3, if_true]
        exact ih (buf ++ c) hcs heq2 h3
      · simp only [h3, if_false]
        have ht2 : (buf ++ c).take 2 = lenBytes ct.length := by
          rw [take_of_append (buf ++ c) cs.flatten _ 2 heq2 (by omega)]
          simp [record, lenBytes]
        have hct : ((buf ++ c).drop 2).take ct.length = ct := by
          rw [drop_take_of_append (buf ++ c) cs.flatten _ 2 ct.length heq2 (by omega)]
          simp [record, lenBytes]
        have htg : ((buf ++ c).drop (2 + ct.length)).take 16 = tag := by
          rw [drop_take_of_append (buf ++ c) cs.flatten _ (2 + ct.length) 16 heq2 (by omega)]
          have : List.drop (2 + ct.length) (record ct tag ++ extra) = tag ++ extra := by
            have h1 : record ct tag ++ extra = (lenBytes ct.length ++ ct) ++ (tag ++ extra) := by
              simp [record]
            rw [h1, List.drop_left' (by simp [lenBytes]; omega)]
          rw [this, List.take_left' htl]
        simp only [ht2, hct, htg, hbad, ne_eq, not_false_eq_true, if_true, Server.decrypted]
        rw [hsec]

theorem readLoop_shapes_aux (e : Ext) (st : Server) (i sid : Nat) :
    ∀ (recv : List RecvEv) (buf : List Nat) (r : Read), st.readLoop e i sid recv buf = r →
      r = Read.blocked st ∨ r = Read.fail st ∨
      ((st.sess i).secured = false ∧ ∃ bytes, st.tryParse e i sid bytes = some r) ∨
      ((st.sess i).secured = true ∧ ∃ n, r = Read.fail (st.decrypted i n)) ∨
      ((st.sess i).secured = true ∧
        ∃ n bytes, (st.decrypted i n).tryParse e i sid bytes = some r) := by
  intro recv
  induction recv with
  | nil => intro buf r h; left; exact h.symm
  | cons ev rest ih =>
    intro buf r h
    cases ev with
    | error => right; left; exact h.symm
    | eof => right; left; exact h.symm
    | data bytes =>
      simp only [Server.readLoop] at h
      split at h
      · right; left; exact h.symm
      · by_cases hsec : (st.sess i).secured = true
        · rw [if_pos hsec] at h
          split at h
          · exact ih _ r h
          · split at h
            · right; left; exact h.symm
            · split at h
              · exact ih _ r h
              · split at h
                · right; right; right; left
                  exact ⟨hsec, _, h.symm⟩
                · obtain ⟨r2, hr⟩ := tryParse_secured e (st.decrypted i
                    ((buf ++ List.take (e.sizeofdata - buf.length) bytes).getD 0 0 +
                      (buf ++ List.take (e.sizeofdata - buf.length) bytes).getD 1 0 * 256)) i sid
                    (e.aead false (st.sess i).ControllerToAccessoryKey
                      (nonceOf (st.sess i).recvSeq)
                      (List.take ((buf ++ List.take (e.sizeofdata - buf.length) bytes).getD 0 0 +
                        (buf ++ List.take (e.sizeofdata - buf.length) bytes).getD 1 0 * 256)
                        (List.drop 2 (buf ++ List.take (e.sizeofdata - buf.length) bytes)))
                      (List.take 2 (buf ++ List.take (e.sizeofdata - buf.length) bytes))).1
                    (by simpa [Server.decrypted] using hsec)
                  have hr2 := hr
                  simp only [Server.decrypted] at hr2
                  simp only [hr2] at h
                  subst h
                  exact Or.inr (Or.inr (Or.inr (Or.inr ⟨hsec, _, _, hr⟩)))
        · have hs2 : (st.sess i).secured = false := by simpa using hsec
          simp only [hs2, Bool.false_eq_true, if_false] at h
          split at h
          · rename_i r2 hr
            right; right; left
            exact ⟨hs2, _, by rw [← h]; exact hr⟩
          · exact ih _ r h

/-- How the read loop can end: waiting for more or failed with nothing done; on a session
that is not secured, by a call of the parser on the bytes received; on a secured session,
after one record is decrypted, by a tag that differs or by a call of the parser on the
decrypted bytes. -/
theorem readLoop_shapes (e : Ext) (st : Server) (i sid : Nat) (recv : List RecvEv)
    (buf : List Nat) :
    st.readLoop e i sid recv buf = Read.blocked st ∨
    st.readLoop e i sid recv buf = Read.fail st ∨
    ((st.sess i).secured = false ∧
      ∃ bytes, st.tryParse e i sid bytes = some (st.readLoop e i sid recv buf)) ∨
    ((st.sess i).secured = true ∧
      ∃ n, st.readLoop e i sid recv buf = Read.fail (st.decrypted i n)) ∨
    ((st.sess i).secured = true ∧
      ∃ n bytes, (st.decrypted i n).tryParse e i sid bytes =
        some (st.readLoop e i sid recv buf)) :=
  readLoop_shapes_aux e st i sid recv buf _ rfl

/-- The ends of the read loop, one by one. -/
theorem readLoop_cases (e : Ext) (st : Server) (i sid : Nat) (recv : List RecvEv)
    (buf : List Nat) :
    st.readLoop e i sid recv buf = Read.blocked st ∨
    st.readLoop e i sid recv buf = Read.fail st ∨
    ((st.sess i).secured = false ∧ ∃ b, e.parse b = ParseStatus.Error ∧
      st.readLoop e i sid recv buf =
        Read.fail ((st.emit (Event.parse b)).emit (Event.send sid (e.render (st.sess i).rsp)))) ∨
    ((st.sess i).secured = false ∧ ∃ b req, e.parse b = ParseStatus.Success req ∧
      st.readLoop e i sid recv buf = Read.request (st.emit (Event.parse b)) req) ∨
    ((st.sess i).secured = true ∧ ∃ n,
      st.readLoop e i sid recv buf = Read.fail (st.decrypted i n)) ∨
    ((st.sess i).secured = true ∧ ∃ n b, e.parse b = ParseStatus.Error ∧
      st.readLoop e i sid recv buf =
        Read.fail (((st.decrypted i n).emit (Event.parse b)).emit
          (Event.send sid (e.render (st.sess i).rsp)))) ∨
    ((st.sess i).secured = true ∧ ∃ n b, e.parse b = ParseStatus.Incomplete ∧
      st.readLoop e i sid recv buf = Read.fail ((st.decrypted i n).emit (Event.parse b))) ∨
    ((st.sess i).secured = true ∧ ∃ n b req, e.parse b = ParseStatus.Success req ∧
      st.readLoop e i sid recv buf = Read.request ((st.decrypted i n).emit (Event.parse b)) req) := by
  rcases readLoop_shapes e st i sid recv buf with h | h | ⟨hs, b, h⟩ | ⟨hs, n, h⟩ | ⟨hs, n, b, h⟩
  · left; exact h
  · right; left; exact h
  · unfold Server.tryParse at h
    cases hp : e.parse b with
    | Error =>
      rw [hp] at h
      simp only [Option.some.injEq] at h
      right; right; left
      exact ⟨hs, b, hp, h.symm⟩
    | Incomplete =>
      rw [hp] at h
      have : ((st.emit (Event.parse b)).sess i).secured = false := hs
      simp [this] at h
      rw [hs] at h
      exact absurd h.1 (by simp)
    | Success req =>
      rw [hp] at h
      simp only [Option.some.injEq] at h
      right; right; right; left
      exact ⟨hs, b, req, hp, h.symm⟩
  · right; right; right; right; left
    exact ⟨hs, n, h⟩
  · unfold Server.tryParse at h
    have hrsp : (((st.decrypted i n).emit (Event.parse b)).sess i).rsp = (st.sess i).rsp := by
      simp [Server.decrypted]
    cases hp : e.parse b with
    | Error =>
      rw [hp] at h
      simp only [Option.some.injEq] at h
      right; right; right; right; right; left
      refine ⟨hs, n, b, hp, ?_⟩
      rw [← h, hrsp]
    | Incomplete =>
      rw [hp] at h
      have : (((st.decrypted i n).emit (Event.parse b)).sess i).secured = true := by
        simpa [Server.decrypted] using hs
      simp only [this, if_true, Option.some.injEq] at h
      right; right; right; right; right; right; left
      exact ⟨hs, n, b, hp, h.symm⟩
    | Success req =>
      rw [hp] at h
      simp only [Option.some.injEq] at h
      right; right; right; right; right; right; right
      exact ⟨hs, n, b, req, hp, h.symm⟩

/-! ### The log under the handlers -/

theorem quiet_refl (st : Server) : st.Quiet st := ⟨[], by simp, by simp⟩

theorem quiet_trans (a b c : Server) (h1 : a.Quiet b) (h2 : b.Quiet c) : a.Quiet c := by
  obtain ⟨l1, e1, p1⟩ := h1
  obtain ⟨l2, e2, p2⟩ := h2
  refine ⟨l1 ++ l2, by rw [e2, e1, List.append_assoc], ?_⟩
  intro ev hev
  rcases List.mem_append.mp hev with h | h
  · exact p1 ev h
  · exact p2 ev h

theorem quiet_emit (st st1 : Server) (ev : Event) (h : st.Quiet st1) (hev : ev.isSend = false) :
    st.Quiet (st1.emit ev) :=
  quiet_trans _ _ _ h ⟨[ev], rfl, by simpa using hev⟩

theorem quiet_setSess (st st1 : Server) (i : Nat) (s : Session) (h : st.Quiet st1) :
    st.Quiet (st1.setSess i s) := ⟨h.more⟩

theorem quiet_mk (st st1 : Server) (a : Nat → Session) (b : Nat) (c : Pairings)
    (d : Option SRP) (f : List Nat) (g k : Nat) (h : st.Quiet st1) :
    st.Quiet ⟨a, b, c, d, f, g, k, st1.log⟩ := ⟨h.more⟩

theorem quiet_withTlv (e : Ext) (st st1 : Server) (i : Nat) (d : List Nat) (h : st.Quiet st1) :
    st.Quiet (st1.withTlv e i d) := ⟨h.more⟩

theorem pairSetup1_RetErr_quiet (st0 st : Server) (i : Nat) (sess : Session)
    (h : st0.Quiet st) : st0.Quiet (st.pairSetup1_RetErr i sess) := by
  unfold Server.pairSetup1_RetErr
  repeat' (first
    | split
    | dsimp only
    | exact h
    | rfl
    | apply quiet_setSess
    | apply quiet_mk
    | apply quiet_emit)

theorem pairSetup1_params_quiet (e : Ext) (st0 st : Server) (i : Nat) (sess : Session)
    (h : st0.Quiet st) : st0.Quiet (st.pairSetup1_params e i sess) := by
  unfold Server.pairSetup1_params
  repeat' (first
    | split
    | dsimp only
    | exact h
    | rfl
    | apply pairSetup1_RetErr_quiet
    | apply quiet_setSess
    | apply quiet_mk)

theorem pairSetup1_quiet (e : Ext) (st : Server) (i : Nat) :
    st.Quiet (st._pairSetup1 e i) := by
  have h := quiet_refl st
  unfold Server._pairSetup1
  repeat' (first
    | split
    | dsimp only
    | exact h
    | rfl
    | apply pairSetup1_RetErr_quiet
    | apply pairSetup1_params_quiet
    | apply quiet_setSess
    | apply quiet_mk
    | apply quiet_emit)

theorem pairSetup3_RetErr_quiet (st0 st : Server) (i : Nat) (sess : Session)
    (h : st0.Quiet st) : st0.Quiet (st.pairSetup3_RetErr i sess) := by
  unfold Server.pairSetup3_RetErr
  repeat' (first
    | split
    | dsimp only
    | exact h
    | rfl
    | apply quiet_setSess
    | apply quiet_mk
    | apply quiet_emit)

theorem pairSetup3_quiet (e : Ext) (st : Server) (i : Nat) :
    st.Quiet (st._pairSetup3 e i) := by
  have h := quiet_refl st
  unfold Server._pairSetup3
  repeat' (first
    | split
    | dsimp only
    | exact h
    | rfl
    | apply pairSetup3_RetErr_quiet
    | apply quiet_setSess
    | apply quiet_mk
    | apply quiet_emit)

theorem pairSetup5_RetDone_quiet (st0 st : Server) (i : Nat) (sess : Session)
    (h : st0.Quiet st) : st0.Quiet (st.pairSetup5_RetDone i sess) := by
  unfold Server.pairSetup5_RetDone
  repeat' (first
    | split
    | dsimp only
    | exact h
    | rfl
    | apply quiet_setSess
    | apply quiet_mk
    | apply quiet_emit)

theorem pairSetup5_quiet (e : Ext) (st : Server) (i : Nat) :
    st.Quiet (st._pairSetup5 e i) := by
  have h := quiet_refl st
  unfold Server._pairSetup5 Server.pairSetup5_RetErr
  repeat' (first
    | split
    | dsimp only
    | exact h
    | rfl
    | apply pairSetup5_RetDone_quiet
    | apply quiet_setSess
    | apply quiet_mk
    | apply quiet_emit)

theorem pairVerify1_quiet (e : Ext) (st : Server) (i : Nat) :
    st.Quiet (st._pairVerify1 e i) := by
  have h := quiet_refl st
  unfold Server._pairVerify1
  repeat' (first
    | split
    | dsimp only
    | exact h
    | rfl
    | apply quiet_setSess
    | apply quiet_mk
    | apply quiet_emit)

theorem pairVerify3_quiet (e : Ext) (st : Server) (i : Nat) :
    st.Quiet (st._pairVerify3 e i) := by
  have h := quiet_refl st
  unfold Server._pairVerify3
  repeat' (first
    | split
    | dsimp only
    | exact h
    | rfl
    | apply quiet_setSess
    | apply quiet_mk
    | apply quiet_emit)

theorem pairingAdd_quiet (e : Ext) (st : Server) (i : Nat) :
    st.Quiet (st._pairingAdd e i) := by
  have h := quiet_refl st
  unfold Server._pairingAdd
  repeat' (first
    | split
    | dsimp only
    | exact h
    | rfl
    | apply quiet_setSess
    | apply quiet_mk
    | apply quiet_emit)

theorem pairingRemove_quiet (e : Ext) (st : Server) (i : Nat) :
    st.Quiet (st._pairingRemove e i) := by
  have h := quiet_refl st
  unfold Server._pairingRemove
  repeat' (first
    | split
    | dsimp only
    | exact h
    | rfl
    | apply quiet_setSess
    | apply quiet_mk
    | apply quiet_emit)

theorem pairingList_quiet (e : Ext) (st : Server) (i : Nat) :
    st.Quiet (st._pairingList e i) := by
  have h := quiet_refl st
  unfold Server._pairingList
  repeat' (first
    | split
    | dsimp only
    | exact h
    | rfl
    | apply quiet_setSess
    | apply quiet_mk
    | apply quiet_emit)

theorem postPairSetup_quiet (e : Ext) (st : Server) (i : Nat) (d : List Nat) :
    st.Quiet (st.postPairSetup e i d) := by
  have hw : st.Quiet (st.withTlv e i d) := quiet_withTlv e st st i d (quiet_refl st)
  unfold Server.postPairSetup
  dsimp only
  split
  · exact hw
  · split
    · exact quiet_trans _ _ _ hw (pairSetup1_quiet e _ i)
    · split
      · exact quiet_trans _ _ _ hw (pairSetup3_quiet e _ i)
      · split
        · exact quiet_trans _ _ _ hw (pairSetup5_quiet e _ i)
        · exact hw

theorem postPairVerify_quiet (e : Ext) (st : Server) (i : Nat) (d : List Nat) (sec : Bool) :
    st.Quiet (st.postPairVerify e i d sec).1 := by
  have hw : st.Quiet (st.withTlv e i d) := quiet_withTlv e st st i d (quiet_refl st)
  unfold Server.postPairVerify
  dsimp only
  split
  · exact hw
  · split
    · exact quiet_trans _ _ _ hw (pairVerify1_quiet e _ i)
    · split
      · exact quiet_trans _ _ _ hw (pairVerify3_quiet e _ i)
      · exact hw

theorem postPairings_quiet (e : Ext) (st : Server) (i : Nat) (d : List Nat) :
    st.Quiet (st.postPairings e i d) := by
  have hw : st.Quiet (st.withTlv e i d) := quiet_withTlv e st st i d (quiet_refl st)
  have hr : ∀ s, st.Quiet ((st.withTlv e i d).setSess i s) := fun s =>
    quiet_setSess _ _ _ _ hw
  unfold Server.postPairings
  dsimp only
  split
  · exact hr _
  · split
    · exact hr _
    · split
      · exact hr _
      · split
        · exact quiet_trans _ _ _ hw (pairingAdd_quiet e _ i)
        · split
          · exact quiet_trans _ _ _ hw (pairingRemove_quiet e _ i)
          · split
            · exact quiet_trans _ _ _ hw (pairingList_quiet e _ i)
            · exact hr _

/-- Routing a request adds events to the log, none of which is a chunk handed to
`send`. -/
theorem route_quiet (e : Ext) (st : Server) (i : Nat) (req : Request) (sec : Bool) :
    st.Quiet (st.route e i req sec).1 := by
  by_cases hm : req.method = "POST"
  · by_cases hp1 : req.path = "/identify"
    · by_cases hc : st.pairings.Count Controller.None = 0
      · simp only [Server.route, hm, hp1, hc, if_true]
        exact quiet_setSess _ _ _ _ (quiet_refl st)
      · simp only [Server.route, hm, hp1, hc, if_true, if_false]
        exact quiet_setSess _ _ _ _ (quiet_refl st)
    · by_cases hp2 : req.path = "/pair-setup"
      · by_cases hct : req.hdrContentTypeTlv8 = true
        · by_cases hcl : req.hdrContentLength = true
          · simp [Server.route, hm, hp2, hct, hcl]
            exact postPairSetup_quiet e st i req.data
          · simp [Server.route, hm, hp2, hct, hcl]
            exact quiet_setSess _ _ _ _ (quiet_refl st)
        · simp [Server.route, hm, hp2, hct]
          exact quiet_setSess _ _ _ _ (quiet_refl st)
      · by_cases hp3 : req.path = "/pair-verify"
        · by_cases hct : req.hdrContentTypeTlv8 = true
          · by_cases hcl : req.hdrContentLength = true
            · simp [Server.route, hm, hp3, hct, hcl]
              exact postPairVerify_quiet e st i req.data sec
            · simp [Server.route, hm, hp3, hct, hcl]
              exact quiet_setSess _ _ _ _ (quiet_refl st)
          · simp [Server.route, hm, hp3, hct]
            exact quiet_setSess _ _ _ _ (quiet_refl st)
        · by_cases hp4 : req.path = "/pairings"
          · by_cases hs : (st.sess i).secured = true
            · by_cases hct : req.hdrContentTypeTlv8 = true
              · by_cases hcl : req.hdrContentLength = true
                · simp [Server.route, hm, hp4, hs, hct, hcl]
                  exact postPairings_quiet e st i req.data
                · simp [Server.route, hm, hp4, hs, hct, hcl]
                  exact quiet_setSess _ _ _ _ (quiet_refl st)
              · simp [Server.route, hm, hp4, hs, hct]
                exact quiet_setSess _ _ _ _ (quiet_refl st)
            · simp [Server.route, hm, hp4, hs]
              exact quiet_setSess _ _ _ _ (quiet_refl st)
          · simp [Server.route, hm, hp1, hp2, hp3, hp4]
            exact quiet_setSess _ _ _ _ (quiet_refl st)
  · by_cases hg : req.method = "GET"
    · by_cases hs : (st.sess i).secured = true
      · by_cases hp1 : req.path = "/accessories"
        · simp [Server.route, hg, hs, hp1]
          repeat' (first | exact quiet_refl st | rfl | apply quiet_setSess | apply quiet_emit)
        · by_cases hp2 : (cstr "/characteristics?").isPrefixOf (cstr req.path) = true
          · simp [Server.route, hg, hs, hp1, hp2]
            repeat' (first | exact quiet_refl st | rfl | apply quiet_setSess | apply quiet_emit)
          · simp [Server.route, hg, hs, hp1, hp2]
            exact quiet_setSess _ _ _ _ (quiet_refl st)
      · simp [Server.route, hg, hs]
        exact quiet_setSess _ _ _ _ (quiet_refl st)
    · by_cases hu : req.method = "PUT"
      · by_cases hp1 : req.path = "/characteristics"
        · by_cases hs : (st.sess i).secured = true
          · by_cases hct : req.hdrContentTypeJson = true
            · by_cases hcl : req.hdrContentLength = true
              · simp [Server.route, hu, hs, hp1, hct, hcl]
                repeat' (first | exact quiet_refl st | rfl | apply quiet_setSess | apply quiet_emit)
              · simp [Server.route, hu, hs, hp1, hct, hcl]
                exact quiet_setSess _ _ _ _ (quiet_refl st)
            · simp [Server.route, hu, hs, hp1, hct]
              exact quiet_setSess _ _ _ _ (quiet_refl st)
          · simp [Server.route, hu, hs, hp1]
            exact quiet_setSess _ _ _ _ (quiet_refl st)
        · simp [Server.route, hu, hp1]
          exact quiet_setSess _ _ _ _ (quiet_refl st)
      · simp [Server.route, hm, hg, hu]
        exact quiet_refl st

/-! ### The course of `Process` -/

theorem Process_blocked (e : Ext) (st s : Server) (sid : Nat) (recv : List RecvEv)
    (hsid : sid < MaxHttpSessions)
    (h : (st.entered sid).readLoop e sid sid recv [] = Read.blocked s) :
    st.Process e sid recv = (none, s) ∧ st.request e sid recv = none := by
  have h1 : ¬ sid > MaxHttpSessions := by omega
  have h2 : ¬ sid = MaxHttpSessions := by omega
  unfold Server.entered at h
  unfold Server.Process Server.request
  simp only [h1, h2, if_false, h, and_self]

theorem Process_fail (e : Ext) (st s : Server) (sid : Nat) (recv : List RecvEv)
    (hsid : sid < MaxHttpSessions)
    (h : (st.entered sid).readLoop e sid sid recv [] = Read.fail s) :
    st.Process e sid recv = (some false, s) ∧ st.request e sid recv = none := by
  have h1 : ¬ sid > MaxHttpSessions := by omega
  have h2 : ¬ sid = MaxHttpSessions := by omega
  unfold Server.entered at h
  unfold Server.Process Server.request
  simp only [h1, h2, if_false, h, and_self]

theorem Process_answer (e : Ext) (st s : Server) (sid : Nat) (recv : List RecvEv)
    (req : Request) (hsid : sid < MaxHttpSessions)
    (h : (st.entered sid).readLoop e sid sid recv [] = Read.request s req) :
    st.Process e sid recv = (some (s.respond e sid req (st.sess sid).secured).1,
      (s.respond e sid req (st.sess sid).secured).2) ∧ st.request e sid recv = some req := by
  have h1 : ¬ sid > MaxHttpSessions := by omega
  have h2 : ¬ sid = MaxHttpSessions := by omega
  unfold Server.entered at h
  unfold Server.Process Server.request
  simp only [h1, h2, if_false, h, and_self]

theorem entered_sess (st : Server) (sid : Nat) :
    (st.entered sid).sess sid = (st.sess sid).Init := by
  simp [Server.entered]

theorem entered_links (st : Server) (sid : Nat) : st.SameLinks (st.entered sid) sid :=
  sameLinks_set st st sid _ rfl ⟨rfl, rfl, rfl, rfl, rfl⟩

/-- What the end of `Process` does once a request is parsed: the handler adds events to
the log that are no chunks sent and keeps the link state of the session, then `_send`
adds the events `L` and sets the send counter to `q`; on a secured session these are the
records of the blocks of the response, on another the response as one chunk. -/
theorem respond_course (e : Ext) (st : Server) (i : Nat) (req : Request) (sec : Bool) :
    ∃ L q,
      st.respond e i req sec =
        (true, (st.route e i req sec).1.sent i L q (st.route e i req sec).2) ∧
      st.SameLinks (st.route e i req sec).1 i ∧ st.Quiet (st.route e i req sec).1 ∧
      ((st.sess i).secured = true →
        L = recordEvents e (st.sess i).sid
            ((st.route e i req sec).1.sess i).AccessoryToControllerKey (st.sess i).sendSeq
            (blocks (e.render ((st.route e i req sec).1.sess i).rsp)) ∧
        q = seqAfter (st.sess i).sendSeq
          (blocks (e.render ((st.route e i req sec).1.sess i).rsp)).length) ∧
      ((st.sess i).secured = false →
        L = [Event.send (st.sess i).sid (e.render ((st.route e i req sec).1.sess i).rsp)] ∧
        q = (st.sess i).sendSeq) := by
  have hl := route_links e st i req sec
  have hq := route_quiet e st i req sec
  obtain ⟨_, _, hsid, hsec, hss, _⟩ := hl
  by_cases hs : (st.sess i).secured = true
  · have hs2 : ((st.route e i req sec).1.sess i).secured = true := by rw [hsec]; exact hs
    have hsend := send_records e (st.route e i req sec).1 i hs2
    refine ⟨_, _, ?_, route_links e st i req sec, hq, fun _ => ⟨rfl, rfl⟩, ?_⟩
    · unfold Server.respond
      simp only [hsend, Bool.not_true, Bool.false_eq_true, if_false]
      rw [sent_commit, hsid, hss]
    · intro h; rw [h] at hs; cases hs
  · have hs1 : (st.sess i).secured = false := by simpa using hs
    have hs2 : ((st.route e i req sec).1.sess i).secured = false := by rw [hsec]; exact hs1
    obtain ⟨L, q, _, hr, hu⟩ := respond_spec e st i req sec
    obtain ⟨hL, hq2⟩ := hu hs2
    refine ⟨L, q, hr, route_links e st i req sec, hq, ?_, fun _ => ?_⟩
    · intro h; rw [h] at hs1; cases hs1
    · rw [hL, hq2, hsid, hss]; exact ⟨rfl, rfl⟩

/-! ### The receive counter over a call of `Process` -/

theorem decrypted_sess (st : Server) (i n : Nat) :
    (st.decrypted i n).sess i =
      { st.sess i with recvSeq := ((st.sess i).recvSeq + 1) % 2 ^ 64 } := by
  simp [Server.decrypted]

theorem decrypted_log (st : Server) (i n : Nat) :
    (st.decrypted i n).log = st.log ++ [Event.aead false (st.sess i).ControllerToAccessoryKey
      (nonceOf (st.sess i).recvSeq) n] := rfl

theorem decrypted_links (st : Server) (i n : Nat) :
    ∀ j, j ≠ i → (st.decrypted i n).sess j = st.sess j := by
  intro j hj
  simp [Server.decrypted, Server.setSess, hj]

theorem respond_recv (e : Ext) (st : Server) (i : Nat) (req : Request) (sec : Bool) :
    ((st.respond e i req sec).2.sess i).recvSeq = (st.sess i).recvSeq ∧
    ∃ l, (st.respond e i req sec).2.log = st.log ++ l := by
  obtain ⟨L, q, hr, hl, hq, _, _⟩ := respond_course e st i req sec
  obtain ⟨lq, hlq, _⟩ := hq.more
  obtain ⟨_, _, _, _, _, hrs⟩ := hl
  rw [hr]
  refine ⟨by simpa using hrs, lq ++ L, ?_⟩
  simp [hlq, List.append_assoc]

/-- The receive counter and the log over a call of `Process` on a valid session: either
the counter is the one at entry and the call logs nothing or starts with a call of the
parser, or the session is secured, the first event of the call is the decryption of a
record under the key `ControllerToAccessoryKey` and the nonce of the counter at entry,
and the counter is the next one. -/
theorem Process_recvSeq (e : Ext) (st : Server) (sid : Nat) (recv : List RecvEv)
    (hsid : sid < MaxHttpSessions) :
    (((st.Process e sid recv).2.sess sid).recvSeq = (st.sess sid).recvSeq ∧
      (st.since (st.Process e sid recv).2 = [] ∨
        ∃ b rest, st.since (st.Process e sid recv).2 = Event.parse b :: rest)) ∨
    ((st.sess sid).secured = true ∧
      ((st.Process e sid recv).2.sess sid).recvSeq = ((st.sess sid).recvSeq + 1) % 2 ^ 64 ∧
      ∃ n rest, st.since (st.Process e sid recv).2 =
        Event.aead false (st.sess sid).ControllerToAccessoryKey
          (nonceOf (st.sess sid).recvSeq) n :: rest) := by
  have hsec0 : ((st.entered sid).sess sid).secured = (st.sess sid).secured := by
    rw [entered_sess]; rfl
  have hlog0 : (st.entered sid).log = st.log := rfl
  have hseq0 : ((st.entered sid).sess sid).recvSeq = (st.sess sid).recvSeq := by
    rw [entered_sess]; rfl
  have hkey0 : ((st.entered sid).sess sid).ControllerToAccessoryKey =
      (st.sess sid).ControllerToAccessoryKey := by
    rw [entered_sess]; rfl
  rcases readLoop_cases e (st.entered sid) sid sid recv [] with h | h | ⟨hs, b, _, h⟩ |
    ⟨hs, b, req, _, h⟩ | ⟨hs, n, h⟩ | ⟨hs, n, b, _, h⟩ | ⟨hs, n, b, _, h⟩ | ⟨hs, n, b, req, _, h⟩
  · rw [(Process_blocked e st _ sid recv hsid h).1]
    exact Or.inl ⟨hseq0, Or.inl (since_append _ _ [] (by simp [hlog0]))⟩
  · rw [(Process_fail e st _ sid recv hsid h).1]
    exact Or.inl ⟨hseq0, Or.inl (since_append _ _ [] (by simp [hlog0]))⟩
  · rw [(Process_fail e st _ sid recv hsid h).1]
    exact Or.inl ⟨hseq0, Or.inr ⟨b, [Event.send sid (e.render ((st.entered sid).sess sid).rsp)],
      since_append _ _ _ (by simp [hlog0])⟩⟩
  · rw [(Process_answer e st _ sid recv req hsid h).1]
    obtain ⟨h1, l, h2⟩ := respond_recv e ((st.entered sid).emit (Event.parse b)) sid req
      (st.sess sid).secured
    refine Or.inl ⟨h1.trans hseq0, Or.inr ⟨b, l, since_append _ _ _ ?_⟩⟩
    rw [h2]; simp [hlog0]
  · rw [(Process_fail e st _ sid recv hsid h).1]
    refine Or.inr ⟨hsec0 ▸ hs, ?_, n, [], since_append _ _ _ ?_⟩
    · rw [decrypted_sess, hseq0]
    · rw [decrypted_log, hlog0, hseq0, hkey0]
  · rw [(Process_fail e st _ sid recv hsid h).1]
    refine Or.inr ⟨hsec0 ▸ hs, ?_, n, [Event.parse b,
      Event.send sid (e.render ((st.entered sid).sess sid).rsp)], since_append _ _ _ ?_⟩
    · simp only [emit_sess]; rw [decrypted_sess, hseq0]
    · simp only [emit_log]; rw [decrypted_log, hlog0, hseq0, hkey0]
      simp only [List.append_assoc, List.singleton_append, List.cons_append, List.nil_append]
  · rw [(Process_fail e st _ sid recv hsid h).1]
    refine Or.inr ⟨hsec0 ▸ hs, ?_, n, [Event.parse b], since_append _ _ _ ?_⟩
    · simp only [emit_sess]; rw [decrypted_sess, hseq0]
    · simp only [emit_log]; rw [decrypted_log, hlog0, hseq0, hkey0]
      simp only [List.append_assoc, List.singleton_append]
  · rw [(Process_answer e st _ sid recv req hsid h).1]
    obtain ⟨h1, l, h2⟩ := respond_recv e (((st.entered sid).decrypted sid n).emit
      (Event.parse b)) sid req (st.sess sid).secured
    refine Or.inr ⟨hsec0 ▸ hs, ?_, n, Event.parse b :: l, since_append _ _ _ ?_⟩
    · rw [h1]; simp only [emit_sess]; rw [decrypted_sess, hseq0]
    · rw [h2]; simp only [emit_log]; rw [decrypted_log, hlog0, hseq0, hkey0]
      simp only [List.append_assoc, List.singleton_append, List.cons_append, List.nil_append]

theorem Process_after_decrypt (e : Ext) (st : Server) (sid n : Nat) (recv : List RecvEv)
    (b : List Nat) (r : Read) (hsid : sid < MaxHttpSessions)
    (hr : ((st.entered sid).decrypted sid n).tryParse e sid sid b = some r)
    (hloop : (st.entered sid).readLoop e sid sid recv [] = r) :
    ((st.Process e sid recv).2.sess sid).recvSeq = ((st.sess sid).recvSeq + 1) % 2 ^ 64 ∧
    ∃ rest, st.since (st.Process e sid recv).2 =
      Event.aead false (st.sess sid).ControllerToAccessoryKey (nonceOf (st.sess sid).recvSeq) n ::
        Event.parse b :: rest := by
  have hseq0 : ((st.entered sid).sess sid).recvSeq = (st.sess sid).recvSeq := by
    rw [entered_sess]; rfl
  have hkey0 : ((st.entered sid).sess sid).ControllerToAccessoryKey =
      (st.sess sid).ControllerToAccessoryKey := by
    rw [entered_sess]; rfl
  have hlog0 : (st.entered sid).log = st.log := rfl
  unfold Server.tryParse at hr
  cases hp : e.parse b with
  | Error =>
    rw [hp] at hr
    simp only [Option.some.injEq] at hr
    rw [← hr] at hloop
    rw [(Process_fail e st _ sid recv hsid hloop).1]
    refine ⟨?_, [Event.send sid (e.render ((((st.entered sid).decrypted sid n).emit
      (Event.parse b)).sess sid).rsp)], since_append _ _ _ ?_⟩
    · simp only [emit_sess]; rw [decrypted_sess, hseq0]
    · simp only [emit_log]; rw [decrypted_log, hlog0, hseq0, hkey0]
      simp only [List.append_assoc, List.singleton_append, List.cons_append, List.nil_append]
  | Incomplete =>
    rw [hp] at hr
    simp only at hr
    split at hr
    · simp only [Option.some.injEq] at hr
      rw [← hr] at hloop
      rw [(Process_fail e st _ sid recv hsid hloop).1]
      refine ⟨?_, [], since_append _ _ _ ?_⟩
      · simp only [emit_sess]; rw [decrypted_sess, hseq0]
      · simp only [emit_log]; rw [decrypted_log, hlog0, hseq0, hkey0]
        simp only [List.append_assoc, List.singleton_append]
    · cases hr
  | Success req =>
    rw [hp] at hr
    simp only [Option.some.injEq] at hr
    rw [← hr] at hloop
    rw [(Process_answer e st _ sid recv req hsid hloop).1]
    obtain ⟨h1, l, h2⟩ := respond_recv e (((st.entered sid).decrypted sid n).emit
      (Event.parse b)) sid req (st.sess sid).secured
    refine ⟨?_, l, since_append _ _ _ ?_⟩
    · rw [h1]; simp only [emit_sess]; rw [decrypted_sess, hseq0]
    · rw [h2]; simp only [emit_log]; rw [decrypted_log, hlog0, hseq0, hkey0]
      simp only [List.append_assoc, List.singleton_append, List.cons_append, List.nil_append]

/-- A record of at most `MaxHttpBlock` bytes delivered to a secured session, in any number
of non-empty chunks, advances the receive counter whether its tag verifies or not; when
the tag differs `Process` returns false in the state in which the record is decrypted. -/
theorem Process_record_counts (e : Ext) (st : Server) (sid : Nat) (ct tag extra : List Nat)
    (chunks : List (List Nat)) (tl : List RecvEv) (hsid : sid < MaxHttpSessions)
    (hsec : (st.sess sid).secured = true) (hn : ct.length ≤ MaxHttpBlock)
    (htl : tag.length = 16) (hfit : (record ct tag ++ extra).length ≤ e.sizeofdata)
    (hne : ∀ c ∈ chunks, c ≠ []) (hdel : chunks.flatten = record ct tag ++ extra) :
    ((st.Process e sid (chunks.map RecvEv.data ++ tl)).2.sess sid).recvSeq =
      ((st.sess sid).recvSeq + 1) % 2 ^ 64 ∧
    ((e.aead false (st.sess sid).ControllerToAccessoryKey (nonceOf (st.sess sid).recvSeq)
        ct (lenBytes ct.length)).2 ≠ tag →
      st.Process e sid (chunks.map RecvEv.data ++ tl) =
        (some false, (st.entered sid).decrypted sid ct.length)) := by
  have hsec0 : ((st.entered sid).sess sid).secured = true := by
    rw [entered_sess]; exact hsec
  have hseq0 : ((st.entered sid).sess sid).recvSeq = (st.sess sid).recvSeq := by
    rw [entered_sess]; rfl
  have hkey0 : ((st.entered sid).sess sid).ControllerToAccessoryKey =
      (st.sess sid).ControllerToAccessoryKey := by
    rw [entered_sess]; rfl
  have hbadP : (e.aead false (st.sess sid).ControllerToAccessoryKey
      (nonceOf (st.sess sid).recvSeq) ct (lenBytes ct.length)).2 ≠ tag →
      st.Process e sid (chunks.map RecvEv.data ++ tl) =
        (some false, (st.entered sid).decrypted sid ct.length) := by
    intro hbad
    have hloop := readLoop_badTag e (st.entered sid) sid sid ct tag extra tl hn htl hsec0 hfit
      (by rw [hseq0, hkey0]; exact hbad) chunks [] hne (by simpa using hdel)
      (by simp only [List.length_nil]; omega)
    exact (Process_fail e st _ sid _ hsid hloop).1
  refine ⟨?_, hbadP⟩
  by_cases hok : (e.aead false (st.sess sid).ControllerToAccessoryKey
      (nonceOf (st.sess sid).recvSeq) ct (lenBytes ct.length)).2 = tag
  · obtain ⟨r, hr, hloop⟩ := readLoop_record e (st.entered sid) sid sid ct tag extra tl hn htl
      hsec0 hfit (by rw [hseq0, hkey0]; exact hok) chunks [] hne (by simpa using hdel)
      (by simp only [List.length_nil]; omega)
    exact (Process_after_decrypt e st sid _ _ _ r hsid hr hloop).1
  · rw [hbadP hok]
    rw [decrypted_sess, hseq0]

/-- A record whose tag verifies, delivered to a secured session: the call of `Process`
starts with the decryption of the bytes after the two length bytes, under the key
`ControllerToAccessoryKey`, the nonce of the receive counter and the two length bytes as
associated data, and the parser is called on the decrypted bytes. -/
theorem Process_record_log (e : Ext) (st : Server) (sid : Nat) (ct tag extra : List Nat)
    (chunks : List (List Nat)) (tl : List RecvEv) (hsid : sid < MaxHttpSessions)
    (hsec : (st.sess sid).secured = true) (hn : ct.length ≤ MaxHttpBlock)
    (htl : tag.length = 16) (hfit : (record ct tag ++ extra).length ≤ e.sizeofdata)
    (hne : ∀ c ∈ chunks, c ≠ []) (hdel : chunks.flatten = record ct tag ++ extra)
    (hok : (e.aead false (st.sess sid).ControllerToAccessoryKey (nonceOf (st.sess sid).recvSeq)
      ct (lenBytes ct.length)).2 = tag) :
    ∃ rest, st.since (st.Process e sid (chunks.map RecvEv.data ++ tl)).2 =
      Event.aead false (st.sess sid).ControllerToAccessoryKey (nonceOf (st.sess sid).recvSeq)
          ct.length ::
        Event.parse (e.aead false (st.sess sid).ControllerToAccessoryKey
          (nonceOf (st.sess sid).recvSeq) ct (lenBytes ct.length)).1 :: rest := by
  have hsec0 : ((st.entered sid).sess sid).secured = true := by
    rw [entered_sess]; exact hsec
  have hseq0 : ((st.entered sid).sess sid).recvSeq = (st.sess sid).recvSeq := by
    rw [entered_sess]; rfl
  have hkey0 : ((st.entered sid).sess sid).ControllerToAccessoryKey =
      (st.sess sid).ControllerToAccessoryKey := by
    rw [entered_sess]; rfl
  obtain ⟨r, hr, hloop⟩ := readLoop_record e (st.entered sid) sid sid ct tag extra tl hn htl
    hsec0 hfit (by rw [hseq0, hkey0]; exact hok) chunks [] hne (by simpa using hdel)
    (by simp only [List.length_nil]; omega)
  rw [hseq0, hkey0] at hr
  exact (Process_after_decrypt e st sid _ _ _ r hsid hr hloop).2

/-! ### The keys of the record layer -/

/-- The transport keys and the bound controller after a Pair-Verify M3 that verifies. -/
theorem Process_M3_keys (e : Ext) (st : Server) (sid : Nat) (recv : List RecvEv)
    (req : Request) (id sg : List Nat) (ios : Nat) (hsid : sid < MaxHttpSessions)
    (hreq : st.request e sid recv = some req) (hM3 : req.isPairVerifyM3 e = true)
    (htag : req.m3TagOk e (st.sess sid).key = some true)
    (hid : Tlv.get (req.m3Sub e (st.sess sid).key) Tlv.Kind.Identifier = some id)
    (hsg : Tlv.get (req.m3Sub e (st.sess sid).key) Tlv.Kind.Signature = some sg)
    (hget : st.pairings.Get id = some ios) :
    (st.Process e sid recv).1 = some true ∧
    ((st.Process e sid recv).2.sess sid).AccessoryToControllerKey =
      e.hkdf (cstr "Control-Salt") (st.sess sid).curve.shared
        (cstr "Control-Read-Encryption-Key") 32 ∧
    ((st.Process e sid recv).2.sess sid).ControllerToAccessoryKey =
      e.hkdf (cstr "Control-Salt") (st.sess sid).curve.shared
        (cstr "Control-Write-Encryption-Key") 32 ∧
    ((st.Process e sid recv).2.sess sid).ios = some ios ∧
    ((st.Process e sid recv).2.sess sid).secured = true := by
  obtain ⟨l, s, L, q, _, _, hP, _⟩ := Process_parsed e st sid recv req hsid hreq
  obtain ⟨hdata, hkey, _, _, _, _, hpair⟩ := m3_of_tlvi e st sid req l s
  have hcurve : (((st.parsed sid l s).withTlv e sid req.data).sess sid).curve =
      (st.sess sid).curve := by
    simp [Server.withTlv, Session.Init]
  simp only [Request.m3TagOk, Option.map_eq_some'] at htag
  obtain ⟨enc, henc, htag⟩ := htag
  simp only [Request.m3Sub, henc] at hid hsg
  have hh := (pairVerify3_cases e ((st.parsed sid l s).withTlv e sid req.data) sid enc
    (by rw [hdata, henc])).2.2 id sg ios
    (by rw [hkey]; exact htag) (by rw [hkey]; exact hid) (by rw [hkey]; exact hsg)
    (by rw [hpair]; exact hget)
  have hroute := route_pairVerifyM3 e (st.parsed sid l s) sid req (st.sess sid).secured hM3
  rw [hP, hroute, hh]
  simp only [sent_sess_same, setSess_sess_same, hcurve]
  exact ⟨trivial, rfl, rfl, rfl, rfl⟩

theorem recordEvents_cipher (e : Ext) (sid : Nat) (key : List Nat) (bs : List (List Nat)) :
    ∀ seq, ∀ ev ∈ recordEvents e sid key seq bs, ev.cipherIs true key := by
  induction bs with
  | nil => intro seq ev hev; simp [recordEvents] at hev
  | cons b bs ih =>
    intro seq ev hev
    simp only [recordEvents, List.mem_cons] at hev
    rcases hev with h | h | h
    · subst h; exact ⟨rfl, rfl⟩
    · subst h; trivial
    · exact ih _ ev h

/-- The cipher calls of the read loop: all decrypt under the key
`ControllerToAccessoryKey`. -/
theorem readLoop_cipher (e : Ext) (st : Server) (i sid : Nat) (recv : List RecvEv)
    (buf : List Nat) :
    ∀ ev ∈ st.since (st.readLoop e i sid recv buf).state,
      ev.cipherIs false (st.sess i).ControllerToAccessoryKey := by
  have h0 : st.since st = [] := since_append st st [] (by simp)
  rcases readLoop_cases e st i sid recv buf with h | h | ⟨_, b, _, h⟩ |
    ⟨_, b, req, _, h⟩ | ⟨_, n, h⟩ | ⟨_, n, b, _, h⟩ | ⟨_, n, b, _, h⟩ | ⟨_, n, b, req, _, h⟩ <;>
    rw [h] <;> intro ev hev
  · simp [Read.state, h0] at hev
  · simp [Read.state, h0] at hev
  · rw [since_append st _ [Event.parse b, Event.send sid (e.render (st.sess i).rsp)]
      (by simp [Read.state])] at hev
    simp only [List.mem_cons, List.mem_singleton, List.not_mem_nil, or_false] at hev
    rcases hev with h | h <;> subst h <;> trivial
  · rw [since_append st _ [Event.parse b] (by simp [Read.state])] at hev
    simp only [List.mem_singleton] at hev
    subst hev; trivial
  · rw [since_append st _ [Event.aead false (st.sess i).ControllerToAccessoryKey
      (nonceOf (st.sess i).recvSeq) n] (by simp [Read.state, decrypted_log])] at hev
    simp only [List.mem_singleton] at hev
    subst hev; exact ⟨rfl, rfl⟩
  · rw [since_append st _ [Event.aead false (st.sess i).ControllerToAccessoryKey
      (nonceOf (st.sess i).recvSeq) n, Event.parse b,
      Event.send sid (e.render (st.sess i).rsp)]
      (by simp [Read.state, decrypted_log])] at hev
    simp only [List.mem_cons, List.mem_singleton, List.not_mem_nil, or_false] at hev
    rcases hev with h | h | h <;> subst h
    · exact ⟨rfl, rfl⟩
    · trivial
    · trivial
  · rw [since_append st _ [Event.aead false (st.sess i).ControllerToAccessoryKey
      (nonceOf (st.sess i).recvSeq) n, Event.parse b]
      (by simp [Read.state, decrypted_log])] at hev
    simp only [List.mem_cons, List.mem_singleton, List.not_mem_nil, or_false] at hev
    rcases hev with h | h <;> subst h
    · exact ⟨rfl, rfl⟩
    · trivial
  · rw [since_append st _ [Event.aead false (st.sess i).ControllerToAccessoryKey
      (nonceOf (st.sess i).recvSeq) n, Event.parse b]
      (by simp [Read.state, decrypted_log])] at hev
    simp only [List.mem_cons, List.mem_singleton, List.not_mem_nil, or_false] at hev
    rcases hev with h | h <;> subst h
    · exact ⟨rfl, rfl⟩
    · trivial

/-! ### Pair-Setup M3 and M5 -/

theorem isPairSetupM3_iff (e : Ext) (req : Request) :
    req.isPairSetupM3 e = true ↔
      req.method = "POST" ∧ req.path = "/pair-setup" ∧ req.hdrContentTypeTlv8 = true ∧
        req.hdrContentLength = true ∧
        Tlv.getByte (e.tlvParse req.data) Tlv.Kind.State = some Tlv.State.M3 := by
  simp [Request.isPairSetupM3, Request.isTlv, Request.state, and_assoc]

theorem isPairSetupM5_iff (e : Ext) (req : Request) :
    req.isPairSetupM5 e = true ↔
      req.method = "POST" ∧ req.path = "/pair-setup" ∧ req.hdrContentTypeTlv8 = true ∧
        req.hdrContentLength = true ∧
        Tlv.getByte (e.tlvParse req.data) Tlv.Kind.State = some Tlv.State.M5 := by
  simp [Request.isPairSetupM5, Request.isTlv, Request.state, and_assoc]

theorem route_pairSetupM3 (e : Ext) (st : Server) (i : Nat) (req : Request) (sec : Bool)
    (h : req.isPairSetupM3 e = true) :
    st.route e i req sec = ((st.withTlv e i req.data)._pairSetup3 e i, sec) := by
  obtain ⟨hm, hp, hct, hcl, hs⟩ := (isPairSetupM3_iff e req).mp h
  simp [Server.route, hm, hp, hct, hcl, Server.postPairSetup, hs, Server.withTlv,
    Tlv.State.M3, Tlv.State.M1]

theorem route_pairSetupM5 (e : Ext) (st : Server) (i : Nat) (req : Request) (sec : Bool)
    (h : req.isPairSetupM5 e = true) :
    st.route e i req sec = ((st.withTlv e i req.data)._pairSetup5 e i, sec) := by
  obtain ⟨hm, hp, hct, hcl, hs⟩ := (isPairSetupM5_iff e req).mp h
  simp [Server.route, hm, hp, hct, hcl, Server.postPairSetup, hs, Server.withTlv,
    Tlv.State.M3, Tlv.State.M1, Tlv.State.M5]

@[simp] theorem parsed_shared (st : Server) (sid : Nat) (l : List Event) (s : Nat) :
    (st.parsed sid l s).srp_shared_secret = st.srp_shared_secret := rfl

@[simp] theorem sent_shared (st : Server) (i : Nat) (L : List Event) (q : Nat) (sec : Bool) :
    (st.sent i L q sec).srp_shared_secret = st.srp_shared_secret := rfl

/-- The state in which a pairing handler starts, against the state at the entry of
`Process`. -/
theorem start_of_handler (e : Ext) (st : Server) (sid : Nat) (req : Request) (l : List Event)
    (s : Nat) :
    (((st.parsed sid l s).withTlv e sid req.data).sess sid).tlvi = e.tlvParse req.data ∧
    (((st.parsed sid l s).withTlv e sid req.data).sess sid).key = (st.sess sid).key ∧
    (((st.parsed sid l s).withTlv e sid req.data).sess sid).sid = (st.sess sid).sid ∧
    ((st.parsed sid l s).withTlv e sid req.data).srp = st.srp ∧
    ((st.parsed sid l s).withTlv e sid req.data).srp_owner = st.srp_owner ∧
    ((st.parsed sid l s).withTlv e sid req.data).srp_shared_secret = st.srp_shared_secret ∧
    ((st.parsed sid l s).withTlv e sid req.data).pairings = st.pairings ∧
    ((st.parsed sid l s).withTlv e sid req.data).log = st.log ++ l := by
  simp [Server.withTlv, Session.Init]

/-- A handler that only answers an error: the state but for the entry in the log and the
response. -/
theorem pairSetup3_notOwner (e : Ext) (st : Server) (i : Nat)
    (h : st.srp = none ∨ st.srp_owner ≠ (st.sess i).sid) :
    st._pairSetup3 e i = (st.emit (Event.handler "_pairSetup3")).setSess i
      ((((st.sess i).tlvBegin e Tlv.State.M4).addError Tlv.Error.Unknown).tlvEnd) := by
  unfold Server._pairSetup3
  rcases h with h | h
  · simp [h, Server.pairSetup3_RetErr]
  · cases hsrp : st.srp with
    | none => simp [hsrp, Server.pairSetup3_RetErr]
    | some srp =>
      have h2 : ¬ st.srp_owner = ((st.sess i).tlvBegin e Tlv.State.M4).sid := h
      simp [hsrp, Server.pairSetup3_RetErr, h2]

theorem pairSetup5_notOwner (e : Ext) (st : Server) (i : Nat)
    (h : st.srp = none ∨ st.srp_owner ≠ (st.sess i).sid) :
    st._pairSetup5 e i = (st.emit (Event.handler "_pairSetup5")).setSess i
      ((((st.sess i).tlvBegin e Tlv.State.M6).addError Tlv.Error.Unknown).tlvEnd) := by
  unfold Server._pairSetup5
  rcases h with h | h
  · simp [h, Server.pairSetup5_RetErr, Server.pairSetup5_RetDone]
  · have h2 : ¬ st.srp_owner = ((st.sess i).tlvBegin e Tlv.State.M6).sid := h
    have h3 : ¬ st.srp_owner = (st.sess i).sid := h
    simp [Server.pairSetup5_RetErr, Server.pairSetup5_RetDone, h2, h3, Session.addError,
      Session.tlvBegin]

/-- How `_pairSetup3` ends on the session that owns the pairing: a hard failure releases
the pairing and answers `Unknown`, a proof that does not verify answers `Authentication`
and keeps it, a success answers the proof and keeps it. -/
theorem pairSetup3_owner (e : Ext) (st : Server) (i : Nat) (srp : SRP)
    (hsrp : st.srp = some srp) (hown : st.srp_owner = (st.sess i).sid) :
    ((Tlv.getBuf (st.sess i).tlvi Tlv.Kind.PublicKey 384 = none ∨
      Tlv.getBuf (st.sess i).tlvi Tlv.Kind.Proof 64 = none ∨
      ∃ iosKey, Tlv.getBuf (st.sess i).tlvi Tlv.Kind.PublicKey 384 = some iosKey ∧
        e.SRP_compute_key srp iosKey = none) →
      st._pairSetup3 e i =
        ({ ((st.emit (Event.handler "_pairSetup3")).emit Event.SRP_free) with
            srp := none, srp_owner := sid_invalid }).setSess i
          ((((st.sess i).tlvBegin e Tlv.State.M4).addError Tlv.Error.Unknown).tlvEnd)) ∧
    (∀ iosKey iosProof key,
      Tlv.getBuf (st.sess i).tlvi Tlv.Kind.PublicKey 384 = some iosKey →
      Tlv.getBuf (st.sess i).tlvi Tlv.Kind.Proof 64 = some iosProof →
      e.SRP_compute_key srp iosKey = some key →
      (e.SRP_verify srp ((iosProof ++ e.scratch).take 64) = false →
        st._pairSetup3 e i =
          ({ (st.emit (Event.handler "_pairSetup3")) with
              srp_shared_secret := overwrite st.srp_shared_secret key }).setSess i
            (Session.tlvEnd (Session.addError
              { (st.sess i).tlvBegin e Tlv.State.M4 with
                key := setupKey e (overwrite st.srp_shared_secret key) }
              Tlv.Error.Authentication))) ∧
      (e.SRP_verify srp ((iosProof ++ e.scratch).take 64) = true →
        e.SRP_respond srp = none →
        st._pairSetup3 e i =
          ({ (({ (st.emit (Event.handler "_pairSetup3")) with
              srp_shared_secret := overwrite st.srp_shared_secret key } : Server).emit
                Event.SRP_free) with srp := none, srp_owner := sid_invalid }).setSess i
            (Session.tlvEnd (Session.addError
              { (st.sess i).tlvBegin e Tlv.State.M4 with
                key := setupKey e (overwrite st.srp_shared_secret key) }
              Tlv.Error.Unknown))) ∧
      (∀ rsp, e.SRP_verify srp ((iosProof ++ e.scratch).take 64) = true →
        e.SRP_respond srp = some rsp →
        st._pairSetup3 e i =
          ({ (st.emit (Event.handler "_pairSetup3")) with
              srp_shared_secret := overwrite st.srp_shared_secret key }).setSess i
            (Session.tlvEnd
              { (st.sess i).tlvBegin e Tlv.State.M4 with
                key := setupKey e (overwrite st.srp_shared_secret key)
                tlvo := ((st.sess i).tlvBegin e Tlv.State.M4).tlvo.put Tlv.Kind.Proof rsp }))) := by
  have hown2 : st.srp_owner = ((st.sess i).tlvBegin e Tlv.State.M4).sid := hown
  have htlvi : ((st.sess i).tlvBegin e Tlv.State.M4).tlvi = (st.sess i).tlvi := rfl
  refine ⟨?_, ?_⟩
  · intro h
    unfold Server._pairSetup3
    rcases h with h | h | ⟨iosKey, h1, h2⟩
    · simp [hsrp, hown2, htlvi, h, Server.pairSetup3_RetErr]
    · cases hpk : Tlv.getBuf (st.sess i).tlvi Tlv.Kind.PublicKey 384 with
      | none => simp [hsrp, hown2, htlvi, hpk, Server.pairSetup3_RetErr]
      | some iosKey => simp [hsrp, hown2, htlvi, hpk, h, Server.pairSetup3_RetErr]
    · cases hpf : Tlv.getBuf (st.sess i).tlvi Tlv.Kind.Proof 64 with
      | none => simp [hsrp, hown2, htlvi, h1, hpf, Server.pairSetup3_RetErr]
      | some iosProof => simp [hsrp, hown2, htlvi, h1, hpf, h2, Server.pairSetup3_RetErr]
  · intro iosKey iosProof key hpk hpf hck
    refine ⟨?_, ?_, ?_⟩
    · intro hv
      unfold Server._pairSetup3
      simp [hsrp, hown2, htlvi, hpk, hpf, hck, hv, setupKey]
    · intro hv hr
      unfold Server._pairSetup3
      simp [hsrp, hown2, htlvi, hpk, hpf, hck, hv, hr, setupKey, Server.pairSetup3_RetErr]
    · intro rsp hv hr
      unfold Server._pairSetup3
      simp [hsrp, hown2, htlvi, hpk, hpf, hck, hv, hr, setupKey]

/-- What `Process` comes to on a Pair-Setup M3: the handler runs on the state the read
loop left, with the TLV of the body in `tlvi`; then the response is sent. -/
theorem Process_pairSetupM3 (e : Ext) (st : Server) (sid : Nat) (recv : List RecvEv)
    (req : Request) (hsid : sid < MaxHttpSessions) (hreq : st.request e sid recv = some req)
    (hM3 : req.isPairSetupM3 e = true) :
    ∃ l s L q, (∀ ev ∈ l, ev.isWire = true) ∧ (∀ ev ∈ L, ev.isWire = true) ∧
      st.Process e sid recv = (some true,
        (((st.parsed sid l s).withTlv e sid req.data)._pairSetup3 e sid).sent sid L q
          (st.sess sid).secured) := by
  obtain ⟨l, s, L, q, hl, hL, hP, _⟩ := Process_parsed e st sid recv req hsid hreq
  refine ⟨l, s, L, q, hl, hL, ?_⟩
  rw [hP, route_pairSetupM3 e _ sid req _ hM3]

/-- What `Process` comes to on a Pair-Setup M5. -/
theorem Process_pairSetupM5 (e : Ext) (st : Server) (sid : Nat) (recv : List RecvEv)
    (req : Request) (hsid : sid < MaxHttpSessions) (hreq : st.request e sid recv = some req)
    (hM5 : req.isPairSetupM5 e = true) :
    ∃ l s L q, (∀ ev ∈ l, ev.isWire = true) ∧ (∀ ev ∈ L, ev.isWire = true) ∧
      st.Process e sid recv = (some true,
        (((st.parsed sid l s).withTlv e sid req.data)._pairSetup5 e sid).sent sid L q
          (st.sess sid).secured) := by
  obtain ⟨l, s, L, q, hl, hL, hP, _⟩ := Process_parsed e st sid recv req hsid hreq
  refine ⟨l, s, L, q, hl, hL, ?_⟩
  rw [hP, route_pairSetupM5 e _ sid req _ hM5]

/-! ### Pair-Setup M5 -/

/-- How `_pairSetup5` ends on the session that owns the pairing once the tag of the
`EncryptedData` verifies and the sub-TLV holds identifier, public key and signature: by
the answer of the pairings store. -/
theorem pairSetup5_owner (e : Ext) (st : Server) (i : Nat) (enc id ltpk sg : List Nat)
    (hsrp : st.srp.isSome = true) (hown : st.srp_owner = (st.sess i).sid)
    (henc : Tlv.getBuf (st.sess i).tlvi Tlv.Kind.EncryptedData e.sizeofdata = some enc)
    (htag : (openEncrypted e (st.sess i).key noncePS05 enc).2.2 = true)
    (hid : Tlv.get (e.tlvParse (openEncrypted e (st.sess i).key noncePS05 enc).2.1)
      Tlv.Kind.Identifier = some id)
    (hpk : Tlv.get (e.tlvParse (openEncrypted e (st.sess i).key noncePS05 enc).2.1)
      Tlv.Kind.PublicKey = some ltpk)
    (hsg : Tlv.get (e.tlvParse (openEncrypted e (st.sess i).key noncePS05 enc).2.1)
      Tlv.Kind.Signature = some sg) :
    ((st.pairings.Add id ltpk Controller.Admin).1 = false →
      st._pairSetup5 e i =
        ((st.emit (Event.handler "_pairSetup5")).emit
          (Event.aead false (st.sess i).key noncePS05
            (openEncrypted e (st.sess i).key noncePS05 enc).1)).setSess i
          ((((st.sess i).tlvBegin e Tlv.State.M6).addError Tlv.Error.MaxPeers).tlvEnd)) ∧
    ((st.pairings.Add id ltpk Controller.Admin).1 = true →
      st._pairSetup5 e i =
        ({ srp := none, srp_owner := sid_invalid, sess := st.sess, nsess := st.nsess,
           pairings := (st.pairings.Add id ltpk Controller.Admin).2,
           srp_shared_secret := st.srp_shared_secret, srp_auth_count := st.srp_auth_count,
           log := st.log ++ [Event.handler "_pairSetup5",
             Event.aead false (st.sess i).key noncePS05
               (openEncrypted e (st.sess i).key noncePS05 enc).1,
             (accessoryM6 e st (st.sess i)).2, Event.configUpdate, Event.SRP_free] } :
          Server).setSess i
          (Session.tlvEnd { (st.sess i).tlvBegin e Tlv.State.M6 with
            tlvo := ((st.sess i).tlvBegin e Tlv.State.M6).tlvo.put Tlv.Kind.EncryptedData
              (accessoryM6 e st (st.sess i)).1 })) := by
  have hown2 : st.srp_owner = ((st.sess i).tlvBegin e Tlv.State.M6).sid := hown
  have hsome : ¬ st.srp = none := by
    intro h; rw [h] at hsrp; cases hsrp
  have htlvi : ((st.sess i).tlvBegin e Tlv.State.M6).tlvi = (st.sess i).tlvi := rfl
  have hkey : ((st.sess i).tlvBegin e Tlv.State.M6).key = (st.sess i).key := rfl
  refine ⟨?_, ?_⟩
  · intro hadd
    unfold Server._pairSetup5
    simp [hsome, hown2, htlvi, hkey, henc, htag, hid, hpk, hsg, hadd]
  · intro hadd
    unfold Server._pairSetup5
    simp [hsome, hown2, htlvi, hkey, henc, htag, hid, hpk, hsg, hadd,
      Server.pairSetup5_RetDone, hsrp, accessoryM6, Server.emit, Server.setSess]

/-- The record `Pairings::Add` stores when it succeeds is in the store. -/
theorem add_mem (p : Pairings) (id key : List Nat) (perm : Controller.Perm)
    (h : (p.Add id key perm).1 = true) :
    (⟨perm, padTo Controller.IdLen id, padTo Controller.KeyLen key⟩ : Controller) ∈
      (p.Add id key perm).2.db := by
  unfold Pairings.Add at h ⊢
  dsimp only at h ⊢
  split at h
  · rename_i hlt
    rw [if_pos hlt]
    dsimp only
    rw [List.mem_iff_getElem]
    exact ⟨_, by rw [List.length_set]; exact hlt, by simp⟩
  · cases h

theorem count_wire (ev : Event) (hev : ev.isWire = false) (l : List Event)
    (h : ∀ x ∈ l, x.isWire = true) : l.count ev = 0 := by
  rw [List.count_eq_zero]
  intro hmem
  rw [h ev hmem] at hev
  cases hev

/-- The handler's view of a Pair-Setup M5 request, against the request. -/
theorem m5_of_tlvi (e : Ext) (st : Server) (sid : Nat) (req : Request) (l : List Event)
    (s : Nat) :
    Tlv.getBuf (((st.parsed sid l s).withTlv e sid req.data).sess sid).tlvi
      Tlv.Kind.EncryptedData e.sizeofdata = req.m5Data e := by
  simp [Server.withTlv, Request.m5Data, Session.Init]

/-! ### The signature of the controller -/

/-- `_pairSetup5` on the session that owns the pairing when the request has no
`EncryptedData`, or its tag verifies and the sub-TLV lacks an item: the pairing is
released and the answer is `Unknown`. -/
theorem pairSetup5_owner_hard (e : Ext) (st : Server) (i : Nat)
    (hsrp : st.srp.isSome = true) (hown : st.srp_owner = (st.sess i).sid)
    (h : Tlv.getBuf (st.sess i).tlvi Tlv.Kind.EncryptedData e.sizeofdata = none ∨
      ∃ enc, Tlv.getBuf (st.sess i).tlvi Tlv.Kind.EncryptedData e.sizeofdata = some enc ∧
        (openEncrypted e (st.sess i).key noncePS05 enc).2.2 = true ∧
        (Tlv.get (e.tlvParse (openEncrypted e (st.sess i).key noncePS05 enc).2.1)
            Tlv.Kind.Identifier = none ∨
          Tlv.get (e.tlvParse (openEncrypted e (st.sess i).key noncePS05 enc).2.1)
            Tlv.Kind.PublicKey = none ∨
          Tlv.get (e.tlvParse (openEncrypted e (st.sess i).key noncePS05 enc).2.1)
            Tlv.Kind.Signature = none)) :
    ((st._pairSetup5 e i).sess i).rsp =
      ((((st.sess i).tlvBegin e Tlv.State.M6).addError Tlv.Error.Unknown).tlvEnd).rsp ∧
    (st._pairSetup5 e i).pairings = st.pairings ∧
    (st._pairSetup5 e i).srp = none ∧ (st._pairSetup5 e i).srp_owner = sid_invalid := by
  have hown2 : st.srp_owner = ((st.sess i).tlvBegin e Tlv.State.M6).sid := hown
  have hsome : ¬ st.srp = none := by
    intro h; rw [h] at hsrp; cases hsrp
  have htlvi : ((st.sess i).tlvBegin e Tlv.State.M6).tlvi = (st.sess i).tlvi := rfl
  have hkey : ((st.sess i).tlvBegin e Tlv.State.M6).key = (st.sess i).key := rfl
  have hret : ∀ st1 : Server, st1.srp = st.srp → st1.srp_owner = (st.sess i).sid →
      st1.pairings = st.pairings →
      ((st1.pairSetup5_RetErr i ((st.sess i).tlvBegin e Tlv.State.M6)).sess i).rsp =
        ((((st.sess i).tlvBegin e Tlv.State.M6).addError Tlv.Error.Unknown).tlvEnd).rsp ∧
      (st1.pairSetup5_RetErr i ((st.sess i).tlvBegin e Tlv.State.M6)).pairings = st.pairings ∧
      (st1.pairSetup5_RetErr i ((st.sess i).tlvBegin e Tlv.State.M6)).srp = none ∧
      (st1.pairSetup5_RetErr i ((st.sess i).tlvBegin e Tlv.State.M6)).srp_owner =
        sid_invalid := by
    intro st1 h1 h2 h3
    have hc : (st1.srp.isSome && decide (st1.srp_owner =
        (((st.sess i).tlvBegin e Tlv.State.M6).addError Tlv.Error.Unknown).sid)) = true := by
      rw [h1, h2, hsrp]
      simp [Session.addError, Session.tlvBegin]
    unfold Server.pairSetup5_RetErr Server.pairSetup5_RetDone
    simp only [hc, if_true]
    exact ⟨by simp, h3, rfl, rfl⟩
  unfold Server._pairSetup5
  rcases h with h | ⟨enc, h, htag, h3⟩
  · simp only [Server.emit, hsome, hown2, htlvi, h, Option.isNone_iff_eq_none, ne_eq, not_true_eq_false,
      Bool.or_false, decide_False, Bool.false_eq_true, if_false, decide_eq_true_eq]
    exact hret _ rfl rfl rfl
  · simp only [Server.emit, hsome, hown2, htlvi, hkey, h, htag, Option.isNone_iff_eq_none, ne_eq,
      not_true_eq_false, Bool.or_false, decide_False, Bool.false_eq_true, if_false,
      decide_eq_true_eq, Bool.not_true]
    rcases h3 with h3 | h3 | h3
    · simp only [h3]
      exact hret _ rfl rfl rfl
    · cases hid : Tlv.get (e.tlvParse (openEncrypted e (st.sess i).key noncePS05 enc).2.1)
        Tlv.Kind.Identifier with
      | none => exact hret _ rfl rfl rfl
      | some id =>
        simp only [h3]
        exact hret _ rfl rfl rfl
    · cases hid : Tlv.get (e.tlvParse (openEncrypted e (st.sess i).key noncePS05 enc).2.1)
        Tlv.Kind.Identifier with
      | none => exact hret _ rfl rfl rfl
      | some id =>
        cases hpk : Tlv.get (e.tlvParse (openEncrypted e (st.sess i).key noncePS05 enc).2.1)
          Tlv.Kind.PublicKey with
        | none => exact hret _ rfl rfl rfl
        | some pk =>
          simp only [h3]
          exact hret _ rfl rfl rfl

/-- `_pairSetup5` on the session that owns the pairing when the tag of the
`EncryptedData` does not verify: the answer is `Authentication`, nothing else changes. -/
theorem pairSetup5_owner_auth (e : Ext) (st : Server) (i : Nat) (enc : List Nat)
    (hsrp : st.srp.isSome = true) (hown : st.srp_owner = (st.sess i).sid)
    (henc : Tlv.getBuf (st.sess i).tlvi Tlv.Kind.EncryptedData e.sizeofdata = some enc)
    (htag : (openEncrypted e (st.sess i).key noncePS05 enc).2.2 = false) :
    st._pairSetup5 e i =
      ((st.emit (Event.handler "_pairSetup5")).emit
        (Event.aead false (st.sess i).key noncePS05
          (openEncrypted e (st.sess i).key noncePS05 enc).1)).setSess i
        ((((st.sess i).tlvBegin e Tlv.State.M6).addError Tlv.Error.Authentication).tlvEnd) := by
  have hown2 : st.srp_owner = ((st.sess i).tlvBegin e Tlv.State.M6).sid := hown
  have hsome : ¬ st.srp = none := by
    intro h; rw [h] at hsrp; cases hsrp
  have htlvi : ((st.sess i).tlvBegin e Tlv.State.M6).tlvi = (st.sess i).tlvi := rfl
  have hkey : ((st.sess i).tlvBegin e Tlv.State.M6).key = (st.sess i).key := rfl
  unfold Server._pairSetup5
  simp [hsome, hown2, htlvi, hkey, henc, htag]

/-- The response a handler leaves does not depend on the session it started from. -/
theorem tlvEnd_rsp (e : Ext) (s1 s2 : Session) (m err : Nat) :
    (((s1.tlvBegin e m).addError err).tlvEnd).rsp =
      (((s2.tlvBegin e m).addError err).tlvEnd).rsp := rfl

/-- Two runs of `_pairSetup5` that both release the pairing and answer `Unknown` leave
the same response, store and pairing. -/
theorem pairSetup5_hard_same (e : Ext) (a b : Server) (i : Nat)
    (hpair : a.pairings = b.pairings)
    (pa : ((a._pairSetup5 e i).sess i).rsp =
        ((((a.sess i).tlvBegin e Tlv.State.M6).addError Tlv.Error.Unknown).tlvEnd).rsp ∧
      (a._pairSetup5 e i).pairings = a.pairings ∧
      (a._pairSetup5 e i).srp = none ∧ (a._pairSetup5 e i).srp_owner = sid_invalid)
    (pb : ((b._pairSetup5 e i).sess i).rsp =
        ((((b.sess i).tlvBegin e Tlv.State.M6).addError Tlv.Error.Unknown).tlvEnd).rsp ∧
      (b._pairSetup5 e i).pairings = b.pairings ∧
      (b._pairSetup5 e i).srp = none ∧ (b._pairSetup5 e i).srp_owner = sid_invalid) :
    ((a._pairSetup5 e i).sess i).rsp = ((b._pairSetup5 e i).sess i).rsp ∧
    (a._pairSetup5 e i).pairings = (b._pairSetup5 e i).pairings ∧
    (a._pairSetup5 e i).srp = (b._pairSetup5 e i).srp ∧
    (a._pairSetup5 e i).srp_owner = (b._pairSetup5 e i).srp_owner := by
  obtain ⟨p1, p2, p3, p4⟩ := pa
  obtain ⟨q1, q2, q3, q4⟩ := pb
  rw [p1, p2, p3, p4, q1, q2, q3, q4]
  exact ⟨tlvEnd_rsp e _ _ _ _, hpair, rfl, rfl⟩

/-- `_pairSetup5` reads of the `Signature` item of the sub-TLV only whether it is there:
two runs from states that agree on the pairing in progress, the store and the session key,
on requests whose sub-TLVs agree on the tag, the identifier and the public key and both
have or both lack a signature, leave the same response, store and pairing. -/
theorem pairSetup5_signature (e : Ext) (a b : Server) (i : Nat)
    (hsrp : a.srp = b.srp) (hown : a.srp_owner = b.srp_owner)
    (hpair : a.pairings = b.pairings) (hsec : a.srp_shared_secret = b.srp_shared_secret)
    (hkey : (a.sess i).key = (b.sess i).key) (hsid : (a.sess i).sid = (b.sess i).sid)
    (htag : (Tlv.getBuf (a.sess i).tlvi Tlv.Kind.EncryptedData e.sizeofdata).map
        (fun enc => (openEncrypted e (a.sess i).key noncePS05 enc).2.2) =
      (Tlv.getBuf (b.sess i).tlvi Tlv.Kind.EncryptedData e.sizeofdata).map
        (fun enc => (openEncrypted e (a.sess i).key noncePS05 enc).2.2))
    (hsub : ∀ x y, Tlv.getBuf (a.sess i).tlvi Tlv.Kind.EncryptedData e.sizeofdata = some x →
      Tlv.getBuf (b.sess i).tlvi Tlv.Kind.EncryptedData e.sizeofdata = some y →
      Tlv.get (e.tlvParse (openEncrypted e (a.sess i).key noncePS05 x).2.1)
          Tlv.Kind.Identifier =
        Tlv.get (e.tlvParse (openEncrypted e (a.sess i).key noncePS05 y).2.1)
          Tlv.Kind.Identifier ∧
      Tlv.get (e.tlvParse (openEncrypted e (a.sess i).key noncePS05 x).2.1)
          Tlv.Kind.PublicKey =
        Tlv.get (e.tlvParse (openEncrypted e (a.sess i).key noncePS05 y).2.1)
          Tlv.Kind.PublicKey ∧
      (Tlv.get (e.tlvParse (openEncrypted e (a.sess i).key noncePS05 x).2.1)
          Tlv.Kind.Signature).isSome =
        (Tlv.get (e.tlvParse (openEncrypted e (a.sess i).key noncePS05 y).2.1)
          Tlv.Kind.Signature).isSome) :
    ((a._pairSetup5 e i).sess i).rsp = ((b._pairSetup5 e i).sess i).rsp ∧
    (a._pairSetup5 e i).pairings = (b._pairSetup5 e i).pairings ∧
    (a._pairSetup5 e i).srp = (b._pairSetup5 e i).srp ∧
    (a._pairSetup5 e i).srp_owner = (b._pairSetup5 e i).srp_owner := by
  by_cases hno : a.srp = none ∨ a.srp_owner ≠ (a.sess i).sid
  · have hno2 : b.srp = none ∨ b.srp_owner ≠ (b.sess i).sid := by
      rw [← hsrp, ← hown, ← hsid]; exact hno
    rw [pairSetup5_notOwner e a i hno, pairSetup5_notOwner e b i hno2]
    exact ⟨by simp [Server.setSess, Session.tlvEnd, Session.addError, Session.tlvBegin],
      hpair, hsrp, hown⟩
  · have ha1 : a.srp.isSome = true := by
      cases h : a.srp with
      | none => exact absurd (Or.inl h) hno
      | some _ => rfl
    have ha2 : a.srp_owner = (a.sess i).sid := by
      by_contra h
      exact hno (Or.inr h)
    have hb1 : b.srp.isSome = true := by rw [← hsrp]; exact ha1
    have hb2 : b.srp_owner = (b.sess i).sid := by rw [← hown, ← hsid]; exact ha2
    have hard := pairSetup5_hard_same e a b i hpair
    cases hA : Tlv.getBuf (a.sess i).tlvi Tlv.Kind.EncryptedData e.sizeofdata with
    | none =>
      cases hB : Tlv.getBuf (b.sess i).tlvi Tlv.Kind.EncryptedData e.sizeofdata with
      | none =>
        exact hard (pairSetup5_owner_hard e a i ha1 ha2 (Or.inl hA))
          (pairSetup5_owner_hard e b i hb1 hb2 (Or.inl hB))
      | some y => rw [hA, hB] at htag; cases htag
    | some x =>
      cases hB : Tlv.getBuf (b.sess i).tlvi Tlv.Kind.EncryptedData e.sizeofdata with
      | none => rw [hA, hB] at htag; cases htag
      | some y =>
        rw [hA, hB] at htag
        simp only [Option.map_some', Option.some.injEq] at htag
        obtain ⟨hid, hpk, hsg⟩ := hsub x y hA hB
        cases ht : (openEncrypted e (a.sess i).key noncePS05 x).2.2 with
        | false =>
          have ht2 : (openEncrypted e (b.sess i).key noncePS05 y).2.2 = false := by
            rw [← hkey, ← htag, ht]
          rw [pairSetup5_owner_auth e a i x ha1 ha2 hA ht,
            pairSetup5_owner_auth e b i y hb1 hb2 hB ht2]
          exact ⟨by simp [Server.setSess, Session.tlvEnd, Session.addError, Session.tlvBegin],
            hpair, hsrp, hown⟩
        | true =>
          have ht2 : (openEncrypted e (b.sess i).key noncePS05 y).2.2 = true := by
            rw [← hkey, ← htag, ht]
          cases h1 : Tlv.get (e.tlvParse (openEncrypted e (a.sess i).key noncePS05 x).2.1)
            Tlv.Kind.Identifier with
          | none =>
            refine hard (pairSetup5_owner_hard e a i ha1 ha2 (Or.inr ⟨x, hA, ht, Or.inl h1⟩))
              (pairSetup5_owner_hard e b i hb1 hb2 (Or.inr ⟨y, hB, ht2, Or.inl ?_⟩))
            rw [← hkey, ← hid, h1]
          | some id =>
            cases h2 : Tlv.get (e.tlvParse (openEncrypted e (a.sess i).key noncePS05 x).2.1)
              Tlv.Kind.PublicKey with
            | none =>
              refine hard
                (pairSetup5_owner_hard e a i ha1 ha2 (Or.inr ⟨x, hA, ht, Or.inr (Or.inl h2)⟩))
                (pairSetup5_owner_hard e b i hb1 hb2
                  (Or.inr ⟨y, hB, ht2, Or.inr (Or.inl ?_)⟩))
              rw [← hkey, ← hpk, h2]
            | some pk =>
              cases h3 : Tlv.get
                (e.tlvParse (openEncrypted e (a.sess i).key noncePS05 x).2.1)
                Tlv.Kind.Signature with
              | none =>
                refine hard
                  (pairSetup5_owner_hard e a i ha1 ha2
                    (Or.inr ⟨x, hA, ht, Or.inr (Or.inr h3)⟩))
                  (pairSetup5_owner_hard e b i hb1 hb2
                    (Or.inr ⟨y, hB, ht2, Or.inr (Or.inr ?_)⟩))
                rw [h3] at hsg
                rw [← hkey]
                cases h4 : Tlv.get
                  (e.tlvParse (openEncrypted e (a.sess i).key noncePS05 y).2.1)
                  Tlv.Kind.Signature with
                | none => rfl
                | some _ => rw [h4] at hsg; cases hsg
              | some sg =>
                rw [h3] at hsg
                cases h4 : Tlv.get
                  (e.tlvParse (openEncrypted e (a.sess i).key noncePS05 y).2.1)
                  Tlv.Kind.Signature with
                | none => rw [h4] at hsg; cases hsg
                | some sg2 =>
                  have h1b := h1
                  have h2b := h2
                  rw [hid] at h1b
                  rw [hpk] at h2b
                  rw [hkey] at h1b h2b h4
                  obtain ⟨pa1, pa2⟩ := pairSetup5_owner e a i x id pk sg ha1 ha2 hA ht h1 h2 h3
                  obtain ⟨pb1, pb2⟩ :=
                    pairSetup5_owner e b i y id pk sg2 hb1 hb2 hB ht2 h1b h2b h4
                  rw [← hpair] at pb1 pb2
                  cases hadd : (a.pairings.Add id pk Controller.Admin).1 with
                  | false =>
                    rw [pa1 hadd, pb1 hadd]
                    exact ⟨by simp [Server.setSess, Session.tlvEnd, Session.addError,
                      Session.tlvBegin], hpair, hsrp, hown⟩
                  | true =>
                    rw [pa2 hadd, pb2 hadd]
                    have hm6 : (accessoryM6 e a (a.sess i)).1 = (accessoryM6 e b (b.sess i)).1 := by
                      simp [accessoryM6, hsec, hkey]
                    refine ⟨?_, rfl, rfl, rfl⟩
                    simp [Server.setSess, Session.tlvEnd, Session.tlvBegin, hm6]

/-- `_pairVerify3` reads of the `Signature` item of the sub-TLV only whether it is there:
two runs from states that agree on the store and on the keys, the curve and the bound
controller of the session, on requests whose sub-TLVs agree on the tag and the identifier
and both have or both lack a signature, leave the same response, bound controller and
transport keys. -/
theorem pairVerify3_signature (e : Ext) (a b : Server) (i : Nat)
    (hpair : a.pairings = b.pairings)
    (hkey : (a.sess i).key = (b.sess i).key) (hcurve : (a.sess i).curve = (b.sess i).curve)
    (hios : (a.sess i).ios = (b.sess i).ios)
    (ha2c : (a.sess i).AccessoryToControllerKey = (b.sess i).AccessoryToControllerKey)
    (hc2a : (a.sess i).ControllerToAccessoryKey = (b.sess i).ControllerToAccessoryKey)
    (htag : (Tlv.getBuf (a.sess i).tlvi Tlv.Kind.EncryptedData e.sizeofdata).map
        (fun enc => (openEncrypted e (a.sess i).key noncePV03 enc).2.2) =
      (Tlv.getBuf (b.sess i).tlvi Tlv.Kind.EncryptedData e.sizeofdata).map
        (fun enc => (openEncrypted e (a.sess i).key noncePV03 enc).2.2))
    (hsub : ∀ x y, Tlv.getBuf (a.sess i).tlvi Tlv.Kind.EncryptedData e.sizeofdata = some x →
      Tlv.getBuf (b.sess i).tlvi Tlv.Kind.EncryptedData e.sizeofdata = some y →
      Tlv.get (e.tlvParse (openEncrypted e (a.sess i).key noncePV03 x).2.1)
          Tlv.Kind.Identifier =
        Tlv.get (e.tlvParse (openEncrypted e (a.sess i).key noncePV03 y).2.1)
          Tlv.Kind.Identifier ∧
      (Tlv.get (e.tlvParse (openEncrypted e (a.sess i).key noncePV03 x).2.1)
          Tlv.Kind.Signature).isSome =
        (Tlv.get (e.tlvParse (openEncrypted e (a.sess i).key noncePV03 y).2.1)
          Tlv.Kind.Signature).isSome) :
    ((a._pairVerify3 e i).sess i).rsp = ((b._pairVerify3 e i).sess i).rsp ∧
    ((a._pairVerify3 e i).sess i).ios = ((b._pairVerify3 e i).sess i).ios ∧
    ((a._pairVerify3 e i).sess i).AccessoryToControllerKey =
      ((b._pairVerify3 e i).sess i).AccessoryToControllerKey ∧
    ((a._pairVerify3 e i).sess i).ControllerToAccessoryKey =
      ((b._pairVerify3 e i).sess i).ControllerToAccessoryKey := by
  have hka : ((a.sess i).tlvBegin e Tlv.State.M4).key = (b.sess i).key := hkey
  have hkb : ((b.sess i).tlvBegin e Tlv.State.M4).key = (b.sess i).key := rfl
  have hta : ((a.sess i).tlvBegin e Tlv.State.M4).tlvi = (a.sess i).tlvi := rfl
  have htb : ((b.sess i).tlvBegin e Tlv.State.M4).tlvi = (b.sess i).tlvi := rfl
  rw [hkey] at htag hsub
  unfold Server._pairVerify3
  cases hA : Tlv.getBuf (a.sess i).tlvi Tlv.Kind.EncryptedData e.sizeofdata with
  | none =>
    cases hB : Tlv.getBuf (b.sess i).tlvi Tlv.Kind.EncryptedData e.sizeofdata with
    | none =>
      simp [Server.emit, Server.setSess, hkey, hka, hkb, hta, htb, hA, hB, Session.tlvEnd,
        Session.addError, Session.tlvBegin, hios, ha2c, hc2a]
    | some y => rw [hA, hB] at htag; cases htag
  | some x =>
    cases hB : Tlv.getBuf (b.sess i).tlvi Tlv.Kind.EncryptedData e.sizeofdata with
    | none => rw [hA, hB] at htag; cases htag
    | some y =>
      rw [hA, hB] at htag
      simp only [Option.map_some', Option.some.injEq] at htag
      obtain ⟨hid, hsg⟩ := hsub x y hA hB
      cases ht : (openEncrypted e (b.sess i).key noncePV03 x).2.2 with
      | false =>
        have ht2 := ht
        rw [htag] at ht2
        simp [Server.emit, Server.setSess, hkey, hka, hkb, hta, htb, hA, hB, ht, ht2,
          Session.tlvEnd, Session.addError, Session.tlvBegin, hios, ha2c, hc2a]
      | true =>
        have ht2 := ht
        rw [htag] at ht2
        cases h1 : Tlv.get (e.tlvParse (openEncrypted e (b.sess i).key noncePV03 x).2.1)
          Tlv.Kind.Identifier with
        | none =>
          have h1b := h1
          rw [hid] at h1b
          simp [Server.emit, Server.setSess, hkey, hka, hkb, hta, htb, hA, hB, ht, ht2, h1, h1b,
            Session.tlvEnd, Session.addError, Session.tlvBegin, hios, ha2c, hc2a]
        | some id =>
          have h1b := h1
          rw [hid] at h1b
          cases h3 : Tlv.get (e.tlvParse (openEncrypted e (b.sess i).key noncePV03 x).2.1)
            Tlv.Kind.Signature with
          | none =>
            cases h4 : Tlv.get (e.tlvParse (openEncrypted e (b.sess i).key noncePV03 y).2.1)
              Tlv.Kind.Signature with
            | none =>
              simp [Server.emit, Server.setSess, hkey, hka, hkb, hta, htb, hA, hB, ht, ht2, h1,
                h1b, h3, h4, Session.tlvEnd, Session.addError, Session.tlvBegin, hios, ha2c,
                hc2a]
            | some _ => rw [h3, h4] at hsg; cases hsg
          | some sg =>
            cases h4 : Tlv.get (e.tlvParse (openEncrypted e (b.sess i).key noncePV03 y).2.1)
              Tlv.Kind.Signature with
            | none => rw [h3, h4] at hsg; cases hsg
            | some sg2 =>
              cases hg : b.pairings.Get id with
              | none =>
                simp [Server.emit, Server.setSess, hkey, hka, hkb, hta, htb, hA, hB, ht, ht2, h1,
                  h1b, h3, h4, hpair, hg, Session.tlvEnd, Session.addError, Session.tlvBegin,
                  hios, ha2c, hc2a]
              | some ios =>
                simp [Server.emit, Server.setSess, hkey, hka, hkb, hta, htb, hA, hB, ht, ht2, h1,
                  h1b, h3, h4, hpair, hg, Session.tlvEnd, Session.addError, Session.tlvBegin,
                  hcurve]

/-- The keys, the curve and the bound controller of the session when a pairing handler
starts, against the state at the entry of `Process`. -/
theorem start_of_verify (e : Ext) (st : Server) (sid : Nat) (req : Request) (l : List Event)
    (s : Nat) :
    (((st.parsed sid l s).withTlv e sid req.data).sess sid).curve = (st.sess sid).curve ∧
    (((st.parsed sid l s).withTlv e sid req.data).sess sid).ios = (st.sess sid).ios ∧
    (((st.parsed sid l s).withTlv e sid req.data).sess sid).AccessoryToControllerKey =
      (st.sess sid).AccessoryToControllerKey ∧
    (((st.parsed sid l s).withTlv e sid req.data).sess sid).ControllerToAccessoryKey =
      (st.sess sid).ControllerToAccessoryKey := by
  simp [Server.withTlv, Session.Init]

/-- The session of a state after the response is sent. -/
theorem sent_sess (st : Server) (i : Nat) (L : List Event) (q : Nat) (sec : Bool) :
    ((st.sent i L q sec).sess i).rsp = (st.sess i).rsp ∧
    ((st.sent i L q sec).sess i).ios = (st.sess i).ios ∧
    ((st.sent i L q sec).sess i).AccessoryToControllerKey =
      (st.sess i).AccessoryToControllerKey ∧
    ((st.sent i L q sec).sess i).ControllerToAccessoryKey =
      (st.sess i).ControllerToAccessoryKey ∧
    ((st.sent i L q sec).sess i).secured = sec ∧
    (st.sent i L q sec).pairings = st.pairings ∧
    (st.sent i L q sec).srp = st.srp ∧
    (st.sent i L q sec).srp_owner = st.srp_owner := by
  simp [Server.sent]

/-! ### When `Process` returns false -/

/-- What the loop does with the status of the parser. -/
theorem tryParse_kinds (e : Ext) (st : Server) (i sid : Nat) (bytes : List Nat) :
    (e.parse bytes = ParseStatus.Error ∧ ∃ s, st.tryParse e i sid bytes = some (Read.fail s)) ∨
    (∃ req, e.parse bytes = ParseStatus.Success req ∧
      ∃ s, st.tryParse e i sid bytes = some (Read.request s req)) ∨
    (e.parse bytes = ParseStatus.Incomplete ∧ (st.sess i).secured = true ∧
      ∃ s, st.tryParse e i sid bytes = some (Read.fail s)) ∨
    (e.parse bytes = ParseStatus.Incomplete ∧ (st.sess i).secured = false ∧
      st.tryParse e i sid bytes = none) := by
  unfold Server.tryParse
  cases h : e.parse bytes with
  | Error => exact Or.inl ⟨rfl, _, rfl⟩
  | Success req => exact Or.inr (Or.inl ⟨req, rfl, _, rfl⟩)
  | Incomplete =>
    cases hs : (st.sess i).secured with
    | true =>
      have : ((st.emit (Event.parse bytes)).sess i).secured = true := hs
      refine Or.inr (Or.inr (Or.inl ⟨rfl, rfl, st.emit (Event.parse bytes), ?_⟩))
      simp only [this, if_true]
    | false =>
      have : ((st.emit (Event.parse bytes)).sess i).secured = false := hs
      refine Or.inr (Or.inr (Or.inr ⟨rfl, rfl, ?_⟩))
      simp only [this, Bool.false_eq_true, if_false]

/-- One return of data in the read loop: either the loop goes on with the bytes added to
the buffer, or it ends with `return false`, or it ends with a request; it ends with
`return false` exactly for the reasons of `rejects`. -/
theorem readLoop_data (e : Ext) (st : Server) (i sid : Nat) (bytes buf : List Nat) :
    ((∀ rest, st.readLoop e i sid (RecvEv.data bytes :: rest) buf =
        st.readLoop e i sid rest (buf ++ bytes.take (e.sizeofdata - buf.length))) ∧
      ¬ st.rejects e i buf (RecvEv.data bytes)) ∨
    ((∃ s, ∀ rest, st.readLoop e i sid (RecvEv.data bytes :: rest) buf = Read.fail s) ∧
      st.rejects e i buf (RecvEv.data bytes)) ∨
    ((∃ s req, ∀ rest, st.readLoop e i sid (RecvEv.data bytes :: rest) buf =
        Read.request s req) ∧
      ¬ st.rejects e i buf (RecvEv.data bytes)) := by
  by_cases hgot : (bytes.take (e.sizeofdata - buf.length)).length = 0
  · refine Or.inr (Or.inl ⟨⟨Read.state (Read.fail st), fun rest => ?_⟩, ?_⟩)
    · simp only [Server.readLoop, hgot, if_true, Read.state]
    · simp only [Server.rejects, hgot, true_or]
  · cases hsec : (st.sess i).secured with
    | false =>
      rcases tryParse_kinds e st i sid (buf ++ bytes.take (e.sizeofdata - buf.length)) with
        ⟨hp, s, ht⟩ | ⟨req, hp, s, ht⟩ | ⟨hp, hs, -⟩ | ⟨hp, -, ht⟩
      · refine Or.inr (Or.inl ⟨⟨s, fun rest => ?_⟩, ?_⟩)
        · simp only [Server.readLoop, hgot, if_false, hsec, Bool.false_eq_true, ht]
        · simp only [Server.rejects, hsec, hp, and_self, true_or, or_true]
      · refine Or.inr (Or.inr ⟨⟨s, req, fun rest => ?_⟩, ?_⟩)
        · simp only [Server.readLoop, hgot, if_false, hsec, Bool.false_eq_true, ht]
        · simp only [Server.rejects, hsec, hp, hgot, Bool.false_eq_true, false_and, false_or,
            or_false, true_and, not_false_eq_true, reduceCtorEq]
      · rw [hsec] at hs; cases hs
      · refine Or.inl ⟨fun rest => ?_, ?_⟩
        · simp only [Server.readLoop, hgot, if_false, hsec, Bool.false_eq_true, ht]
        · simp only [Server.rejects, hsec, hp, hgot, Bool.false_eq_true, false_and, false_or,
            or_false, true_and, not_false_eq_true, reduceCtorEq]
    | true =>
      by_cases h2 : (buf ++ bytes.take (e.sizeofdata - buf.length)).length < 2
      · refine Or.inl ⟨fun rest => ?_, ?_⟩
        · simp only [Server.readLoop, hgot, if_false, hsec, if_true, h2]
        · simp only [Server.rejects, hsec, hgot, false_or, true_and, Bool.true_eq_false,
            false_and, or_false]
          intro h
          rcases h with h | h | h | h <;> omega
      · by_cases hbig : (buf ++ bytes.take (e.sizeofdata - buf.length)).getD 0 0 +
            (buf ++ bytes.take (e.sizeofdata - buf.length)).getD 1 0 * 256 > MaxHttpBlock
        · refine Or.inr (Or.inl ⟨⟨st, fun rest => ?_⟩, ?_⟩)
          · simp only [Server.readLoop, hgot, if_false, hsec, if_true, h2, hbig]
          · simp only [Server.rejects]
            exact Or.inr (Or.inl ⟨hsec, by omega, hbig⟩)
        · by_cases h3 : (buf ++ bytes.take (e.sizeofdata - buf.length)).length <
              2 + ((buf ++ bytes.take (e.sizeofdata - buf.length)).getD 0 0 +
                (buf ++ bytes.take (e.sizeofdata - buf.length)).getD 1 0 * 256) + 16
          · refine Or.inl ⟨fun rest => ?_, ?_⟩
            · simp only [Server.readLoop, hgot, if_false, hsec, if_true, h2, hbig, h3]
            · simp only [Server.rejects, hsec, hgot, false_or, true_and, Bool.true_eq_false,
                false_and, or_false]
              intro h
              rcases h with h | h | h | h <;> omega
          · by_cases htag : (e.aead false (st.sess i).ControllerToAccessoryKey
                (nonceOf (st.sess i).recvSeq)
                (((buf ++ bytes.take (e.sizeofdata - buf.length)).drop 2).take
                  ((buf ++ bytes.take (e.sizeofdata - buf.length)).getD 0 0 +
                    (buf ++ bytes.take (e.sizeofdata - buf.length)).getD 1 0 * 256))
                ((buf ++ bytes.take (e.sizeofdata - buf.length)).take 2)).2 =
              ((buf ++ bytes.take (e.sizeofdata - buf.length)).drop
                (2 + ((buf ++ bytes.take (e.sizeofdata - buf.length)).getD 0 0 +
                  (buf ++ bytes.take (e.sizeofdata - buf.length)).getD 1 0 * 256))).take 16
            · have hd : ((st.decrypted i
                  ((buf ++ bytes.take (e.sizeofdata - buf.length)).getD 0 0 +
                    (buf ++ bytes.take (e.sizeofdata - buf.length)).getD 1 0 * 256)).sess
                    i).secured = true := by
                simpa [Server.decrypted] using hsec
              rcases tryParse_kinds e (st.decrypted i
                  ((buf ++ bytes.take (e.sizeofdata - buf.length)).getD 0 0 +
                    (buf ++ bytes.take (e.sizeofdata - buf.length)).getD 1 0 * 256)) i sid
                  (e.aead false (st.sess i).ControllerToAccessoryKey
                    (nonceOf (st.sess i).recvSeq)
                    (((buf ++ bytes.take (e.sizeofdata - buf.length)).drop 2).take
                      ((buf ++ bytes.take (e.sizeofdata - buf.length)).getD 0 0 +
                        (buf ++ bytes.take (e.sizeofdata - buf.length)).getD 1 0 * 256))
                    ((buf ++ bytes.take (e.sizeofdata - buf.length)).take 2)).1 with
                ⟨hp, s, ht⟩ | ⟨req, hp, s, ht⟩ | ⟨hp, -, s, ht⟩ | ⟨-, hs, -⟩
              · simp only [Server.decrypted] at ht
                refine Or.inr (Or.inl ⟨⟨s, fun rest => ?_⟩, ?_⟩)
                · simp only [Server.readLoop, hgot, if_false]
                  rw [if_pos hsec]
                  simp only [h2, hbig, h3, if_false, htag, ne_eq, not_true_eq_false, ht]
                · simp only [Server.rejects]
                  exact Or.inr (Or.inr (Or.inr (Or.inl
                    ⟨hsec, by omega, by omega, by omega, htag, hp⟩)))
              · simp only [Server.decrypted] at ht
                refine Or.inr (Or.inr ⟨⟨s, req, fun rest => ?_⟩, ?_⟩)
                · simp only [Server.readLoop, hgot, if_false]
                  rw [if_pos hsec]
                  simp only [h2, hbig, h3, if_false, htag, ne_eq, not_true_eq_false, ht]
                · simp only [Server.rejects, hsec, hgot, false_or, true_and, Bool.true_eq_false,
                    false_and, or_false, htag, ne_eq, not_true_eq_false, and_false, hp]
                  intro h
                  rcases h with h | h | h
                  · omega
                  · exact ParseStatus.noConfusion h.2.2.2
                  · exact ParseStatus.noConfusion h.2.2.2
              · simp only [Server.decrypted] at ht
                refine Or.inr (Or.inl ⟨⟨s, fun rest => ?_⟩, ?_⟩)
                · simp only [Server.readLoop, hgot, if_false]
                  rw [if_pos hsec]
                  simp only [h2, hbig, h3, if_false, htag, ne_eq, not_true_eq_false, ht]
                · simp only [Server.rejects]
                  exact Or.inr (Or.inr (Or.inr (Or.inr (Or.inr
                    ⟨hsec, by omega, by omega, by omega, htag, hp⟩))))
              · rw [hd] at hs; cases hs
            · refine Or.inr (Or.inl ⟨⟨st.decrypted i
                  ((buf ++ bytes.take (e.sizeofdata - buf.length)).getD 0 0 +
                    (buf ++ bytes.take (e.sizeofdata - buf.length)).getD 1 0 * 256),
                  fun rest => ?_⟩, ?_⟩)
              · simp only [Server.readLoop, hgot, if_false, hsec, if_true, h2, hbig, h3, htag,
                  ne_eq, not_false_eq_true, Server.decrypted]
              · simp only [Server.rejects]
                exact Or.inr (Or.inr (Or.inl ⟨hsec, by omega, by omega, by omega, htag⟩))

/-- The read loop that is still waiting has left the state as it was. -/
theorem readLoop_blocked_state (e : Ext) (st s : Server) (i sid : Nat) (recv : List RecvEv)
    (buf : List Nat) (h : st.readLoop e i sid recv buf = Read.blocked s) : s = st := by
  rcases readLoop_cases e st i sid recv buf with h1 | h1 | ⟨_, _, _, h1⟩ | ⟨_, _, _, _, h1⟩ |
    ⟨_, _, h1⟩ | ⟨_, _, _, _, h1⟩ | ⟨_, _, _, _, h1⟩ | ⟨_, _, _, _, _, h1⟩ <;>
  · rw [h1] at h
    first
      | exact (Read.blocked.inj h).symm
      | exact Read.noConfusion h

/-- The read loop ends with `return false` exactly when, at some return of `recv` before
which it was still waiting, one of the reasons of `rejects` holds for the bytes received
so far. -/
theorem readLoop_fail_iff (e : Ext) (st : Server) (i sid : Nat) :
    ∀ (recv : List RecvEv) (buf : List Nat),
      (∃ s, st.readLoop e i sid recv buf = Read.fail s) ↔
      ∃ pre ev post, recv = pre ++ ev :: post ∧
        st.readLoop e i sid pre buf = Read.blocked st ∧
        st.rejects e i (buffered e pre buf) ev := by
  intro recv
  induction recv with
  | nil =>
    intro buf
    refine iff_of_false ?_ ?_
    · rintro ⟨s, h⟩
      simp only [Server.readLoop] at h
      exact Read.noConfusion h
    · rintro ⟨pre, ev, post, h, -⟩
      cases pre <;> cases h
  | cons x rest ih =>
    intro buf
    cases x with
    | error =>
      exact iff_of_true ⟨st, by simp only [Server.readLoop]⟩
        ⟨[], RecvEv.error, rest, rfl, by simp only [Server.readLoop], trivial⟩
    | eof =>
      exact iff_of_true ⟨st, by simp only [Server.readLoop]⟩
        ⟨[], RecvEv.eof, rest, rfl, by simp only [Server.readLoop], trivial⟩
    | data bytes =>
      rcases readLoop_data e st i sid bytes buf with ⟨hC, hn⟩ | ⟨⟨s, hF⟩, hr⟩ |
        ⟨⟨s, req, hR⟩, hn⟩
      · rw [hC rest, ih]
        constructor
        · rintro ⟨pre, ev, post, h1, h2, h3⟩
          refine ⟨RecvEv.data bytes :: pre, ev, post, by rw [h1]; rfl, ?_, ?_⟩
          · rw [hC pre]; exact h2
          · simpa only [buffered] using h3
        · rintro ⟨pre, ev, post, h1, h2, h3⟩
          cases pre with
          | nil =>
            simp only [List.nil_append, List.cons.injEq] at h1
            obtain ⟨rfl, -⟩ := h1
            exact absurd h3 hn
          | cons p pre =>
            simp only [List.cons_append, List.cons.injEq] at h1
            obtain ⟨rfl, h1⟩ := h1
            rw [hC pre] at h2
            exact ⟨pre, ev, post, h1, h2, by simpa only [buffered] using h3⟩
      · exact iff_of_true ⟨s, hF rest⟩
          ⟨[], RecvEv.data bytes, rest, rfl, by simp only [Server.readLoop], hr⟩
      · refine iff_of_false ?_ ?_
        · rintro ⟨s2, h⟩
          rw [hR rest] at h
          exact Read.noConfusion h
        · rintro ⟨pre, ev, post, h1, h2, h3⟩
          cases pre with
          | nil =>
            simp only [List.nil_append, List.cons.injEq] at h1
            obtain ⟨rfl, -⟩ := h1
            exact absurd h3 hn
          | cons p pre =>
            simp only [List.cons_append, List.cons.injEq] at h1
            obtain ⟨rfl, -⟩ := h1
            rw [hR pre] at h2
            exact Read.noConfusion h2

/-- The value `Process` returns on a valid session, by the end of the read loop. -/
theorem Process_value (e : Ext) (st : Server) (sid : Nat) (recv : List RecvEv)
    (hsid : sid < MaxHttpSessions) :
    ((st.Process e sid recv).1 = none ↔
      (st.entered sid).readLoop e sid sid recv [] = Read.blocked (st.entered sid)) ∧
    ((st.Process e sid recv).1 = some false ↔
      ∃ s, (st.entered sid).readLoop e sid sid recv [] = Read.fail s) ∧
    ((st.Process e sid recv).1 = some true ↔ ∃ req, st.request e sid recv = some req) := by
  cases h : (st.entered sid).readLoop e sid sid recv [] with
  | blocked s =>
    obtain ⟨h1, h2⟩ := Process_blocked e st s sid recv hsid h
    have hs := readLoop_blocked_state e _ s sid sid recv [] h
    subst hs
    rw [h1, h2]
    simp
  | fail s =>
    obtain ⟨h1, h2⟩ := Process_fail e st s sid recv hsid h
    rw [h1, h2]
    simp
  | request s req =>
    obtain ⟨h1, h2⟩ := Process_answer e st s sid recv req hsid h
    obtain ⟨L, q, hr, -⟩ := respond_course e s sid req (st.sess sid).secured
    rw [h1, h2, hr]
    simp

/-! ### The course of a call of `Process` that parses a request -/

/-- The state in which the read loop hands a request over: on a session that is not
secured the state at entry with the call of the parser logged; on a secured session the
state with one record decrypted and the call of the parser logged. -/
theorem request_state (e : Ext) (st : Server) (sid : Nat) (recv : List RecvEv) (req : Request)
    (h : st.request e sid recv = some req) :
    ∃ s, (st.entered sid).readLoop e sid sid recv [] = Read.request s req ∧
      (∀ j, j ≠ sid → s.sess j = st.sess j) ∧
      (s.sess sid).opened = (st.sess sid).opened ∧ (s.sess sid).sid = (st.sess sid).sid ∧
      (s.sess sid).secured = (st.sess sid).secured ∧
      (s.sess sid).sendSeq = (st.sess sid).sendSeq ∧
      ((st.sess sid).secured = false →
        (s.sess sid).recvSeq = (st.sess sid).recvSeq ∧ ∃ b, s.log = st.log ++ [Event.parse b]) ∧
      ((st.sess sid).secured = true →
        (s.sess sid).recvSeq = ((st.sess sid).recvSeq + 1) % 2 ^ 64 ∧
        ∃ n b, s.log = st.log ++
          [Event.aead false (st.sess sid).ControllerToAccessoryKey
            (nonceOf (st.sess sid).recvSeq) n, Event.parse b]) := by
  have hsec0 : ((st.entered sid).sess sid).secured = (st.sess sid).secured := by
    rw [entered_sess]; rfl
  have hreq : ∀ s r, (st.entered sid).readLoop e sid sid recv [] = Read.request s r →
      r = req := by
    intro s r hr
    unfold Server.request at h
    unfold Server.entered at hr
    rw [hr] at h
    exact Option.some.inj h
  have hnot : ∀ s, (st.entered sid).readLoop e sid sid recv [] ≠ Read.fail s ∧
      (st.entered sid).readLoop e sid sid recv [] ≠ Read.blocked s := by
    intro s
    constructor <;>
    · intro hr
      unfold Server.request at h
      unfold Server.entered at hr
      rw [hr] at h
      cases h
  rcases readLoop_cases e (st.entered sid) sid sid recv [] with h1 | h1 | ⟨_, _, _, h1⟩ |
    ⟨hs, b, r, _, h1⟩ | ⟨_, _, h1⟩ | ⟨_, _, _, _, h1⟩ | ⟨_, _, _, _, h1⟩ | ⟨hs, n, b, r, _, h1⟩
  · exact absurd h1 (hnot _).2
  · exact absurd h1 (hnot _).1
  · exact absurd h1 (hnot _).1
  · have := hreq _ _ h1
    subst this
    rw [hsec0] at hs
    refine ⟨_, h1, ?_, ?_, ?_, ?_, ?_, ?_, ?_⟩
    · intro j hj
      simp [Server.emit, Server.entered, Server.setSess, hj]
    · simp [Server.emit, Server.entered, Server.setSess, Session.Init]
    · simp [Server.emit, Server.entered, Server.setSess, Session.Init]
    · simp [Server.emit, Server.entered, Server.setSess, Session.Init]
    · simp [Server.emit, Server.entered, Server.setSess, Session.Init]
    · intro _
      exact ⟨by simp [Server.emit, Server.entered, Server.setSess, Session.Init], b, rfl⟩
    · intro h2; rw [hs] at h2; cases h2
  · exact absurd h1 (hnot _).1
  · exact absurd h1 (hnot _).1
  · exact absurd h1 (hnot _).1
  · have := hreq _ _ h1
    subst this
    rw [hsec0] at hs
    refine ⟨_, h1, ?_, ?_, ?_, ?_, ?_, ?_, ?_⟩
    · intro j hj
      simp [Server.emit, Server.entered, Server.setSess, Server.decrypted, hj]
    · simp [Server.emit, Server.entered, Server.setSess, Session.Init, Server.decrypted]
    · simp [Server.emit, Server.entered, Server.setSess, Session.Init, Server.decrypted]
    · simp [Server.emit, Server.entered, Server.setSess, Session.Init, Server.decrypted]
    · simp [Server.emit, Server.entered, Server.setSess, Session.Init, Server.decrypted]
    · intro h2; rw [hs] at h2; cases h2
    · intro _
      refine ⟨by simp [Server.emit, Server.entered, Server.setSess, Session.Init,
        Server.decrypted], n, b, ?_⟩
      simp [Server.emit, Server.entered, Server.setSess, Session.Init, Server.decrypted]

/-- The course of a call of `Process` that parses a request, on a valid session: the read
loop logs `l`, the handler logs `m`, in which no chunk is sent, then the response the
handler left is sent as `L`; the call returns true. -/
theorem Process_course (e : Ext) (st : Server) (sid : Nat) (recv : List RecvEv) (req : Request)
    (hsid : sid < MaxHttpSessions) (h : st.request e sid recv = some req) :
    ∃ l m L,
      (st.Process e sid recv).1 = some true ∧
      (st.Process e sid recv).2.log = st.log ++ (l ++ m ++ L) ∧
      (∀ ev ∈ m, ev.isSend = false) ∧
      (∀ j, j ≠ sid → (st.Process e sid recv).2.sess j = st.sess j) ∧
      ((st.Process e sid recv).2.sess sid).opened = (st.sess sid).opened ∧
      ((st.Process e sid recv).2.sess sid).sid = (st.sess sid).sid ∧
      ((st.sess sid).secured = false →
        (∃ b, l = [Event.parse b]) ∧
        L = [Event.send (st.sess sid).sid (e.render ((st.Process e sid recv).2.sess sid).rsp)] ∧
        ((st.Process e sid recv).2.sess sid).recvSeq = (st.sess sid).recvSeq ∧
        ((st.Process e sid recv).2.sess sid).sendSeq = (st.sess sid).sendSeq) ∧
      ((st.sess sid).secured = true →
        (∃ n b, l = [Event.aead false (st.sess sid).ControllerToAccessoryKey
          (nonceOf (st.sess sid).recvSeq) n, Event.parse b]) ∧
        L = recordEvents e (st.sess sid).sid
          ((st.Process e sid recv).2.sess sid).AccessoryToControllerKey (st.sess sid).sendSeq
          (blocks (e.render ((st.Process e sid recv).2.sess sid).rsp)) ∧
        ((st.Process e sid recv).2.sess sid).recvSeq = ((st.sess sid).recvSeq + 1) % 2 ^ 64 ∧
        ((st.Process e sid recv).2.sess sid).sendSeq = seqAfter (st.sess sid).sendSeq
          (blocks (e.render ((st.Process e sid recv).2.sess sid).rsp)).length) := by
  obtain ⟨s, hr, hoth, hop, hsd, hsc, hss, hu, hsec⟩ := request_state e st sid recv req h
  obtain ⟨hP, -⟩ := Process_answer e st s sid recv req hsid hr
  obtain ⟨L, q, hresp, hlinks, hquiet, hS, hU⟩ := respond_course e s sid req (st.sess sid).secured
  obtain ⟨m, hm, hmq⟩ := hquiet.more
  obtain ⟨hoth2, ho2, hsd2, hsc2, hss2, hrs2⟩ := hlinks
  have hfin : (st.Process e sid recv).2 =
      (s.route e sid req (st.sess sid).secured).1.sent sid L q
        (s.route e sid req (st.sess sid).secured).2 := by
    rw [hP, hresp]
  have hsess : ((st.Process e sid recv).2.sess sid) =
      { (s.route e sid req (st.sess sid).secured).1.sess sid with
        sendSeq := q, secured := (s.route e sid req (st.sess sid).secured).2 } := by
    rw [hfin]; simp [Server.sent]
  have hval : (st.Process e sid recv).1 = some true := by rw [hP, hresp]
  have hoth3 : ∀ j, j ≠ sid → (st.Process e sid recv).2.sess j = st.sess j := by
    intro j hj
    rw [hfin]
    simp only [Server.sent, hj, if_false]
    rw [hoth2 j hj, hoth j hj]
  by_cases hc : (st.sess sid).secured = true
  · obtain ⟨hrv, n, b, hl⟩ := hsec hc
    obtain ⟨hL, hq⟩ := hS (by rw [hsc]; exact hc)
    refine ⟨[Event.aead false (st.sess sid).ControllerToAccessoryKey
      (nonceOf (st.sess sid).recvSeq) n, Event.parse b], m, L, hval, ?_, hmq, hoth3, ?_, ?_,
      ?_, ?_⟩
    · rw [hfin]
      simp only [Server.sent, hm, hl, List.append_assoc]
    · rw [hsess]; exact ho2.trans hop
    · rw [hsess]; exact hsd2.trans hsd
    · intro h2; rw [hc] at h2; cases h2
    · intro _
      refine ⟨⟨n, b, rfl⟩, ?_, ?_, ?_⟩
      · rw [hsess, hL, hsd, hss]
      · rw [hsess]; exact hrs2.trans hrv
      · rw [hsess, hq, hss]
  · have hc2 : (st.sess sid).secured = false := by simpa using hc
    obtain ⟨hrv, b, hl⟩ := hu hc2
    obtain ⟨hL, hq⟩ := hU (by rw [hsc]; exact hc2)
    refine ⟨[Event.parse b], m, L, hval, ?_, hmq, hoth3, ?_, ?_, ?_, ?_⟩
    · rw [hfin]
      simp only [Server.sent, hm, hl, List.append_assoc]
    · rw [hsess]; exact ho2.trans hop
    · rw [hsess]; exact hsd2.trans hsd
    · intro _
      refine ⟨⟨b, rfl⟩, ?_, ?_, ?_⟩
      · rw [hsess, hL, hsd]
      · rw [hsess]; exact hrs2.trans hrv
      · rw [hsess, hq, hss]
    · intro h2; exact absurd h2 hc

/-- The reasons of `rejects` read the session as it is when `Process` is entered. -/
theorem rejects_entered (e : Ext) (st : Server) (sid : Nat) (buf : List Nat) (ev : RecvEv) :
    (st.entered sid).rejects e sid buf ev ↔ st.rejects e sid buf ev := by
  cases ev with
  | error => exact Iff.rfl
  | eof => exact Iff.rfl
  | data bytes =>
    simp only [Server.rejects, entered_sess, Session.Init]

/-! ### The counters of a session over a run -/

theorem sentNonces_send (sid : Nat) (b : List Nat) (rest : List Event) :
    sentNonces (Event.send sid b :: rest) = sentNonces rest := by
  cases rest <;> simp [sentNonces]

theorem sentNonces_pair (key nonce : List Nat) (len sid : Nat) (b : List Nat)
    (rest : List Event) :
    sentNonces (Event.aead true key nonce len :: Event.send sid b :: rest) =
      nonce :: sentNonces rest := by
  rw [sentNonces, sentNonces_send]

theorem sentNonces_skip (ev : Event) (rest : List Event)
    (h : ∀ sid b r, rest ≠ Event.send sid b :: r) :
    sentNonces (ev :: rest) = sentNonces rest := by
  cases rest with
  | nil => cases ev <;> simp [sentNonces]
  | cons x r =>
    cases x with
    | send sid b => exact absurd rfl (h sid b r)
    | _ => cases ev <;> simp [sentNonces]

/-- Events in which no chunk is sent, before events that do not start with one, hold no
record. -/
theorem sentNonces_quiet (m X : List Event) (hm : ∀ ev ∈ m, ev.isSend = false)
    (hX : ∀ sid b r, X ≠ Event.send sid b :: r) :
    sentNonces (m ++ X) = sentNonces X := by
  induction m with
  | nil => rfl
  | cons ev m ih =>
    have hm2 : ∀ ev ∈ m, ev.isSend = false := fun x hx => hm x (List.mem_cons_of_mem _ hx)
    rw [List.cons_append, sentNonces_skip, ih hm2]
    intro sid b r h
    cases m with
    | nil => exact hX sid b r h
    | cons y m =>
      simp only [List.cons_append, List.cons.injEq] at h
      have := hm y (List.mem_cons_of_mem _ (List.mem_cons_self _ _))
      rw [h.1] at this
      cases this

theorem recordEvents_head (e : Ext) (sid : Nat) (key : List Nat) (seq : Nat)
    (bs : List (List Nat)) : ∀ s b r, recordEvents e sid key seq bs ≠ Event.send s b :: r := by
  intro s b r h
  cases bs with
  | nil => cases h
  | cons x xs => simp [recordEvents] at h

/-- The nonces of the records of `_send` are those of the counter values from the send
counter on. -/
theorem sentNonces_records (e : Ext) (sid : Nat) (key : List Nat) :
    ∀ (bs : List (List Nat)) (seq : Nat),
      sentNonces (recordEvents e sid key seq bs) = (List.range' seq bs.length).map nonceOf := by
  intro bs
  induction bs with
  | nil => intro seq; rfl
  | cons b bs ih =>
    intro seq
    rw [recordEvents, sentNonces_pair, ih]
    simp [List.range'_succ]

theorem seqAfter_zero (s : Nat) : seqAfter s 0 = s := by simp [seqAfter]

theorem seqAfter_add (s n m : Nat) : seqAfter (seqAfter s n) m = seqAfter s (n + m) := by
  unfold seqAfter
  by_cases hn : n = 0
  · simp [hn]
  · by_cases hm : m = 0
    · simp [hn, hm]
    · have : ¬ n + m = 0 := by omega
      simp only [hn, hm, this, if_false]
      omega

theorem seqAfter_noWrap (s n : Nat) (h : s + n < 2 ^ 64) : seqAfter s n = s + n := by
  unfold seqAfter
  by_cases hn : n = 0
  · simp [hn]
  · simp only [hn, if_false]
    exact Nat.mod_eq_of_lt h

/-- The nonces of the counter values after `n` records are those of the values from
`s + n` on: the nonce holds the counter as 64 bits. -/
theorem nonces_seqAfter (s n m : Nat) :
    (List.range' (seqAfter s n) m).map nonceOf = (List.range' (s + n) m).map nonceOf := by
  unfold seqAfter
  by_cases hn : n = 0
  · simp [hn]
  · simp only [hn, if_false]
    apply List.ext_getElem
    · simp
    · intro k h1 h2
      simp only [List.getElem_map, List.getElem_range', Nat.one_mul]
      rw [← nonceOf_mod ((s + n) % 2 ^ 64 + k), ← nonceOf_mod (s + n + k)]
      congr 1
      omega

theorem range_nonces_append (s n m : Nat) :
    (List.range' s n).map nonceOf ++ (List.range' (seqAfter s n) m).map nonceOf =
      (List.range' s (n + m)).map nonceOf := by
  rw [nonces_seqAfter, ← List.map_append, List.range'_append_1, Nat.add_comm]

/-! #### Calls that leave a session alone -/

theorem Process_sess_other (e : Ext) (st : Server) (sid i : Nat) (recv : List RecvEv)
    (h : i ≠ sid) : (st.Process e sid recv).2.sess i = st.sess i := by
  by_cases h1 : sid > MaxHttpSessions
  · simp [Server.Process, h1]
  · by_cases h2 : sid = MaxHttpSessions
    · simp [Server.Process, h1, h2, Server.emit]
    · have hsid : sid < MaxHttpSessions := by omega
      have he : (st.entered sid).sess i = st.sess i := by
        simp [Server.entered, Server.setSess, h]
      rcases readLoop_cases e (st.entered sid) sid sid recv [] with h3 | h3 | ⟨_, _, _, h3⟩ |
        ⟨_, _, req, _, h3⟩ | ⟨_, _, h3⟩ | ⟨_, _, _, _, h3⟩ | ⟨_, _, _, _, h3⟩ |
        ⟨_, _, _, req, _, h3⟩
      · rw [(Process_blocked e st _ sid recv hsid h3).1]; exact he
      · rw [(Process_fail e st _ sid recv hsid h3).1]; exact he
      · rw [(Process_fail e st _ sid recv hsid h3).1]; exact he
      · obtain ⟨_, _, _, _, _, _, hoth, _⟩ := Process_course e st sid recv req hsid
          (Process_answer e st _ sid recv req hsid h3).2
        exact hoth i h
      · rw [(Process_fail e st _ sid recv hsid h3).1]
        simp [Server.decrypted, Server.setSess, h, he, Server.emit]
      · rw [(Process_fail e st _ sid recv hsid h3).1]
        simp [Server.decrypted, Server.setSess, h, he, Server.emit]
      · rw [(Process_fail e st _ sid recv hsid h3).1]
        simp [Server.decrypted, Server.setSess, h, he, Server.emit]
      · obtain ⟨_, _, _, _, _, _, hoth, _⟩ := Process_course e st sid recv req hsid
          (Process_answer e st _ sid recv req hsid h3).2
        exact hoth i h

theorem send_sess_other (e : Ext) (st : Server) (sid i : Nat) (h : i ≠ sid) :
    ((st._send e sid).2.sess i) = st.sess i := by
  unfold Server._send
  dsimp only
  split
  · simp [Server.setSess, h]
  · simp [Server.emit]

theorem Poll_sess_other (e : Ext) (st : Server) (sid i : Nat) (h : i ≠ sid) :
    (st.Poll e sid).sess i = st.sess i := by
  unfold Server.Poll
  dsimp only
  split
  · rfl
  · split
    · rfl
    · split
      · rfl
      · rw [send_sess_other e _ sid i h]
        simp [Server.setSess, h, Server.emit]

theorem Open_sess_other (st : Server) (i : Nat) (h : (st.sess i).opened = true) :
    st.Open.2.sess i = st.sess i := by
  unfold Server.Open
  split
  · rename_i sid hf
    have := List.find?_some hf
    have hne : i ≠ sid := by
      intro hi
      subst hi
      simp [h] at this
    simp [Server.setSess, Server.emit, hne]
  · rfl

theorem Close_sess_other (st : Server) (sid i : Nat) (h : i ≠ sid) :
    (st.Close sid).2.sess i = st.sess i := by
  unfold Server.Close
  dsimp only
  split
  · rfl
  · split
    · rfl
    · split <;> simp [Server.setSess, Server.emit, h]

/-! #### One call on the session -/

theorem seqAfter_one (s : Nat) : seqAfter s 1 = (s + 1) % 2 ^ 64 := by
  simp [seqAfter]

/-- One call of `Process` on a valid session: the session stays as open as it was; if it
is not secured the counters stay; if it is secured the call sends the records of the
counter values from the send counter on and receives at most the record of the receive
counter, and each counter advances by the number of its records. -/
theorem Process_step (e : Ext) (st : Server) (i : Nat) (recv : List RecvEv)
    (hi : i < MaxHttpSessions) :
    ((st.Process e i recv).2.sess i).opened = (st.sess i).opened ∧
    ((st.sess i).secured = false →
      ((st.Process e i recv).2.sess i).sendSeq = (st.sess i).sendSeq ∧
      ((st.Process e i recv).2.sess i).recvSeq = (st.sess i).recvSeq) ∧
    ((st.sess i).secured = true →
      ∃ n k, k ≤ 1 ∧
        sentNonces (st.since (st.Process e i recv).2) =
          (List.range' (st.sess i).sendSeq n).map nonceOf ∧
        ((st.Process e i recv).2.sess i).sendSeq = seqAfter (st.sess i).sendSeq n ∧
        recvNonces (st.since (st.Process e i recv).2) =
          (List.range' (st.sess i).recvSeq k).map nonceOf ∧
        ((st.Process e i recv).2.sess i).recvSeq = seqAfter (st.sess i).recvSeq k) := by
  have hsec0 : ((st.entered i).sess i).secured = (st.sess i).secured := by
    rw [entered_sess]; rfl
  have hlog0 : (st.entered i).log = st.log := rfl
  have hrs0 : ((st.entered i).sess i).recvSeq = (st.sess i).recvSeq := by
    rw [entered_sess]; rfl
  have hss0 : ((st.entered i).sess i).sendSeq = (st.sess i).sendSeq := by
    rw [entered_sess]; rfl
  have hop0 : ((st.entered i).sess i).opened = (st.sess i).opened := by
    rw [entered_sess]; rfl
  have hsame : ∀ s : Server, s.sess i = (st.entered i).sess i → s.log = st.log →
      (s.sess i).opened = (st.sess i).opened ∧
      ((st.sess i).secured = false →
        (s.sess i).sendSeq = (st.sess i).sendSeq ∧ (s.sess i).recvSeq = (st.sess i).recvSeq) ∧
      ((st.sess i).secured = true →
        ∃ n k, k ≤ 1 ∧
          sentNonces (st.since s) = (List.range' (st.sess i).sendSeq n).map nonceOf ∧
          (s.sess i).sendSeq = seqAfter (st.sess i).sendSeq n ∧
          recvNonces (st.since s) = (List.range' (st.sess i).recvSeq k).map nonceOf ∧
          (s.sess i).recvSeq = seqAfter (st.sess i).recvSeq k) := by
    intro s hs hl
    have hsince : st.since s = [] := since_append st s [] (by simp [hl])
    rw [hs, hsince]
    refine ⟨hop0, fun _ => ⟨hss0, hrs0⟩, fun _ => ⟨0, 0, by omega, ?_, ?_, ?_, ?_⟩⟩
    · rfl
    · rw [seqAfter_zero]; exact hss0
    · rfl
    · rw [seqAfter_zero]; exact hrs0
  have hdec : ∀ (s : Server) (n0 : Nat) (l : List Event),
      s.sess i = ((st.entered i).decrypted i n0).sess i →
      s.log = ((st.entered i).decrypted i n0).log ++ l →
      sentNonces (Event.aead false ((st.entered i).sess i).ControllerToAccessoryKey
        (nonceOf ((st.entered i).sess i).recvSeq) n0 :: l) = [] →
      (st.sess i).secured = true →
      (s.sess i).opened = (st.sess i).opened ∧
      ((st.sess i).secured = false →
        (s.sess i).sendSeq = (st.sess i).sendSeq ∧ (s.sess i).recvSeq = (st.sess i).recvSeq) ∧
      ((st.sess i).secured = true →
        ∃ n k, k ≤ 1 ∧
          sentNonces (st.since s) = (List.range' (st.sess i).sendSeq n).map nonceOf ∧
          (s.sess i).sendSeq = seqAfter (st.sess i).sendSeq n ∧
          recvNonces (st.since s) = (List.range' (st.sess i).recvSeq k).map nonceOf ∧
          (s.sess i).recvSeq = seqAfter (st.sess i).recvSeq k) := by
    intro s n0 l hs hl hq hc
    have hsince : st.since s =
        Event.aead false ((st.entered i).sess i).ControllerToAccessoryKey
          (nonceOf ((st.entered i).sess i).recvSeq) n0 :: l :=
      since_append st s _ (by rw [hl, decrypted_log, hlog0]; simp)
    rw [hs, hsince, decrypted_sess]
    refine ⟨hop0, fun h => ?_, fun _ => ⟨0, 1, by omega, ?_, ?_, ?_, ?_⟩⟩
    · rw [hc] at h; cases h
    · rw [hq]; rfl
    · rw [seqAfter_zero]; exact hss0
    · simp [recvNonces, hrs0]
    · rw [seqAfter_one, ← hrs0]
  rcases readLoop_cases e (st.entered i) i i recv [] with h | h | ⟨hs, b, _, h⟩ |
    ⟨hs, b, req, _, h⟩ | ⟨hs, n, h⟩ | ⟨hs, n, b, _, h⟩ | ⟨hs, n, b, _, h⟩ | ⟨hs, n, b, req, _, h⟩
  · rw [(Process_blocked e st _ i recv hi h).1]
    exact hsame _ rfl hlog0
  · rw [(Process_fail e st _ i recv hi h).1]
    exact hsame _ rfl hlog0
  · rw [(Process_fail e st _ i recv hi h).1]
    rw [hsec0] at hs
    refine ⟨hop0, fun _ => ⟨hss0, hrs0⟩, fun hc => ?_⟩
    rw [hs] at hc; cases hc
  · obtain ⟨l, m, L, -, -, -, -, hop, -, hu, -⟩ := Process_course e st i recv req hi
      (Process_answer e st _ i recv req hi h).2
    rw [hsec0] at hs
    obtain ⟨-, -, h1, h2⟩ := hu hs
    refine ⟨hop, fun _ => ⟨h2, h1⟩, fun hc => ?_⟩
    rw [hs] at hc; cases hc
  · rw [(Process_fail e st _ i recv hi h).1]
    rw [hsec0] at hs
    exact hdec _ n [] rfl (by simp) (by simp [sentNonces]) hs
  · rw [(Process_fail e st _ i recv hi h).1]
    rw [hsec0] at hs
    exact hdec _ n [Event.parse b, Event.send i (e.render ((st.entered i).sess i).rsp)] rfl
      (by simp [Server.emit]) (by simp [sentNonces]) hs
  · rw [(Process_fail e st _ i recv hi h).1]
    rw [hsec0] at hs
    exact hdec _ n [Event.parse b] rfl (by simp [Server.emit]) (by simp [sentNonces]) hs
  · obtain ⟨l, m, L, -, hlog, hm, -, hop, -, -, hS⟩ := Process_course e st i recv req hi
      (Process_answer e st _ i recv req hi h).2
    rw [hsec0] at hs
    obtain ⟨⟨n0, b0, hl⟩, hL, h1, h2⟩ := hS hs
    refine ⟨hop, fun hc => ?_, fun _ => ⟨_, 1, by omega, ?_, h2, ?_, ?_⟩⟩
    · rw [hs] at hc; cases hc
    · rw [since_append st _ _ hlog, hL, List.append_assoc, sentNonces_quiet,
        sentNonces_quiet _ _ hm (recordEvents_head _ _ _ _ _), sentNonces_records]
      · intro ev hev
        rw [hl] at hev
        simp only [List.mem_cons, List.mem_singleton, List.not_mem_nil, or_false] at hev
        rcases hev with rfl | rfl <;> rfl
      · intro s b r hx
        cases m with
        | nil => exact recordEvents_head _ _ _ _ _ s b r hx
        | cons y m =>
          simp only [List.cons_append, List.cons.injEq] at hx
          have := hm y (List.mem_cons_self _ _)
          rw [hx.1] at this
          cases this
    · rw [since_append st _ _ hlog, hl]
      simp [recvNonces]
    · rw [seqAfter_one]; exact h1

/-- The end of `Poll` on a secured session: the events are logged and sent as records. -/
theorem Poll_send (e : Ext) (st : Server) (i : Nat) (r : Response)
    (hs : (st.sess i).secured = true) :
    ((((st.emit (Event.getEvents i)).setSess i { st.sess i with rsp := r })._send e i).2.sess
      i).opened = (st.sess i).opened ∧
    ∃ n,
      sentNonces (st.since
        (((st.emit (Event.getEvents i)).setSess i { st.sess i with rsp := r })._send e i).2) =
        (List.range' (st.sess i).sendSeq n).map nonceOf ∧
      ((((st.emit (Event.getEvents i)).setSess i { st.sess i with rsp := r })._send e i).2.sess
        i).sendSeq = seqAfter (st.sess i).sendSeq n ∧
      recvNonces (st.since
        (((st.emit (Event.getEvents i)).setSess i { st.sess i with rsp := r })._send e i).2) =
        [] ∧
      ((((st.emit (Event.getEvents i)).setSess i { st.sess i with rsp := r })._send e i).2.sess
        i).recvSeq = (st.sess i).recvSeq := by
  have hsec2 : (((st.emit (Event.getEvents i)).setSess i
      { st.sess i with rsp := r }).sess i).secured = true := by
    simp [Server.setSess, hs]
  rw [send_records e _ i hsec2]
  have hsince : st.since (((st.emit (Event.getEvents i)).setSess i
      { st.sess i with rsp := r }).sent i
        (recordEvents e (((st.emit (Event.getEvents i)).setSess i
            { st.sess i with rsp := r }).sess i).sid
          (((st.emit (Event.getEvents i)).setSess i
            { st.sess i with rsp := r }).sess i).AccessoryToControllerKey
          (((st.emit (Event.getEvents i)).setSess i
            { st.sess i with rsp := r }).sess i).sendSeq
          (blocks (e.render (((st.emit (Event.getEvents i)).setSess i
            { st.sess i with rsp := r }).sess i).rsp)))
        (seqAfter (((st.emit (Event.getEvents i)).setSess i
            { st.sess i with rsp := r }).sess i).sendSeq
          (blocks (e.render (((st.emit (Event.getEvents i)).setSess i
            { st.sess i with rsp := r }).sess i).rsp)).length)
        (((st.emit (Event.getEvents i)).setSess i
            { st.sess i with rsp := r }).sess i).secured) =
      [Event.getEvents i] ++ recordEvents e (st.sess i).sid
        (st.sess i).AccessoryToControllerKey (st.sess i).sendSeq (blocks (e.render r)) :=
    since_append st _ _ (by simp [Server.sent, Server.setSess, Server.emit])
  rw [hsince]
  refine ⟨by simp [Server.sent, Server.setSess], (blocks (e.render r)).length, ?_, ?_, ?_, ?_⟩
  · rw [sentNonces_quiet _ _ (by intro ev hev; simp at hev; rw [hev]; rfl)
      (recordEvents_head _ _ _ _ _), sentNonces_records]
  · simp [Server.sent, Server.setSess]
  · rfl
  · simp [Server.sent, Server.setSess]

/-- One call of `Poll`: the session stays as open as it was; if it is not secured nothing
happens; if it is secured the call sends the records of the counter values from the send
counter on, the send counter advances by their number, and the receive counter stays. -/
theorem Poll_step (e : Ext) (st : Server) (i : Nat) :
    ((st.Poll e i).sess i).opened = (st.sess i).opened ∧
    ((st.sess i).secured = false →
      ((st.Poll e i).sess i).sendSeq = (st.sess i).sendSeq ∧
      ((st.Poll e i).sess i).recvSeq = (st.sess i).recvSeq) ∧
    ((st.sess i).secured = true →
      ∃ n,
        sentNonces (st.since (st.Poll e i)) =
          (List.range' (st.sess i).sendSeq n).map nonceOf ∧
        ((st.Poll e i).sess i).sendSeq = seqAfter (st.sess i).sendSeq n ∧
        recvNonces (st.since (st.Poll e i)) = [] ∧
        ((st.Poll e i).sess i).recvSeq = (st.sess i).recvSeq) := by
  rcases Bool.eq_false_or_eq_true (st.sess i).secured with hs | hs
  · have hquiet : (st.emit (Event.getEvents i)).sess i = st.sess i ∧
        st.since (st.emit (Event.getEvents i)) = [Event.getEvents i] :=
      ⟨rfl, since_append st _ _ rfl⟩
    have hearly : ((st.emit (Event.getEvents i)).sess i).opened = (st.sess i).opened ∧
        ((st.sess i).secured = false →
          ((st.emit (Event.getEvents i)).sess i).sendSeq = (st.sess i).sendSeq ∧
          ((st.emit (Event.getEvents i)).sess i).recvSeq = (st.sess i).recvSeq) ∧
        ((st.sess i).secured = true →
          ∃ n,
            sentNonces (st.since (st.emit (Event.getEvents i))) =
              (List.range' (st.sess i).sendSeq n).map nonceOf ∧
            ((st.emit (Event.getEvents i)).sess i).sendSeq = seqAfter (st.sess i).sendSeq n ∧
            recvNonces (st.since (st.emit (Event.getEvents i))) = [] ∧
            ((st.emit (Event.getEvents i)).sess i).recvSeq = (st.sess i).recvSeq) := by
      rw [hquiet.1, hquiet.2]
      refine ⟨rfl, fun _ => ⟨rfl, rfl⟩, fun _ => ⟨0, ?_, ?_, rfl, rfl⟩⟩
      · simp [sentNonces]
      · rw [seqAfter_zero]
    have hnot : ¬ (st.sess i).secured = false := by rw [hs]; simp
    unfold Server.Poll
    dsimp only
    rw [if_neg (by simp [hs])]
    split
    · exact hearly
    · split
      · exact hearly
      · obtain ⟨h1, h2⟩ := Poll_send e st i _ hs
        exact ⟨h1, fun h => absurd h hnot, fun _ => h2⟩
  · have : st.Poll e i = st := by
      unfold Server.Poll
      simp [hs]
    rw [this]
    exact ⟨rfl, fun _ => ⟨rfl, rfl⟩, fun h => by rw [hs] at h; cases h⟩

/-! #### A run -/

/-- One operation that does not close session `i`, which is open: the session stays
open; the records the operation counts for the session carry the nonces of the counter
values from the counters on, and each counter advances by the number of its records. -/
theorem step_counters (i : Nat) (hi : i < MaxHttpSessions) (st : Server) (op : Op)
    (hopen : (st.sess i).opened = true) (hcl : op.closes i = false) :
    ((st.step op).sess i).opened = true ∧
    ∃ n k,
      (if op.session = some i ∧ (st.sess i).secured = true then
        sentNonces (st.since (st.step op)) else []) =
        (List.range' (st.sess i).sendSeq n).map nonceOf ∧
      ((st.step op).sess i).sendSeq = seqAfter (st.sess i).sendSeq n ∧
      (if op.session = some i ∧ (st.sess i).secured = true then
        recvNonces (st.since (st.step op)) else []) =
        (List.range' (st.sess i).recvSeq k).map nonceOf ∧
      ((st.step op).sess i).recvSeq = seqAfter (st.sess i).recvSeq k := by
  have hsame : ∀ s : Server, s.sess i = st.sess i →
      (op.session = some i ∧ (st.sess i).secured = true → False) →
      (s.sess i).opened = true ∧
      ∃ n k,
        (if op.session = some i ∧ (st.sess i).secured = true then
          sentNonces (st.since s) else []) =
          (List.range' (st.sess i).sendSeq n).map nonceOf ∧
        (s.sess i).sendSeq = seqAfter (st.sess i).sendSeq n ∧
        (if op.session = some i ∧ (st.sess i).secured = true then
          recvNonces (st.since s) else []) =
          (List.range' (st.sess i).recvSeq k).map nonceOf ∧
        (s.sess i).recvSeq = seqAfter (st.sess i).recvSeq k := by
    intro s hs hno
    rw [hs, if_neg hno, if_neg hno]
    exact ⟨hopen, 0, 0, rfl, (seqAfter_zero _).symm, rfl, (seqAfter_zero _).symm⟩
  cases op with
  | Open =>
    exact hsame _ (Open_sess_other st i hopen) (fun h => by cases h.1)
  | Close sid =>
    have hne : i ≠ sid := by
      intro h
      subst h
      simp [Op.closes] at hcl
    exact hsame _ (Close_sess_other st sid i hne) (fun h => by cases h.1)
  | Process e sid recv =>
    by_cases hne : i = sid
    · subst hne
      obtain ⟨h1, h2, h3⟩ := Process_step e st i recv hi
      simp only [Server.step, Op.session, true_and]
      rcases Bool.eq_false_or_eq_true (st.sess i).secured with hs | hs
      · obtain ⟨n, k, -, a1, a2, a3, a4⟩ := h3 hs
        rw [if_pos hs, if_pos hs]
        exact ⟨h1.trans hopen, n, k, a1, a2, a3, a4⟩
      · obtain ⟨a1, a2⟩ := h2 hs
        have hn : ¬ (st.sess i).secured = true := by rw [hs]; simp
        rw [if_neg hn, if_neg hn, a1, a2]
        exact ⟨h1.trans hopen, 0, 0, rfl, (seqAfter_zero _).symm, rfl, (seqAfter_zero _).symm⟩
    · exact hsame _ (Process_sess_other e st sid i recv hne)
        (fun h => hne (Option.some.inj h.1).symm)
  | Poll e sid =>
    by_cases hne : i = sid
    · subst hne
      obtain ⟨h1, h2, h3⟩ := Poll_step e st i
      simp only [Server.step, Op.session, true_and]
      rcases Bool.eq_false_or_eq_true (st.sess i).secured with hs | hs
      · obtain ⟨n, a1, a2, a3, a4⟩ := h3 hs
        rw [if_pos hs, if_pos hs]
        exact ⟨h1.trans hopen, n, 0, a1, a2, a3, by rw [seqAfter_zero]; exact a4⟩
      · obtain ⟨a1, a2⟩ := h2 hs
        have hn : ¬ (st.sess i).secured = true := by rw [hs]; simp
        rw [if_neg hn, if_neg hn, a1, a2]
        exact ⟨h1.trans hopen, 0, 0, rfl, (seqAfter_zero _).symm, rfl, (seqAfter_zero _).symm⟩
    · exact hsame _ (Poll_sess_other e st sid i hne)
        (fun h => hne (Option.some.inj h.1).symm)

/-- Over a run in which no operation closes session `i`, open at the start: the records
the session sends carry, in order, the nonces of the counter values from the send counter
at the start on, and the send counter ends advanced by their number; the same for the
records received and the receive counter. -/
theorem run_counters (i : Nat) (hi : i < MaxHttpSessions) :
    ∀ (ops : List Op) (st : Server), (st.sess i).opened = true →
      (∀ op ∈ ops, op.closes i = false) →
      ((st.run ops).sess i).opened = true ∧
      st.sentOver i ops =
        (List.range' (st.sess i).sendSeq (st.sentOver i ops).length).map nonceOf ∧
      ((st.run ops).sess i).sendSeq = seqAfter (st.sess i).sendSeq (st.sentOver i ops).length ∧
      st.recvOver i ops =
        (List.range' (st.sess i).recvSeq (st.recvOver i ops).length).map nonceOf ∧
      ((st.run ops).sess i).recvSeq =
        seqAfter (st.sess i).recvSeq (st.recvOver i ops).length := by
  intro ops
  induction ops with
  | nil =>
    intro st hopen _
    exact ⟨hopen, rfl, (seqAfter_zero _).symm, rfl, (seqAfter_zero _).symm⟩
  | cons op ops ih =>
    intro st hopen hcl
    obtain ⟨ho, n, k, a1, a2, a3, a4⟩ := step_counters i hi st op hopen
      (hcl op (List.mem_cons_self _ _))
    obtain ⟨b0, b1, b2, b3, b4⟩ := ih (st.step op) ho
      (fun x hx => hcl x (List.mem_cons_of_mem _ hx))
    have hS : st.sentOver i (op :: ops) =
        (List.range' (st.sess i).sendSeq (n + ((st.step op).sentOver i ops).length)).map
          nonceOf := by
      rw [Server.sentOver, a1, b1, a2, List.length_map, List.length_range',
        range_nonces_append]
    have hR : st.recvOver i (op :: ops) =
        (List.range' (st.sess i).recvSeq (k + ((st.step op).recvOver i ops).length)).map
          nonceOf := by
      rw [Server.recvOver, a3, b3, a4, List.length_map, List.length_range',
        range_nonces_append]
    have hSl : (st.sentOver i (op :: ops)).length = n + ((st.step op).sentOver i ops).length := by
      rw [hS, List.length_map, List.length_range']
    have hRl : (st.recvOver i (op :: ops)).length = k + ((st.step op).recvOver i ops).length := by
      rw [hR, List.length_map, List.length_range']
    refine ⟨b0, ?_, ?_, ?_, ?_⟩
    · rw [hSl]; exact hS
    · rw [hSl, Server.run, b2, a2, seqAfter_add]
    · rw [hRl]; exact hR
    · rw [hRl, Server.run, b4, a4, seqAfter_add]

theorem run_append (st : Server) (a b : List Op) : st.run (a ++ b) = (st.run a).run b := by
  induction a generalizing st with
  | nil => rfl
  | cons op a ih => exact ih (st.step op)

theorem sentOver_append (i : Nat) (st : Server) (a b : List Op) :
    st.sentOver i (a ++ b) = st.sentOver i a ++ (st.run a).sentOver i b := by
  induction a generalizing st with
  | nil => rfl
  | cons op a ih =>
    rw [List.cons_append, Server.sentOver, Server.sentOver, ih (st.step op), List.append_assoc]
    rfl

theorem recvOver_append (i : Nat) (st : Server) (a b : List Op) :
    st.recvOver i (a ++ b) = st.recvOver i a ++ (st.run a).recvOver i b := by
  induction a generalizing st with
  | nil => rfl
  | cons op a ih =>
    rw [List.cons_append, Server.recvOver, Server.recvOver, ih (st.step op), List.append_assoc]
    rfl

theorem nonces_getElem (s n k : Nat) (l : List (List Nat))
    (h : l = (List.range' s n).map nonceOf) (hk : k < l.length) :
    l[k]? = some (nonceOf (s + k)) := by
  subst h
  simp only [List.length_map, List.length_range'] at hk
  simp [List.getElem?_map, List.getElem?_range' _ _ hk]

/-! ### `Open`, `Close` and `Poll` -/

/-- When `Close` returns true. -/
theorem close_iff_aux (st : Server) (sid : Nat) :
    (st.Close sid).1 = true ↔ sid ≤ sid_max ∧ (st.sess sid).opened = true := by
  unfold Server.Close
  dsimp only
  by_cases h1 : sid > sid_max
  · simp only [h1, if_true]
    constructor
    · intro h; cases h
    · intro h; omega
  · by_cases h2 : (st.sess sid).opened = true
    · simp only [h1, h2, if_false, Bool.not_true, Bool.false_eq_true]
      split <;> simp <;> omega
    · simp only [h1, h2, if_false, Bool.not_eq_true, Bool.not_eq_true', if_true]
      simp [h2]

/-- The first number below `n` that satisfies `p`, as `find?` over `range n` gives it. -/
theorem find_range (p : Nat → Bool) : ∀ n : Nat,
    (∀ k, (List.range n).find? p = some k →
      k < n ∧ p k = true ∧ ∀ j, j < k → p j = false) ∧
    ((List.range n).find? p = none → ∀ j, j < n → p j = false) := by
  intro n
  induction n with
  | zero =>
    refine ⟨fun k h => ?_, fun _ j hj => ?_⟩
    · simp at h
    · omega
  | succ n ih =>
    rw [List.range_succ, List.find?_append]
    cases hf : (List.range n).find? p with
    | some k0 =>
      obtain ⟨h1, h2, h3⟩ := ih.1 k0 hf
      refine ⟨fun k h => ?_, fun h => ?_⟩
      · simp only [Option.or, Option.some.injEq] at h
        subst h
        exact ⟨by omega, h2, h3⟩
      · simp at h
    | none =>
      have hall := ih.2 hf
      by_cases hp : p n = true
      · refine ⟨fun k h => ?_, fun h => ?_⟩
        · simp only [Option.or, List.find?_cons, hp, Option.some.injEq] at h
          subst h
          exact ⟨by omega, hp, hall⟩
        · simp [hp] at h
      · have hp2 : p n = false := by simpa using hp
        refine ⟨fun k h => ?_, fun _ j hj => ?_⟩
        · simp [hp2] at h
        · by_cases hjn : j = n
          · rw [hjn]; exact hp2
          · exact hall j (by omega)

/-! ### Requests that no handler takes -/

/-- The secured flag of the session in the state in which `Process` routes a request. -/
theorem parsed_secured (st : Server) (sid : Nat) (l : List Event) (s : Nat) :
    ((st.parsed sid l s).sess sid).secured = (st.sess sid).secured := by
  simp [Server.parsed, Server.touched, Server.setSess, Session.Init]

/-- Routing a request of a method with handlers whose path has none, on a secured session
when the method is `GET`: the response is `HTTP 400`. -/
theorem route_bad (e : Ext) (st : Server) (i : Nat) (req : Request) (sec : Bool)
    (h : (req.method = "POST" ∧ req.path ≠ "/identify" ∧ req.path ≠ "/pair-setup" ∧
          req.path ≠ "/pair-verify" ∧ req.path ≠ "/pairings") ∨
        (req.method = "PUT" ∧ req.path ≠ "/characteristics") ∨
        (req.method = "GET" ∧ (st.sess i).secured = true ∧ req.path ≠ "/accessories" ∧
          (cstr "/characteristics?").isPrefixOf (cstr req.path) = false)) :
    st.route e i req sec = (st.setSess i ((st.sess i).reply Status.HTTP_400), sec) := by
  rcases h with ⟨hm, h1, h2, h3, h4⟩ | ⟨hm, h1⟩ | ⟨hm, hs, h1, h2⟩
  · simp [Server.route, hm, h1, h2, h3, h4]
  · simp [Server.route, hm, h1]
  · simp [Server.route, hm, hs, h1, h2]

/-- Routing a `GET` request on a session that is not secured: the response is `HTTP 470`,
whatever the path. -/
theorem route_get_unsecured (e : Ext) (st : Server) (i : Nat) (req : Request) (sec : Bool)
    (hm : req.method = "GET") (hs : (st.sess i).secured = false) :
    st.route e i req sec = (st.setSess i ((st.sess i).reply Status.HTTP_470), sec) := by
  simp [Server.route, hm, hs]

/-- A call of `Process` whose routing only writes the response `start(status); end()`:
the call returns true, the response is in the buffer of the session, it is what is sent,
as one chunk or as records, and nothing else of the server changes. -/
theorem Process_plain_reply (e : Ext) (st : Server) (sid : Nat) (recv : List RecvEv)
    (req : Request) (status : Status) (hsid : sid < MaxHttpSessions)
    (hreq : st.request e sid recv = some req)
    (hroute : ∀ l s, (st.parsed sid l s).route e sid req (st.sess sid).secured =
      ((st.parsed sid l s).setSess sid (((st.parsed sid l s).sess sid).reply status),
        (st.sess sid).secured)) :
    (st.Process e sid recv).1 = some true ∧
    ((st.Process e sid recv).2.sess sid).rsp = (Response.start status).call Call.end_ ∧
    (∃ pre L, st.since (st.Process e sid recv).2 = pre ++ L ∧ (∀ ev ∈ pre, ev.isSend = false) ∧
      ((st.sess sid).secured = false →
        L = [Event.send (st.sess sid).sid (e.render ((Response.start status).call Call.end_))]) ∧
      ((st.sess sid).secured = true →
        L = recordEvents e (st.sess sid).sid (st.sess sid).AccessoryToControllerKey
          (st.sess sid).sendSeq (blocks (e.render ((Response.start status).call Call.end_))))) ∧
    (st.Process e sid recv).2.pairings = st.pairings ∧
    ((st.Process e sid recv).2.sess sid).secured = (st.sess sid).secured ∧
    (∀ j, j ≠ sid → (st.Process e sid recv).2.sess j = st.sess j) := by
  obtain ⟨l, s, L, q, _, _, hP, _⟩ := Process_parsed e st sid recv req hsid hreq
  have hrsp : ((st.Process e sid recv).2.sess sid).rsp = (Response.start status).call Call.end_ := by
    rw [hP, hroute l s]
    simp [Server.sent, Server.setSess, Session.reply]
  have hkey : ((st.Process e sid recv).2.sess sid).AccessoryToControllerKey =
      (st.sess sid).AccessoryToControllerKey := by
    rw [hP, hroute l s]
    simp [Server.sent, Server.setSess, Session.reply, Server.parsed, Server.touched,
      Session.Init]
  have hpair : (st.Process e sid recv).2.pairings = st.pairings := by
    rw [hP, hroute l s]
    rfl
  have hsecd : ((st.Process e sid recv).2.sess sid).secured = (st.sess sid).secured := by
    rw [hP, hroute l s]
    simp [Server.sent]
  obtain ⟨l2, m, L2, hv, hlog, hm, hoth, -, -, hU, hS⟩ := Process_course e st sid recv req hsid hreq
  refine ⟨hv, hrsp, ⟨l2 ++ m, L2, ?_, ?_, ?_, ?_⟩, hpair, hsecd, hoth⟩
  · exact since_append st _ _ hlog
  · intro ev hev
    rcases List.mem_append.mp hev with h | h
    · rcases Bool.eq_false_or_eq_true (st.sess sid).secured with hs | hs
      · obtain ⟨⟨n, b, hl⟩, -⟩ := hS hs
        rw [hl] at h
        simp only [List.mem_cons, List.mem_singleton, List.not_mem_nil, or_false] at h
        rcases h with rfl | rfl <;> rfl
      · obtain ⟨⟨b, hl⟩, -⟩ := hU hs
        rw [hl] at h
        simp only [List.mem_singleton] at h
        rw [h]
        rfl
    · exact hm ev h
  · intro hs
    rw [(hU hs).2.1, hrsp]
  · intro hs
    rw [(hS hs).2.1, hrsp, hkey]

/-! ### The handlers of `/pairings` -/

theorem isPairingsOf_iff (e : Ext) (req : Request) (m : Nat) :
    req.isPairingsOf e m = true ↔
      req.method = "POST" ∧ req.path = "/pairings" ∧ req.hdrContentTypeTlv8 = true ∧
        req.hdrContentLength = true ∧
        Tlv.getByte (e.tlvParse req.data) Tlv.Kind.State = some Tlv.State.M1 ∧
        Tlv.getByte (e.tlvParse req.data) Tlv.Kind.Method = some m := by
  simp [Request.isPairingsOf, Request.isTlv, Request.state, Request.tlvMethod, and_assoc]

/-- A pairings request on a secured session gets to the handlers of `/pairings`. -/
theorem route_pairingsOf (e : Ext) (st : Server) (i : Nat) (req : Request) (sec : Bool) (m : Nat)
    (hs : (st.sess i).secured = true) (hp : req.isPairingsOf e m = true) :
    st.route e i req sec =
      (if m = Tlv.Method.AddPairing then (st.withTlv e i req.data)._pairingAdd e i
       else if m = Tlv.Method.RemovePairing then (st.withTlv e i req.data)._pairingRemove e i
       else if m = Tlv.Method.ListPairing then (st.withTlv e i req.data)._pairingList e i
       else (st.withTlv e i req.data).setSess i
        (((st.withTlv e i req.data).sess i).reply Status.HTTP_400), sec) := by
  obtain ⟨hm, hpath, hct, hcl, hstate, hmeth⟩ := (isPairingsOf_iff e req m).mp hp
  have hr : st.route e i req sec = (st.postPairings e i req.data, sec) := by
    simp [Server.route, hm, hpath, hs, hct, hcl]
  rw [hr]
  unfold Server.postPairings
  simp only []
  have hw : st.setSess i { st.sess i with tlvi := e.tlvParse req.data } =
      st.withTlv e i req.data := rfl
  rw [hw]
  have hst : Tlv.getByte ((st.withTlv e i req.data).sess i).tlvi Tlv.Kind.State =
      some Tlv.State.M1 := by simpa [Server.withTlv] using hstate
  have hme : Tlv.getByte ((st.withTlv e i req.data).sess i).tlvi Tlv.Kind.Method =
      some m := by simpa [Server.withTlv] using hmeth
  simp only [hst, hme]
  simp

/-- What `Process` comes to on a pairings request on a secured session: the handler of
the method runs in the state the read loop left. -/
theorem Process_pairingsOf (e : Ext) (st : Server) (sid : Nat) (recv : List RecvEv)
    (req : Request) (m : Nat) (hsid : sid < MaxHttpSessions)
    (hreq : st.request e sid recv = some req) (hs : (st.sess sid).secured = true)
    (hp : req.isPairingsOf e m = true) :
    ∃ l s L q, (∀ ev ∈ l, ev.isWire = true) ∧ (∀ ev ∈ L, ev.isWire = true) ∧
      st.Process e sid recv = (some true,
        (if m = Tlv.Method.AddPairing then
          ((st.parsed sid l s).withTlv e sid req.data)._pairingAdd e sid
         else if m = Tlv.Method.RemovePairing then
          ((st.parsed sid l s).withTlv e sid req.data)._pairingRemove e sid
         else if m = Tlv.Method.ListPairing then
          ((st.parsed sid l s).withTlv e sid req.data)._pairingList e sid
         else ((st.parsed sid l s).withTlv e sid req.data).setSess sid
          ((((st.parsed sid l s).withTlv e sid req.data).sess sid).reply
            Status.HTTP_400)).sent sid L q (st.sess sid).secured) := by
  obtain ⟨l, s, L, q, hl, hL, hP, _⟩ := Process_parsed e st sid recv req hsid hreq
  refine ⟨l, s, L, q, hl, hL, ?_⟩
  rw [hP, route_pairingsOf e _ sid req _ m (by rw [parsed_secured]; exact hs) hp]

/-- The state in which a handler of `/pairings` starts, against the state at the entry of
`Process`: the bound controller and its permission. -/
theorem start_of_pairings (e : Ext) (st : Server) (sid : Nat) (req : Request) (l : List Event)
    (s : Nat) :
    (((st.parsed sid l s).withTlv e sid req.data).sess sid).ios = (st.sess sid).ios ∧
    ((st.parsed sid l s).withTlv e sid req.data).iosPerm
      (((st.parsed sid l s).withTlv e sid req.data).sess sid) = st.iosPerm (st.sess sid) := by
  simp [Server.withTlv, Server.parsed, Server.touched, Server.setSess, Session.Init,
    Server.iosPerm]

/-- The response `{State=M2}` of a handler that succeeds. -/
theorem done_reply (e : Ext) (s : Session) (state : Nat) (h : 3 ≤ e.rspSize) :
    ((s.tlvBegin e state).tlvEnd).rsp =
      ⟨[Call.start Status.HTTP_200, Call.addContentType ContentTypeTlv8,
        Call.addContentLength 0, Call.end_, Call.setContentLength 3],
       Data.tlv [⟨Tlv.Kind.State, [state]⟩]⟩ := by
  simp [Session.tlvBegin, Session.tlvEnd, tlv_put1 _ _ _ h, Response.start, Response.call]

/-- A call of `Process` whose handler answers an error: the response, the store and the
callback. -/
theorem Process_answeredError (e : Ext) (st : Server) (sid : Nat) (name : String) (err : Nat)
    (l L : List Event) (s q : Nat) (d : List Nat) (sec : Bool) (r : Option Bool × Server)
    (hl : ∀ ev ∈ l, ev.isWire = true) (hL : ∀ ev ∈ L, ev.isWire = true)
    (hP : r = (some true,
      (((st.parsed sid l s).withTlv e sid d).answeredError e sid name err).sent sid L q sec))
    (hroom : 6 ≤ e.rspSize) :
    r.1 = some true ∧
    (r.2.sess sid).rsp =
      ⟨[Call.start Status.HTTP_200, Call.addContentType ContentTypeTlv8,
        Call.addContentLength 0, Call.end_, Call.setContentLength 6],
       Data.tlv [⟨Tlv.Kind.State, [Tlv.State.M2]⟩, ⟨Tlv.Kind.Error, [err]⟩]⟩ ∧
    r.2.pairings = st.pairings ∧
    (st.since r.2).count Event.configUpdate = 0 := by
  subst hP
  refine ⟨rfl, ?_, rfl, ?_⟩
  · simp [Server.answeredError, error_reply _ _ _ _ hroom]
  · rw [since_append st _ (l ++ [Event.handler name] ++ L)
      (by simp [Server.answeredError, Server.sent, Server.setSess, Server.emit, Server.withTlv,
        Server.parsed, Server.touched, List.append_assoc])]
    simp [List.count_append, count_wire Event.configUpdate rfl l hl,
      count_wire Event.configUpdate rfl L hL, List.count_cons]

/-- A call of `Process` whose handler changes the store to `P`: the response, the store
and the callback. -/
theorem Process_answeredDone (e : Ext) (st : Server) (sid : Nat) (name : String) (P : Pairings)
    (l L : List Event) (s q : Nat) (d : List Nat) (sec : Bool) (r : Option Bool × Server)
    (hl : ∀ ev ∈ l, ev.isWire = true) (hL : ∀ ev ∈ L, ev.isWire = true)
    (hP : r = (some true,
      (((st.parsed sid l s).withTlv e sid d).answeredDone e sid name P).sent sid L q sec))
    (hroom : 3 ≤ e.rspSize) :
    r.1 = some true ∧
    (r.2.sess sid).rsp =
      ⟨[Call.start Status.HTTP_200, Call.addContentType ContentTypeTlv8,
        Call.addContentLength 0, Call.end_, Call.setContentLength 3],
       Data.tlv [⟨Tlv.Kind.State, [Tlv.State.M2]⟩]⟩ ∧
    r.2.pairings = P ∧
    (st.since r.2).count Event.configUpdate = 1 := by
  subst hP
  refine ⟨rfl, ?_, rfl, ?_⟩
  · simp [Server.answeredDone, done_reply _ _ _ hroom]
  · rw [since_append st _ (l ++ [Event.handler name, Event.configUpdate] ++ L)
      (by simp [Server.answeredDone, Server.sent, Server.setSess, Server.emit, Server.withTlv,
        Server.parsed, Server.touched, List.append_assoc])]
    simp [List.count_append, count_wire Event.configUpdate rfl l hl,
      count_wire Event.configUpdate rfl L hL, List.count_cons]

/-- The ways `_pairingAdd` ends for an admin controller: a missing item or a key that
differs from the stored one is answered `Unknown`; a known identifier with the stored key
has its permission updated; a new identifier is added, or answered `MaxPeers` when the
store takes no more. -/
theorem pairingAdd_admin (e : Ext) (st : Server) (i : Nat)
    (hadmin : st.iosPerm (st.sess i) = Controller.Admin) :
    ((Tlv.get (st.sess i).tlvi Tlv.Kind.Identifier = none ∨
        Tlv.get (st.sess i).tlvi Tlv.Kind.PublicKey = none ∨
        Tlv.getByte (st.sess i).tlvi Tlv.Kind.Permissions = none) →
      st._pairingAdd e i = st.answeredError e i "_pairingAdd" Tlv.Error.Unknown) ∧
    (∀ id key perm,
      Tlv.get (st.sess i).tlvi Tlv.Kind.Identifier = some id →
      Tlv.get (st.sess i).tlvi Tlv.Kind.PublicKey = some key →
      Tlv.getByte (st.sess i).tlvi Tlv.Kind.Permissions = some perm →
      (∀ ios, st.pairings.Get id = some ios →
        ((key.length ≠ Controller.KeyLen ∨ key ≠ (st.pairings.deref ios).key) →
          st._pairingAdd e i = st.answeredError e i "_pairingAdd" Tlv.Error.Unknown) ∧
        ((key.length = Controller.KeyLen ∧ key = (st.pairings.deref ios).key) →
          st._pairingAdd e i =
            st.answeredDone e i "_pairingAdd" (st.pairings.Update id perm).2)) ∧
      (st.pairings.Get id = none →
        ((st.pairings.Add id key perm).1 = false →
          st._pairingAdd e i = st.answeredError e i "_pairingAdd" Tlv.Error.MaxPeers) ∧
        ((st.pairings.Add id key perm).1 = true →
          st._pairingAdd e i =
            st.answeredDone e i "_pairingAdd" (st.pairings.Add id key perm).2))) := by
  have h2 : ¬ (st.emit (Event.handler "_pairingAdd")).iosPerm
      (((st.emit (Event.handler "_pairingAdd")).sess i).tlvBegin e Tlv.State.M2) ≠
        Controller.Admin := by
    intro h; exact h hadmin
  have htlvi : (((st.emit (Event.handler "_pairingAdd")).sess i).tlvBegin e Tlv.State.M2).tlvi =
      (st.sess i).tlvi := rfl
  have hpair : (st.emit (Event.handler "_pairingAdd")).pairings = st.pairings := rfl
  refine ⟨fun h => ?_, fun id key perm hid hkey hperm => ⟨fun ios hget => ⟨fun hk => ?_, fun hk => ?_⟩,
    fun hget => ⟨fun hadd => ?_, fun hadd => ?_⟩⟩⟩
  · unfold Server._pairingAdd
    simp only []
    rw [if_neg h2, htlvi]
    rcases h with h | h | h
    · rw [h]; rfl
    · cases hid : Tlv.get (st.sess i).tlvi Tlv.Kind.Identifier with
      | none => rfl
      | some id => simp only [h]; rfl
    · cases hid : Tlv.get (st.sess i).tlvi Tlv.Kind.Identifier with
      | none => rfl
      | some id =>
        cases hkey : Tlv.get (st.sess i).tlvi Tlv.Kind.PublicKey with
        | none => rfl
        | some key => simp only [h]; rfl
  · unfold Server._pairingAdd
    simp only []
    rw [if_neg h2, htlvi, hpair]
    simp only [hid, hkey, hperm, hget]
    rw [if_pos (by
      rcases hk with hk | hk
      · simp [hk]
      · simp [hk])]
    rfl
  · unfold Server._pairingAdd
    simp only []
    rw [if_neg h2, htlvi, hpair]
    simp only [hid, hkey, hperm, hget]
    rw [if_neg (by simp [hk.1, ← hk.2])]
    rfl
  · unfold Server._pairingAdd
    simp only []
    rw [if_neg h2, htlvi, hpair]
    simp only [hid, hkey, hperm, hget, hadd]
    rfl
  · unfold Server._pairingAdd
    simp only []
    rw [if_neg h2, htlvi, hpair]
    simp only [hid, hkey, hperm, hget, hadd]
    rfl

/-- The ways `_pairingRemove` ends for an admin controller. -/
theorem pairingRemove_admin (e : Ext) (st : Server) (i : Nat)
    (hadmin : st.iosPerm (st.sess i) = Controller.Admin) :
    (Tlv.get (st.sess i).tlvi Tlv.Kind.Identifier = none →
      st._pairingRemove e i = st.answeredError e i "_pairingRemove" Tlv.Error.Unknown) ∧
    (∀ id, Tlv.get (st.sess i).tlvi Tlv.Kind.Identifier = some id →
      ((st.pairings.Remove id).1 = false →
        st._pairingRemove e i = st.answeredError e i "_pairingRemove" Tlv.Error.Unknown) ∧
      ((st.pairings.Remove id).1 = true →
        st._pairingRemove e i =
          st.answeredDone e i "_pairingRemove" (st.pairings.Remove id).2)) := by
  have h2 : ¬ (st.emit (Event.handler "_pairingRemove")).iosPerm
      (((st.emit (Event.handler "_pairingRemove")).sess i).tlvBegin e Tlv.State.M2) ≠
        Controller.Admin := by
    intro h; exact h hadmin
  have htlvi : (((st.emit (Event.handler "_pairingRemove")).sess i).tlvBegin e
      Tlv.State.M2).tlvi = (st.sess i).tlvi := rfl
  have hpair : (st.emit (Event.handler "_pairingRemove")).pairings = st.pairings := rfl
  refine ⟨fun h => ?_, fun id hid => ⟨fun hrem => ?_, fun hrem => ?_⟩⟩
  · unfold Server._pairingRemove
    simp only []
    rw [if_neg h2, htlvi, h]
    rfl
  · unfold Server._pairingRemove
    simp only []
    rw [if_neg h2, htlvi, hpair]
    simp only [hid, hrem]
    rfl
  · unfold Server._pairingRemove
    simp only []
    rw [if_neg h2, htlvi, hpair]
    simp only [hid, hrem]
    rfl

/-! ### The pairings store -/

/-- The record `Get` finds: a record of the array that is not free and holds the
identifier. -/
theorem get_some (p : Pairings) (id : List Nat) (i : Nat) (h : p.Get id = some i) :
    i < p.db.length ∧ Pairings.holds id (p.deref i) = true ∧
    (p.deref i).perm ≠ Controller.None ∧ (p.deref i).id = padTo Controller.IdLen id := by
  unfold Pairings.Get at h
  dsimp only at h
  split at h
  · rename_i hlt
    simp only [Option.some.injEq] at h
    subst h
    have hh : Pairings.holds id (p.deref (p.db.findIdx (Pairings.holds id))) = true := by
      unfold Pairings.deref
      rw [List.getD_eq_getElem?_getD, List.getElem?_eq_getElem hlt, Option.getD_some]
      exact List.findIdx_getElem
    refine ⟨hlt, hh, ?_, ?_⟩
    · simp only [Pairings.holds, Bool.and_eq_true, decide_eq_true_eq] at hh
      exact hh.1
    · simp only [Pairings.holds, Bool.and_eq_true, beq_iff_eq] at hh
      exact hh.2
  · cases h

/-- `Get` finds nothing exactly when no record holds the identifier. -/
theorem get_none_iff (p : Pairings) (id : List Nat) :
    p.Get id = none ↔ ∀ c ∈ p.db, Pairings.holds id c = false := by
  unfold Pairings.Get
  dsimp only
  constructor
  · intro h
    split at h
    · cases h
    · rename_i hlt
      have : p.db.findIdx (Pairings.holds id) = p.db.length :=
        Nat.le_antisymm (List.findIdx_le_length _) (Nat.le_of_not_lt hlt)
      exact List.findIdx_eq_length.mp this
  · intro h
    rw [if_neg]
    rw [List.findIdx_eq_length.mpr h]
    exact Nat.lt_irrefl _

/-- `Get` finds a record exactly when some record holds the identifier. -/
theorem get_isSome_iff (p : Pairings) (id : List Nat) :
    (∃ i, p.Get id = some i) ↔ ∃ c ∈ p.db, Pairings.holds id c = true := by
  constructor
  · rintro ⟨i, h⟩
    cases hn : p.Get id with
    | none => rw [hn] at h; cases h
    | some j =>
      by_contra hc
      have : ∀ c ∈ p.db, Pairings.holds id c = false := by
        intro c hc2
        by_contra h3
        exact hc ⟨c, hc2, by simpa using h3⟩
      rw [(get_none_iff p id).mpr this] at hn
      cases hn
  · rintro ⟨c, hc, hh⟩
    cases hn : p.Get id with
    | none =>
      rw [(get_none_iff p id).mp hn c hc] at hh
      cases hh
    | some j => exact ⟨j, rfl⟩

/-- `Update` of a record that `Get` finds: the permission of that record is replaced, its
identifier and key and every other record stay. -/
theorem update_found (p : Pairings) (id : List Nat) (perm : Controller.Perm) (i : Nat)
    (h : p.Get id = some i) :
    (p.Update id perm).1 = true ∧
    (p.Update id perm).2.db.length = p.db.length ∧
    (p.Update id perm).2.deref i = { p.deref i with perm := perm } ∧
    (∀ j, j ≠ i → (p.Update id perm).2.deref j = p.deref j) := by
  obtain ⟨hlt, -⟩ := get_some p id i h
  unfold Pairings.Update
  rw [h]
  dsimp only
  refine ⟨rfl, List.length_modify _ _ _, ?_, ?_⟩
  · unfold Pairings.deref
    rw [List.getD_eq_getElem?_getD, List.getD_eq_getElem?_getD, List.getElem?_modify,
      List.getElem?_eq_getElem hlt]
    simp
  · intro j hj
    unfold Pairings.deref
    rw [List.getD_eq_getElem?_getD, List.getD_eq_getElem?_getD, List.getElem?_modify]
    have : ¬ i = j := fun h => hj h.symm
    cases p.db[j]? <;> simp [this]

/-- `Add` succeeds exactly when a record is free. -/
theorem add_iff (p : Pairings) (id key : List Nat) (perm : Controller.Perm) :
    (p.Add id key perm).1 = true ↔ ∃ c ∈ p.db, c.perm = Controller.None := by
  unfold Pairings.Add
  dsimp only
  constructor
  · intro h
    split at h
    · rename_i hlt
      obtain ⟨c, hc, hp⟩ := List.findIdx_lt_length.mp hlt
      exact ⟨c, hc, by simpa using hp⟩
    · cases h
  · rintro ⟨c, hc, hp⟩
    rw [if_pos (List.findIdx_lt_length.mpr ⟨c, hc, by simpa using hp⟩)]

/-- `Add` that fails leaves the store. -/
theorem add_false (p : Pairings) (id key : List Nat) (perm : Controller.Perm)
    (h : (p.Add id key perm).1 = false) : (p.Add id key perm).2 = p := by
  unfold Pairings.Add at h ⊢
  dsimp only at h ⊢
  split at h
  · cases h
  · rename_i hlt
    rw [if_neg hlt]

/-- `Add` that succeeds: a free record takes the permission, the identifier and the key,
each copied into its array, and every other record stays. -/
theorem add_true (p : Pairings) (id key : List Nat) (perm : Controller.Perm)
    (h : (p.Add id key perm).1 = true) :
    (p.Add id key perm).2.db.length = p.db.length ∧
    ∃ k, k < p.db.length ∧ (p.deref k).perm = Controller.None ∧
      (p.Add id key perm).2.deref k =
        ⟨perm, padTo Controller.IdLen id, padTo Controller.KeyLen key⟩ ∧
      (∀ j, j ≠ k → (p.Add id key perm).2.deref j = p.deref j) := by
  unfold Pairings.Add at h ⊢
  dsimp only at h ⊢
  split at h
  · rename_i hlt
    rw [if_pos hlt]
    dsimp only
    refine ⟨List.length_set _ _ _, p.db.findIdx (fun c => c.perm = Controller.None), hlt, ?_, ?_, ?_⟩
    · unfold Pairings.deref
      rw [List.getD_eq_getElem?_getD, List.getElem?_eq_getElem hlt, Option.getD_some]
      have := @List.findIdx_getElem _ (fun c : Controller => decide (c.perm = Controller.None))
        p.db hlt
      simpa using this
    · unfold Pairings.deref
      rw [List.getD_eq_getElem?_getD, List.getElem?_set]
      simp [hlt]
    · intro j hj
      unfold Pairings.deref
      rw [List.getD_eq_getElem?_getD, List.getD_eq_getElem?_getD, List.getElem?_set]
      have : ¬ p.db.findIdx (fun c => c.perm = Controller.None) = j := fun h => hj h.symm
      simp [this]
  · cases h

/-- `Remove` of a record that `Get` finds: that record becomes free and every other
record stays. -/
theorem remove_found (p : Pairings) (id : List Nat) (i : Nat) (h : p.Get id = some i) :
    (p.Remove id).1 = true ∧
    (p.Remove id).2.db.length = p.db.length ∧
    (p.Remove id).2.deref i = Pairings.free ∧
    (∀ j, j ≠ i → (p.Remove id).2.deref j = p.deref j) := by
  obtain ⟨hlt, -⟩ := get_some p id i h
  unfold Pairings.Remove
  rw [h]
  dsimp only
  refine ⟨rfl, List.length_set _ _ _, ?_, ?_⟩
  · unfold Pairings.deref
    rw [List.getD_eq_getElem?_getD, List.getElem?_set]
    simp [hlt]
  · intro j hj
    unfold Pairings.deref
    rw [List.getD_eq_getElem?_getD, List.getD_eq_getElem?_getD, List.getElem?_set]
    have : ¬ i = j := fun h => hj h.symm
    simp [this]

/-- `Remove` of an identifier that `Get` does not find fails and leaves the store. -/
theorem remove_none (p : Pairings) (id : List Nat) (h : p.Get id = none) :
    p.Remove id = (false, p) := by
  unfold Pairings.Remove
  rw [h]

/-- `Remove` succeeds exactly when `Get` finds the identifier. -/
theorem remove_iff (p : Pairings) (id : List Nat) :
    (p.Remove id).1 = true ↔ ∃ i, p.Get id = some i := by
  cases h : p.Get id with
  | none => rw [remove_none p id h]; simp
  | some i => exact ⟨fun _ => ⟨i, rfl⟩, fun _ => (remove_found p id i h).1⟩

/-! ### The capacity of the pairings store -/

theorem mem_iff_deref (p : Pairings) (q : Controller → Prop) :
    (∃ c ∈ p.db, q c) ↔ ∃ j, j < p.db.length ∧ q (p.deref j) := by
  constructor
  · rintro ⟨c, hc, hq⟩
    obtain ⟨j, hj, rfl⟩ := List.mem_iff_getElem.mp hc
    refine ⟨j, hj, ?_⟩
    unfold Pairings.deref
    rw [List.getD_eq_getElem?_getD, List.getElem?_eq_getElem hj, Option.getD_some]
    exact hq
  · rintro ⟨j, hj, hq⟩
    unfold Pairings.deref at hq
    rw [List.getD_eq_getElem?_getD, List.getElem?_eq_getElem hj, Option.getD_some] at hq
    exact ⟨_, List.getElem_mem _, hq⟩

/-- A store whose records are all taken: `Add` fails. -/
theorem add_full (p : Pairings) (id key : List Nat) (perm : Controller.Perm)
    (h : p.Count Controller.None = p.db.length) : (p.Add id key perm).1 = false := by
  cases hadd : (p.Add id key perm).1 with
  | false => rfl
  | true =>
    obtain ⟨c, hc, hp⟩ := (add_iff p id key perm).mp hadd
    unfold Pairings.Count at h
    rw [List.countP_eq_length] at h
    have := h c hc
    simp [hp] at this

/-- What a successful `AddPairing` does to the store: the identifier is in the store, and
the identifiers that were are. -/
theorem addPairingOk_holds (st : Server) (op : Op) (id : List Nat) (X : List (List Nat))
    (hok : op.isAddPairingOk st id = true) (hX : st.pairings.HoldsAll X) :
    (st.step op).pairings.HoldsAll (id :: X) ∧
    (st.step op).pairings.db.length = st.pairings.db.length := by
  cases op with
  | Open => simp [Op.isAddPairingOk, Op.isAddPairing] at hok
  | Close sid => simp [Op.isAddPairingOk, Op.isAddPairing] at hok
  | Poll e sid => simp [Op.isAddPairingOk, Op.isAddPairing] at hok
  | Process e sid recv =>
    simp only [Op.isAddPairingOk, Op.isAddPairing, Bool.and_eq_true, decide_eq_true_eq] at hok
    obtain ⟨⟨⟨⟨⟨hsid, hs⟩, hadmin⟩, hroom⟩, hreq0⟩, hresp⟩ := hok
    cases hreq : st.request e sid recv with
    | none => rw [hreq] at hreq0; cases hreq0
    | some req =>
      rw [hreq] at hreq0
      simp only [Bool.and_eq_true, decide_eq_true_eq] at hreq0
      obtain ⟨⟨⟨hp, hid⟩, hkey0⟩, hperm0⟩ := hreq0
      obtain ⟨key, hkey⟩ := Option.isSome_iff_exists.mp hkey0
      cases hpm : Tlv.getByte (e.tlvParse req.data) Tlv.Kind.Permissions with
      | none => rw [hpm] at hperm0; cases hperm0
      | some perm =>
        rw [hpm] at hperm0
        have hperm : perm ≠ Controller.None := by simpa using hperm0
        have hroom3 : 3 ≤ e.rspSize := by omega
        obtain ⟨l, s, L, q, hl, hL, hP⟩ :=
          Process_pairingsOf e st sid recv req _ hsid hreq hs hp
        rw [if_pos rfl] at hP
        obtain ⟨htlvi, -, -, -, -, -, hpair, -⟩ := start_of_handler e st sid req l s
        obtain ⟨-, hperm2⟩ := start_of_pairings e st sid req l s
        obtain ⟨-, hitems⟩ :=
          pairingAdd_admin e ((st.parsed sid l s).withTlv e sid req.data) sid
            (by rw [hperm2]; exact hadmin)
        rw [htlvi, hpair] at hitems
        have hcase := hitems id key perm hid hkey hpm
        simp only [Server.step]
        cases hget : st.pairings.Get id with
        | some ios =>
          by_cases hk : key.length = Controller.KeyLen ∧ key = (st.pairings.deref ios).key
          · rw [((hcase.1 ios hget).2 hk)] at hP
            obtain ⟨-, -, h3, -⟩ :=
              Process_answeredDone e st sid _ _ l L s q _ _ _ hl hL hP hroom3
            obtain ⟨-, u2, u3, u4⟩ := update_found st.pairings id perm ios hget
            obtain ⟨g1, g2, g3, g4⟩ := get_some st.pairings id ios hget
            rw [h3]
            refine ⟨?_, u2⟩
            intro x hx
            have hat : Pairings.holds id ((st.pairings.Update id perm).2.deref ios) = true := by
              rw [u3]
              simp [Pairings.holds, hperm, g4]
            rcases List.mem_cons.mp hx with rfl | hx
            · exact ⟨ios, by rw [u2]; exact g1, hat⟩
            · obtain ⟨j, hj, hh⟩ := hX x hx
              refine ⟨j, by rw [u2]; exact hj, ?_⟩
              by_cases hji : j = ios
              · subst hji
                rw [u3]
                simp only [Pairings.holds, Bool.and_eq_true, decide_eq_true_eq, beq_iff_eq]
                  at hh ⊢
                exact ⟨hperm, hh.2⟩
              · rw [u4 j hji]; exact hh
          · have hk2 : key.length ≠ Controller.KeyLen ∨ key ≠ (st.pairings.deref ios).key := by
              by_cases h1 : key.length = Controller.KeyLen
              · right; intro h2; exact hk ⟨h1, h2⟩
              · left; exact h1
            rw [((hcase.1 ios hget).1 hk2)] at hP
            obtain ⟨-, h2, -, -⟩ :=
              Process_answeredError e st sid _ _ l L s q _ _ _ hl hL hP hroom
            rw [h2] at hresp
            simp at hresp
        | none =>
          cases hadd : (st.pairings.Add id key perm).1 with
          | false =>
            rw [((hcase.2 hget).1 hadd)] at hP
            obtain ⟨-, h2, -, -⟩ :=
              Process_answeredError e st sid _ _ l L s q _ _ _ hl hL hP hroom
            rw [h2] at hresp
            simp at hresp
          | true =>
            rw [((hcase.2 hget).2 hadd)] at hP
            obtain ⟨-, -, h3, -⟩ :=
              Process_answeredDone e st sid _ _ l L s q _ _ _ hl hL hP hroom3
            obtain ⟨a1, k, hk, hfree, hrec, hoth⟩ := add_true st.pairings id key perm hadd
            rw [h3]
            refine ⟨?_, a1⟩
            intro x hx
            rcases List.mem_cons.mp hx with rfl | hx
            · refine ⟨k, by rw [a1]; exact hk, ?_⟩
              rw [hrec]
              simp [Pairings.holds, hperm]
            · obtain ⟨j, hj, hh⟩ := hX x hx
              refine ⟨j, by rw [a1]; exact hj, ?_⟩
              have hjk : j ≠ k := by
                intro h
                subst h
                simp [Pairings.holds, hfree] at hh
              rw [hoth j hjk]; exact hh

/-- Along a run whose only changes of the store are successful `AddPairing` calls, the
identifiers added are in the store, with those that were. -/
theorem addsOnly_holds : ∀ (ops : List Op) (st : Server) (ids X : List (List Nat)),
    st.addsOnly ops ids = true → st.pairings.HoldsAll X →
    (st.run ops).pairings.HoldsAll (ids ++ X) ∧
    (st.run ops).pairings.db.length = st.pairings.db.length := by
  intro ops
  induction ops with
  | nil =>
    intro st ids X h hX
    simp only [Server.addsOnly, List.isEmpty_iff] at h
    subst h
    exact ⟨hX, rfl⟩
  | cons op ops ih =>
    intro st ids X h hX
    simp only [Server.addsOnly, Bool.or_eq_true, Bool.and_eq_true, decide_eq_true_eq] at h
    simp only [Server.run]
    rcases h with h | ⟨hsame, h⟩
    · cases ids with
      | nil => cases h
      | cons id rest =>
        simp only [Bool.and_eq_true] at h
        obtain ⟨h1, h2⟩ := addPairingOk_holds st op id X h.1 hX
        obtain ⟨h3, h4⟩ := ih (st.step op) rest (id :: X) h.2 h1
        refine ⟨?_, by rw [h4, h2]⟩
        intro x hx
        apply h3 x
        simp only [List.mem_append, List.mem_cons] at hx ⊢
        tauto
    · have hX2 : (st.step op).pairings.HoldsAll X := by rw [hsame]; exact hX
      obtain ⟨h3, h4⟩ := ih (st.step op) ids X h hX2
      exact ⟨h3, by rw [h4, hsame]⟩

/-- A store of `n` records that holds `n` identifiers that differ as stored has no free
record, and holds no other identifier. -/
theorem holdsAll_full (p : Pairings) (ids : List (List Nat)) (hX : p.HoldsAll ids)
    (hnd : (ids.map (padTo Controller.IdLen)).Nodup) (hlen : p.db.length ≤ ids.length) :
    p.Count Controller.None = p.db.length ∧
    ∀ id, padTo Controller.IdLen id ∉ ids.map (padTo Controller.IdLen) → p.Get id = none := by
  have hsub : ids.map (padTo Controller.IdLen) ⊆ (p.records.map (fun c => c.id)) := by
    intro x hx
    obtain ⟨id, hid, rfl⟩ := List.mem_map.mp hx
    obtain ⟨j, hj, hh⟩ := hX id hid
    obtain ⟨c, hc, hq⟩ := (mem_iff_deref p (fun c => Pairings.holds id c = true)).mpr ⟨j, hj, hh⟩
    simp only [Pairings.holds, Bool.and_eq_true, decide_eq_true_eq, beq_iff_eq] at hq
    refine List.mem_map.mpr ⟨c, ?_, hq.2⟩
    simp only [Pairings.records, List.mem_filter, decide_eq_true_eq]
    exact ⟨hc, hq.1⟩
  have hsp := hnd.subperm hsub
  have h1 := hsp.length_le
  simp only [List.length_map] at h1
  have h2 : p.records.length ≤ p.db.length := List.length_filter_le _ _
  have hrec : p.records.length = p.db.length := by omega
  have hall : ∀ c ∈ p.db, c.perm ≠ Controller.None := by
    intro c hc
    have := List.filter_length_eq_length.mp hrec c hc
    simpa using this
  have hperm := hsp.perm_of_length_le (by simp only [List.length_map]; omega)
  refine ⟨?_, fun id hid => ?_⟩
  · unfold Pairings.Count
    rw [List.countP_eq_length]
    intro c hc
    simp [hall c hc]
  · rw [get_none_iff]
    intro c hc
    by_contra hh
    have hh2 : Pairings.holds id c = true := by simpa using hh
    simp only [Pairings.holds, Bool.and_eq_true, decide_eq_true_eq, beq_iff_eq] at hh2
    have hmem : c.id ∈ p.records.map (fun c => c.id) := by
      refine List.mem_map.mpr ⟨c, ?_, rfl⟩
      simp only [Pairings.records, List.mem_filter, decide_eq_true_eq]
      exact ⟨hc, hh2.1⟩
    have := hperm.symm.subset hmem
    rw [hh2.2] at this
    exact hid this

/-! ### `ListPairing` -/

theorem size_nil : Tlv.size [] = 0 := rfl

theorem size_cons (x : Tlv.Item) (xs : List Tlv.Item) :
    Tlv.size (x :: xs) = Tlv.itemSize x.val.length + Tlv.size xs := by
  simp [Tlv.size]

theorem size_append (xs ys : List Tlv.Item) :
    Tlv.size (xs ++ ys) = Tlv.size xs + Tlv.size ys := by
  simp [Tlv.size]

/-- The callback of `_pairingList` over the records adds the items of the layout, in
order, until one does not fit. -/
theorem listRecords_fill : ∀ (rs : List Controller) (first : Bool) (t : Tlv.Create),
    listRecords rs first t = t.fill (listLayout rs first) := by
  intro rs
  induction rs with
  | nil => intro first t; rfl
  | cons c rest ih =>
    intro first t
    cases first with
    | true =>
      simp only [listRecords, listLayout, Controller.group, Bool.not_true, Bool.false_eq_true,
        if_false, if_true, List.nil_append, List.cons_append, Tlv.Create.fill]
      split
      · rfl
      · split
        · rfl
        · split
          · rfl
          · exact ih false _
    | false =>
      simp only [listRecords, listLayout, Controller.group, Bool.not_false, if_true,
        Bool.false_eq_true, if_false, List.cons_append, List.nil_append, Tlv.Create.fill]
      split
      · rfl
      · split
        · rfl
        · split
          · rfl
          · split
            · rfl
            · exact ih false _

/-- Items that fit are all added. -/
theorem fill_fits : ∀ (xs : List Tlv.Item) (t : Tlv.Create),
    t.length + Tlv.size xs ≤ t.size →
    t.fill xs = (true, ⟨t.size, t.items ++ xs, t.length + Tlv.size xs⟩) := by
  intro xs
  induction xs with
  | nil => intro t _; simp [Tlv.Create.fill, size_nil]
  | cons x xs ih =>
    intro t h
    rw [size_cons] at h
    have hfit : t.length + Tlv.itemSize x.val.length ≤ t.size := by omega
    have hadd : t.add x.type x.val =
        (true, ⟨t.size, t.items ++ [x], t.length + Tlv.itemSize x.val.length⟩) := by
      simp [Tlv.Create.add, hfit]
    simp only [Tlv.Create.fill, hadd, Bool.not_true, Bool.false_eq_true, if_false]
    rw [ih _ (by simp only []; omega)]
    simp [size_cons, Nat.add_assoc]

/-- Items that do not all fit: those before the first that does not fit are added, and
the rest is left out. -/
theorem fill_overflow : ∀ (xs : List Tlv.Item) (t : Tlv.Create), t.length ≤ t.size →
    t.size < t.length + Tlv.size xs →
    ∃ pre next post, xs = pre ++ next :: post ∧
      t.length + Tlv.size pre ≤ t.size ∧
      t.size < t.length + Tlv.size pre + Tlv.itemSize next.val.length ∧
      t.fill xs = (false, ⟨t.size, t.items ++ pre, t.length + Tlv.size pre⟩) := by
  intro xs
  induction xs with
  | nil =>
    intro t h0 h
    simp only [size_nil] at h
    omega
  | cons x xs ih =>
    intro t h0 h
    rw [size_cons] at h
    by_cases hfit : t.length + Tlv.itemSize x.val.length ≤ t.size
    · have hadd : t.add x.type x.val =
          (true, ⟨t.size, t.items ++ [x], t.length + Tlv.itemSize x.val.length⟩) := by
        simp [Tlv.Create.add, hfit]
      obtain ⟨pre, next, post, hx, h1, h2, h3⟩ :=
        ih ⟨t.size, t.items ++ [x], t.length + Tlv.itemSize x.val.length⟩
          (by simp only []; omega) (by simp only []; omega)
      refine ⟨x :: pre, next, post, by rw [hx]; rfl, ?_, ?_, ?_⟩
      · rw [size_cons]; simp only [] at h1; omega
      · rw [size_cons]; simp only [] at h2; omega
      · simp only [Tlv.Create.fill, hadd, Bool.not_true, Bool.false_eq_true, if_false]
        rw [h3]
        simp [size_cons, Nat.add_assoc]
    · have hadd : t.add x.type x.val = (false, t) := by
        simp [Tlv.Create.add, hfit]
      refine ⟨[], x, xs, rfl, by simp only [size_nil]; omega, by simp only [size_nil]; omega, ?_⟩
      simp [Tlv.Create.fill, hadd, size_nil]

theorem listLayout_false (c : Controller) (rest : List Controller) :
    listLayout (c :: rest) false =
      (⟨Tlv.Kind.Separator, []⟩ : Tlv.Item) :: listLayout (c :: rest) true := by
  simp [listLayout]

/-- The layout of the records: the groups with one separator between each two. -/
theorem listLayout_intercalate : ∀ (rs : List Controller),
    listLayout rs true =
      List.intercalate [(⟨Tlv.Kind.Separator, []⟩ : Tlv.Item)] (rs.map Controller.group) := by
  intro rs
  induction rs with
  | nil => rfl
  | cons c rest ih =>
    cases rest with
    | nil => simp [listLayout, List.intercalate]
    | cons d rest2 =>
      have h1 : listLayout (c :: d :: rest2) true =
          c.group ++ listLayout (d :: rest2) false := by
        simp [listLayout]
      rw [h1, listLayout_false, ih]
      simp [List.intercalate, List.intersperse]

/-- The separators of the layout: one less than the records. -/
theorem listLayout_separators : ∀ (rs : List Controller),
    ((listLayout rs false).filter (fun x => x.type = Tlv.Kind.Separator)).length = rs.length ∧
    ((listLayout rs true).filter (fun x => x.type = Tlv.Kind.Separator)).length =
      rs.length - 1 := by
  intro rs
  induction rs with
  | nil => exact ⟨rfl, rfl⟩
  | cons c rest ih =>
    refine ⟨?_, ?_⟩
    · simp only [listLayout, Bool.false_eq_true, if_false, List.filter_append]
      rw [List.length_append, List.length_append, ih.1]
      simp [Controller.group, List.filter]
      omega
    · simp only [listLayout, if_true, List.nil_append, List.filter_append]
      rw [List.length_append, ih.1]
      simp [Controller.group, List.filter]

/-- How `_pairingList` ends for an admin controller: the items the callback added, and
the error when it stopped. -/
theorem pairingList_admin (e : Ext) (st : Server) (i : Nat)
    (hadmin : st.iosPerm (st.sess i) = Controller.Admin) :
    st._pairingList e i = (st.emit (Event.handler "_pairingList")).setSess i
      (if (((st.sess i).tlvBegin e Tlv.State.M2).tlvo.fill
          (listLayout st.pairings.records true)).1 then
        Session.tlvEnd { (st.sess i).tlvBegin e Tlv.State.M2 with
          tlvo := (((st.sess i).tlvBegin e Tlv.State.M2).tlvo.fill
            (listLayout st.pairings.records true)).2 }
      else
        Session.tlvEnd (Session.addError { (st.sess i).tlvBegin e Tlv.State.M2 with
          tlvo := (((st.sess i).tlvBegin e Tlv.State.M2).tlvo.fill
            (listLayout st.pairings.records true)).2 } Tlv.Error.Unknown)) := by
  have h2 : ¬ (st.emit (Event.handler "_pairingList")).iosPerm
      (((st.emit (Event.handler "_pairingList")).sess i).tlvBegin e Tlv.State.M2) ≠
        Controller.Admin := by
    intro h; exact h hadmin
  have hsess : (st.emit (Event.handler "_pairingList")).sess i = st.sess i := rfl
  have hpair : (st.emit (Event.handler "_pairingList")).pairings = st.pairings := rfl
  unfold Server._pairingList
  simp only []
  rw [if_neg h2, listRecords_fill, hsess, hpair]
  rcases Bool.eq_false_or_eq_true (((st.sess i).tlvBegin e Tlv.State.M2).tlvo.fill
      (listLayout st.pairings.records true)).1 with h | h
  · rw [if_pos h, if_pos h]
  · rw [if_neg (by rw [h]; simp), if_neg (by rw [h]; simp)]

/-- The TLV `_pairingList` leaves for an admin controller when the region has room for
the state item. -/
theorem pairingList_items (e : Ext) (st : Server) (i : Nat)
    (hadmin : st.iosPerm (st.sess i) = Controller.Admin) (hroom : 3 ≤ e.rspSize) :
    (3 + Tlv.size (listLayout st.pairings.records true) ≤ e.rspSize →
      ((st._pairingList e i).sess i).rsp.data =
        Data.tlv (⟨Tlv.Kind.State, [Tlv.State.M2]⟩ :: listLayout st.pairings.records true)) ∧
    (e.rspSize < 3 + Tlv.size (listLayout st.pairings.records true) →
      ∃ pre next post,
        listLayout st.pairings.records true = pre ++ next :: post ∧
        3 + Tlv.size pre ≤ e.rspSize ∧
        e.rspSize < 3 + Tlv.size pre + Tlv.itemSize next.val.length ∧
        (3 + Tlv.size pre + 3 ≤ e.rspSize →
          ((st._pairingList e i).sess i).rsp.data =
            Data.tlv (⟨Tlv.Kind.State, [Tlv.State.M2]⟩ :: pre ++
              [⟨Tlv.Kind.Error, [Tlv.Error.Unknown]⟩])) ∧
        (e.rspSize < 3 + Tlv.size pre + 3 →
          ((st._pairingList e i).sess i).rsp.data =
            Data.tlv (⟨Tlv.Kind.State, [Tlv.State.M2]⟩ :: pre))) := by
  have ht : ((st.sess i).tlvBegin e Tlv.State.M2).tlvo =
      ⟨e.rspSize, [⟨Tlv.Kind.State, [Tlv.State.M2]⟩], 3⟩ := by
    simp [Session.tlvBegin, tlv_put1 _ _ _ hroom]
  rw [pairingList_admin e st i hadmin, ht]
  refine ⟨fun h => ?_, fun h => ?_⟩
  · rw [fill_fits _ _ (by simp only []; exact h)]
    simp [Session.tlvEnd]
  · obtain ⟨pre, next, post, hx, h1, h2, h3⟩ :=
      fill_overflow (listLayout st.pairings.records true)
        ⟨e.rspSize, [⟨Tlv.Kind.State, [Tlv.State.M2]⟩], 3⟩ (by simp only []; exact hroom)
        (by simp only []; exact h)
    simp only [] at h1 h2
    refine ⟨pre, next, post, hx, h1, h2, fun hr => ?_, fun hr => ?_⟩
    · rw [h3]
      simp [Session.tlvEnd, Session.addError, Tlv.Create.put, Tlv.Create.add, Tlv.itemSize, hr]
    · rw [h3]
      have hr2 : ¬ 3 + Tlv.size pre + 3 ≤ e.rspSize := by omega
      simp [Session.tlvEnd, Session.addError, Tlv.Create.put, Tlv.Create.add, Tlv.itemSize, hr2]

/-- The events and the store of `_pairingList` for an admin controller. -/
theorem pairingList_frame (e : Ext) (st : Server) (i : Nat)
    (hadmin : st.iosPerm (st.sess i) = Controller.Admin) :
    (st._pairingList e i).pairings = st.pairings ∧
    (st._pairingList e i).log = st.log ++ [Event.handler "_pairingList"] := by
  rw [pairingList_admin e st i hadmin]
  exact ⟨rfl, rfl⟩

/-! ### The update callback -/

theorem still_refl (st : Server) : st.Still st := ⟨rfl, [], by simp, by simp⟩

theorem still_trans (a b c : Server) (h1 : a.Still b) (h2 : b.Still c) : a.Still c := by
  obtain ⟨q1, l1, e1, p1⟩ := h1
  obtain ⟨q2, l2, e2, p2⟩ := h2
  refine ⟨by rw [q2, q1], l1 ++ l2, by rw [e2, e1, List.append_assoc], ?_⟩
  intro ev hev
  rcases List.mem_append.mp hev with h | h
  · exact p1 ev h
  · exact p2 ev h

theorem still_emit (st st1 : Server) (ev : Event) (h : st.Still st1)
    (hev : ev.isUpdate = false) : st.Still (st1.emit ev) :=
  still_trans _ _ _ h ⟨rfl, [ev], rfl, by simpa using hev⟩

theorem still_setSess (st st1 : Server) (i : Nat) (s : Session) (h : st.Still st1) :
    st.Still (st1.setSess i s) := ⟨h.pairings, h.more⟩

theorem still_mk (st st1 : Server) (a : Nat → Session) (b : Nat)
    (d : Option SRP) (f : List Nat) (g k : Nat) (h : st.Still st1) :
    st.Still ⟨a, b, st1.pairings, d, f, g, k, st1.log⟩ := ⟨h.pairings, h.more⟩

theorem still_withTlv (e : Ext) (st st1 : Server) (i : Nat) (d : List Nat) (h : st.Still st1) :
    st.Still (st1.withTlv e i d) := ⟨h.pairings, h.more⟩

theorem pairSetup1_RetErr_still (st0 st : Server) (i : Nat) (sess : Session)
    (h : st0.Still st) : st0.Still (st.pairSetup1_RetErr i sess) := by
  unfold Server.pairSetup1_RetErr
  repeat' (first
    | split
    | dsimp only
    | exact h
    | rfl
    | apply still_setSess
    | apply still_mk
    | apply still_emit)

theorem pairSetup1_params_still (e : Ext) (st0 st : Server) (i : Nat) (sess : Session)
    (h : st0.Still st) : st0.Still (st.pairSetup1_params e i sess) := by
  unfold Server.pairSetup1_params
  repeat' (first
    | split
    | dsimp only
    | exact h
    | rfl
    | apply pairSetup1_RetErr_still
    | apply still_setSess
    | apply still_mk)

theorem pairSetup1_still (e : Ext) (st : Server) (i : Nat) :
    st.Still (st._pairSetup1 e i) := by
  have h := still_refl st
  unfold Server._pairSetup1
  repeat' (first
    | split
    | dsimp only
    | exact h
    | rfl
    | apply pairSetup1_RetErr_still
    | apply pairSetup1_params_still
    | apply still_setSess
    | apply still_mk
    | apply still_emit)

theorem pairSetup3_RetErr_still (st0 st : Server) (i : Nat) (sess : Session)
    (h : st0.Still st) : st0.Still (st.pairSetup3_RetErr i sess) := by
  unfold Server.pairSetup3_RetErr
  repeat' (first
    | split
    | dsimp only
    | exact h
    | rfl
    | apply still_setSess
    | apply still_mk
    | apply still_emit)

theorem pairSetup3_still (e : Ext) (st : Server) (i : Nat) :
    st.Still (st._pairSetup3 e i) := by
  have h := still_refl st
  unfold Server._pairSetup3
  repeat' (first
    | split
    | dsimp only
    | exact h
    | rfl
    | apply pairSetup3_RetErr_still
    | apply still_setSess
    | apply still_mk
    | apply still_emit)

theorem pairSetup5_RetDone_still (st0 st : Server) (i : Nat) (sess : Session)
    (h : st0.Still st) : st0.Still (st.pairSetup5_RetDone i sess) := by
  unfold Server.pairSetup5_RetDone
  repeat' (first
    | split
    | dsimp only
    | exact h
    | rfl
    | apply still_setSess
    | apply still_mk
    | apply still_emit)

theorem pairVerify1_still (e : Ext) (st : Server) (i : Nat) :
    st.Still (st._pairVerify1 e i) := by
  have h := still_refl st
  unfold Server._pairVerify1
  repeat' (first
    | split
    | dsimp only
    | exact h
    | rfl
    | apply still_setSess
    | apply still_mk
    | apply still_emit)

theorem pairVerify3_still (e : Ext) (st : Server) (i : Nat) :
    st.Still (st._pairVerify3 e i) := by
  have h := still_refl st
  unfold Server._pairVerify3
  repeat' (first
    | split
    | dsimp only
    | exact h
    | rfl
    | apply still_setSess
    | apply still_mk
    | apply still_emit)

theorem pairingList_still (e : Ext) (st : Server) (i : Nat) :
    st.Still (st._pairingList e i) := by
  have h := still_refl st
  unfold Server._pairingList
  repeat' (first
    | split
    | dsimp only
    | exact h
    | rfl
    | apply still_setSess
    | apply still_mk
    | apply still_emit)

theorem postPairVerify_still (e : Ext) (st : Server) (i : Nat) (d : List Nat) (sec : Bool) :
    st.Still (st.postPairVerify e i d sec).1 := by
  have hw : st.Still (st.withTlv e i d) := still_withTlv e st st i d (still_refl st)
  unfold Server.postPairVerify
  dsimp only
  split
  · exact hw
  · split
    · exact still_trans _ _ _ hw (pairVerify1_still e _ i)
    · split
      · exact still_trans _ _ _ hw (pairVerify3_still e _ i)
      · exact hw

theorem still_answeredError (e : Ext) (st : Server) (i : Nat) (name : String) (err : Nat) :
    st.Still (st.answeredError e i name err) :=
  still_setSess _ _ _ _ (still_emit _ _ _ (still_refl st) rfl)

theorem once_answeredDone (e : Ext) (st : Server) (i : Nat) (name : String) (P : Pairings) :
    st.Once (st.answeredDone e i name P) P :=
  ⟨rfl, [Event.handler name, Event.configUpdate], by simp [Server.answeredDone, Server.emit,
    Server.setSess], by simp [List.count_cons]⟩

theorem clean_begin (e : Ext) (s : Session) (state : Nat) :
    ((s.tlvBegin e state).tlvEnd).Clean := by
  refine ⟨rfl, ?_⟩
  intro x hx
  have hx2 : x ∈ ((Tlv.Create.create e.rspSize).put Tlv.Kind.State [state]).items := hx
  rcases mem_put _ _ _ _ hx2 with h | h
  · simp [Tlv.Create.create] at h
  · rw [h]; simp

theorem clean_answeredDone (e : Ext) (st : Server) (i : Nat) (name : String) (P : Pairings) :
    ((st.answeredDone e i name P).sess i).Clean := by
  have : (st.answeredDone e i name P).sess i = ((st.sess i).tlvBegin e Tlv.State.M2).tlvEnd := by
    simp [Server.answeredDone]
  rw [this]
  exact clean_begin e _ _

/-- `_pairingAdd` and the store its call of the callback finds. -/
theorem pairingAdd_link (e : Ext) (st : Server) (i : Nat) :
    (st.pairingAdd_update i = none → st.Still (st._pairingAdd e i)) ∧
    (∀ P, st.pairingAdd_update i = some P →
      st._pairingAdd e i = st.answeredDone e i "_pairingAdd" P) := by
  by_cases hadmin : st.iosPerm (st.sess i) = Controller.Admin
  · obtain ⟨hmiss, hitems⟩ := pairingAdd_admin e st i hadmin
    have herr : ∀ err, st._pairingAdd e i = st.answeredError e i "_pairingAdd" err →
        st.Still (st._pairingAdd e i) := by
      intro err h
      rw [h]
      exact still_answeredError e st i _ err
    cases hid : Tlv.get (st.sess i).tlvi Tlv.Kind.Identifier with
    | none =>
      have hnone : st.pairingAdd_update i = none := by
        simp [Server.pairingAdd_update, hadmin, hid]
      rw [hnone]
      exact ⟨fun _ => herr _ (hmiss (Or.inl hid)), fun P h => by cases h⟩
    | some id =>
      cases hkey : Tlv.get (st.sess i).tlvi Tlv.Kind.PublicKey with
      | none =>
        have hnone : st.pairingAdd_update i = none := by
          simp [Server.pairingAdd_update, hadmin, hid, hkey]
        rw [hnone]
        exact ⟨fun _ => herr _ (hmiss (Or.inr (Or.inl hkey))), fun P h => by cases h⟩
      | some key =>
        cases hpm : Tlv.getByte (st.sess i).tlvi Tlv.Kind.Permissions with
        | none =>
          have hnone : st.pairingAdd_update i = none := by
            simp [Server.pairingAdd_update, hadmin, hid, hkey, hpm]
          rw [hnone]
          exact ⟨fun _ => herr _ (hmiss (Or.inr (Or.inr hpm))), fun P h => by cases h⟩
        | some perm =>
          obtain ⟨hfound, hnew⟩ := hitems id key perm hid hkey hpm
          cases hget : st.pairings.Get id with
          | some ios =>
            by_cases hk : key.length = Controller.KeyLen ∧ key = (st.pairings.deref ios).key
            · have hsome : st.pairingAdd_update i = some (st.pairings.Update id perm).2 := by
                simp [Server.pairingAdd_update, hadmin, hid, hkey, hpm, hget, hk.1, ← hk.2]
              rw [hsome]
              refine ⟨fun h => Option.noConfusion h, fun P h => ?_⟩
              simp only [Option.some.injEq] at h
              rw [← h]
              exact (hfound ios hget).2 hk
            · have hk2 : key.length ≠ Controller.KeyLen ∨
                  key ≠ (st.pairings.deref ios).key := by
                by_cases h1 : key.length = Controller.KeyLen
                · right; intro h2; exact hk ⟨h1, h2⟩
                · left; exact h1
              have hnone : st.pairingAdd_update i = none := by
                rcases hk2 with h1 | h1
                · simp [Server.pairingAdd_update, hadmin, hid, hkey, hpm, hget, h1]
                · simp [Server.pairingAdd_update, hadmin, hid, hkey, hpm, hget, h1]
              rw [hnone]
              exact ⟨fun _ => herr _ ((hfound ios hget).1 hk2), fun P h => by cases h⟩
          | none =>
            cases hadd : (st.pairings.Add id key perm).1 with
            | false =>
              have hnone : st.pairingAdd_update i = none := by
                simp [Server.pairingAdd_update, hadmin, hid, hkey, hpm, hget, hadd]
              rw [hnone]
              exact ⟨fun _ => herr _ ((hnew hget).1 hadd), fun P h => by cases h⟩
            | true =>
              have hsome : st.pairingAdd_update i = some (st.pairings.Add id key perm).2 := by
                simp [Server.pairingAdd_update, hadmin, hid, hkey, hpm, hget, hadd]
              rw [hsome]
              refine ⟨fun h => Option.noConfusion h, fun P h => ?_⟩
              simp only [Option.some.injEq] at h
              rw [← h]
              exact (hnew hget).2 hadd
  · have hnone : st.pairingAdd_update i = none := by
      simp [Server.pairingAdd_update, hadmin]
    rw [hnone, pairingAdd_nonadmin e st i hadmin]
    exact ⟨fun _ => still_answeredError e st i _ _, fun P h => by cases h⟩

/-- `_pairingRemove` and the store its call of the callback finds. -/
theorem pairingRemove_link (e : Ext) (st : Server) (i : Nat) :
    (st.pairingRemove_update i = none → st.Still (st._pairingRemove e i)) ∧
    (∀ P, st.pairingRemove_update i = some P →
      st._pairingRemove e i = st.answeredDone e i "_pairingRemove" P) := by
  by_cases hadmin : st.iosPerm (st.sess i) = Controller.Admin
  · obtain ⟨hmiss, hitems⟩ := pairingRemove_admin e st i hadmin
    have herr : ∀ err, st._pairingRemove e i = st.answeredError e i "_pairingRemove" err →
        st.Still (st._pairingRemove e i) := by
      intro err h
      rw [h]
      exact still_answeredError e st i _ err
    cases hid : Tlv.get (st.sess i).tlvi Tlv.Kind.Identifier with
    | none =>
      have hnone : st.pairingRemove_update i = none := by
        simp [Server.pairingRemove_update, hadmin, hid]
      rw [hnone]
      exact ⟨fun _ => herr _ (hmiss hid), fun P h => by cases h⟩
    | some id =>
      cases hrem : (st.pairings.Remove id).1 with
      | false =>
        have hnone : st.pairingRemove_update i = none := by
          simp [Server.pairingRemove_update, hadmin, hid, hrem]
        rw [hnone]
        exact ⟨fun _ => herr _ ((hitems id hid).1 hrem), fun P h => by cases h⟩
      | true =>
        have hsome : st.pairingRemove_update i = some (st.pairings.Remove id).2 := by
          simp [Server.pairingRemove_update, hadmin, hid, hrem]
        rw [hsome]
        refine ⟨fun h => Option.noConfusion h, fun P h => ?_⟩
        simp only [Option.some.injEq] at h
        rw [← h]
        exact (hitems id hid).2 hrem
  · have hnone : st.pairingRemove_update i = none := by
      simp [Server.pairingRemove_update, hadmin]
    rw [hnone, pairingRemove_nonadmin e st i hadmin]
    exact ⟨fun _ => still_answeredError e st i _ _, fun P h => by cases h⟩
/-- `_pairSetup5` when it does not get to the call of the callback. -/
theorem pairSetup5_still (e : Ext) (st : Server) (i : Nat)
    (hu : st.pairSetup5_update e i = none) : st.Still (st._pairSetup5 e i) := by
  have h := still_refl st
  unfold Server._pairSetup5 Server.pairSetup5_RetErr
  repeat' (first
    | split
    | dsimp only
    | exact h
    | rfl
    | apply pairSetup5_RetDone_still
    | apply still_setSess
    | apply still_mk
    | apply still_emit)
  all_goals (exfalso; simp_all [Server.pairSetup5_update, Session.tlvBegin])

/-- `_pairSetup5` when it calls the callback: the store is the one `Add` left, the
callback is called once, and the reply has no `Error` item. -/
theorem pairSetup5_once (e : Ext) (st : Server) (i : Nat) (P : Pairings)
    (hu : st.pairSetup5_update e i = some P) :
    st.Once (st._pairSetup5 e i) P ∧ ((st._pairSetup5 e i).sess i).Clean := by
  unfold Server.pairSetup5_update at hu
  dsimp only at hu
  split at hu
  · cases hu
  · rename_i hown
    split at hu
    · cases hu
    · rename_i enc henc
      split at hu
      · cases hu
      · rename_i htag
        split at hu
        · cases hu
        · rename_i id hid
          split at hu
          · cases hu
          · rename_i ltpk hpk
            split at hu
            · cases hu
            · rename_i sg hsg
              split at hu
              · cases hu
              · rename_i hadd
                simp only [Option.some.injEq] at hu
                have hsrp : st.srp.isSome = true := by
                  cases hs : st.srp with
                  | none => simp [hs] at hown
                  | some s => rfl
                have hown2 : st.srp_owner = (st.sess i).sid := by
                  by_contra hne
                  simp [hne] at hown
                have htag2 : (openEncrypted e (st.sess i).key noncePS05 enc).2.2 = true := by
                  simpa using htag
                have hadd2 : (st.pairings.Add id ltpk Controller.Admin).1 = true := by
                  simpa using hadd
                obtain ⟨-, hacc⟩ := pairSetup5_owner e st i enc id ltpk sg hsrp hown2 henc htag2
                  hid hpk hsg
                rw [hacc hadd2, ← hu]
                refine ⟨⟨rfl, _, rfl, ?_⟩, ⟨by simp [Session.tlvEnd], ?_⟩⟩
                · simp [accessoryM6, List.count_cons]
                · intro x hx
                  simp only [setSess_sess_same, Session.tlvEnd] at hx
                  rcases mem_put _ _ _ _ hx with h | h
                  · have h2 : x ∈ ((Tlv.Create.create e.rspSize).put Tlv.Kind.State
                        [Tlv.State.M6]).items := h
                    rcases mem_put _ _ _ _ h2 with h3 | h3
                    · simp [Tlv.Create.create] at h3
                    · rw [h3]; simp
                  · rw [h]; simp

theorem once_withTlv (e : Ext) (st st2 : Server) (i : Nat) (d : List Nat) (P : Pairings)
    (h : (st.withTlv e i d).Once st2 P) : st.Once st2 P := ⟨h.pairings, h.more⟩

theorem still_of_withTlv (e : Ext) (st st2 : Server) (i : Nat) (d : List Nat)
    (h : (st.withTlv e i d).Still st2) : st.Still st2 := ⟨h.pairings, h.more⟩

/-- Routing a request whose handler calls the callback: the store is the one the callback
finds, the callback is called once, and the reply has no `Error` item. -/
theorem route_once (e : Ext) (st : Server) (i : Nat) (req : Request) (sec : Bool)
    (P : Pairings) (hu : st.route_update e i req = some P) :
    st.Once (st.route e i req sec).1 P ∧ ((st.route e i req sec).1.sess i).Clean := by
  unfold Server.route_update at hu
  split at hu
  · rename_i hm
    split at hu
    · rename_i hp
      split at hu
      · cases hu
      · rename_i hct
        split at hu
        · cases hu
        · rename_i hcl
          split at hu
          · cases hu
          · rename_i state hstate
            split at hu
            · rename_i h5
              subst h5
              have hM5 : req.isPairSetupM5 e = true :=
                (isPairSetupM5_iff e req).mpr ⟨hm, hp, by simpa using hct, by simpa using hcl,
                  hstate⟩
              rw [route_pairSetupM5 e st i req sec hM5]
              obtain ⟨h1, h2⟩ := pairSetup5_once e _ i P hu
              exact ⟨once_withTlv e st _ i _ P h1, h2⟩
            · cases hu
    · split at hu
      · rename_i hp
        split at hu
        · cases hu
        · rename_i hs
          split at hu
          · cases hu
          · rename_i hct
            split at hu
            · cases hu
            · rename_i hcl
              split at hu
              · cases hu
              · rename_i state hstate
                split at hu
                · cases hu
                · rename_i h1
                  split at hu
                  · cases hu
                  · rename_i method hmethod
                    have hM1 : state = Tlv.State.M1 := by
                      by_contra hne
                      exact h1 hne
                    subst hM1
                    have hpo : req.isPairingsOf e method = true :=
                      (isPairingsOf_iff e req method).mpr ⟨hm, hp, by simpa using hct,
                        by simpa using hcl, hstate, hmethod⟩
                    rw [route_pairingsOf e st i req sec method (by simpa using hs) hpo]
                    split at hu
                    · rename_i ha
                      rw [if_pos ha, (pairingAdd_link e _ i).2 P hu]
                      exact ⟨once_withTlv e st _ i _ P (once_answeredDone e _ i _ P),
                        clean_answeredDone e _ i _ P⟩
                    · rename_i ha
                      split at hu
                      · rename_i hr
                        rw [if_neg ha, if_pos hr, (pairingRemove_link e _ i).2 P hu]
                        exact ⟨once_withTlv e st _ i _ P (once_answeredDone e _ i _ P),
                          clean_answeredDone e _ i _ P⟩
                      · cases hu
      · cases hu
  · cases hu

theorem postPairSetup_eq (e : Ext) (st : Server) (i : Nat) (d : List Nat) :
    st.postPairSetup e i d =
      match Tlv.getByte (e.tlvParse d) Tlv.Kind.State with
      | none => st.withTlv e i d
      | some state =>
        if state = Tlv.State.M1 then (st.withTlv e i d)._pairSetup1 e i
        else if state = Tlv.State.M3 then (st.withTlv e i d)._pairSetup3 e i
        else if state = Tlv.State.M5 then (st.withTlv e i d)._pairSetup5 e i
        else st.withTlv e i d := by
  cases hstate : Tlv.getByte (e.tlvParse d) Tlv.Kind.State <;>
    simp [Server.postPairSetup, Server.withTlv, hstate]

theorem postPairings_eq (e : Ext) (st : Server) (i : Nat) (d : List Nat) :
    st.postPairings e i d =
      match Tlv.getByte (e.tlvParse d) Tlv.Kind.State with
      | none => (st.withTlv e i d).setSess i (((st.withTlv e i d).sess i).reply Status.HTTP_400)
      | some state =>
        if state ≠ Tlv.State.M1 then
          (st.withTlv e i d).setSess i (((st.withTlv e i d).sess i).reply Status.HTTP_400)
        else
          match Tlv.getByte (e.tlvParse d) Tlv.Kind.Method with
          | none =>
            (st.withTlv e i d).setSess i (((st.withTlv e i d).sess i).reply Status.HTTP_400)
          | some method =>
            if method = Tlv.Method.AddPairing then (st.withTlv e i d)._pairingAdd e i
            else if method = Tlv.Method.RemovePairing then (st.withTlv e i d)._pairingRemove e i
            else if method = Tlv.Method.ListPairing then (st.withTlv e i d)._pairingList e i
            else (st.withTlv e i d).setSess i
              (((st.withTlv e i d).sess i).reply Status.HTTP_400) := by
  cases hstate : Tlv.getByte (e.tlvParse d) Tlv.Kind.State with
  | none => simp [Server.postPairings, Server.withTlv, hstate]
  | some state =>
    cases hmethod : Tlv.getByte (e.tlvParse d) Tlv.Kind.Method <;>
      simp [Server.postPairings, Server.withTlv, hstate, hmethod]

/-- Routing a request whose handler does not call the callback: the store is as it was
and the callback is not called. -/
theorem route_still (e : Ext) (st : Server) (i : Nat) (req : Request) (sec : Bool)
    (hu : st.route_update e i req = none) : st.Still (st.route e i req sec).1 := by
  have hw : st.Still (st.withTlv e i req.data) :=
    still_withTlv e st st i req.data (still_refl st)
  rcases route_cases e st i req sec with ⟨s, h⟩ | ⟨ev, s, h1, h2, hs, h⟩ | ⟨hm, hp, htlv, h⟩ |
    ⟨hm, hp, htlv, h⟩ | ⟨hm, hp, htlv, hs, h⟩ | h
  · rw [h]
    exact still_setSess _ _ _ _ (still_refl st)
  · rw [h]
    refine still_setSess _ _ _ _ (still_emit _ _ _ (still_refl st) ?_)
    cases ev <;> first | rfl | exact absurd rfl h2
  · rw [h, postPairSetup_eq]
    simp only [Request.isTlv, Bool.and_eq_true] at htlv
    simp only [Server.route_update, hm, hp, htlv.1, htlv.2, if_true, Bool.not_true,
      Bool.false_eq_true, if_false] at hu
    cases hstate : Tlv.getByte (e.tlvParse req.data) Tlv.Kind.State with
    | none => exact hw
    | some state =>
      rw [hstate] at hu
      simp only [] at hu ⊢
      split
      · exact still_trans _ _ _ hw (pairSetup1_still e _ i)
      · split
        · exact still_trans _ _ _ hw (pairSetup3_still e _ i)
        · split
          · rename_i h5
            rw [if_pos h5] at hu
            exact still_trans _ _ _ hw (pairSetup5_still e _ i hu)
          · exact hw
  · rw [h]
    exact postPairVerify_still e st i req.data sec
  · rw [h, postPairings_eq]
    simp only [Request.isTlv, Bool.and_eq_true] at htlv
    have hp1 : ¬ req.path = "/pair-setup" := by rw [hp]; decide
    simp only [Server.route_update, hm, hp, hs, htlv.1, htlv.2, if_true, Bool.not_true,
      Bool.false_eq_true, if_false] at hu
    have hr : ∀ s, st.Still ((st.withTlv e i req.data).setSess i s) := fun s =>
      still_setSess _ _ _ _ hw
    cases hstate : Tlv.getByte (e.tlvParse req.data) Tlv.Kind.State with
    | none => exact hr _
    | some state =>
      rw [hstate] at hu
      simp only [] at hu ⊢
      split
      · exact hr _
      · rename_i h1
        rw [if_neg h1] at hu
        cases hmethod : Tlv.getByte (e.tlvParse req.data) Tlv.Kind.Method with
        | none => exact hr _
        | some method =>
          rw [hmethod] at hu
          simp only [] at hu ⊢
          split
          · rename_i ha
            rw [if_pos ha] at hu
            exact still_trans _ _ _ hw ((pairingAdd_link e _ i).1 hu)
          · rename_i ha
            rw [if_neg ha] at hu
            split
            · rename_i hr2
              rw [if_pos hr2] at hu
              exact still_trans _ _ _ hw ((pairingRemove_link e _ i).1 hu)
            · split
              · exact still_trans _ _ _ hw (pairingList_still e _ i)
              · exact hr _
  · rw [h]
    exact still_refl st

/-! ### The callback over a call of `Process` -/

theorem update_count (sf n : Nat) : Config.Update sf (n + 1) = Config.Update sf 1 := by
  simp [Config.Update]

theorem update_byte : ∀ sf, sf < 256 → ∀ c, c < 2 →
    ((Config.Update sf c).1 &&& Bonjour.NotPaired ≠ 0 ↔ c = 0) ∧
    (Config.Update sf c).1 &&& (0xFF ^^^ Bonjour.NotPaired) =
      sf &&& (0xFF ^^^ Bonjour.NotPaired) ∧
    ((Config.Update sf c).2 = true ↔
      (Config.Update sf c).1 &&& Bonjour.NotPaired ≠ sf &&& Bonjour.NotPaired) ∧
    ((Config.Update sf c).2 = true ↔ (Config.Update sf c).1 ≠ sf) ∧
    (Config.Update sf c).1 < 256 := by
  decide

/-- The callback on a byte of status flags: afterwards the bit `NotPaired` is set exactly
when the store is empty, the other bits are as they were, `mdns->Update()` is called
exactly when the bit changed, which is when the flags changed, and the flags are a
byte. -/
theorem update_spec (sf count : Nat) (h : sf < 256) :
    ((Config.Update sf count).1 &&& Bonjour.NotPaired ≠ 0 ↔ count = 0) ∧
    (Config.Update sf count).1 &&& (0xFF ^^^ Bonjour.NotPaired) =
      sf &&& (0xFF ^^^ Bonjour.NotPaired) ∧
    ((Config.Update sf count).2 = true ↔
      (Config.Update sf count).1 &&& Bonjour.NotPaired ≠ sf &&& Bonjour.NotPaired) ∧
    ((Config.Update sf count).2 = true ↔ (Config.Update sf count).1 ≠ sf) ∧
    (Config.Update sf count).1 < 256 := by
  cases count with
  | zero => exact update_byte sf h 0 (by decide)
  | succ n =>
    rw [update_count]
    obtain ⟨h1, h2, h3, h4, h5⟩ := update_byte sf h 1 (by decide)
    refine ⟨?_, h2, h3, h4, h5⟩
    constructor
    · intro hx
      exact absurd (h1.mp hx) (by decide)
    · intro hx
      exact absurd hx (Nat.succ_ne_zero n)

/-- The store the callback finds does not depend on what the read loop did to the
session. -/
theorem route_update_parsed (e : Ext) (st : Server) (sid : Nat) (req : Request)
    (l : List Event) (s : Nat) :
    (st.parsed sid l s).route_update e sid req = st.route_update e sid req := by
  simp [Server.route_update, Server.pairSetup5_update, Server.pairingAdd_update,
    Server.pairingRemove_update, Server.withTlv, Server.parsed, Server.touched, Server.setSess,
    Session.Init, Server.iosPerm]

/-- A call of `Process` that parses no request: the store is as it was and the callback
is not called. -/
theorem Process_unparsed_still (e : Ext) (st : Server) (sid : Nat) (recv : List RecvEv)
    (h : ¬ sid < MaxHttpSessions ∨ st.request e sid recv = none) :
    (st.Process e sid recv).2.pairings = st.pairings ∧
    (st.since (st.Process e sid recv).2).count Event.configUpdate = 0 := by
  by_cases h1 : sid > MaxHttpSessions
  · simp [Server.Process, h1, Server.since]
  · by_cases h2 : sid = MaxHttpSessions
    · simp [Server.Process, h2, Server.since, Server.emit, List.count_cons]
    · have hsid : sid < MaxHttpSessions := by omega
      rcases h with h | hreq
      · exact absurd hsid h
      · have hf := readLoop_from e (st.setSess sid (st.sess sid).Init) sid sid recv []
        unfold Server.request at hreq
        unfold Server.Process
        simp only [h1, h2, if_false]
        cases hr : (st.setSess sid (st.sess sid).Init).readLoop e sid sid recv [] with
        | blocked st1 =>
          rw [hr] at hf
          obtain ⟨l, s, hst, hl⟩ := hf
          simp only [Read.state] at hst
          simp only [hst, touched_pairings, setSess_pairings, true_and]
          rw [since_append st _ l (by simp)]
          exact count_wire Event.configUpdate rfl l hl
        | fail st1 =>
          rw [hr] at hf
          obtain ⟨l, s, hst, hl⟩ := hf
          simp only [Read.state] at hst
          simp only [hst, touched_pairings, setSess_pairings, true_and]
          rw [since_append st _ l (by simp)]
          exact count_wire Event.configUpdate rfl l hl
        | request st1 req => rw [hr] at hreq; cases hreq

/-- A call of `Process` and the store its call of the callback finds: when the callback
is not called the store is as it was; when it is called, it is called once, the store it
finds is the store the call leaves, `Process` returns true and the reply has no `Error`
item. -/
theorem Process_link (e : Ext) (st : Server) (sid : Nat) (recv : List RecvEv) :
    (st.Process_update e sid recv = none →
      (st.Process e sid recv).2.pairings = st.pairings ∧
      (st.since (st.Process e sid recv).2).count Event.configUpdate = 0) ∧
    (∀ P, st.Process_update e sid recv = some P →
      (st.Process e sid recv).1 = some true ∧
      (st.Process e sid recv).2.pairings = P ∧
      (st.since (st.Process e sid recv).2).count Event.configUpdate = 1 ∧
      ((st.Process e sid recv).2.sess sid).Clean) := by
  by_cases hsid : sid < MaxHttpSessions
  · cases hreq : st.request e sid recv with
    | none =>
      have hnone : st.Process_update e sid recv = none := by
        simp [Server.Process_update, hreq]
      rw [hnone]
      exact ⟨fun _ => Process_unparsed_still e st sid recv (Or.inr hreq),
        fun P h => Option.noConfusion h⟩
    | some req =>
      have hu : st.Process_update e sid recv = st.route_update e sid req := by
        simp [Server.Process_update, hsid, hreq]
      rw [hu]
      obtain ⟨l, s, L, q, hl, hL, hP, -⟩ := Process_parsed e st sid recv req hsid hreq
      have hcl := count_wire Event.configUpdate rfl l hl
      have hcL := count_wire Event.configUpdate rfl L hL
      refine ⟨fun h => ?_, fun P h => ?_⟩
      · rw [← route_update_parsed e st sid req l s] at h
        obtain ⟨hp, m, hm, hmu⟩ := route_still e _ sid req (st.sess sid).secured h
        rw [hP]
        refine ⟨by simp [hp], ?_⟩
        rw [since_append st _ (l ++ m ++ L) (by simp [hm, List.append_assoc])]
        have hcm : m.count Event.configUpdate = 0 := by
          rw [List.count_eq_zero]
          intro hmem
          have := hmu _ hmem
          simp [Event.isUpdate] at this
        simp [List.count_append, hcl, hcL, hcm]
      · rw [← route_update_parsed e st sid req l s] at h
        obtain ⟨⟨hp, m, hm, hmc⟩, hclean⟩ := route_once e _ sid req (st.sess sid).secured P h
        rw [hP]
        refine ⟨rfl, by simp [hp], ?_, ?_⟩
        · rw [since_append st _ (l ++ m ++ L) (by simp [hm, List.append_assoc])]
          simp [List.count_append, hcl, hcL, hmc]
        · obtain ⟨hd, hn⟩ := hclean
          exact ⟨by simpa [Server.sent] using hd, by simpa [Server.sent] using hn⟩
  · have hnone : st.Process_update e sid recv = none := by
      simp [Server.Process_update, hsid]
    rw [hnone]
    exact ⟨fun _ => Process_unparsed_still e st sid recv (Or.inl hsid),
      fun P h => Option.noConfusion h⟩

/-! ### The requests that get to the callback -/

/-- A Pair-Setup M5 on the session that owns the pairing whose tag verifies, with the
three items, when the store takes the record: the callback finds the store `Add` left. -/
theorem Process_update_M5 (e : Ext) (st : Server) (sid : Nat) (recv : List RecvEv)
    (req : Request) (id ltpk sg : List Nat) (hsid : sid < MaxHttpSessions)
    (hreq : st.request e sid recv = some req) (hM5 : req.isPairSetupM5 e = true)
    (hsrp : st.srp.isSome = true) (hown : st.srp_owner = (st.sess sid).sid)
    (htag : req.m5TagOk e (st.sess sid).key = some true)
    (hid : Tlv.get (req.m5Sub e (st.sess sid).key) Tlv.Kind.Identifier = some id)
    (hpk : Tlv.get (req.m5Sub e (st.sess sid).key) Tlv.Kind.PublicKey = some ltpk)
    (hsg : Tlv.get (req.m5Sub e (st.sess sid).key) Tlv.Kind.Signature = some sg)
    (hadd : (st.pairings.Add id ltpk Controller.Admin).1 = true) :
    st.Process_update e sid recv = some (st.pairings.Add id ltpk Controller.Admin).2 := by
  obtain ⟨hm, hp, hct, hcl, hstate⟩ := (isPairSetupM5_iff e req).mp hM5
  simp only [Request.m5TagOk, Option.map_eq_some'] at htag
  obtain ⟨enc, henc, htag⟩ := htag
  simp only [Request.m5Sub, henc] at hid hpk hsg
  simp only [Request.m5Data] at henc
  have hsome : st.srp.isNone = false := by
    cases hs : st.srp with
    | none => rw [hs] at hsrp; cases hsrp
    | some s => rfl
  simp [Server.Process_update, hsid, hreq, Server.route_update, hm, hp, hct, hcl, hstate,
    Server.pairSetup5_update, Server.withTlv, hsome, hown, henc, htag, hid, hpk, hsg, hadd]

/-- An `AddPairing` from an admin on a secured session, with the three items: the
callback finds the store `Update` left when the identifier is known and the key is the
stored one, the store `Add` left when the identifier is new and the store takes it. -/
theorem Process_update_add (e : Ext) (st : Server) (sid : Nat) (recv : List RecvEv)
    (req : Request) (id key : List Nat) (perm : Nat) (hsid : sid < MaxHttpSessions)
    (hreq : st.request e sid recv = some req) (hs : (st.sess sid).secured = true)
    (hp : req.isPairingsOf e Tlv.Method.AddPairing = true)
    (hadmin : st.iosPerm (st.sess sid) = Controller.Admin)
    (hid : Tlv.get (e.tlvParse req.data) Tlv.Kind.Identifier = some id)
    (hkey : Tlv.get (e.tlvParse req.data) Tlv.Kind.PublicKey = some key)
    (hpm : Tlv.getByte (e.tlvParse req.data) Tlv.Kind.Permissions = some perm) :
    (∀ ios, st.pairings.Get id = some ios → key.length = Controller.KeyLen →
      key = (st.pairings.deref ios).key →
      st.Process_update e sid recv = some (st.pairings.Update id perm).2) ∧
    (st.pairings.Get id = none → (st.pairings.Add id key perm).1 = true →
      st.Process_update e sid recv = some (st.pairings.Add id key perm).2) := by
  obtain ⟨hm, hpath, hct, hcl, hstate, hmeth⟩ := (isPairingsOf_iff e req _).mp hp
  have hadmin2 : (st.withTlv e sid req.data).iosPerm ((st.withTlv e sid req.data).sess sid) =
      Controller.Admin := by
    simpa [Server.withTlv, Server.iosPerm] using hadmin
  refine ⟨fun ios hget hlen hk => ?_, fun hget hadd => ?_⟩
  · simp [Server.Process_update, hsid, hreq, Server.route_update, hm, hpath, hs, hct, hcl,
      hstate, hmeth, Server.pairingAdd_update, hadmin2]
    simp [Server.withTlv, hid, hkey, hpm, hget, hlen, ← hk]
  · simp [Server.Process_update, hsid, hreq, Server.route_update, hm, hpath, hs, hct, hcl,
      hstate, hmeth, Server.pairingAdd_update, hadmin2]
    simp [Server.withTlv, hid, hkey, hpm, hget, hadd]

/-- A `RemovePairing` from an admin on a secured session for an identifier in the store:
the callback finds the store `Remove` left. -/
theorem Process_update_remove (e : Ext) (st : Server) (sid : Nat) (recv : List RecvEv)
    (req : Request) (id : List Nat) (ios : Nat) (hsid : sid < MaxHttpSessions)
    (hreq : st.request e sid recv = some req) (hs : (st.sess sid).secured = true)
    (hp : req.isPairingsOf e Tlv.Method.RemovePairing = true)
    (hadmin : st.iosPerm (st.sess sid) = Controller.Admin)
    (hid : Tlv.get (e.tlvParse req.data) Tlv.Kind.Identifier = some id)
    (hget : st.pairings.Get id = some ios) :
    st.Process_update e sid recv = some (st.pairings.Remove id).2 := by
  obtain ⟨hm, hpath, hct, hcl, hstate, hmeth⟩ := (isPairingsOf_iff e req _).mp hp
  have hadmin2 : (st.withTlv e sid req.data).iosPerm ((st.withTlv e sid req.data).sess sid) =
      Controller.Admin := by
    simpa [Server.withTlv, Server.iosPerm] using hadmin
  have hrem := (remove_found st.pairings id ios hget).1
  simp [Server.Process_update, hsid, hreq, Server.route_update, hm, hpath, hs, hct, hcl,
    hstate, hmeth, Server.pairingRemove_update, hadmin2, Tlv.Method.RemovePairing,
    Tlv.Method.AddPairing]
  simp [Server.withTlv, hid, hrem]

/-- A `ListPairing` does not get to the callback. -/
theorem Process_update_list (e : Ext) (st : Server) (sid : Nat) (recv : List RecvEv)
    (req : Request) (hreq : st.request e sid recv = some req)
    (hp : req.isPairingsOf e Tlv.Method.ListPairing = true) :
    st.Process_update e sid recv = none := by
  obtain ⟨hm, hpath, hct, hcl, hstate, hmeth⟩ := (isPairingsOf_iff e req _).mp hp
  simp [Server.Process_update, hreq, Server.route_update, hm, hpath, hct, hcl, hstate, hmeth,
    Tlv.Method.RemovePairing, Tlv.Method.AddPairing, Tlv.Method.ListPairing]

/-! ## The hex codec of `Win/HapTest.cpp` -/

theorem hex_byte : ∀ x, x < 256 →
    isHexChar (hexTable.getD (x / 16) 0) = true ∧ isHexChar (hexTable.getD (x % 16) 0) = true ∧
    (hexValue (hexTable.getD (x / 16) 0) * 16 % 256 +
      hexValue (hexTable.getD (x % 16) 0)) % 256 = x := by
  decide

theorem bin2hex_text : ∀ b : List Nat, bin2hex b b.length = hexText b ++ [0]
  | [] => rfl
  | x :: rest => by
    simp only [List.length_cons, bin2hex, List.headD_cons, List.tail_cons, hexText,
      List.flatMap_cons, List.cons_append, List.nil_append, List.cons.injEq, true_and]
    exact bin2hex_text rest

theorem hexText_length (b : List Nat) : (hexText b).length = 2 * b.length := by
  induction b with
  | nil => rfl
  | cons x rest ih =>
    simp only [hexText, List.flatMap_cons, List.length_append, List.length_cons,
      List.length_nil] at ih ⊢
    omega

theorem hexText_chars (b : List Nat) (hb : ∀ x ∈ b, x < 256) :
    ∀ c ∈ hexText b, isHexChar c = true := by
  induction b with
  | nil => intro c hc; simp [hexText] at hc
  | cons x rest ih =>
    intro c hc
    simp only [hexText, List.flatMap_cons, List.mem_append, List.mem_cons,
      List.mem_singleton, List.not_mem_nil, or_false] at hc
    have hx := hex_byte x (hb x (List.mem_cons_self _ _))
    rcases hc with (hc | hc) | hc
    · rw [hc]; exact hx.1
    · rw [hc]; exact hx.2.1
    · exact ih (fun y hy => hb y (List.mem_cons_of_mem _ hy)) c hc

theorem hex2bin_text : ∀ (b tl : List Nat), (∀ x ∈ b, x < 256) →
    hex2bin (hexText b ++ tl) b.length = b
  | [], _, _ => rfl
  | x :: rest, tl, hb => by
    have hx := hex_byte x (hb x (List.mem_cons_self _ _))
    have ih := hex2bin_text rest tl (fun y hy => hb y (List.mem_cons_of_mem _ hy))
    simp only [hexText, List.flatMap_cons, List.cons_append, List.nil_append,
      List.length_cons, hex2bin, List.headD_cons, List.tail_cons, List.cons.injEq] at ih ⊢
    exact ⟨hx.2.2, ih⟩

theorem hexText_get : ∀ (b : List Nat) (i : Nat), i < b.length →
    (hexText b).getD (2 * i) 0 = hexTable.getD (b.getD i 0 / 16) 0 ∧
    (hexText b).getD (2 * i + 1) 0 = hexTable.getD (b.getD i 0 % 16) 0
  | [], i, h => by simp at h
  | x :: rest, 0, _ => by
    simp [hexText, List.flatMap_cons]
  | x :: rest, i + 1, h => by
    have ih := hexText_get rest i (by simpa using h)
    have e1 : 2 * (i + 1) = (2 * i) + 1 + 1 := by omega
    rw [e1]
    simp only [hexText, List.flatMap_cons, List.cons_append, List.nil_append,
      List.getD_cons_succ] at ih ⊢
    exact ih

/-- Routing a request whose `State` has no case: the TLV is parsed into `tlvi` and that
is all. -/
theorem route_stray (e : Ext) (st : Server) (i : Nat) (req : Request) (sec : Bool)
    (h : req.isStrayState e = true) :
    st.route e i req sec = (st.withTlv e i req.data, sec) := by
  simp only [Request.isStrayState, Request.isTlv, Request.state, Bool.and_eq_true,
    Bool.or_eq_true, decide_eq_true_eq, bne_iff_ne, ne_eq] at h
  obtain ⟨⟨hm, hct, hcl⟩, hp⟩ := h
  rcases hp with ⟨⟨⟨hp, h1⟩, h3⟩, h5⟩ | ⟨⟨hp, h1⟩, h3⟩
  · have hid : req.path ≠ "/identify" := by rw [hp]; decide
    cases hstate : Tlv.getByte (e.tlvParse req.data) Tlv.Kind.State with
    | none =>
      simp [Server.route, hm, hp, hct, hcl, Server.postPairSetup, Server.withTlv,
        Server.setSess, hstate]
    | some s =>
      rw [hstate] at h1 h3 h5
      have h1 : s ≠ Tlv.State.M1 := fun hh => h1 (by rw [hh])
      have h3 : s ≠ Tlv.State.M3 := fun hh => h3 (by rw [hh])
      have h5 : s ≠ Tlv.State.M5 := fun hh => h5 (by rw [hh])
      simp [Server.route, hm, hp, hct, hcl, Server.postPairSetup, Server.withTlv,
        Server.setSess, hstate, h1, h3, h5]
  · cases hstate : Tlv.getByte (e.tlvParse req.data) Tlv.Kind.State with
    | none =>
      simp [Server.route, hm, hp, hct, hcl, Server.postPairVerify, Server.withTlv,
        Server.setSess, hstate]
    | some s =>
      rw [hstate] at h1 h3
      have h1 : s ≠ Tlv.State.M1 := fun hh => h1 (by rw [hh])
      have h3 : s ≠ Tlv.State.M3 := fun hh => h3 (by rw [hh])
      simp [Server.route, hm, hp, hct, hcl, Server.postPairVerify, Server.withTlv,
        Server.setSess, hstate, h1, h3]

/-- The read loop on a secured session to which `recv` delivers a record followed by more
bytes ends as it does when `recv` delivers the record and nothing more. -/
theorem readLoop_surplus (e : Ext) (st : Server) (i sid : Nat) (ct tag extra : List Nat)
    (chunks : List (List Nat)) (tl : List RecvEv) (hn : ct.length ≤ MaxHttpBlock)
    (htl : tag.length = 16) (hsec : (st.sess i).secured = true)
    (hfit : (record ct tag ++ extra).length ≤ e.sizeofdata)
    (hne : ∀ c ∈ chunks, c ≠ []) (hdel : chunks.flatten = record ct tag ++ extra) :
    st.readLoop e i sid (chunks.map RecvEv.data ++ tl) [] =
      st.readLoop e i sid [RecvEv.data (record ct tag)] [] := by
  have hfit2 : (record ct tag ++ []).length ≤ e.sizeofdata := by
    simp only [List.length_append, List.append_nil] at hfit ⊢
    omega
  have hne2 : ∀ c ∈ [record ct tag], c ≠ [] := by
    intro c hc
    simp only [List.mem_singleton] at hc
    rw [hc]
    simp [record, lenBytes]
  have hdel2 : ([] : List Nat) ++ [record ct tag].flatten = record ct tag ++ [] := by simp
  by_cases hok : (e.aead false (st.sess i).ControllerToAccessoryKey (nonceOf (st.sess i).recvSeq)
      ct (lenBytes ct.length)).2 = tag
  · obtain ⟨r, hr, h1⟩ := readLoop_record e st i sid ct tag extra tl hn htl hsec hfit hok
      chunks [] hne (by simpa using hdel) (by simp)
    obtain ⟨r2, hr2, h2⟩ := readLoop_record e st i sid ct tag [] [] hn htl hsec hfit2 hok
      [record ct tag] [] hne2 hdel2 (by simp)
    rw [hr] at hr2
    have h3 : st.readLoop e i sid [RecvEv.data (record ct tag)] [] = r2 := by simpa using h2
    rw [h1, h3]
    exact Option.some.inj hr2
  · have h1 := readLoop_badTag e st i sid ct tag extra tl hn htl hsec hfit hok
      chunks [] hne (by simpa using hdel) (by simp)
    have h2 := readLoop_badTag e st i sid ct tag [] [] hn htl hsec hfit2 hok
      [record ct tag] [] hne2 hdel2 (by simp)
    have h3 : st.readLoop e i sid [RecvEv.data (record ct tag)] [] =
        Read.fail (st.decrypted i ct.length) := by simpa using h2
    rw [h1, h3]

/-- A call of `Process` on a secured session to which `recv` delivers a record followed
by more bytes returns what it returns, and leaves the state it leaves, when `recv`
delivers the record and nothing more. -/
theorem Process_surplus (e : Ext) (st : Server) (sid : Nat) (ct tag extra : List Nat)
    (chunks : List (List Nat)) (tl : List RecvEv) (hn : ct.length ≤ MaxHttpBlock)
    (htl : tag.length = 16) (hsec : (st.sess sid).secured = true)
    (hfit : (record ct tag ++ extra).length ≤ e.sizeofdata)
    (hne : ∀ c ∈ chunks, c ≠ []) (hdel : chunks.flatten = record ct tag ++ extra) :
    st.Process e sid (chunks.map RecvEv.data ++ tl) =
      st.Process e sid [RecvEv.data (record ct tag)] := by
  have h := readLoop_surplus e (st.setSess sid (st.sess sid).Init) sid sid ct tag extra chunks
    tl hn htl (by simpa [Server.setSess, Session.Init] using hsec) hfit hne hdel
  simp only [Server.Process]
  rw [h]

/-! ### Pair-Verify M1 and the signed messages -/

theorem isPairVerifyM1_iff (e : Ext) (req : Request) :
    req.isPairVerifyM1 e = true ↔
      req.method = "POST" ∧ req.path = "/pair-verify" ∧ req.hdrContentTypeTlv8 = true ∧
        req.hdrContentLength = true ∧
        Tlv.getByte (e.tlvParse req.data) Tlv.Kind.State = some Tlv.State.M1 := by
  simp [Request.isPairVerifyM1, Request.isTlv, Request.state, and_assoc]

theorem route_pairVerifyM1 (e : Ext) (st : Server) (i : Nat) (req : Request) (sec : Bool)
    (h : req.isPairVerifyM1 e = true) :
    st.route e i req sec = ((st.withTlv e i req.data)._pairVerify1 e i, sec) := by
  obtain ⟨hm, hp, hct, hcl, hs⟩ := (isPairVerifyM1_iff e req).mp h
  simp [Server.route, hm, hp, hct, hcl, Server.postPairVerify, hs, Server.withTlv,
    Tlv.State.M3, Tlv.State.M1]

/-- What `Process` comes to on a Pair-Verify M1. -/
theorem Process_pairVerifyM1 (e : Ext) (st : Server) (sid : Nat) (recv : List RecvEv)
    (req : Request) (hsid : sid < MaxHttpSessions) (hreq : st.request e sid recv = some req)
    (hM1 : req.isPairVerifyM1 e = true) :
    ∃ l s L q, (∀ ev ∈ l, ev.isWire = true) ∧ (∀ ev ∈ L, ev.isWire = true) ∧
      st.Process e sid recv = (some true,
        (((st.parsed sid l s).withTlv e sid req.data)._pairVerify1 e sid).sent sid L q
          (st.sess sid).secured) := by
  obtain ⟨l, s, L, q, hl, hL, hP, _⟩ := Process_parsed e st sid recv req hsid hreq
  refine ⟨l, s, L, q, hl, hL, ?_⟩
  rw [hP, route_pairVerifyM1 e _ sid req _ hM1]

/-- Three items in a new builder with room for them. -/
theorem tlv_put3 (n : Nat) (a : Nat) (t u : Tlv.Kind) (v w : List Nat)
    (h : 3 + Tlv.itemSize v.length + Tlv.itemSize w.length ≤ n) :
    (((Tlv.Create.create n).put Tlv.Kind.State [a]).put t v).put u w =
      ⟨n, [⟨Tlv.Kind.State, [a]⟩, ⟨t, v⟩, ⟨u, w⟩],
        3 + Tlv.itemSize v.length + Tlv.itemSize w.length⟩ := by
  have h3 : 3 ≤ n := by omega
  have h4 : 3 + Tlv.itemSize v.length ≤ n := by omega
  simp [Tlv.Create.create, Tlv.Create.put, Tlv.Create.add, h3, h4, h,
    show Tlv.itemSize 1 = 3 from rfl]

/-- The handler `_pairVerify1` on a TLV with a `PublicKey` item: the session it leaves. -/
theorem pairVerify1_key (e : Ext) (st : Server) (i : Nat) (iosKey : List Nat)
    (hk : Tlv.get (st.sess i).tlvi Tlv.Kind.PublicKey = some iosKey) :
    ((st._pairVerify1 e i).sess i).curve =
      ⟨e.curveInit.1, e.curveInit.2, e.curveShared e.curveInit.2 iosKey⟩ ∧
    ((st._pairVerify1 e i).sess i).key =
      verifyKey e (e.curveShared e.curveInit.2 iosKey) ∧
    ((st._pairVerify1 e i).sess i).ios = (st.sess i).ios ∧
    ((st._pairVerify1 e i).sess i).secured = (st.sess i).secured ∧
    (st._pairVerify1 e i).log = st.log ++ [Event.handler "_pairVerify1",
      Event.aead true (verifyKey e (e.curveShared e.curveInit.2 iosKey)) noncePV02
        (verifySubTlv e (verifyAccessoryInfo e e.curveInit.1 iosKey)).length] ∧
    (3 + Tlv.itemSize e.curveInit.1.length + Tlv.itemSize (sealedSub e
        (verifyKey e (e.curveShared e.curveInit.2 iosKey)) noncePV02
        (verifySubTlv e (verifyAccessoryInfo e e.curveInit.1 iosKey))).length ≤ e.rspSize →
      ((st._pairVerify1 e i).sess i).rsp.data =
        Data.tlv [⟨Tlv.Kind.State, [Tlv.State.M2]⟩, ⟨Tlv.Kind.PublicKey, e.curveInit.1⟩,
          ⟨Tlv.Kind.EncryptedData, sealedSub e
            (verifyKey e (e.curveShared e.curveInit.2 iosKey)) noncePV02
            (verifySubTlv e (verifyAccessoryInfo e e.curveInit.1 iosKey))⟩]) := by
  have ht : Tlv.get ((st.emit (Event.handler "_pairVerify1")).sess i).tlvi Tlv.Kind.PublicKey =
      some iosKey := hk
  refine ⟨?_, ?_, ?_, ?_, ?_, ?_⟩
  · simp [Server._pairVerify1, Session.tlvBegin, ht, hk, Server.setSess, Session.tlvEnd,
      Server.emit]
  · simp [Server._pairVerify1, Session.tlvBegin, ht, hk, Server.setSess, Session.tlvEnd,
      Server.emit, verifyKey]
  · simp [Server._pairVerify1, Session.tlvBegin, ht, hk, Server.setSess, Session.tlvEnd,
      Server.emit]
  · simp [Server._pairVerify1, Session.tlvBegin, ht, hk, Server.setSess, Session.tlvEnd,
      Server.emit]
  · simp [Server._pairVerify1, Session.tlvBegin, ht, hk, Server.setSess, Session.tlvEnd,
      Server.emit, verifyKey, verifySubTlv, verifyAccessoryInfo]
  · intro hroom
    have h3 := tlv_put3 e.rspSize Tlv.State.M2 Tlv.Kind.PublicKey Tlv.Kind.EncryptedData
      e.curveInit.1 _ hroom
    simp only [sealedSub, verifyKey, verifySubTlv, verifyAccessoryInfo, List.append_assoc] at h3
    simp [Server._pairVerify1, Session.tlvBegin, ht, hk, Server.setSess, Session.tlvEnd,
      Server.emit, verifyKey, verifySubTlv, verifyAccessoryInfo, sealedSub, h3]

/-! ### The SRP parameters of Pair-Setup M1 -/

/-- The handler `_pairSetup1` on an M1 it accepts when the library calls succeed: the SRP
context it leaves and the TLV it builds. -/
theorem pairSetup1_done (e : Ext) (st : Server) (i : Nat) (pub : List Nat)
    (h : st.acceptsM1 e i) (hu : e.SRP_set_username = true) (hp : e.SRP_set_params = true)
    (ha : e.SRP_set_auth_password = true)
    (hg : e.SRP_gen_pub (SRP.pairSetup (e.random 16) e.setupCode) = some pub) :
    (st._pairSetup1 e i).srp = some (SRP.pairSetup (e.random 16) e.setupCode) ∧
    (st._pairSetup1 e i).srp_owner = (st.sess i).sid ∧
    ((st._pairSetup1 e i).sess i).tlvo =
      (((Tlv.Create.create e.rspSize).put Tlv.Kind.State [Tlv.State.M2]).put
        Tlv.Kind.PublicKey pub).put Tlv.Kind.Salt (e.random 16) ∧
    ((st._pairSetup1 e i).sess i).rsp.data =
      Data.tlv ((((Tlv.Create.create e.rspSize).put Tlv.Kind.State [Tlv.State.M2]).put
        Tlv.Kind.PublicKey pub).put Tlv.Kind.Salt (e.random 16)).items := by
  obtain ⟨hm, hpc, hc, hb, hn⟩ := h
  have hm2 : Tlv.getByte ((st.emit (Event.handler "_pairSetup1")).sess i).tlvi
      Tlv.Kind.Method = some Tlv.Method.PairSetupNonMfi := hm
  have hc2 : ¬ st.srp_auth_count > 100 := by omega
  have hb2 : ¬ (st.srp.isSome = true ∧ ¬ st.srp_owner = (st.sess i).sid) := hb
  have hg2 : e.SRP_gen_pub ⟨cstr "Pair-Setup", srp_modulus, srp_generator, e.random 16,
      e.setupCode⟩ = some pub := hg
  have key : st._pairSetup1 e i =
      ({ (st.emit (Event.handler "_pairSetup1")).emit Event.SRP_new with
          srp := some (SRP.pairSetup (e.random 16) e.setupCode)
          srp_owner := (st.sess i).sid
          srp_auth_count := (st.srp_auth_count + 1) % 256 } : Server).setSess i
        (Session.tlvEnd { (st.sess i).tlvBegin e Tlv.State.M2 with
          tlvo := ((((st.sess i).tlvBegin e Tlv.State.M2).tlvo.put Tlv.Kind.PublicKey pub).put
            Tlv.Kind.Salt (e.random 16)) }) := by
    unfold Server._pairSetup1
    simp only [hm2, Session.tlvBegin]
    simp [hm, hpc, hc2, hb2, hn, Server.pairSetup1_params, hu, hp, ha, hg2, SRP.new,
      SRP.pairSetup, Server.emit, Session.tlvBegin]
  rw [key]
  refine ⟨rfl, rfl, ?_, ?_⟩
  · simp [Server.setSess, Session.tlvEnd, Session.tlvBegin]
  · simp [Server.setSess, Session.tlvEnd, Session.tlvBegin]

theorem srp_modulus_facts :
    srp_modulus.length = 384 ∧ (∀ b ∈ srp_modulus, b < 256) ∧
    128 ≤ srp_modulus.headD 0 ∧ srp_modulus.getLastD 0 % 2 = 1 ∧
    beValue srp_modulus >>> 3071 = 1 ∧
    srp_generator = [5] := by
  decide

/-- The curve and the session key of the session after a Pair-Verify M1 parsed on a valid
session whose TLV holds a `PublicKey` item: the new key pair, its shared secret with the
key of the controller, and the key derived from that. -/
theorem Process_verifyM1_keys (e : Ext) (st : Server) (sid : Nat) (recv : List RecvEv)
    (req : Request) (iosKey : List Nat) (hsid : sid < MaxHttpSessions)
    (hreq : st.request e sid recv = some req) (hM1 : req.isPairVerifyM1 e = true)
    (hk : Tlv.get (e.tlvParse req.data) Tlv.Kind.PublicKey = some iosKey) :
    ((st.Process e sid recv).2.sess sid).curve =
      ⟨e.curveInit.1, e.curveInit.2, e.curveShared e.curveInit.2 iosKey⟩ ∧
    ((st.Process e sid recv).2.sess sid).key =
      verifyKey e (e.curveShared e.curveInit.2 iosKey) ∧
    ((st.Process e sid recv).2.sess sid).ios = (st.sess sid).ios ∧
    ((st.Process e sid recv).2.sess sid).secured = (st.sess sid).secured := by
  obtain ⟨l, s, L, q, hl, hL, hP⟩ := Process_pairVerifyM1 e st sid recv req hsid hreq hM1
  obtain ⟨htlvi, -, -, -, -, -, -, -⟩ := start_of_handler e st sid req l s
  obtain ⟨-, hios, -, -⟩ := start_of_verify e st sid req l s
  obtain ⟨hc, hkey, hi, -, -, -⟩ := pairVerify1_key e
    ((st.parsed sid l s).withTlv e sid req.data) sid iosKey (by rw [htlvi]; exact hk)
  have hs : ((((st.parsed sid l s).withTlv e sid req.data)._pairVerify1 e sid).sent sid L q
      (st.sess sid).secured).sess sid =
      { ((((st.parsed sid l s).withTlv e sid req.data)._pairVerify1 e sid).sess sid) with
        sendSeq := q, secured := (st.sess sid).secured } := by
    simp [Server.sent]
  rw [hP]
  simp only [hs]
  exact ⟨hc, hkey, hi.trans hios, by first | rfl | trivial⟩

/-! ### Consistency of the pairing singleton -/

theorem consistent_of_eq (st st1 : Server) (h : st.Consistent) (h1 : st1.srp = st.srp)
    (h2 : st1.srp_owner = st.srp_owner) : st1.Consistent := by
  unfold Server.Consistent at h ⊢
  rw [h1, h2]
  exact h

theorem pairSetup1_RetErr_consistent (st : Server) (i : Nat) (sess : Session) :
    (st.pairSetup1_RetErr i sess).Consistent := by
  unfold Server.pairSetup1_RetErr Server.Consistent
  dsimp only
  split <;> simp [Server.setSess]

theorem pairSetup1_params_consistent (e : Ext) (st : Server) (i : Nat) (sess : Session)
    (h : st.srp_owner ≠ sid_invalid) :
    (st.pairSetup1_params e i sess).Consistent := by
  unfold Server.pairSetup1_params
  repeat' (first
    | split
    | dsimp only
    | exact pairSetup1_RetErr_consistent _ i _
    | (simp [Server.Consistent, Server.setSess]; exact h))

theorem pairSetup1_consistent (e : Ext) (st : Server) (i : Nat) (hc : st.Consistent)
    (hv : (st.sess i).sid ≠ sid_invalid) : (st._pairSetup1 e i).Consistent := by
  unfold Server._pairSetup1
  repeat' (first
    | split
    | dsimp only
    | exact pairSetup1_RetErr_consistent _ i _
    | exact pairSetup1_params_consistent e _ i _ hv
    | exact hc)

theorem pairSetup3_RetErr_consistent (st : Server) (i : Nat) (sess : Session)
    (hc : st.Consistent) : (st.pairSetup3_RetErr i sess).Consistent := by
  unfold Server.pairSetup3_RetErr
  dsimp only
  split
  · simp [Server.Consistent, Server.setSess]
  · exact hc

theorem pairSetup3_consistent (e : Ext) (st : Server) (i : Nat) (hc : st.Consistent) :
    (st._pairSetup3 e i).Consistent := by
  unfold Server._pairSetup3
  repeat' (first
    | split
    | dsimp only
    | exact pairSetup3_RetErr_consistent _ i _ hc
    | exact hc)

theorem pairSetup5_RetDone_consistent (st : Server) (i : Nat) (sess : Session)
    (hc : st.Consistent) : (st.pairSetup5_RetDone i sess).Consistent := by
  unfold Server.pairSetup5_RetDone
  dsimp only
  split
  · simp [Server.Consistent, Server.setSess]
  · exact hc

theorem pairSetup5_consistent (e : Ext) (st : Server) (i : Nat) (hc : st.Consistent) :
    (st._pairSetup5 e i).Consistent := by
  unfold Server._pairSetup5 Server.pairSetup5_RetErr
  repeat' (first
    | split
    | dsimp only
    | exact pairSetup5_RetDone_consistent _ i _ hc
    | exact hc)

theorem pairVerify1_singleton (e : Ext) (st : Server) (i : Nat) :
    (st._pairVerify1 e i).srp = st.srp ∧ (st._pairVerify1 e i).srp_owner = st.srp_owner := by
  unfold Server._pairVerify1
  repeat' (first | split | dsimp only | exact ⟨rfl, rfl⟩)

theorem pairVerify3_singleton (e : Ext) (st : Server) (i : Nat) :
    (st._pairVerify3 e i).srp = st.srp ∧ (st._pairVerify3 e i).srp_owner = st.srp_owner := by
  unfold Server._pairVerify3
  repeat' (first | split | dsimp only | exact ⟨rfl, rfl⟩)

theorem pairingAdd_singleton (e : Ext) (st : Server) (i : Nat) :
    (st._pairingAdd e i).srp = st.srp ∧ (st._pairingAdd e i).srp_owner = st.srp_owner := by
  unfold Server._pairingAdd
  repeat' (first | split | dsimp only | exact ⟨rfl, rfl⟩)

theorem pairingRemove_singleton (e : Ext) (st : Server) (i : Nat) :
    (st._pairingRemove e i).srp = st.srp ∧
      (st._pairingRemove e i).srp_owner = st.srp_owner := by
  unfold Server._pairingRemove
  repeat' (first | split | dsimp only | exact ⟨rfl, rfl⟩)

theorem pairingList_singleton (e : Ext) (st : Server) (i : Nat) :
    (st._pairingList e i).srp = st.srp ∧ (st._pairingList e i).srp_owner = st.srp_owner := by
  unfold Server._pairingList
  repeat' (first | split | dsimp only | exact ⟨rfl, rfl⟩)

theorem postPairSetup_consistent (e : Ext) (st : Server) (i : Nat) (d : List Nat)
    (hc : st.Consistent) (hv : (st.sess i).sid ≠ sid_invalid) :
    (st.postPairSetup e i d).Consistent := by
  have hv2 : ((st.setSess i { st.sess i with tlvi := e.tlvParse d }).sess i).sid ≠
      sid_invalid := by
    simpa [Server.setSess] using hv
  unfold Server.postPairSetup
  dsimp only
  split
  · exact hc
  · split
    · exact pairSetup1_consistent e _ i hc hv2
    · split
      · exact pairSetup3_consistent e _ i hc
      · split
        · exact pairSetup5_consistent e _ i hc
        · exact hc

theorem postPairVerify_consistent (e : Ext) (st : Server) (i : Nat) (d : List Nat)
    (sec : Bool) (hc : st.Consistent) : (st.postPairVerify e i d sec).1.Consistent := by
  unfold Server.postPairVerify
  dsimp only
  split
  · exact hc
  · split
    · exact consistent_of_eq _ _ hc (pairVerify1_singleton e _ i).1
        (pairVerify1_singleton e _ i).2
    · split
      · exact consistent_of_eq _ _ hc (pairVerify3_singleton e _ i).1
          (pairVerify3_singleton e _ i).2
      · exact hc

theorem postPairings_consistent (e : Ext) (st : Server) (i : Nat) (d : List Nat)
    (hc : st.Consistent) : (st.postPairings e i d).Consistent := by
  unfold Server.postPairings
  dsimp only
  split
  · exact hc
  · split
    · exact hc
    · split
      · exact hc
      · split
        · exact consistent_of_eq _ _ hc (pairingAdd_singleton e _ i).1
            (pairingAdd_singleton e _ i).2
        · split
          · exact consistent_of_eq _ _ hc (pairingRemove_singleton e _ i).1
              (pairingRemove_singleton e _ i).2
          · split
            · exact consistent_of_eq _ _ hc (pairingList_singleton e _ i).1
                (pairingList_singleton e _ i).2
            · exact hc

/-- Routing a request on a session whose id is a valid id keeps the singleton
consistent. -/
theorem route_consistent (e : Ext) (st : Server) (i : Nat) (req : Request) (sec : Bool)
    (hc : st.Consistent) (hv : (st.sess i).sid ≠ sid_invalid) :
    (st.route e i req sec).1.Consistent := by
  rcases route_cases e st i req sec with ⟨s, h⟩ | ⟨ev, s, _, _, _, h⟩ | ⟨_, _, _, h⟩ |
    ⟨_, _, _, h⟩ | ⟨_, _, _, _, h⟩ | h
  · rw [h]; exact hc
  · rw [h]; exact hc
  · rw [h]; exact postPairSetup_consistent e st i req.data hc hv
  · rw [h]; exact postPairVerify_consistent e st i req.data sec hc
  · rw [h]; exact postPairings_consistent e st i req.data hc
  · rw [h]; exact hc

/-- A call of `Process` that does not get to a parsed request leaves the singleton and
the open flag and id of the session as they were. -/
theorem Process_unparsed_frame (e : Ext) (st : Server) (sid : Nat) (recv : List RecvEv)
    (h : ¬ sid < MaxHttpSessions ∨ st.request e sid recv = none) :
    (st.Process e sid recv).2.srp = st.srp ∧
    (st.Process e sid recv).2.srp_owner = st.srp_owner ∧
    ((st.Process e sid recv).2.sess sid).opened = (st.sess sid).opened ∧
    ((st.Process e sid recv).2.sess sid).sid = (st.sess sid).sid := by
  by_cases h1 : sid > MaxHttpSessions
  · simp [Server.Process, h1]
  · by_cases h2 : sid = MaxHttpSessions
    · simp [Server.Process, h2, Server.emit]
    · have hsid : sid < MaxHttpSessions := by omega
      rcases h with h | hreq
      · exact absurd hsid h
      · have hf := readLoop_from e (st.setSess sid (st.sess sid).Init) sid sid recv []
        unfold Server.request at hreq
        unfold Server.Process
        simp only [h1, h2, if_false]
        cases hr : (st.setSess sid (st.sess sid).Init).readLoop e sid sid recv [] with
        | blocked st1 =>
          rw [hr] at hf
          obtain ⟨l, s, hst, _⟩ := hf
          simp only [Read.state] at hst
          simp [hst, Session.Init]
        | fail st1 =>
          rw [hr] at hf
          obtain ⟨l, s, hst, _⟩ := hf
          simp only [Read.state] at hst
          simp [hst, Session.Init]
        | request st1 req => rw [hr] at hreq; cases hreq

/-- A call of `Process` keeps the open flag and the id of every session. -/
theorem Process_ids (e : Ext) (st : Server) (sid : Nat) (recv : List RecvEv) (j : Nat) :
    ((st.Process e sid recv).2.sess j).opened = (st.sess j).opened ∧
    ((st.Process e sid recv).2.sess j).sid = (st.sess j).sid := by
  by_cases hj : j = sid
  · subst hj
    by_cases hsid : j < MaxHttpSessions
    · cases hreq : st.request e j recv with
      | none =>
        obtain ⟨-, -, h3, h4⟩ := Process_unparsed_frame e st j recv (Or.inr hreq)
        exact ⟨h3, h4⟩
      | some req =>
        obtain ⟨_, _, _, _, _, _, _, h3, h4, _⟩ := Process_course e st j recv req hsid hreq
        exact ⟨h3, h4⟩
    · obtain ⟨-, -, h3, h4⟩ := Process_unparsed_frame e st j recv (Or.inl hsid)
      exact ⟨h3, h4⟩
  · rw [Process_sess_other e st sid j recv hj]
    exact ⟨rfl, rfl⟩

/-- A call of `Process` for a session whose id is a valid id keeps the singleton
consistent. -/
theorem Process_consistent (e : Ext) (st : Server) (sid : Nat) (recv : List RecvEv)
    (hc : st.Consistent) (hv : (st.sess sid).sid ≠ sid_invalid) :
    (st.Process e sid recv).2.Consistent := by
  by_cases hsid : sid < MaxHttpSessions
  · cases hreq : st.request e sid recv with
    | none =>
      obtain ⟨h1, h2, -, -⟩ := Process_unparsed_frame e st sid recv (Or.inr hreq)
      exact consistent_of_eq _ _ hc h1 h2
    | some req =>
      obtain ⟨l, s, L, q, _, _, hP, _⟩ := Process_parsed e st sid recv req hsid hreq
      rw [hP]
      have hr := route_consistent e (st.parsed sid l s) sid req (st.sess sid).secured hc
        (by simpa [Server.parsed, Server.touched, Server.setSess, Session.Init] using hv)
      exact hr
  · obtain ⟨h1, h2, -, -⟩ := Process_unparsed_frame e st sid recv (Or.inl hsid)
    exact consistent_of_eq _ _ hc h1 h2

theorem send_frame (e : Ext) (st : Server) (i j : Nat) :
    (st._send e i).2.srp = st.srp ∧ (st._send e i).2.srp_owner = st.srp_owner ∧
    ((st._send e i).2.sess j).opened = (st.sess j).opened ∧
    ((st._send e i).2.sess j).sid = (st.sess j).sid := by
  unfold Server._send
  dsimp only
  split
  · refine ⟨rfl, rfl, ?_, ?_⟩ <;> by_cases hj : j = i <;> simp [Server.setSess, hj]
  · exact ⟨rfl, rfl, rfl, rfl⟩

theorem Poll_frame (e : Ext) (st : Server) (sid j : Nat) :
    (st.Poll e sid).srp = st.srp ∧ (st.Poll e sid).srp_owner = st.srp_owner ∧
    ((st.Poll e sid).sess j).opened = (st.sess j).opened ∧
    ((st.Poll e sid).sess j).sid = (st.sess j).sid := by
  unfold Server.Poll
  dsimp only
  split
  · exact ⟨rfl, rfl, rfl, rfl⟩
  · split
    · exact ⟨rfl, rfl, rfl, rfl⟩
    · split
      · exact ⟨rfl, rfl, rfl, rfl⟩
      · have key : ∀ X : Server, X.srp = st.srp → X.srp_owner = st.srp_owner →
            (X.sess j).opened = (st.sess j).opened → (X.sess j).sid = (st.sess j).sid →
            (X._send e sid).2.srp = st.srp ∧ (X._send e sid).2.srp_owner = st.srp_owner ∧
            ((X._send e sid).2.sess j).opened = (st.sess j).opened ∧
            ((X._send e sid).2.sess j).sid = (st.sess j).sid := by
          intro X a b c d
          obtain ⟨h1, h2, h3, h4⟩ := send_frame e X sid j
          exact ⟨h1.trans a, h2.trans b, h3.trans c, h4.trans d⟩
        refine key _ ?_ ?_ ?_ ?_
        · rfl
        · rfl
        · by_cases hj : j = sid <;> simp [Server.setSess, hj, Server.emit]
        · by_cases hj : j = sid <;> simp [Server.setSess, hj, Server.emit]

theorem Open_frame (st : Server) :
    st.Open.2.srp = st.srp ∧ st.Open.2.srp_owner = st.srp_owner ∧
    (st.Indexed → st.Open.2.Indexed) := by
  unfold Server.Open
  split
  · rename_i sid hf
    refine ⟨rfl, rfl, ?_⟩
    intro hi j hj
    by_cases hjs : j = sid
    · subst hjs
      simp [Server.setSess, Server.emit, Session.Open]
    · have : ((st.setSess sid (Session.Open sid)).emit (Event.dbOpen sid)).sess j = st.sess j := by
        simp [Server.setSess, Server.emit, hjs]
      rw [this] at hj ⊢
      exact hi j hj
  · exact ⟨rfl, rfl, fun h => h⟩

theorem Close_frame (st : Server) (sid : Nat) :
    (st.Consistent → (st.Close sid).2.Consistent) ∧
    (st.Indexed → (st.Close sid).2.Indexed) := by
  unfold Server.Close
  split
  · exact ⟨fun h => h, fun h => h⟩
  · split
    · exact ⟨fun h => h, fun h => h⟩
    · have hidx : st.Indexed →
          ((st.emit (Event.dbClose sid)).setSess sid Session.closed).Indexed := by
        intro hi j hj
        by_cases hjs : j = sid
        · subst hjs
          simp [Server.setSess, Session.closed] at hj
        · have : ((st.emit (Event.dbClose sid)).setSess sid Session.closed).sess j =
              st.sess j := by
            simp [Server.setSess, Server.emit, hjs]
          rw [this] at hj ⊢
          exact hi j hj
      dsimp only
      split
      · exact ⟨fun _ => by simp [Server.Consistent], hidx⟩
      · exact ⟨fun h => h, hidx⟩

/-- One operation the transport makes keeps the singleton consistent and the session
table indexed. -/
theorem step_consistent (st : Server) (op : Op) (hc : st.Consistent) (hi : st.Indexed)
    (hl : op.legal st = true) : (st.step op).Consistent ∧ (st.step op).Indexed := by
  cases op with
  | Open =>
    obtain ⟨h1, h2, h3⟩ := Open_frame st
    exact ⟨consistent_of_eq _ _ hc h1 h2, h3 hi⟩
  | Close sid =>
    exact ⟨(Close_frame st sid).1 hc, (Close_frame st sid).2 hi⟩
  | Process e sid recv =>
    have hopen : (st.sess sid).opened = true := hl
    refine ⟨?_, ?_⟩
    · by_cases hsid : sid < MaxHttpSessions
      · have hv : (st.sess sid).sid ≠ sid_invalid := by
          rw [hi sid hopen]
          intro h
          rw [h] at hsid
          exact absurd hsid (by decide)
        exact Process_consistent e st sid recv hc hv
      · obtain ⟨h1, h2, -, -⟩ := Process_unparsed_frame e st sid recv (Or.inl hsid)
        exact consistent_of_eq _ _ hc h1 h2
    · intro j hj
      have h := Process_ids e st sid recv j
      show ((st.Process e sid recv).2.sess j).sid = j
      rw [h.2]
      exact hi j (by rw [← h.1]; exact hj)
  | Poll e sid =>
    refine ⟨consistent_of_eq _ _ hc (Poll_frame e st sid 0).1 (Poll_frame e st sid 0).2.1, ?_⟩
    intro j hj
    have h := Poll_frame e st sid j
    show ((st.Poll e sid).sess j).sid = j
    rw [h.2.2.2]
    exact hi j (by rw [← h.2.2.1]; exact hj)

theorem run_consistent : ∀ (ops : List Op) (st : Server), st.Consistent → st.Indexed →
    st.legalRun ops = true → (st.run ops).Consistent ∧ (st.run ops).Indexed
  | [], _, hc, hi, _ => ⟨hc, hi⟩
  | op :: ops, st, hc, hi, hl => by
    simp only [Server.legalRun, Bool.and_eq_true] at hl
    obtain ⟨h1, h2⟩ := step_consistent st op hc hi hl.1
    exact run_consistent ops (st.step op) h1 h2 hl.2

theorem start_consistent (nsess : Nat) (pairings : Pairings) :
    (Server.start nsess pairings).Consistent ∧ (Server.start nsess pairings).Indexed := by
  refine ⟨by simp [Server.Consistent, Server.start], ?_⟩
  intro i hi
  simp [Server.start, Session.closed] at hi

/-! ### A Pair-Verify M3 whose `EncryptedData` item is shorter than a tag -/

/-- For an item made of the bytes `ct` followed by the 16 bytes `tag`, the handlers decrypt
`ct` and compare `tag` with the tag the cipher computes over `ct`. -/
theorem openEncrypted_tagged (e : Ext) (key nonce ct tag : List Nat) (ht : tag.length = 16)
    (hl : ct.length + 16 < 65536) :
    openEncrypted e key nonce (ct ++ tag) =
      (ct.length, (e.aead false key nonce ct []).1,
        tag == (e.aead false key nonce ct []).2) := by
  have hsize : ((ct ++ tag).length + 65536 - 16) % 65536 = ct.length := by
    rw [List.length_append, ht]
    omega
  have htake : ((ct ++ tag) ++ e.scratch).take ct.length = ct := by
    rw [List.append_assoc, List.take_left']
    rfl
  have hdrop : (((ct ++ tag) ++ e.scratch).drop ct.length).take 16 = tag := by
    rw [List.append_assoc, List.drop_left', ← ht, List.take_left']
    · rfl
    · rfl
  simp only [openEncrypted, splitEncrypted, hsize, htake, hdrop]

/-! ### The bytes of a nonce -/

/-- The nonce of a counter: four zero bytes, then the counter in eight bytes, the least
significant first. -/
theorem nonceOf_bytes (n : Nat) :
    nonceOf n = [0, 0, 0, 0] ++ (List.range 8).map (fun j => n / 256 ^ j % 256) := by
  simp [nonceOf, le64]

/-- The eight bytes of a nonce from offset 4, read as a little-endian number, are the
counter as a 64-bit value. -/
theorem nonceOf_value (n : Nat) :
    ((List.range 8).map (fun j => (nonceOf n).getD (4 + j) 0 * 256 ^ j)).sum = n % 2 ^ 64 := by
  simp [nonceOf, le64, List.range, List.range.loop]
  omega

/-- Counters below `2 ^ 64` with the same nonce are equal. -/
theorem nonceOf_inj (a b : Nat) (ha : a < 2 ^ 64) (hb : b < 2 ^ 64)
    (h : nonceOf a = nonceOf b) : a = b := by
  have h1 := nonceOf_value a
  have h2 := nonceOf_value b
  rw [h] at h1
  rw [h1, Nat.mod_eq_of_lt ha, Nat.mod_eq_of_lt hb] at h2
  exact h2

/-- The nonces of consecutive counters from `s`: number `k` is the nonce of `s + k`, whose
bytes are four zeros and the eight little-endian bytes of `s + k`; and as long as the
counters stay below `2 ^ 64`, no two of them are equal. -/
theorem nonces_pinned (s n : Nat) (l : List (List Nat))
    (h : l = (List.range' s n).map nonceOf) :
    (∀ k, k < l.length →
      l[k]? = some (nonceOf (s + k)) ∧
      l[k]? = some ([0, 0, 0, 0] ++ (List.range 8).map (fun j => (s + k) / 256 ^ j % 256)) ∧
      ((List.range 8).map (fun j => (l.getD k []).getD (4 + j) 0 * 256 ^ j)).sum =
        (s + k) % 2 ^ 64) ∧
    (∀ k m, k < m → m < l.length → s + m < 2 ^ 64 → l[k]? ≠ l[m]?) := by
  have hget : ∀ k, k < l.length → l[k]? = some (nonceOf (s + k)) := by
    intro k hk
    subst h
    simp only [List.length_map, List.length_range'] at hk
    simp [List.getElem?_map, List.getElem?_range' _ _ hk]
  refine ⟨fun k hk => ⟨hget k hk, ?_, ?_⟩, ?_⟩
  · rw [hget k hk, nonceOf_bytes]
  · rw [List.getD_eq_getElem?_getD, hget k hk, Option.getD_some, nonceOf_value]
  · intro k m hkm hm hw heq
    rw [hget k (by omega), hget m hm] at heq
    have := nonceOf_inj (s + k) (s + m) (by omega) hw (Option.some.inj heq)
    omega

/-! ### The outcomes of `Open` -/

/-- For a session table of at most 255 slots, `Open` returns `sid_invalid` exactly when
every slot is open, and then the state is as it was; otherwise it returns the smallest
index whose slot is not open, an index of the table; that slot becomes the open session
`Session::Open(sid)`, `_db.Open(sid)` is the one call made, and every other slot, the
pairings store and the pairing in progress are as they were; in a table of
`MaxHttpSessions + 1` slots the index is at most `MaxHttpSessions`. -/
theorem Open_outcomes (st : Server) (hn : st.nsess ≤ sid_invalid) :
    (st.Open.1 = sid_invalid ↔ ∀ j, j < st.nsess → (st.sess j).opened = true) ∧
    (st.Open.1 = sid_invalid → st.Open.2 = st) ∧
    (st.Open.1 ≠ sid_invalid →
      st.Open.1 < st.nsess ∧ (st.sess st.Open.1).opened = false ∧
      (∀ j, j < st.Open.1 → (st.sess j).opened = true) ∧
      st.Open.2.sess st.Open.1 = Session.Open st.Open.1 ∧
      (st.Open.2.sess st.Open.1).opened = true ∧
      (∀ j, j ≠ st.Open.1 → st.Open.2.sess j = st.sess j) ∧
      st.since st.Open.2 = [Event.dbOpen st.Open.1] ∧
      st.Open.2.pairings = st.pairings ∧ st.Open.2.srp = st.srp ∧
      st.Open.2.srp_owner = st.srp_owner ∧
      (st.nsess = MaxHttpSessions + 1 → st.Open.1 ≤ MaxHttpSessions)) := by
  obtain ⟨hsome, hnone⟩ := find_range (fun sid => !(st.sess sid).opened) st.nsess
  cases hf : (List.range st.nsess).find? (fun sid => !(st.sess sid).opened) with
  | none =>
    have hO : st.Open = (sid_invalid, st) := by
      unfold Server.Open
      rw [hf]
    have hall : ∀ j, j < st.nsess → (st.sess j).opened = true := by
      intro j hj
      simpa using hnone hf j hj
    rw [hO]
    exact ⟨⟨fun _ => hall, fun _ => rfl⟩, fun _ => rfl, fun h => absurd rfl h⟩
  | some k =>
    obtain ⟨h1, h2, h3⟩ := hsome k hf
    have hO : st.Open = (k, (st.setSess k (Session.Open k)).emit (Event.dbOpen k)) := by
      unfold Server.Open
      rw [hf]
    have hk : k ≠ sid_invalid := by omega
    have hnot : (st.sess k).opened = false := by simpa using h2
    rw [hO]
    refine ⟨⟨fun h => absurd h hk, fun h => ?_⟩, fun h => absurd h hk, fun _ => ?_⟩
    · rw [h k h1] at hnot
      cases hnot
    · refine ⟨h1, hnot, ?_, ?_, ?_, ?_, ?_, rfl, rfl, rfl, fun hn9 => by dsimp only; omega⟩
      · intro j hj
        simpa using h3 j hj
      · simp [Server.setSess, Server.emit]
      · simp [Server.setSess, Server.emit, Session.Open]
      · intro j hj
        simp [Server.setSess, Server.emit, hj]
      · exact since_append st _ _ (by simp [Server.setSess, Server.emit])

/-- C2: when `Process` handles a successful Pair-Verify M3 on an unsecured session, the
M4 response is handed to `send` unencrypted, as one chunk equal to the response buffer
(the only event `_send` adds to the log, with the send counter unchanged), and the flag
`secured` becomes true only after `_send` has returned: it is false when the handler has
returned and when `_send` has returned, and the state `Process` returns is the latter with
the flag set.  (The response region has room for the `State` item.) -/
theorem verify_response_sent_in_clear (e : Ext) (st : Server) (sid : Nat)
    (recv : List RecvEv) (req : Request) (id sg : List Nat) (ios : Nat)
    (hsid : sid < MaxHttpSessions) (hreq : st.request e sid recv = some req)
    (hs : (st.sess sid).secured = false) (hM3 : req.isPairVerifyM3 e = true)
    (htag : req.m3TagOk e (st.sess sid).key = some true)
    (hid : Tlv.get (req.m3Sub e (st.sess sid).key) Tlv.Kind.Identifier = some id)
    (hsg : Tlv.get (req.m3Sub e (st.sess sid).key) Tlv.Kind.Signature = some sg)
    (hget : st.pairings.Get id = some ios) (hroom : 3 ≤ e.rspSize) :
    ∃ l s, (∀ ev ∈ l, ev.isWire = true) ∧
      ((st.handled e sid req l s).sess sid).secured = false ∧
      ((st.handled e sid req l s).sess sid).ios = some ios ∧
      ((st.handled e sid req l s).sess sid).rsp.data =
        Data.tlv [⟨Tlv.Kind.State, [Tlv.State.M4]⟩] ∧
      (st.handedOff e sid req l s).log = (st.handled e sid req l s).log ++
        [Event.send (st.sess sid).sid (e.render ((st.handled e sid req l s).sess sid).rsp)] ∧
      ((st.handedOff e sid req l s).sess sid).secured = false ∧
      ((st.handedOff e sid req l s).sess sid).sendSeq = (st.sess sid).sendSeq ∧
      ((st.handedOff e sid req l s).sess sid).rsp = ((st.handled e sid req l s).sess sid).rsp ∧
      st.Process e sid recv = (some true, (st.handedOff e sid req l s).setSess sid
        { (st.handedOff e sid req l s).sess sid with secured := true }) ∧
      ((st.Process e sid recv).2.sess sid).secured = true := by
  obtain ⟨l, s, h1, h2, h3, h4, h5, h6, h7, h8, h9⟩ :=
    Process_M3_accepted e st sid recv req id sg ios hsid hreq hs hM3 htag hid hsg hget hroom
  exact ⟨l, s, h1, h2, h3, h4, h5, h6, h7, h8, h9, by rw [h9]; simp⟩

/-- C3, as stated, fails: after 101 accepted Pair-Setup M1 requests on session 0 that
session holds the singleton (`srp ≠ NULL`, `srp_owner = 0`) and the attempt counter is
101; a Pair-Setup M1 with `Method = PairSetupNonMfi` from session 1 is then answered
`{State=M2, Error=MaxTries}`, not `{State=M2, Error=Busy}`, because `_pairSetup1` tests
the cap before the owner. -/
theorem busy_counterexample :
    Server.capped.srp.isSome = true ∧ Server.capped.srp_owner = 0 ∧ (0 : Nat) ≠ 1 ∧
    Server.capped.request Ext.sampleM1 1 [RecvEv.data [80]] = some Request.sampleM1 ∧
    Request.sampleM1.isPairSetupM1 Ext.sampleM1 = true ∧
    Request.sampleM1.tlvMethod Ext.sampleM1 = some Tlv.Method.PairSetupNonMfi ∧
    ((Server.capped.Process Ext.sampleM1 1 [RecvEv.data [80]]).2.sess 1).rsp.data =
      Data.tlv [⟨Tlv.Kind.State, [Tlv.State.M2]⟩, ⟨Tlv.Kind.Error, [Tlv.Error.MaxTries]⟩] ∧
    ((Server.capped.Process Ext.sampleM1 1 [RecvEv.data [80]]).2.sess 1).rsp.data ≠
      Data.tlv [⟨Tlv.Kind.State, [Tlv.State.M2]⟩, ⟨Tlv.Kind.Error, [Tlv.Error.Busy]⟩] := by
  decide

/-- C3, amended: for all sessions `s1 ≠ s2`, if `s1` holds the Pair-Setup singleton
(`srp ≠ NULL` and `srp_owner = s1`) and `s2` sends a Pair-Setup M1 with
`Method = PairSetupNonMfi` before `s1` releases it, then the singleton still belongs to
`s1`, and the response TLV of `s2` is `{State=M2, Error=Busy}` when the pairings store is
empty and the attempt counter is at most 100, `{State=M2, Error=MaxTries}` when the store
is empty and the counter is above 100, and `{State=M2, Error=Unavailable}` when the store
is not empty.  (The response region has room for the two items.) -/
theorem pairSetup_busy (e : Ext) (st : Server) (s1 s2 : Nat) (recv : List RecvEv)
    (req : Request) (hne : s1 ≠ s2) (hs2 : s2 < MaxHttpSessions)
    (hsid : (st.sess s2).sid = s2) (hsrp : st.srp.isSome = true) (hown : st.srp_owner = s1)
    (hreq : st.request e s2 recv = some req) (hM1 : req.isPairSetupM1 e = true)
    (hmeth : req.tlvMethod e = some Tlv.Method.PairSetupNonMfi) (hroom : 6 ≤ e.rspSize) :
    (st.Process e s2 recv).2.srp = st.srp ∧
    (st.Process e s2 recv).2.srp_owner = s1 ∧
    (st.pairings.Count Controller.None = 0 → st.srp_auth_count ≤ 100 →
      ((st.Process e s2 recv).2.sess s2).rsp.data =
        Data.tlv [⟨Tlv.Kind.State, [Tlv.State.M2]⟩, ⟨Tlv.Kind.Error, [Tlv.Error.Busy]⟩]) ∧
    (st.pairings.Count Controller.None = 0 → st.srp_auth_count > 100 →
      ((st.Process e s2 recv).2.sess s2).rsp.data =
        Data.tlv [⟨Tlv.Kind.State, [Tlv.State.M2]⟩,
          ⟨Tlv.Kind.Error, [Tlv.Error.MaxTries]⟩]) ∧
    (st.pairings.Count Controller.None ≠ 0 →
      ((st.Process e s2 recv).2.sess s2).rsp.data =
        Data.tlv [⟨Tlv.Kind.State, [Tlv.State.M2]⟩,
          ⟨Tlv.Kind.Error, [Tlv.Error.Unavailable]⟩]) := by
  have ho : st.srp_owner ≠ (st.sess s2).sid := by rw [hown, hsid]; exact hne
  by_cases hp : st.pairings.Count Controller.None = 0
  · by_cases hc : st.srp_auth_count ≤ 100
    · obtain ⟨h1, h2, h3, _, _⟩ :=
        Process_M1_busy e st s2 recv req hs2 hreq hM1 hmeth hp hc hsrp ho hroom
      exact ⟨h2, by rw [h3, hown], fun _ _ => h1, fun _ h => absurd hc (by omega),
        fun h => absurd hp h⟩
    · obtain ⟨h1, h2, h3, _, _⟩ :=
        Process_M1_maxTries e st s2 recv req hs2 hreq hM1 hmeth hp (by omega) hroom
      exact ⟨h2, by rw [h3, hown], fun _ h => absurd h hc, fun _ _ => h1, fun h => absurd hp h⟩
  · obtain ⟨h1, h2, h3, _, _⟩ :=
      Process_M1_unavailable e st s2 recv req hs2 hreq hM1 hmeth hp hroom
    exact ⟨h2, by rw [h3, hown], fun h => absurd h hp, fun h => absurd h hp, fun _ => h1⟩

theorem pairSetup_busy_witness :
    ((0 : Nat) ≠ 1 ∧ 1 < MaxHttpSessions ∧
      ((Server.sample.step Op.sampleM1).sess 1).sid = 1 ∧
      (Server.sample.step Op.sampleM1).srp.isSome = true ∧
      (Server.sample.step Op.sampleM1).srp_owner = 0 ∧
      (Server.sample.step Op.sampleM1).request Ext.sampleM1 1 [RecvEv.data [80]] =
        some Request.sampleM1 ∧
      Request.sampleM1.isPairSetupM1 Ext.sampleM1 = true ∧
      Request.sampleM1.tlvMethod Ext.sampleM1 = some Tlv.Method.PairSetupNonMfi ∧
      6 ≤ Ext.sampleM1.rspSize) ∧
    (((Server.sample.step Op.sampleM1).Process Ext.sampleM1 1 [RecvEv.data [80]]).2.srp_owner = 0 ∧
      (((Server.sample.step Op.sampleM1).Process Ext.sampleM1 1 [RecvEv.data [80]]).2.sess 1).rsp.data =
        Data.tlv [⟨Tlv.Kind.State, [Tlv.State.M2]⟩, ⟨Tlv.Kind.Error, [Tlv.Error.Busy]⟩]) :=
  ⟨⟨by decide, by decide, by decide, by decide, by decide, by decide, by decide, by decide,
      by decide⟩,
    (pairSetup_busy Ext.sampleM1 (Server.sample.step Op.sampleM1) 0 1 [RecvEv.data [80]]
      Request.sampleM1 (by decide) (by decide) (by decide) (by decide) (by decide) (by decide)
      (by decide) (by decide) (by decide)).2.1,
    (pairSetup_busy Ext.sampleM1 (Server.sample.step Op.sampleM1) 0 1 [RecvEv.data [80]]
      Request.sampleM1 (by decide) (by decide) (by decide) (by decide) (by decide) (by decide)
      (by decide) (by decide) (by decide)).2.2.1 (by decide) (by decide)⟩

/-- C4: starting from `auth_attempts = 0`, after 101 Pair-Setup M1 requests made under
otherwise successful conditions (valid Method, empty pairings store, no other owner,
`SRP_new` succeeding) the counter is 101, and from then on, whatever operations come in
between, every M1 request with a valid Method on an empty store is answered
`{State=M2, Error=MaxTries}`, creates no SRP context and changes neither the owner nor the
context nor the counter; and in any state an M1 that passes the Method and pairings
checks is answered `MaxTries` exactly when `auth_attempts > 100`.  (The response region
has room for the two items.) -/
theorem auth_attempt_cap (st : Server) (ops : List Op) (h0 : st.srp_auth_count = 0)
    (hgood : st.allGoodM1 ops = true) (hlen : ops.length = 101) :
    (st.run ops).srp_auth_count = 101 ∧
    (∀ (later : List Op) (e : Ext) (sid : Nat) (recv : List RecvEv) (req : Request),
      sid < MaxHttpSessions → 6 ≤ e.rspSize →
      ((st.run ops).run later).request e sid recv = some req →
      req.isPairSetupM1 e = true → req.tlvMethod e = some Tlv.Method.PairSetupNonMfi →
      ((st.run ops).run later).pairings.Count Controller.None = 0 →
        ((((st.run ops).run later).Process e sid recv).2.sess sid).rsp.data =
          Data.tlv [⟨Tlv.Kind.State, [Tlv.State.M2]⟩,
            ⟨Tlv.Kind.Error, [Tlv.Error.MaxTries]⟩] ∧
        (((st.run ops).run later).Process e sid recv).2.srp = ((st.run ops).run later).srp ∧
        (((st.run ops).run later).Process e sid recv).2.srp_owner =
          ((st.run ops).run later).srp_owner ∧
        (((st.run ops).run later).Process e sid recv).2.srp_auth_count =
          ((st.run ops).run later).srp_auth_count ∧
        Event.SRP_new ∉
          ((st.run ops).run later).since (((st.run ops).run later).Process e sid recv).2) ∧
    (∀ (st2 : Server) (e : Ext) (sid : Nat) (recv : List RecvEv) (req : Request),
      sid < MaxHttpSessions → 6 ≤ e.rspSize → st2.request e sid recv = some req →
      req.isPairSetupM1 e = true → req.tlvMethod e = some Tlv.Method.PairSetupNonMfi →
      st2.pairings.Count Controller.None = 0 →
        (((st2.Process e sid recv).2.sess sid).answers Tlv.Error.MaxTries ↔
          st2.srp_auth_count > 100)) := by
  have h101 : (st.run ops).srp_auth_count = 101 := by
    have := run_goodM1_count ops st hgood (by omega)
    omega
  refine ⟨h101, ?_, ?_⟩
  · intro later e sid recv req hsid hroom hreq hM1 hmeth hp
    have hge := run_count_ge later (st.run ops)
    exact Process_M1_maxTries e _ sid recv req hsid hreq hM1 hmeth hp (by omega) hroom
  · intro st2 e sid recv req hsid hroom hreq hM1 hmeth hp
    constructor
    · intro ha
      by_contra hc
      exact Process_M1_not_maxTries e st2 sid recv req hsid hreq hM1 (by omega) ha
    · intro hc
      have h := (Process_M1_maxTries e st2 sid recv req hsid hreq hM1 hmeth hp hc hroom).1
      exact ⟨_, h, by simp⟩

/-- C5: the attempt counter `srp_auth_count` never decreases and is never reset by a
dispatcher operation (Open, Close, Process, Poll): in every state reached from the start
of the process the counter is at most 101, and one more operation either leaves it as it
is or, only when the operation is a `Process` that handles an accepted Pair-Setup M1, adds
exactly one to it as an integer, so that the 8-bit counter never wraps around. -/
theorem auth_count_never_decreases (nsess : Nat) (pairings : Pairings) (ops : List Op) (op : Op) :
    ((Server.start nsess pairings).run ops).srp_auth_count ≤ 101 ∧
    ((Server.start nsess pairings).run ops).srp_auth_count ≤
      (((Server.start nsess pairings).run ops).step op).srp_auth_count ∧
    ((((Server.start nsess pairings).run ops).step op).srp_auth_count =
        ((Server.start nsess pairings).run ops).srp_auth_count ∨
      ((((Server.start nsess pairings).run ops).step op).srp_auth_count =
          ((Server.start nsess pairings).run ops).srp_auth_count + 1 ∧
        op.isAcceptedM1 ((Server.start nsess pairings).run ops) = true ∧
        ((Server.start nsess pairings).run ops).srp_auth_count + 1 < 256)) := by
  have h0 : ((Server.start nsess pairings).run ops).srp_auth_count ≤ 101 :=
    run_count_le ops _ (by simp [Server.start])
  refine ⟨h0, ?_, ?_⟩
  · rcases step_count_exact ((Server.start nsess pairings).run ops) op with h | ⟨h, _⟩
    · rw [h]
    · rw [h]; omega
  · rcases step_count_exact ((Server.start nsess pairings).run ops) op with h | ⟨h, ha⟩
    · left; exact h
    · right; exact ⟨h, ha, by omega⟩

/-- C6: a Pair-Setup M1 with `Method = PairSetupNonMfi` received while the pairings store
is not empty is answered `{State=M2, Error=Unavailable}`, whatever the attempt counter and
whoever owns the singleton; it creates no SRP context, and leaves `srp`, `srp_owner` and
`srp_auth_count` as they were.  (The response region has room for the two items.) -/
theorem pairSetupM1_paired_unavailable (e : Ext) (st : Server) (sid : Nat)
    (recv : List RecvEv) (req : Request) (hsid : sid < MaxHttpSessions)
    (hreq : st.request e sid recv = some req) (hM1 : req.isPairSetupM1 e = true)
    (hmeth : req.tlvMethod e = some Tlv.Method.PairSetupNonMfi)
    (hpaired : st.pairings.Count Controller.None ≠ 0) (hroom : 6 ≤ e.rspSize) :
    ((st.Process e sid recv).2.sess sid).rsp.data =
      Data.tlv [⟨Tlv.Kind.State, [Tlv.State.M2]⟩, ⟨Tlv.Kind.Error, [Tlv.Error.Unavailable]⟩] ∧
    (st.Process e sid recv).2.srp = st.srp ∧
    (st.Process e sid recv).2.srp_owner = st.srp_owner ∧
    (st.Process e sid recv).2.srp_auth_count = st.srp_auth_count ∧
    Event.SRP_new ∉ st.since (st.Process e sid recv).2 :=
  Process_M1_unavailable e st sid recv req hsid hreq hM1 hmeth hpaired hroom

/-- C7: for every completely parsed `POST /identify` request, on a secured or unsecured
session, `Process` returns true and leaves in the response buffer `HTTP 204` with no body
when the pairings store is empty, and `HTTP 400` with content type `application/hap+json`
and body `{"status":-70401}` when the pairings store is not empty. -/
theorem identify_response (e : Ext) (st : Server) (sid : Nat) (recv : List RecvEv)
    (req : Request) (hsid : sid < MaxHttpSessions) (hreq : st.request e sid recv = some req)
    (hm : req.method = "POST") (hp : req.path = "/identify") :
    (st.Process e sid recv).1 = some true ∧
    (st.pairings.Count Controller.None = 0 →
      ((st.Process e sid recv).2.sess sid).rsp =
        ⟨[Call.start Status.HTTP_204, Call.end_], Data.none⟩) ∧
    (st.pairings.Count Controller.None ≠ 0 →
      ((st.Process e sid recv).2.sess sid).rsp =
        ⟨[Call.start Status.HTTP_400, Call.addContentType "application/hap+json",
          Call.endBody (cstr "\x7b\"status\":-70401\x7d")], Data.none⟩) := by
  obtain ⟨l, s, L, q, _, _, hP, _⟩ := Process_parsed e st sid recv req hsid hreq
  rw [hP]
  refine ⟨rfl, ?_, ?_⟩
  · intro h0
    simp [Server.route, hm, hp, h0, Session.reply, Response.start, Response.call]
  · intro h0
    simp [Server.route, hm, hp, h0, Response.start, Response.call, ContentTypeJson]

/-- C8: for every secured `POST /pairings` request with `State = M1` and Method in
`{AddPairing, RemovePairing, ListPairing}` (a TLV request: content type
`application/pairing+tlv8` and a content length) issued on a session whose bound
controller's permission is not `Admin`, the response TLV is exactly
`{State=M2, Error=Authentication}`, the pairings store is unchanged and the configuration
update callback is not invoked.  (The response region has room for the two items.) -/
theorem pairings_admin_gate (e : Ext) (st : Server) (sid : Nat) (recv : List RecvEv)
    (req : Request) (hsid : sid < MaxHttpSessions) (hreq : st.request e sid recv = some req)
    (hs : (st.sess sid).secured = true) (hp : req.isPairings e = true)
    (hperm : st.iosPerm (st.sess sid) ≠ Controller.Admin) (hroom : 6 ≤ e.rspSize) :
    ((st.Process e sid recv).2.sess sid).rsp.data =
      Data.tlv [⟨Tlv.Kind.State, [Tlv.State.M2]⟩,
        ⟨Tlv.Kind.Error, [Tlv.Error.Authentication]⟩] ∧
    (st.Process e sid recv).2.pairings = st.pairings ∧
    Event.configUpdate ∉ st.since (st.Process e sid recv).2 :=
  Process_pairings_nonadmin e st sid recv req hsid hreq hs hp hperm hroom

theorem pairings_admin_gate_witness :
    (0 < MaxHttpSessions ∧
      (Server.securedSample Controller.Regular).request Ext.samplePairings 0
        [RecvEv.data ([3, 0, 80, 79, 83] ++ List.replicate 16 0)] = some Request.samplePairings ∧
      ((Server.securedSample Controller.Regular).sess 0).secured = true ∧
      Request.samplePairings.isPairings Ext.samplePairings = true ∧
      (Server.securedSample Controller.Regular).iosPerm ((Server.securedSample Controller.Regular).sess 0) ≠
        Controller.Admin ∧
      6 ≤ Ext.samplePairings.rspSize) ∧
    (((Server.securedSample Controller.Regular).Process Ext.samplePairings 0
        [RecvEv.data ([3, 0, 80, 79, 83] ++ List.replicate 16 0)]).2.sess 0).rsp.data =
      Data.tlv [⟨Tlv.Kind.State, [Tlv.State.M2]⟩,
        ⟨Tlv.Kind.Error, [Tlv.Error.Authentication]⟩] :=
  ⟨⟨by decide, by decide, by decide, by decide, by decide, by decide⟩,
    (pairings_admin_gate Ext.samplePairings (Server.securedSample Controller.Regular) 0
      [RecvEv.data ([3, 0, 80, 79, 83] ++ List.replicate 16 0)] Request.samplePairings
      (by decide) (by decide) (by decide) (by decide) (by decide) (by decide)).1⟩

/-- C9: every request for a secured resource (`POST /pairings`, `GET /accessories`,
`GET /characteristics?...`, `PUT /characteristics`) that arrives on a session with
`secured = false` is answered `HTTP 470` with no body; the session stays unsecured, the
pairings store is unchanged, and no event of the call is the entry of a pairing or
pairings handler or one of the database operations `getDb`, `Read`, `Write`. -/
theorem unsecured_access_470 (e : Ext) (st : Server) (sid : Nat) (recv : List RecvEv)
    (req : Request) (hsid : sid < MaxHttpSessions) (hreq : st.request e sid recv = some req)
    (hs : (st.sess sid).secured = false) (hr : req.isSecuredResource = true) :
    (st.Process e sid recv).1 = some true ∧
    ((st.Process e sid recv).2.sess sid).rsp = ⟨[Call.start Status.HTTP_470, Call.end_], Data.none⟩ ∧
    ((st.Process e sid recv).2.sess sid).secured = false ∧
    (st.Process e sid recv).2.pairings = st.pairings ∧
    ∀ ev ∈ st.since (st.Process e sid recv).2,
      (∀ name, ev ≠ Event.handler name) ∧ (∀ s, ev ≠ Event.getDb s) ∧
      (∀ s, ev ≠ Event.Read s) ∧ (∀ s, ev ≠ Event.Write s) :=
  Process_unsecured e st sid recv req hsid hreq hs hr

/-- C10: on a secured session whose scratch buffer holds a frame, (1) an inbound record
whose 16-bit little-endian length prefix exceeds 1024, however `recv` splits the two
bytes, makes `Process` return false with nothing decrypted, parsed or sent and the
receive counter unchanged (the state is the one at entry but for the initialised response
buffer), and the transport then closes the session; (2) a record whose prefix is at most
1024, including exactly 1024, and whose tag verifies, delivered by `recv` in any number
of non-empty chunks and possibly followed by more bytes, is decrypted once, exactly as
many decrypted bytes as the prefix says are handed to the HTTP parser, and when the parser
finds a request in them `Process` returns true. -/
theorem record_size_limit (e : Ext) (st : Server) (sid : Nat)
    (hsid : sid < MaxHttpSessions) (hsec : (st.sess sid).secured = true)
    (hopen : (st.sess sid).opened = true) (hsize : MaxHttpFrame ≤ e.sizeofdata) :
    (∀ (recv : List RecvEv) (b0 b1 sd : Nat), firstTwo recv = some (b0, b1) →
      MaxHttpBlock < b0 + b1 * 256 →
      st.Process e sid recv = (some false, st.setSess sid (st.sess sid).Init) ∧
      ((st.Process e sid recv).2.sess sid).recvSeq = (st.sess sid).recvSeq ∧
      (st.Process e sid recv).2.log = st.log ∧
      ∃ st2, TcpImpl.readEvent e st ⟨sd, sid⟩ recv = some (⟨0, sid_invalid⟩, st2) ∧
        (st2.sess sid).opened = false) ∧
    (∀ (ct tag extra : List Nat) (chunks : List (List Nat)) (tl : List RecvEv),
      ct.length ≤ MaxHttpBlock → tag.length = 16 →
      (record ct tag ++ extra).length ≤ e.sizeofdata →
      (e.aead false (st.sess sid).ControllerToAccessoryKey (nonceOf (st.sess sid).recvSeq)
        ct (lenBytes ct.length)).2 = tag →
      (∀ c ∈ chunks, c ≠ []) → chunks.flatten = record ct tag ++ extra →
      (e.aead false (st.sess sid).ControllerToAccessoryKey (nonceOf (st.sess sid).recvSeq)
        ct (lenBytes ct.length)).1.length = ct.length ∧
      (∃ r, ((st.setSess sid (st.sess sid).Init).decrypted sid ct.length).tryParse e sid sid
          (e.aead false (st.sess sid).ControllerToAccessoryKey (nonceOf (st.sess sid).recvSeq)
            ct (lenBytes ct.length)).1 = some r ∧
        (st.setSess sid (st.sess sid).Init).readLoop e sid sid
          (chunks.map RecvEv.data ++ tl) [] = r) ∧
      (∀ req, e.parse (e.aead false (st.sess sid).ControllerToAccessoryKey
          (nonceOf (st.sess sid).recvSeq) ct (lenBytes ct.length)).1 =
            ParseStatus.Success req →
        st.request e sid (chunks.map RecvEv.data ++ tl) = some req ∧
        (st.Process e sid (chunks.map RecvEv.data ++ tl)).1 = some true)) := by
  refine ⟨?_, ?_⟩
  · intro recv b0 b1 sd hfirst hbig
    have hP := Process_oversize e st sid recv b0 b1 hsid hsec hsize hfirst hbig
    refine ⟨hP, by rw [hP]; simp [Session.Init], by rw [hP]; rfl, ?_⟩
    exact readEvent_closes e st _ sd sid recv hsid hP (by simpa [Session.Init] using hopen)
  · intro ct tag extra chunks tl hn htl hfit hok hne hdel
    exact Process_record e st sid ct tag extra chunks tl hsid hsec hn htl hfit hok hne hdel

/-- C11, counterexample: on a secured session whose receive counter is 0, a record of three
bytes arrives whose tag (sixteen ones) differs from the tag the cipher computes (sixteen
zeros); `Process` returns false, and the receive counter is 1, not 0. -/
theorem recv_seq_counterexample :
    ((Server.securedSample Controller.Admin).sess 0).secured = true ∧
    ((Server.securedSample Controller.Admin).sess 0).recvSeq = 0 ∧
    (Ext.sampleRecord.aead false
      ((Server.securedSample Controller.Admin).sess 0).ControllerToAccessoryKey (nonceOf 0)
      [5, 6, 7] (lenBytes 3)).2 ≠ List.replicate 16 1 ∧
    ((Server.securedSample Controller.Admin).Process Ext.sampleRecord 0
      [RecvEv.data (record [5, 6, 7] (List.replicate 16 1))]).1 = some false ∧
    (((Server.securedSample Controller.Admin).Process Ext.sampleRecord 0
      [RecvEv.data (record [5, 6, 7] (List.replicate 16 1))]).2.sess 0).recvSeq = 1 ∧
    (((Server.securedSample Controller.Admin).Process Ext.sampleRecord 0
      [RecvEv.data (record [5, 6, 7] (List.replicate 16 1))]).2.sess 0).recvSeq ≠
      ((Server.securedSample Controller.Admin).sess 0).recvSeq := by
  decide

/-- C11, amended: on a valid session whose receive counter is not at its last value,
(1) over any call of `Process` either the counter is unchanged and the call logs nothing
or starts with a call of the parser, or the session is secured, the call starts with the
decryption of a record under the nonce of the counter at entry, and the counter is one
more; (2) a record whose length prefix is at most 1024, delivered to a secured session in
any number of non-empty chunks, is decrypted and the counter is one more whether the tag
verifies or not; when the computed tag differs from the tag of the record, `Process`
returns false in the state in which the counter is advanced. -/
theorem recv_seq_counts_decrypted_records (e : Ext) (st : Server) (sid : Nat)
    (hsid : sid < MaxHttpSessions) (hseq : (st.sess sid).recvSeq + 1 < 2 ^ 64) :
    (∀ recv : List RecvEv,
      (((st.Process e sid recv).2.sess sid).recvSeq = (st.sess sid).recvSeq ∧
        (st.since (st.Process e sid recv).2 = [] ∨
          ∃ b rest, st.since (st.Process e sid recv).2 = Event.parse b :: rest)) ∨
      ((st.sess sid).secured = true ∧
        ((st.Process e sid recv).2.sess sid).recvSeq = (st.sess sid).recvSeq + 1 ∧
        ∃ n rest, st.since (st.Process e sid recv).2 =
          Event.aead false (st.sess sid).ControllerToAccessoryKey
            (nonceOf (st.sess sid).recvSeq) n :: rest)) ∧
    (∀ (ct tag extra : List Nat) (chunks : List (List Nat)) (tl : List RecvEv),
      (st.sess sid).secured = true → ct.length ≤ MaxHttpBlock → tag.length = 16 →
      (record ct tag ++ extra).length ≤ e.sizeofdata → (∀ c ∈ chunks, c ≠ []) →
      chunks.flatten = record ct tag ++ extra →
      ((st.Process e sid (chunks.map RecvEv.data ++ tl)).2.sess sid).recvSeq =
        (st.sess sid).recvSeq + 1 ∧
      ((e.aead false (st.sess sid).ControllerToAccessoryKey (nonceOf (st.sess sid).recvSeq)
          ct (lenBytes ct.length)).2 ≠ tag →
        (st.Process e sid (chunks.map RecvEv.data ++ tl)).1 = some false ∧
        (st.Process e sid (chunks.map RecvEv.data ++ tl)).2 =
          (st.entered sid).decrypted sid ct.length)) := by
  have hmod : ((st.sess sid).recvSeq + 1) % 2 ^ 64 = (st.sess sid).recvSeq + 1 :=
    Nat.mod_eq_of_lt hseq
  refine ⟨?_, ?_⟩
  · intro recv
    rcases Process_recvSeq e st sid recv hsid with h | ⟨h1, h2, h3⟩
    · exact Or.inl h
    · exact Or.inr ⟨h1, by rw [h2, hmod], h3⟩
  · intro ct tag extra chunks tl hsec hn htl hfit hne hdel
    obtain ⟨h1, h2⟩ := Process_record_counts e st sid ct tag extra chunks tl hsid hsec hn htl
      hfit hne hdel
    refine ⟨by rw [h1, hmod], fun hbad => ?_⟩
    rw [h2 hbad]
    exact ⟨rfl, rfl⟩

theorem recv_seq_counts_decrypted_records_witness :
    (0 < MaxHttpSessions ∧
      ((Server.securedSample Controller.Admin).sess 0).recvSeq + 1 < 2 ^ 64 ∧
      ((Server.securedSample Controller.Admin).sess 0).secured = true ∧
      ([5, 6, 7] : List Nat).length ≤ MaxHttpBlock ∧ (List.replicate 16 1).length = 16 ∧
      (record [5, 6, 7] (List.replicate 16 1) ++ []).length ≤ Ext.sampleRecord.sizeofdata ∧
      (∀ c ∈ [record [5, 6, 7] (List.replicate 16 1)], c ≠ []) ∧
      [record [5, 6, 7] (List.replicate 16 1)].flatten =
        record [5, 6, 7] (List.replicate 16 1) ++ []) ∧
    (((Server.securedSample Controller.Admin).Process Ext.sampleRecord 0
      ([record [5, 6, 7] (List.replicate 16 1)].map RecvEv.data ++ [])).2.sess 0).recvSeq =
        ((Server.securedSample Controller.Admin).sess 0).recvSeq + 1 :=
  ⟨⟨by decide, by decide, by decide, by decide, by decide, by decide, by decide, by decide⟩,
    ((recv_seq_counts_decrypted_records Ext.sampleRecord (Server.securedSample Controller.Admin)
      0 (by decide) (by decide)).2 [5, 6, 7] (List.replicate 16 1) []
      [record [5, 6, 7] (List.replicate 16 1)] [] (by decide) (by decide) (by decide)
      (by decide) (by decide) (by decide)).1⟩

/-- C12: take a valid session `i` that is open and a run of operations none of which
closes it.  Count as records sent by the session the turns of the loop of `_send` in the
calls of `Process` and `Poll` that find the session secured, and as records received the
records the read loop of `Process` decrypts in such calls.  Then (1) the record number
`k` sent (from zero) carries the nonce of the counter value `sendSeq + k`, for the counter
at the start of the run: its twelve bytes are four zeros followed by the eight bytes of
`sendSeq + k`, the least significant first, so that the eight bytes read back as a number
give `sendSeq + k` as a 64-bit value; and the record number `k` received carries in the
same way the counter value `recvSeq + k`; (2) as long as the counter stays below `2 ^ 64`,
no two records of one direction carry the same nonce; (3) at the end of the run each
counter is the one at the start advanced by the number of records, as a 64-bit counter;
(4) as long as the counters stay below `2 ^ 64`, each counter at the end is the counter
at the start plus the number of records, and over every single operation of the run
neither counter decreases. -/
theorem sequence_monotonic (i : Nat) (st : Server) (ops : List Op) (hi : i < MaxHttpSessions)
    (hopen : (st.sess i).opened = true) (hcl : ∀ op ∈ ops, op.closes i = false) :
    (∀ k, k < (st.sentOver i ops).length →
      (st.sentOver i ops)[k]? = some (nonceOf ((st.sess i).sendSeq + k)) ∧
      (st.sentOver i ops)[k]? = some ([0, 0, 0, 0] ++
        (List.range 8).map (fun j => ((st.sess i).sendSeq + k) / 256 ^ j % 256)) ∧
      ((List.range 8).map
        (fun j => ((st.sentOver i ops).getD k []).getD (4 + j) 0 * 256 ^ j)).sum =
        ((st.sess i).sendSeq + k) % 2 ^ 64) ∧
    (∀ k, k < (st.recvOver i ops).length →
      (st.recvOver i ops)[k]? = some (nonceOf ((st.sess i).recvSeq + k)) ∧
      (st.recvOver i ops)[k]? = some ([0, 0, 0, 0] ++
        (List.range 8).map (fun j => ((st.sess i).recvSeq + k) / 256 ^ j % 256)) ∧
      ((List.range 8).map
        (fun j => ((st.recvOver i ops).getD k []).getD (4 + j) 0 * 256 ^ j)).sum =
        ((st.sess i).recvSeq + k) % 2 ^ 64) ∧
    (∀ k m, k < m → m < (st.sentOver i ops).length → (st.sess i).sendSeq + m < 2 ^ 64 →
      (st.sentOver i ops)[k]? ≠ (st.sentOver i ops)[m]?) ∧
    (∀ k m, k < m → m < (st.recvOver i ops).length → (st.sess i).recvSeq + m < 2 ^ 64 →
      (st.recvOver i ops)[k]? ≠ (st.recvOver i ops)[m]?) ∧
    ((st.run ops).sess i).sendSeq = seqAfter (st.sess i).sendSeq (st.sentOver i ops).length ∧
    ((st.run ops).sess i).recvSeq = seqAfter (st.sess i).recvSeq (st.recvOver i ops).length ∧
    ((st.sess i).sendSeq + (st.sentOver i ops).length < 2 ^ 64 →
      ((st.run ops).sess i).sendSeq = (st.sess i).sendSeq + (st.sentOver i ops).length ∧
      ∀ pre op post, ops = pre ++ op :: post →
        ((st.run pre).sess i).sendSeq ≤ (((st.run pre).step op).sess i).sendSeq) ∧
    ((st.sess i).recvSeq + (st.recvOver i ops).length < 2 ^ 64 →
      ((st.run ops).sess i).recvSeq = (st.sess i).recvSeq + (st.recvOver i ops).length ∧
      ∀ pre op post, ops = pre ++ op :: post →
        ((st.run pre).sess i).recvSeq ≤ (((st.run pre).step op).sess i).recvSeq) := by
  obtain ⟨-, h1, h2, h3, h4⟩ := run_counters i hi ops st hopen hcl
  obtain ⟨s1, s2⟩ := nonces_pinned _ _ _ h1
  obtain ⟨r1, r2⟩ := nonces_pinned _ _ _ h3
  refine ⟨s1, r1, s2, r2, h2, h4, ?_, ?_⟩
  · intro hw
    refine ⟨by rw [h2, seqAfter_noWrap _ _ hw], ?_⟩
    intro pre op post hops
    have hclp : ∀ x ∈ pre, x.closes i = false := fun x hx =>
      hcl x (by rw [hops]; exact List.mem_append_left _ hx)
    have hclq : ∀ x ∈ pre ++ [op], x.closes i = false := fun x hx =>
      hcl x (by
        rw [hops]
        rcases List.mem_append.mp hx with h | h
        · exact List.mem_append_left _ h
        · rw [List.mem_singleton.mp h]
          exact List.mem_append_right _ (List.mem_cons_self _ _))
    obtain ⟨-, -, p2, -, -⟩ := run_counters i hi pre st hopen hclp
    obtain ⟨-, -, q2, -, -⟩ := run_counters i hi (pre ++ [op]) st hopen hclq
    have hrun : st.run (pre ++ [op]) = (st.run pre).step op := by
      rw [run_append]; rfl
    have hlen1 : (st.sentOver i (pre ++ [op])).length =
        (st.sentOver i pre).length + ((st.run pre).sentOver i [op]).length := by
      rw [sentOver_append, List.length_append]
    have hlen2 : (st.sentOver i ops).length = (st.sentOver i (pre ++ [op])).length +
        ((st.run (pre ++ [op])).sentOver i post).length := by
      rw [hops, show pre ++ op :: post = (pre ++ [op]) ++ post by simp, sentOver_append,
        List.length_append]
    rw [← hrun, p2, q2, seqAfter_noWrap _ _ (by omega), seqAfter_noWrap _ _ (by omega)]
    omega
  · intro hw
    refine ⟨by rw [h4, seqAfter_noWrap _ _ hw], ?_⟩
    intro pre op post hops
    have hclp : ∀ x ∈ pre, x.closes i = false := fun x hx =>
      hcl x (by rw [hops]; exact List.mem_append_left _ hx)
    have hclq : ∀ x ∈ pre ++ [op], x.closes i = false := fun x hx =>
      hcl x (by
        rw [hops]
        rcases List.mem_append.mp hx with h | h
        · exact List.mem_append_left _ h
        · rw [List.mem_singleton.mp h]
          exact List.mem_append_right _ (List.mem_cons_self _ _))
    obtain ⟨-, -, -, -, p4⟩ := run_counters i hi pre st hopen hclp
    obtain ⟨-, -, -, -, q4⟩ := run_counters i hi (pre ++ [op]) st hopen hclq
    have hrun : st.run (pre ++ [op]) = (st.run pre).step op := by
      rw [run_append]; rfl
    have hlen1 : (st.recvOver i (pre ++ [op])).length =
        (st.recvOver i pre).length + ((st.run pre).recvOver i [op]).length := by
      rw [recvOver_append, List.length_append]
    have hlen2 : (st.recvOver i ops).length = (st.recvOver i (pre ++ [op])).length +
        ((st.run (pre ++ [op])).recvOver i post).length := by
      rw [hops, show pre ++ op :: post = (pre ++ [op]) ++ post by simp, recvOver_append,
        List.length_append]
    rw [← hrun, p4, q4, seqAfter_noWrap _ _ (by omega), seqAfter_noWrap _ _ (by omega)]
    omega

/-- C13: on a secured session whose response buffer holds the `L` bytes `p` (`L` fits the
16-bit variable `len`), `_send` returns, and what it hands to `send` are the records of
the blocks of `p`, in order: there are `⌈L / 1024⌉` blocks, at most 64; block `k` is the slice of `p`
that starts at byte `1024 * k`, of 1024 bytes but for the last block, which holds the
`1..1024` bytes that remain; the blocks concatenated are `p`; the record of block `k` is
made under the counter `sendSeq + k` and is one chunk of `2 + len + 16` bytes, at most
`MaxHttpFrame = 1042`; and the send counter advances by the number of blocks. -/
theorem send_slices_response (e : Ext) (st : Server) (i : Nat) (p : List Nat)
    (hs : (st.sess i).secured = true) (hp : e.render (st.sess i).rsp = p)
    (hlen : p.length < 65536) :
    st._send e i = (true, st.sent i
      (recordEvents e (st.sess i).sid (st.sess i).AccessoryToControllerKey (st.sess i).sendSeq
        (blocks p)) (seqAfter (st.sess i).sendSeq (blocks p).length) true) ∧
    (blocks p).length = (p.length + 1023) / 1024 ∧ (blocks p).length ≤ 64 ∧
    (blocks p).flatten = p ∧
    (∀ k, k < (blocks p).length →
      (blocks p).getD k [] = (p.drop (k * 1024)).take 1024 ∧
      ((blocks p).getD k []).length =
        (if k + 1 < (blocks p).length then 1024 else p.length - k * 1024) ∧
      1 ≤ ((blocks p).getD k []).length ∧ ((blocks p).getD k []).length ≤ 1024 ∧
      (recordEvents e (st.sess i).sid (st.sess i).AccessoryToControllerKey (st.sess i).sendSeq
          (blocks p))[2 * k]? =
        some (Event.aead true (st.sess i).AccessoryToControllerKey
          (nonceOf ((st.sess i).sendSeq + k)) ((blocks p).getD k []).length) ∧
      (recordEvents e (st.sess i).sid (st.sess i).AccessoryToControllerKey (st.sess i).sendSeq
          (blocks p))[2 * k + 1]? =
        some (Event.send (st.sess i).sid (sealed e (st.sess i).AccessoryToControllerKey
          (nonceOf ((st.sess i).sendSeq + k)) ((blocks p).getD k []))) ∧
      (sealed e (st.sess i).AccessoryToControllerKey (nonceOf ((st.sess i).sendSeq + k))
          ((blocks p).getD k [])).length = 2 + ((blocks p).getD k []).length + 16 ∧
      (sealed e (st.sess i).AccessoryToControllerKey (nonceOf ((st.sess i).sendSeq + k))
          ((blocks p).getD k [])).length ≤ MaxHttpFrame) ∧
    (recordEvents e (st.sess i).sid (st.sess i).AccessoryToControllerKey (st.sess i).sendSeq
      (blocks p)).length = 2 * (blocks p).length ∧
    ((st.sess i).sendSeq + (blocks p).length < 2 ^ 64 →
      ((st._send e i).2.sess i).sendSeq = (st.sess i).sendSeq + (blocks p).length) := by
  have hsend := send_records e st i hs
  rw [hp, hs] at hsend
  have hn : (blocks p).length ≤ 64 := by
    rw [length_blocks]
    simp only [MaxHttpBlock]
    omega
  refine ⟨hsend, length_blocks p, hn, flatten_blocks p p.length (Nat.le_refl _), ?_,
    length_recordEvents _ _ _ _ _, ?_⟩
  · intro k hk
    have hmem : (blocks p).getD k [] ∈ blocks p := by
      rw [List.getD_eq_getElem?_getD, List.getElem?_eq_getElem hk, Option.getD_some]
      exact List.getElem_mem _
    obtain ⟨h1, h2⟩ := block_mem_length p _ hmem
    have h3 := block_length p k hk
    obtain ⟨h4, h5⟩ := recordEvents_get e (st.sess i).sid (st.sess i).AccessoryToControllerKey
      (blocks p) (st.sess i).sendSeq k hk
    have h6 := length_sealed e (st.sess i).AccessoryToControllerKey
      (nonceOf ((st.sess i).sendSeq + k)) ((blocks p).getD k [])
    refine ⟨?_, h3, h1, h2, h4, h5, h6, ?_⟩
    · rw [List.getD_eq_getElem?_getD, List.getElem?_eq_getElem hk, Option.getD_some]
      simp [blocks, MaxHttpBlock]
    · rw [h6]
      simp only [MaxHttpFrame, MaxHttpBlock] at h2 ⊢
      omega
  · intro hw
    rw [hsend]
    simp only [sent_sess_same, seqAfter]
    split
    · omega
    · exact Nat.mod_eq_of_lt hw

theorem lenBytes_decode (n : Nat) (h : n < 65536) :
    lenBytes n = [n % 256, n / 256] ∧
    (lenBytes n).getD 0 0 + 256 * (lenBytes n).getD 1 0 = n := by
  have h2 : n / 256 % 256 = n / 256 := Nat.mod_eq_of_lt (by omega)
  simp only [lenBytes, h2, List.getD_cons_zero, List.getD_cons_succ, true_and]
  omega

theorem le64_value (seq : Nat) :
    (∀ b ∈ le64 seq, b < 256) ∧
    ((List.range 8).map (fun i => (le64 seq).getD i 0 * 256 ^ i)).sum = seq % 2 ^ 64 := by
  refine ⟨?_, ?_⟩
  · intro b hb
    simp only [le64, List.mem_map, List.mem_range] at hb
    obtain ⟨i, _, rfl⟩ := hb
    exact Nat.mod_lt _ (by norm_num)
  · simp [le64, List.range, List.range.loop]
    omega

/-- C14: the format of a record on a secured valid session.  (1) The two length bytes of
a length below 65536 are its low and its high byte, and `p[0] + 256 * p[1]` gives the
length back.  (2) A nonce is four zero bytes, then the eight bytes of the counter, low
byte first.  (3) Outbound, `_send` makes the record of block `k` by one cipher call under
the nonce of the counter `sendSeq + k` with the two length bytes of the block as
associated data, and hands to `send` the length bytes, the encrypted block and the tag.
(4) Inbound, a record in this format whose length is at most 1024 is read back the same
way: the loop decrypts the bytes after the two length bytes under the nonce of the
receive counter with the two length bytes as associated data, compares the tag, and hands
the decrypted bytes to the parser. -/
theorem record_format (e : Ext) (st : Server) (sid : Nat) (hsid : sid < MaxHttpSessions)
    (hsec : (st.sess sid).secured = true) :
    (∀ n, n < 65536 →
      lenBytes n = [n % 256, n / 256] ∧
      (lenBytes n).getD 0 0 + 256 * (lenBytes n).getD 1 0 = n) ∧
    (∀ seq, nonceOf seq = [0, 0, 0, 0] ++ le64 seq ∧ (nonceOf seq).length = 12 ∧
      (∀ b ∈ le64 seq, b < 256) ∧
      ((List.range 8).map (fun i => (le64 seq).getD i 0 * 256 ^ i)).sum = seq % 2 ^ 64) ∧
    (∃ L q, st._send e sid = (true, st.sent sid L q true) ∧
      ∀ k, k < (blocks (e.render (st.sess sid).rsp)).length →
        L[2 * k]? = some (Event.aead true (st.sess sid).AccessoryToControllerKey
          (nonceOf ((st.sess sid).sendSeq + k))
          ((blocks (e.render (st.sess sid).rsp)).getD k []).length) ∧
        L[2 * k + 1]? = some (Event.send (st.sess sid).sid
          (lenBytes ((blocks (e.render (st.sess sid).rsp)).getD k []).length ++
            (e.aead true (st.sess sid).AccessoryToControllerKey
              (nonceOf ((st.sess sid).sendSeq + k))
              ((blocks (e.render (st.sess sid).rsp)).getD k [])
              (lenBytes ((blocks (e.render (st.sess sid).rsp)).getD k []).length)).1 ++
            (e.aead true (st.sess sid).AccessoryToControllerKey
              (nonceOf ((st.sess sid).sendSeq + k))
              ((blocks (e.render (st.sess sid).rsp)).getD k [])
              (lenBytes ((blocks (e.render (st.sess sid).rsp)).getD k []).length)).2))) ∧
    (∀ (ct tag extra : List Nat) (chunks : List (List Nat)) (tl : List RecvEv),
      ct.length ≤ MaxHttpBlock → tag.length = 16 →
      (record ct tag ++ extra).length ≤ e.sizeofdata → (∀ c ∈ chunks, c ≠ []) →
      chunks.flatten = record ct tag ++ extra →
      record ct tag = lenBytes ct.length ++ ct ++ tag ∧
      ((e.aead false (st.sess sid).ControllerToAccessoryKey (nonceOf (st.sess sid).recvSeq)
          ct (lenBytes ct.length)).2 = tag →
        ∃ rest, st.since (st.Process e sid (chunks.map RecvEv.data ++ tl)).2 =
          Event.aead false (st.sess sid).ControllerToAccessoryKey
              (nonceOf (st.sess sid).recvSeq) ct.length ::
            Event.parse (e.aead false (st.sess sid).ControllerToAccessoryKey
              (nonceOf (st.sess sid).recvSeq) ct (lenBytes ct.length)).1 :: rest) ∧
      ((e.aead false (st.sess sid).ControllerToAccessoryKey (nonceOf (st.sess sid).recvSeq)
          ct (lenBytes ct.length)).2 ≠ tag →
        st.Process e sid (chunks.map RecvEv.data ++ tl) =
          (some false, (st.entered sid).decrypted sid ct.length) ∧
        st.since (st.Process e sid (chunks.map RecvEv.data ++ tl)).2 =
          [Event.aead false (st.sess sid).ControllerToAccessoryKey
            (nonceOf (st.sess sid).recvSeq) ct.length])) := by
  refine ⟨lenBytes_decode, ?_, ?_, ?_⟩
  · intro seq
    exact ⟨rfl, by simp [nonceOf, le64], le64_value seq⟩
  · have hsend := send_records e st sid hsec
    rw [hsec] at hsend
    refine ⟨_, _, hsend, ?_⟩
    intro k hk
    obtain ⟨h1, h2⟩ := recordEvents_get e (st.sess sid).sid
      (st.sess sid).AccessoryToControllerKey (blocks (e.render (st.sess sid).rsp))
      (st.sess sid).sendSeq k hk
    unfold sealed at h2
    exact ⟨h1, h2⟩
  · intro ct tag extra chunks tl hn htl hfit hne hdel
    refine ⟨rfl, ?_, ?_⟩
    · intro hok
      exact Process_record_log e st sid ct tag extra chunks tl hsid hsec hn htl hfit hne hdel hok
    · intro hbad
      have hP := (Process_record_counts e st sid ct tag extra chunks tl hsid hsec hn htl hfit
        hne hdel).2 hbad
      refine ⟨hP, ?_⟩
      rw [hP]
      apply since_append
      rw [decrypted_log, entered_sess]
      rfl

/-- C15: on a valid session, (1) after a Pair-Verify M3 that verifies (the tag of its
`EncryptedData` verifies under the session key, the sub-TLV holds an identifier and a
signature, the identifier is paired) `AccessoryToControllerKey` is
`hkdf "Control-Salt" Z "Control-Read-Encryption-Key" 32` and `ControllerToAccessoryKey` is
`hkdf "Control-Salt" Z "Control-Write-Encryption-Key" 32`, where `Z` is the Curve25519
shared secret of the session; (2) on a secured session every cipher call of `_send`
encrypts under `AccessoryToControllerKey`; (3) every cipher call of the read loop of
`Process` decrypts under `ControllerToAccessoryKey`, and when the receive counter
advances the call starts with such a decryption. -/
theorem transport_keys (e : Ext) (st : Server) (sid : Nat) (hsid : sid < MaxHttpSessions) :
    (∀ (recv : List RecvEv) (req : Request) (id sg : List Nat) (ios : Nat),
      st.request e sid recv = some req → req.isPairVerifyM3 e = true →
      req.m3TagOk e (st.sess sid).key = some true →
      Tlv.get (req.m3Sub e (st.sess sid).key) Tlv.Kind.Identifier = some id →
      Tlv.get (req.m3Sub e (st.sess sid).key) Tlv.Kind.Signature = some sg →
      st.pairings.Get id = some ios →
      (st.Process e sid recv).1 = some true ∧
      ((st.Process e sid recv).2.sess sid).AccessoryToControllerKey =
        e.hkdf (cstr "Control-Salt") (st.sess sid).curve.shared
          (cstr "Control-Read-Encryption-Key") 32 ∧
      ((st.Process e sid recv).2.sess sid).ControllerToAccessoryKey =
        e.hkdf (cstr "Control-Salt") (st.sess sid).curve.shared
          (cstr "Control-Write-Encryption-Key") 32) ∧
    ((st.sess sid).secured = true →
      ∃ L q, st._send e sid = (true, st.sent sid L q true) ∧
        L = recordEvents e (st.sess sid).sid (st.sess sid).AccessoryToControllerKey
          (st.sess sid).sendSeq (blocks (e.render (st.sess sid).rsp)) ∧
        ∀ ev ∈ L, ev.cipherIs true (st.sess sid).AccessoryToControllerKey) ∧
    (∀ recv : List RecvEv,
      (∀ ev ∈ (st.entered sid).since ((st.entered sid).readLoop e sid sid recv []).state,
        ev.cipherIs false (st.sess sid).ControllerToAccessoryKey) ∧
      (((st.Process e sid recv).2.sess sid).recvSeq ≠ (st.sess sid).recvSeq →
        ∃ n rest, st.since (st.Process e sid recv).2 =
          Event.aead false (st.sess sid).ControllerToAccessoryKey
            (nonceOf (st.sess sid).recvSeq) n :: rest)) := by
  refine ⟨?_, ?_, ?_⟩
  · intro recv req id sg ios hreq hM3 htag hid hsg hget
    obtain ⟨h0, h1, h2, _, _⟩ := Process_M3_keys e st sid recv req id sg ios hsid hreq hM3 htag
      hid hsg hget
    exact ⟨h0, h1, h2⟩
  · intro hsec
    have hsend := send_records e st sid hsec
    rw [hsec] at hsend
    exact ⟨_, _, hsend, rfl, recordEvents_cipher _ _ _ _ _⟩
  · intro recv
    refine ⟨?_, ?_⟩
    · have h := readLoop_cipher e (st.entered sid) sid sid recv []
      rw [entered_sess] at h
      exact h
    · intro hne
      rcases Process_recvSeq e st sid recv hsid with ⟨h, _⟩ | ⟨_, _, h⟩
      · exact absurd h hne
      · exact h

/-- C16: on a valid session, (1) `Process` returns false exactly when `recv` has a return
before which the call was still waiting for data and at which one of the reasons of
`rejects` holds for the bytes received so far: a read error, a return of zero, on a
secured session a length prefix above 1024 or a complete record whose tag does not
verify, a parser that answers `Error`, or on a secured session a decrypted record on which
the parser answers `Incomplete`; (2) `Process` returns true exactly when a request is
parsed; (3) whatever the handler of a parsed request answers, `Process` returns true, the
session stays open, and the last events of the call are the response the handler left
going to `send`: as one chunk on a session that is not secured, as the records of its
blocks on a secured one. -/
theorem process_returns_false_exactly (e : Ext) (st : Server) (sid : Nat) (recv : List RecvEv)
    (hsid : sid < MaxHttpSessions) :
    ((st.Process e sid recv).1 = some false ↔
      ∃ pre ev post, recv = pre ++ ev :: post ∧ (st.Process e sid pre).1 = none ∧
        st.rejects e sid (buffered e pre []) ev) ∧
    ((st.Process e sid recv).1 = some true ↔ ∃ req, st.request e sid recv = some req) ∧
    (∀ req, st.request e sid recv = some req →
      (st.Process e sid recv).1 = some true ∧
      ((st.Process e sid recv).2.sess sid).opened = (st.sess sid).opened ∧
      ((st.sess sid).secured = false →
        ∃ l, st.since (st.Process e sid recv).2 = l ++
          [Event.send (st.sess sid).sid (e.render ((st.Process e sid recv).2.sess sid).rsp)]) ∧
      ((st.sess sid).secured = true →
        ∃ l, st.since (st.Process e sid recv).2 = l ++
          recordEvents e (st.sess sid).sid
            ((st.Process e sid recv).2.sess sid).AccessoryToControllerKey (st.sess sid).sendSeq
            (blocks (e.render ((st.Process e sid recv).2.sess sid).rsp)))) := by
  obtain ⟨-, hf, ht⟩ := Process_value e st sid recv hsid
  refine ⟨?_, ht, ?_⟩
  · rw [hf, readLoop_fail_iff]
    constructor
    · rintro ⟨pre, ev, post, h1, h2, h3⟩
      exact ⟨pre, ev, post, h1, (Process_value e st sid pre hsid).1.mpr h2,
        (rejects_entered e st sid _ ev).mp h3⟩
    · rintro ⟨pre, ev, post, h1, h2, h3⟩
      exact ⟨pre, ev, post, h1, (Process_value e st sid pre hsid).1.mp h2,
        (rejects_entered e st sid _ ev).mpr h3⟩
  · intro req hreq
    obtain ⟨l, m, L, hv, hlog, -, -, hop, -, hu, hs⟩ := Process_course e st sid recv req hsid hreq
    refine ⟨hv, hop, ?_, ?_⟩
    · intro hc
      obtain ⟨-, hL, -⟩ := hu hc
      refine ⟨l ++ m, ?_⟩
      rw [since_append st _ _ hlog, ← hL]
    · intro hc
      obtain ⟨-, hL, -⟩ := hs hc
      refine ⟨l ++ m, ?_⟩
      rw [since_append st _ _ hlog, ← hL]

/-- C17: a Pair-Setup M3 or M5 parsed on a valid session that does not own the pairing
(`srp` is `NULL`, or `srp_owner` is not the id of the session) is answered with the TLV
`{State=M4, Error=Unknown}` for M3 and `{State=M6, Error=Unknown}` for M5; `Process`
returns true, and `srp`, `srp_owner`, the stored shared secret, the pairings store and the
session key are as they were. -/
theorem pairSetup_needs_owner (e : Ext) (st : Server) (sid : Nat) (recv : List RecvEv)
    (req : Request) (hsid : sid < MaxHttpSessions) (hreq : st.request e sid recv = some req)
    (hno : st.srp = none ∨ st.srp_owner ≠ (st.sess sid).sid) (hroom : 6 ≤ e.rspSize) :
    ((req.isPairSetupM3 e = true →
        ((st.Process e sid recv).2.sess sid).rsp.data =
          Data.tlv [⟨Tlv.Kind.State, [Tlv.State.M4]⟩, ⟨Tlv.Kind.Error, [Tlv.Error.Unknown]⟩]) ∧
      (req.isPairSetupM5 e = true →
        ((st.Process e sid recv).2.sess sid).rsp.data =
          Data.tlv [⟨Tlv.Kind.State, [Tlv.State.M6]⟩, ⟨Tlv.Kind.Error, [Tlv.Error.Unknown]⟩])) ∧
    (req.isPairSetupM3 e = true ∨ req.isPairSetupM5 e = true →
      (st.Process e sid recv).1 = some true ∧
      (st.Process e sid recv).2.srp = st.srp ∧
      (st.Process e sid recv).2.srp_owner = st.srp_owner ∧
      (st.Process e sid recv).2.srp_shared_secret = st.srp_shared_secret ∧
      (st.Process e sid recv).2.pairings = st.pairings ∧
      ((st.Process e sid recv).2.sess sid).key = (st.sess sid).key) := by
  have h3 : req.isPairSetupM3 e = true →
      ((st.Process e sid recv).2.sess sid).rsp.data =
        Data.tlv [⟨Tlv.Kind.State, [Tlv.State.M4]⟩, ⟨Tlv.Kind.Error, [Tlv.Error.Unknown]⟩] ∧
      (st.Process e sid recv).1 = some true ∧
      (st.Process e sid recv).2.srp = st.srp ∧
      (st.Process e sid recv).2.srp_owner = st.srp_owner ∧
      (st.Process e sid recv).2.srp_shared_secret = st.srp_shared_secret ∧
      (st.Process e sid recv).2.pairings = st.pairings ∧
      ((st.Process e sid recv).2.sess sid).key = (st.sess sid).key := by
    intro hM3
    obtain ⟨l, s, L, q, _, _, hP⟩ := Process_pairSetupM3 e st sid recv req hsid hreq hM3
    obtain ⟨_, hkey, hsidf, hsrp, hown, hsh, hpair, _⟩ := start_of_handler e st sid req l s
    have hh := pairSetup3_notOwner e ((st.parsed sid l s).withTlv e sid req.data) sid
      (by rw [hsrp, hown, hsidf]; exact hno)
    rw [hP, hh]
    simp only [sent_sess_same, setSess_sess_same, error_reply _ _ _ _ hroom, sent_srp,
      setSess_srp, emit_srp, sent_srp_owner, setSess_srp_owner, emit_srp_owner, sent_shared,
      setSess_shared, emit_shared, sent_pairings, setSess_pairings, emit_pairings, hsrp, hown,
      hsh, hpair, true_and]
    exact hkey
  have h5 : req.isPairSetupM5 e = true →
      ((st.Process e sid recv).2.sess sid).rsp.data =
        Data.tlv [⟨Tlv.Kind.State, [Tlv.State.M6]⟩, ⟨Tlv.Kind.Error, [Tlv.Error.Unknown]⟩] ∧
      (st.Process e sid recv).1 = some true ∧
      (st.Process e sid recv).2.srp = st.srp ∧
      (st.Process e sid recv).2.srp_owner = st.srp_owner ∧
      (st.Process e sid recv).2.srp_shared_secret = st.srp_shared_secret ∧
      (st.Process e sid recv).2.pairings = st.pairings ∧
      ((st.Process e sid recv).2.sess sid).key = (st.sess sid).key := by
    intro hM5
    obtain ⟨l, s, L, q, _, _, hP⟩ := Process_pairSetupM5 e st sid recv req hsid hreq hM5
    obtain ⟨_, hkey, hsidf, hsrp, hown, hsh, hpair, _⟩ := start_of_handler e st sid req l s
    have hh := pairSetup5_notOwner e ((st.parsed sid l s).withTlv e sid req.data) sid
      (by rw [hsrp, hown, hsidf]; exact hno)
    rw [hP, hh]
    simp only [sent_sess_same, setSess_sess_same, error_reply _ _ _ _ hroom, sent_srp,
      setSess_srp, emit_srp, sent_srp_owner, setSess_srp_owner, emit_srp_owner, sent_shared,
      setSess_shared, emit_shared, sent_pairings, setSess_pairings, emit_pairings, hsrp, hown,
      hsh, hpair, true_and]
    exact hkey
  refine ⟨⟨fun h => (h3 h).1, fun h => (h5 h).1⟩, ?_⟩
  rintro (h | h)
  · exact (h3 h).2
  · exact (h5 h).2

theorem tlv_put_after_state (n : Nat) (a : Nat) (t : Tlv.Kind) (v : List Nat)
    (h : 3 + Tlv.itemSize v.length ≤ n) :
    ((Tlv.Create.create n).put Tlv.Kind.State [a]).put t v =
      ⟨n, [⟨Tlv.Kind.State, [a]⟩, ⟨t, v⟩], 3 + Tlv.itemSize v.length⟩ := by
  have h3 : 3 ≤ n := by omega
  simp [Tlv.Create.create, Tlv.Create.put, Tlv.Create.add, h3, h,
    show Tlv.itemSize 1 = 3 from rfl]

/-- C18: a Pair-Setup M3 parsed on the valid session that owns the pairing (`srp` is set
and `srp_owner` is the id of the session).  With `PublicKey` (at most 384 bytes) and
`Proof` (at most 64 bytes) in the TLV and the SRP key computed: (1) when `SRP_verify`
rejects the proof the reply is `{State=M4, Error=Authentication}` and `srp`, `srp_owner`
are kept; (3) when it accepts and `SRP_respond` gives a proof the reply is
`{State=M4, Proof}` with no `Error` item and `srp`, `srp_owner` are kept.  (2) On a hard
failure (`PublicKey` or `Proof` not found, `SRP_compute_key` fails, or `SRP_respond`
fails) the reply is `{State=M4, Error=Unknown}` and the pairing is released: `srp` is
`NULL` and `srp_owner` is `sid_invalid`. -/
theorem pairSetupM3_outcomes (e : Ext) (st : Server) (sid : Nat) (recv : List RecvEv)
    (req : Request) (srp : SRP) (hsid : sid < MaxHttpSessions)
    (hreq : st.request e sid recv = some req) (hM3 : req.isPairSetupM3 e = true)
    (hsrp : st.srp = some srp) (hown : st.srp_owner = (st.sess sid).sid) :
    (∀ iosKey iosProof key,
      Tlv.getBuf (e.tlvParse req.data) Tlv.Kind.PublicKey 384 = some iosKey →
      Tlv.getBuf (e.tlvParse req.data) Tlv.Kind.Proof 64 = some iosProof →
      e.SRP_compute_key srp iosKey = some key →
      e.SRP_verify srp ((iosProof ++ e.scratch).take 64) = false → 6 ≤ e.rspSize →
      ((st.Process e sid recv).2.sess sid).rsp.data =
        Data.tlv [⟨Tlv.Kind.State, [Tlv.State.M4]⟩,
          ⟨Tlv.Kind.Error, [Tlv.Error.Authentication]⟩] ∧
      (st.Process e sid recv).2.srp = st.srp ∧
      (st.Process e sid recv).2.srp_owner = st.srp_owner) ∧
    ((Tlv.getBuf (e.tlvParse req.data) Tlv.Kind.PublicKey 384 = none ∨
      Tlv.getBuf (e.tlvParse req.data) Tlv.Kind.Proof 64 = none ∨
      (∃ iosKey, Tlv.getBuf (e.tlvParse req.data) Tlv.Kind.PublicKey 384 = some iosKey ∧
        e.SRP_compute_key srp iosKey = none) ∨
      (∃ iosKey iosProof key,
        Tlv.getBuf (e.tlvParse req.data) Tlv.Kind.PublicKey 384 = some iosKey ∧
        Tlv.getBuf (e.tlvParse req.data) Tlv.Kind.Proof 64 = some iosProof ∧
        e.SRP_compute_key srp iosKey = some key ∧
        e.SRP_verify srp ((iosProof ++ e.scratch).take 64) = true ∧
        e.SRP_respond srp = none)) → 6 ≤ e.rspSize →
      ((st.Process e sid recv).2.sess sid).rsp.data =
        Data.tlv [⟨Tlv.Kind.State, [Tlv.State.M4]⟩, ⟨Tlv.Kind.Error, [Tlv.Error.Unknown]⟩] ∧
      (st.Process e sid recv).2.srp = none ∧
      (st.Process e sid recv).2.srp_owner = sid_invalid) ∧
    (∀ iosKey iosProof key rsp,
      Tlv.getBuf (e.tlvParse req.data) Tlv.Kind.PublicKey 384 = some iosKey →
      Tlv.getBuf (e.tlvParse req.data) Tlv.Kind.Proof 64 = some iosProof →
      e.SRP_compute_key srp iosKey = some key →
      e.SRP_verify srp ((iosProof ++ e.scratch).take 64) = true →
      e.SRP_respond srp = some rsp → 3 + Tlv.itemSize rsp.length ≤ e.rspSize →
      ((st.Process e sid recv).2.sess sid).rsp.data =
        Data.tlv [⟨Tlv.Kind.State, [Tlv.State.M4]⟩, ⟨Tlv.Kind.Proof, rsp⟩] ∧
      (st.Process e sid recv).2.srp = st.srp ∧
      (st.Process e sid recv).2.srp_owner = st.srp_owner) := by
  obtain ⟨l, s, L, q, _, _, hP⟩ := Process_pairSetupM3 e st sid recv req hsid hreq hM3
  obtain ⟨htlvi, _, hsidf, hsrp2, hown2, hsh, _, _⟩ := start_of_handler e st sid req l s
  obtain ⟨hhard, hrest⟩ := pairSetup3_owner e ((st.parsed sid l s).withTlv e sid req.data) sid
    srp (by rw [hsrp2]; exact hsrp) (by rw [hown2, hsidf]; exact hown)
  rw [htlvi] at hhard hrest
  refine ⟨?_, ?_, ?_⟩
  · intro iosKey iosProof key hpk hpf hck hv hroom
    rw [hP, (hrest iosKey iosProof key hpk hpf hck).1 hv]
    refine ⟨?_, ?_, ?_⟩
    · simp [Session.tlvBegin, Session.addError, Session.tlvEnd, tlv_put2 _ _ _ _ _ hroom]
    · simp [hsrp2]
    · simp [hown2]
  · intro h hroom
    rcases h with h | h | h | ⟨iosKey, iosProof, key, hpk, hpf, hck, hv, hr⟩
    · rw [hP, hhard (Or.inl h)]
      exact ⟨by simp [error_reply _ _ _ _ hroom], rfl, rfl⟩
    · rw [hP, hhard (Or.inr (Or.inl h))]
      exact ⟨by simp [error_reply _ _ _ _ hroom], rfl, rfl⟩
    · rw [hP, hhard (Or.inr (Or.inr h))]
      exact ⟨by simp [error_reply _ _ _ _ hroom], rfl, rfl⟩
    · rw [hP, (hrest iosKey iosProof key hpk hpf hck).2.1 hv hr]
      refine ⟨?_, rfl, rfl⟩
      simp [Session.tlvBegin, Session.addError, Session.tlvEnd, tlv_put2 _ _ _ _ _ hroom]
  · intro iosKey iosProof key rsp hpk hpf hck hv hr hroom
    rw [hP, (hrest iosKey iosProof key hpk hpf hck).2.2 rsp hv hr]
    refine ⟨?_, ?_, ?_⟩
    · simp [Session.tlvBegin, Session.tlvEnd, tlv_put_after_state _ _ _ _ hroom]
    · simp [hsrp2]
    · simp [hown2]

/-- C19: a Pair-Setup M5 parsed on the valid session that owns the pairing, whose
`EncryptedData` has a tag that verifies under the session key with the nonce `PS-Msg05`
and whose sub-TLV holds `Identifier`, `PublicKey` and `Signature`.  (1) When the pairings
store accepts the record: the store is the one `Add (Identifier, PublicKey, Admin)`
leaves, which holds the record; the reply is `{State=M6, EncryptedData}` with no `Error`
item (given room for it in the response buffer); the configuration update callback is
called exactly once during the call; and the pairing is released (`srp` is `NULL`,
`srp_owner` is `sid_invalid`).  (2) When the store rejects the record the reply is
`{State=M6, Error=MaxPeers}`, the store is unchanged and the callback is not called. -/
theorem pairSetupM5_adds_pairing (e : Ext) (st : Server) (sid : Nat) (recv : List RecvEv)
    (req : Request) (id ltpk sg : List Nat) (hsid : sid < MaxHttpSessions)
    (hreq : st.request e sid recv = some req) (hM5 : req.isPairSetupM5 e = true)
    (hsrp : st.srp.isSome = true) (hown : st.srp_owner = (st.sess sid).sid)
    (htag : req.m5TagOk e (st.sess sid).key = some true)
    (hid : Tlv.get (req.m5Sub e (st.sess sid).key) Tlv.Kind.Identifier = some id)
    (hpk : Tlv.get (req.m5Sub e (st.sess sid).key) Tlv.Kind.PublicKey = some ltpk)
    (hsg : Tlv.get (req.m5Sub e (st.sess sid).key) Tlv.Kind.Signature = some sg) :
    ((st.pairings.Add id ltpk Controller.Admin).1 = true →
      (st.Process e sid recv).2.pairings = (st.pairings.Add id ltpk Controller.Admin).2 ∧
      (⟨Controller.Admin, padTo Controller.IdLen id, padTo Controller.KeyLen ltpk⟩ :
        Controller) ∈ (st.Process e sid recv).2.pairings.db ∧
      (3 + Tlv.itemSize (accessoryM6 e st (st.sess sid)).1.length ≤ e.rspSize →
        ((st.Process e sid recv).2.sess sid).rsp.data =
          Data.tlv [⟨Tlv.Kind.State, [Tlv.State.M6]⟩,
            ⟨Tlv.Kind.EncryptedData, (accessoryM6 e st (st.sess sid)).1⟩]) ∧
      (st.since (st.Process e sid recv).2).count Event.configUpdate = 1 ∧
      (st.Process e sid recv).2.srp = none ∧
      (st.Process e sid recv).2.srp_owner = sid_invalid) ∧
    ((st.pairings.Add id ltpk Controller.Admin).1 = false →
      (6 ≤ e.rspSize →
        ((st.Process e sid recv).2.sess sid).rsp.data =
          Data.tlv [⟨Tlv.Kind.State, [Tlv.State.M6]⟩,
            ⟨Tlv.Kind.Error, [Tlv.Error.MaxPeers]⟩]) ∧
      (st.Process e sid recv).2.pairings = st.pairings ∧
      (st.since (st.Process e sid recv).2).count Event.configUpdate = 0) := by
  obtain ⟨l, s, L, q, hl, hL, hP⟩ := Process_pairSetupM5 e st sid recv req hsid hreq hM5
  obtain ⟨htlvi, hkey, hsidf, hsrp2, hown2, hsh, hpair, hlog⟩ :=
    start_of_handler e st sid req l s
  have hdata := m5_of_tlvi e st sid req l s
  simp only [Request.m5TagOk, Option.map_eq_some'] at htag
  obtain ⟨enc, henc, htag⟩ := htag
  simp only [Request.m5Sub, henc] at hid hpk hsg
  obtain ⟨hrej, hacc⟩ := pairSetup5_owner e ((st.parsed sid l s).withTlv e sid req.data) sid
    enc id ltpk sg (by rw [hsrp2]; exact hsrp) (by rw [hown2, hsidf]; exact hown)
    (by rw [hdata, henc]) (by rw [hkey]; exact htag) (by rw [hkey]; exact hid)
    (by rw [hkey]; exact hpk) (by rw [hkey]; exact hsg)
  have hm6 : accessoryM6 e ((st.parsed sid l s).withTlv e sid req.data)
      (((st.parsed sid l s).withTlv e sid req.data).sess sid) =
      accessoryM6 e st (st.sess sid) := by
    simp only [accessoryM6, hsh, hkey]
  have hcl := count_wire Event.configUpdate rfl l hl
  have hcL := count_wire Event.configUpdate rfl L hL
  refine ⟨?_, ?_⟩
  · intro hadd
    have hadd2 : (((st.parsed sid l s).withTlv e sid req.data).pairings.Add id ltpk
        Controller.Admin).1 = true := by rw [hpair]; exact hadd
    rw [hP, hacc hadd2, hm6, hpair, hlog]
    refine ⟨rfl, add_mem _ _ _ _ hadd, ?_, ?_, rfl, rfl⟩
    · intro hroom
      simp [Session.tlvBegin, Session.tlvEnd, tlv_put_after_state _ _ _ _ hroom]
    · rw [since_append st _ (l ++ [Event.handler "_pairSetup5",
        Event.aead false (((st.parsed sid l s).withTlv e sid req.data).sess sid).key noncePS05
          (openEncrypted e (((st.parsed sid l s).withTlv e sid req.data).sess sid).key
            noncePS05 enc).1,
        (accessoryM6 e st (st.sess sid)).2, Event.configUpdate, Event.SRP_free] ++ L)
        (by simp [List.append_assoc])]
      simp [List.count_append, hcl, hcL, accessoryM6, List.count_cons]
  · intro hadd
    have hadd2 : (((st.parsed sid l s).withTlv e sid req.data).pairings.Add id ltpk
        Controller.Admin).1 = false := by rw [hpair]; exact hadd
    rw [hP, hrej hadd2]
    refine ⟨?_, ?_, ?_⟩
    · intro hroom
      simp [error_reply _ _ _ _ hroom]
    · simp [hpair]
    · rw [since_append st _ (l ++ [Event.handler "_pairSetup5",
        Event.aead false (((st.parsed sid l s).withTlv e sid req.data).sess sid).key noncePS05
          (openEncrypted e (((st.parsed sid l s).withTlv e sid req.data).sess sid).key
            noncePS05 enc).1] ++ L)
        (by simp [hlog, List.append_assoc])]
      simp [List.count_append, hcl, hcL, List.count_cons]

/-- C20: the signature of the controller is not verified.  Take two calls of `Process`
on the same valid session in the same state, each of which parses a request.  (1) If
both requests are Pair-Setup M5 whose `EncryptedData` agree on whether the tag verifies
and whose decrypted sub-TLVs agree on `Identifier` and `PublicKey` and both hold or both
lack a `Signature` item, the two calls return the same value and leave the same
response, pairings store and pairing in progress.  (2) If both requests are
Pair-Verify M3 whose `EncryptedData` agree on whether the tag verifies and whose
decrypted sub-TLVs agree on `Identifier` and both hold or both lack a `Signature` item,
the two calls return the same value and leave the same response, bound controller,
transport keys and `secured` flag.  The bytes of the signature are not among the
hypotheses. -/
theorem signature_not_verified (e : Ext) (st : Server) (sid : Nat) (recv1 recv2 : List RecvEv)
    (req1 req2 : Request) (hsid : sid < MaxHttpSessions)
    (h1 : st.request e sid recv1 = some req1) (h2 : st.request e sid recv2 = some req2) :
    (req1.isPairSetupM5 e = true → req2.isPairSetupM5 e = true →
      req1.m5TagOk e (st.sess sid).key = req2.m5TagOk e (st.sess sid).key →
      Tlv.get (req1.m5Sub e (st.sess sid).key) Tlv.Kind.Identifier =
        Tlv.get (req2.m5Sub e (st.sess sid).key) Tlv.Kind.Identifier →
      Tlv.get (req1.m5Sub e (st.sess sid).key) Tlv.Kind.PublicKey =
        Tlv.get (req2.m5Sub e (st.sess sid).key) Tlv.Kind.PublicKey →
      (Tlv.get (req1.m5Sub e (st.sess sid).key) Tlv.Kind.Signature).isSome =
        (Tlv.get (req2.m5Sub e (st.sess sid).key) Tlv.Kind.Signature).isSome →
      (st.Process e sid recv1).1 = (st.Process e sid recv2).1 ∧
      ((st.Process e sid recv1).2.sess sid).rsp = ((st.Process e sid recv2).2.sess sid).rsp ∧
      (st.Process e sid recv1).2.pairings = (st.Process e sid recv2).2.pairings ∧
      (st.Process e sid recv1).2.srp = (st.Process e sid recv2).2.srp ∧
      (st.Process e sid recv1).2.srp_owner = (st.Process e sid recv2).2.srp_owner) ∧
    (req1.isPairVerifyM3 e = true → req2.isPairVerifyM3 e = true →
      req1.m3TagOk e (st.sess sid).key = req2.m3TagOk e (st.sess sid).key →
      Tlv.get (req1.m3Sub e (st.sess sid).key) Tlv.Kind.Identifier =
        Tlv.get (req2.m3Sub e (st.sess sid).key) Tlv.Kind.Identifier →
      (Tlv.get (req1.m3Sub e (st.sess sid).key) Tlv.Kind.Signature).isSome =
        (Tlv.get (req2.m3Sub e (st.sess sid).key) Tlv.Kind.Signature).isSome →
      (st.Process e sid recv1).1 = (st.Process e sid recv2).1 ∧
      ((st.Process e sid recv1).2.sess sid).rsp = ((st.Process e sid recv2).2.sess sid).rsp ∧
      ((st.Process e sid recv1).2.sess sid).ios = ((st.Process e sid recv2).2.sess sid).ios ∧
      ((st.Process e sid recv1).2.sess sid).AccessoryToControllerKey =
        ((st.Process e sid recv2).2.sess sid).AccessoryToControllerKey ∧
      ((st.Process e sid recv1).2.sess sid).ControllerToAccessoryKey =
        ((st.Process e sid recv2).2.sess sid).ControllerToAccessoryKey ∧
      ((st.Process e sid recv1).2.sess sid).secured =
        ((st.Process e sid recv2).2.sess sid).secured) := by
  obtain ⟨l1, s1, L1, q1, -, -, hP1, -⟩ := Process_parsed e st sid recv1 req1 hsid h1
  obtain ⟨l2, s2, L2, q2, -, -, hP2, -⟩ := Process_parsed e st sid recv2 req2 hsid h2
  obtain ⟨-, ak, asid, asrp, aown, ash, apair, -⟩ := start_of_handler e st sid req1 l1 s1
  obtain ⟨-, bk, bsid, bsrp, bown, bsh, bpair, -⟩ := start_of_handler e st sid req2 l2 s2
  obtain ⟨ac, ai, aa, ab⟩ := start_of_verify e st sid req1 l1 s1
  obtain ⟨bc, bi, ba, bb⟩ := start_of_verify e st sid req2 l2 s2
  refine ⟨?_, ?_⟩
  · intro hM1 hM2 htag hid hpk hsg
    have ad := m5_of_tlvi e st sid req1 l1 s1
    have bd := m5_of_tlvi e st sid req2 l2 s2
    rw [hP1, hP2, route_pairSetupM5 e _ sid req1 _ hM1, route_pairSetupM5 e _ sid req2 _ hM2]
    obtain ⟨r1, r2, r3, r4⟩ := pairSetup5_signature e
      ((st.parsed sid l1 s1).withTlv e sid req1.data)
      ((st.parsed sid l2 s2).withTlv e sid req2.data) sid
      (by rw [asrp, bsrp]) (by rw [aown, bown]) (by rw [apair, bpair]) (by rw [ash, bsh])
      (by rw [ak, bk]) (by rw [asid, bsid])
      (by rw [ad, bd, ak]; exact htag)
      (by
        intro x y hx hy
        rw [ad] at hx
        rw [bd] at hy
        rw [ak]
        simp only [Request.m5Sub, hx, hy] at hid hpk hsg
        exact ⟨hid, hpk, hsg⟩)
    obtain ⟨x1, -, -, -, -, x6, x7, x8⟩ := sent_sess
      (((st.parsed sid l1 s1).withTlv e sid req1.data)._pairSetup5 e sid) sid L1 q1
      (st.sess sid).secured
    obtain ⟨y1, -, -, -, -, y6, y7, y8⟩ := sent_sess
      (((st.parsed sid l2 s2).withTlv e sid req2.data)._pairSetup5 e sid) sid L2 q2
      (st.sess sid).secured
    exact ⟨rfl, by rw [x1, y1, r1], by rw [x6, y6, r2], by rw [x7, y7, r3],
      by rw [x8, y8, r4]⟩
  · intro hM1 hM2 htag hid hsg
    obtain ⟨ad, -⟩ := m3_of_tlvi e st sid req1 l1 s1
    obtain ⟨bd, -⟩ := m3_of_tlvi e st sid req2 l2 s2
    rw [hP1, hP2, route_pairVerifyM3 e _ sid req1 _ hM1,
      route_pairVerifyM3 e _ sid req2 _ hM2]
    obtain ⟨r1, r2, r3, r4⟩ := pairVerify3_signature e
      ((st.parsed sid l1 s1).withTlv e sid req1.data)
      ((st.parsed sid l2 s2).withTlv e sid req2.data) sid
      (by rw [apair, bpair]) (by rw [ak, bk]) (by rw [ac, bc]) (by rw [ai, bi])
      (by rw [aa, ba]) (by rw [ab, bb])
      (by rw [ad, bd, ak]; exact htag)
      (by
        intro x y hx hy
        rw [ad] at hx
        rw [bd] at hy
        rw [ak]
        simp only [Request.m3Sub, hx, hy] at hid hsg
        exact ⟨hid, hsg⟩)
    obtain ⟨x1, x2, x3, x4, x5, -⟩ := sent_sess
      (((st.parsed sid l1 s1).withTlv e sid req1.data)._pairVerify3 e sid) sid L1 q1
      ((((st.parsed sid l1 s1).withTlv e sid req1.data)._pairVerify3 e sid).sess sid).ios.isSome
    obtain ⟨y1, y2, y3, y4, y5, -⟩ := sent_sess
      (((st.parsed sid l2 s2).withTlv e sid req2.data)._pairVerify3 e sid) sid L2 q2
      ((((st.parsed sid l2 s2).withTlv e sid req2.data)._pairVerify3 e sid).sess sid).ios.isSome
    exact ⟨rfl, by rw [x1, y1, r1], by rw [x2, y2, r2], by rw [x3, y3, r3],
      by rw [x4, y4, r4], by rw [x5, y5, r2]⟩

/-- C21: (1) an `AddPairing` request parsed on a valid secured session whose bound
controller is an admin, with the three items, for an identifier that is not in the store,
when the store holds `MaxPairings = 10` records: the reply is
`{State=M2, Error=MaxPeers}`, the store is unchanged and the update callback is not
called.  (2) Hence, in a run from a store of `MaxPairings` places whose only changes of
the store are ten successful `AddPairing` calls (answered `{State=M2}`), for identifiers
that differ as stored and with permissions other than `None`, an `AddPairing` for one more
identifier that differs from the ten is answered `{State=M2, Error=MaxPeers}`, the store
unchanged and the callback not called.  (The response region has room for the two
items.) -/
theorem addPairing_store_full :
    (∀ (e : Ext) (st : Server) (sid : Nat) (recv : List RecvEv) (req : Request)
      (id key : List Nat) (perm : Nat),
      sid < MaxHttpSessions → st.request e sid recv = some req →
      (st.sess sid).secured = true → req.isPairingsOf e Tlv.Method.AddPairing = true →
      st.iosPerm (st.sess sid) = Controller.Admin →
      Tlv.get (e.tlvParse req.data) Tlv.Kind.Identifier = some id →
      Tlv.get (e.tlvParse req.data) Tlv.Kind.PublicKey = some key →
      Tlv.getByte (e.tlvParse req.data) Tlv.Kind.Permissions = some perm →
      st.pairings.db.length = MaxPairings → st.pairings.Count Controller.None = MaxPairings →
      st.pairings.Get id = none → 6 ≤ e.rspSize →
      ((st.Process e sid recv).2.sess sid).rsp.data =
        Data.tlv [⟨Tlv.Kind.State, [Tlv.State.M2]⟩,
          ⟨Tlv.Kind.Error, [Tlv.Error.MaxPeers]⟩] ∧
      (st.Process e sid recv).2.pairings = st.pairings ∧
      (st.since (st.Process e sid recv).2).count Event.configUpdate = 0) ∧
    (∀ (st : Server) (ops : List Op) (ids : List (List Nat)) (e : Ext) (sid : Nat)
      (recv : List RecvEv) (id : List Nat),
      st.pairings.db.length = MaxPairings → ids.length = MaxPairings →
      st.addsOnly ops ids = true → ((ids ++ [id]).map (padTo Controller.IdLen)).Nodup →
      (Op.Process e sid recv).isAddPairing (st.run ops) id = true →
      (((st.run ops).Process e sid recv).2.sess sid).rsp.data =
        Data.tlv [⟨Tlv.Kind.State, [Tlv.State.M2]⟩,
          ⟨Tlv.Kind.Error, [Tlv.Error.MaxPeers]⟩] ∧
      ((st.run ops).Process e sid recv).2.pairings = (st.run ops).pairings ∧
      ((st.run ops).since ((st.run ops).Process e sid recv).2).count Event.configUpdate = 0) := by
  have part1 : ∀ (e : Ext) (st : Server) (sid : Nat) (recv : List RecvEv) (req : Request)
      (id key : List Nat) (perm : Nat),
      sid < MaxHttpSessions → st.request e sid recv = some req →
      (st.sess sid).secured = true → req.isPairingsOf e Tlv.Method.AddPairing = true →
      st.iosPerm (st.sess sid) = Controller.Admin →
      Tlv.get (e.tlvParse req.data) Tlv.Kind.Identifier = some id →
      Tlv.get (e.tlvParse req.data) Tlv.Kind.PublicKey = some key →
      Tlv.getByte (e.tlvParse req.data) Tlv.Kind.Permissions = some perm →
      st.pairings.Count Controller.None = st.pairings.db.length →
      st.pairings.Get id = none → 6 ≤ e.rspSize →
      ((st.Process e sid recv).2.sess sid).rsp.data =
        Data.tlv [⟨Tlv.Kind.State, [Tlv.State.M2]⟩,
          ⟨Tlv.Kind.Error, [Tlv.Error.MaxPeers]⟩] ∧
      (st.Process e sid recv).2.pairings = st.pairings ∧
      (st.since (st.Process e sid recv).2).count Event.configUpdate = 0 := by
    intro e st sid recv req id key perm hsid hreq hs hp hadmin hid hkey hpm hfull hget hroom
    obtain ⟨l, s, L, q, hl, hL, hP⟩ := Process_pairingsOf e st sid recv req _ hsid hreq hs hp
    rw [if_pos rfl] at hP
    obtain ⟨htlvi, -, -, -, -, -, hpair, -⟩ := start_of_handler e st sid req l s
    obtain ⟨-, hperm⟩ := start_of_pairings e st sid req l s
    obtain ⟨-, hitems⟩ := pairingAdd_admin e ((st.parsed sid l s).withTlv e sid req.data) sid
      (by rw [hperm]; exact hadmin)
    rw [htlvi, hpair] at hitems
    rw [((hitems id key perm hid hkey hpm).2 hget).1 (add_full _ _ _ _ hfull)] at hP
    obtain ⟨-, h2, h3, h4⟩ := Process_answeredError e st sid _ _ l L s q _ _ _ hl hL hP hroom
    rw [h2]
    exact ⟨rfl, h3, h4⟩
  refine ⟨fun e st sid recv req id key perm hsid hreq hs hp hadmin hid hkey hpm hlen hcount
    hget hroom => part1 e st sid recv req id key perm hsid hreq hs hp hadmin hid hkey hpm
      (by rw [hcount, hlen]) hget hroom, ?_⟩
  intro st ops ids e sid recv id hlen hids hadds hnd hlast
  obtain ⟨hheld, hlen2⟩ := addsOnly_holds ops st ids [] hadds (by intro x hx; cases hx)
  rw [List.append_nil] at hheld
  rw [List.map_append, List.nodup_append] at hnd
  obtain ⟨hnd1, -, hdisj⟩ := hnd
  obtain ⟨hfull, hnone⟩ := holdsAll_full (st.run ops).pairings ids hheld hnd1
    (by rw [hlen2, hlen, hids])
  have hget : (st.run ops).pairings.Get id = none := by
    apply hnone
    intro hmem
    exact hdisj hmem (by simp)
  simp only [Op.isAddPairing, Bool.and_eq_true, decide_eq_true_eq] at hlast
  obtain ⟨⟨⟨⟨hsid, hs⟩, hadmin⟩, hroom⟩, hreq0⟩ := hlast
  cases hreq : (st.run ops).request e sid recv with
  | none => rw [hreq] at hreq0; cases hreq0
  | some req =>
    rw [hreq] at hreq0
    simp only [Bool.and_eq_true, decide_eq_true_eq] at hreq0
    obtain ⟨⟨⟨hp, hid⟩, hkey0⟩, hperm0⟩ := hreq0
    obtain ⟨key, hkey⟩ := Option.isSome_iff_exists.mp hkey0
    cases hpm : Tlv.getByte (e.tlvParse req.data) Tlv.Kind.Permissions with
    | none => rw [hpm] at hperm0; cases hperm0
    | some perm =>
      exact part1 e (st.run ops) sid recv req id key perm hsid hreq hs hp hadmin hid hkey hpm
        hfull hget hroom

/-- C22: an `AddPairing` request parsed on a valid secured session whose bound controller
is an admin, with the items `Identifier`, `PublicKey`, `Permissions` of its TLV.  (1) The
identifier is in the store and the key has `KeyLen = 32` bytes equal to the stored key:
the reply is `{State=M2}`, the permission of that record is replaced by the requested
one, its identifier and key and every other record stay.  (2) The identifier is in the
store and the key differs in length or content: the reply is `{State=M2, Error=Unknown}`
and the store is unchanged.  (3) The identifier is not in the store and a record is free:
the reply is `{State=M2}` and a free record takes the permission, the identifier and the
key (each copied into its array), every other record staying.  (4) One of the three items
is missing: the reply is `{State=M2, Error=Unknown}` and the store is unchanged.  (The
response region has room for the items of the reply.) -/
theorem addPairing_outcomes (e : Ext) (st : Server) (sid : Nat) (recv : List RecvEv)
    (req : Request) (hsid : sid < MaxHttpSessions) (hreq : st.request e sid recv = some req)
    (hs : (st.sess sid).secured = true)
    (hp : req.isPairingsOf e Tlv.Method.AddPairing = true)
    (hadmin : st.iosPerm (st.sess sid) = Controller.Admin) :
    (∀ id key perm ios,
      Tlv.get (e.tlvParse req.data) Tlv.Kind.Identifier = some id →
      Tlv.get (e.tlvParse req.data) Tlv.Kind.PublicKey = some key →
      Tlv.getByte (e.tlvParse req.data) Tlv.Kind.Permissions = some perm →
      st.pairings.Get id = some ios →
      ((key.length = Controller.KeyLen ∧ key = (st.pairings.deref ios).key) →
        3 ≤ e.rspSize →
        ((st.Process e sid recv).2.sess sid).rsp.data =
          Data.tlv [⟨Tlv.Kind.State, [Tlv.State.M2]⟩] ∧
        (st.Process e sid recv).2.pairings = (st.pairings.Update id perm).2 ∧
        (st.Process e sid recv).2.pairings.db.length = st.pairings.db.length ∧
        (st.Process e sid recv).2.pairings.deref ios =
          { st.pairings.deref ios with perm := perm } ∧
        (∀ j, j ≠ ios → (st.Process e sid recv).2.pairings.deref j = st.pairings.deref j)) ∧
      ((key.length ≠ Controller.KeyLen ∨ key ≠ (st.pairings.deref ios).key) →
        6 ≤ e.rspSize →
        ((st.Process e sid recv).2.sess sid).rsp.data =
          Data.tlv [⟨Tlv.Kind.State, [Tlv.State.M2]⟩,
            ⟨Tlv.Kind.Error, [Tlv.Error.Unknown]⟩] ∧
        (st.Process e sid recv).2.pairings = st.pairings)) ∧
    (∀ id key perm,
      Tlv.get (e.tlvParse req.data) Tlv.Kind.Identifier = some id →
      Tlv.get (e.tlvParse req.data) Tlv.Kind.PublicKey = some key →
      Tlv.getByte (e.tlvParse req.data) Tlv.Kind.Permissions = some perm →
      st.pairings.Get id = none → (∃ c ∈ st.pairings.db, c.perm = Controller.None) →
      3 ≤ e.rspSize →
      ((st.Process e sid recv).2.sess sid).rsp.data =
        Data.tlv [⟨Tlv.Kind.State, [Tlv.State.M2]⟩] ∧
      (st.Process e sid recv).2.pairings = (st.pairings.Add id key perm).2 ∧
      (st.Process e sid recv).2.pairings.db.length = st.pairings.db.length ∧
      ∃ k, k < st.pairings.db.length ∧ (st.pairings.deref k).perm = Controller.None ∧
        (st.Process e sid recv).2.pairings.deref k =
          ⟨perm, padTo Controller.IdLen id, padTo Controller.KeyLen key⟩ ∧
        (∀ j, j ≠ k → (st.Process e sid recv).2.pairings.deref j = st.pairings.deref j)) ∧
    ((Tlv.get (e.tlvParse req.data) Tlv.Kind.Identifier = none ∨
        Tlv.get (e.tlvParse req.data) Tlv.Kind.PublicKey = none ∨
        Tlv.getByte (e.tlvParse req.data) Tlv.Kind.Permissions = none) →
      6 ≤ e.rspSize →
      ((st.Process e sid recv).2.sess sid).rsp.data =
        Data.tlv [⟨Tlv.Kind.State, [Tlv.State.M2]⟩,
          ⟨Tlv.Kind.Error, [Tlv.Error.Unknown]⟩] ∧
      (st.Process e sid recv).2.pairings = st.pairings) := by
  obtain ⟨l, s, L, q, hl, hL, hP⟩ := Process_pairingsOf e st sid recv req _ hsid hreq hs hp
  rw [if_pos rfl] at hP
  obtain ⟨htlvi, -, -, -, -, -, hpair, -⟩ := start_of_handler e st sid req l s
  obtain ⟨-, hperm⟩ := start_of_pairings e st sid req l s
  obtain ⟨hmiss, hitems⟩ := pairingAdd_admin e ((st.parsed sid l s).withTlv e sid req.data) sid
    (by rw [hperm]; exact hadmin)
  rw [htlvi, hpair] at hitems
  rw [htlvi] at hmiss
  refine ⟨fun id key perm ios hid hkey hpm hget => ⟨fun hk hroom => ?_, fun hk hroom => ?_⟩,
    fun id key perm hid hkey hpm hget hfree hroom => ?_, fun h hroom => ?_⟩
  · rw [((hitems id key perm hid hkey hpm).1 ios hget).2 hk] at hP
    obtain ⟨-, h2, h3, -⟩ := Process_answeredDone e st sid _ _ l L s q _ _ _ hl hL hP hroom
    obtain ⟨-, u2, u3, u4⟩ := update_found st.pairings id perm ios hget
    rw [h2, h3]
    exact ⟨rfl, rfl, u2, u3, u4⟩
  · rw [((hitems id key perm hid hkey hpm).1 ios hget).1 hk] at hP
    obtain ⟨-, h2, h3, -⟩ := Process_answeredError e st sid _ _ l L s q _ _ _ hl hL hP hroom
    rw [h2, h3]
    exact ⟨rfl, rfl⟩
  · have hadd := (add_iff st.pairings id key perm).mpr hfree
    rw [((hitems id key perm hid hkey hpm).2 hget).2 hadd] at hP
    obtain ⟨-, h2, h3, -⟩ := Process_answeredDone e st sid _ _ l L s q _ _ _ hl hL hP hroom
    obtain ⟨a1, a2⟩ := add_true st.pairings id key perm hadd
    rw [h2, h3]
    exact ⟨rfl, rfl, a1, a2⟩
  · rw [hmiss h] at hP
    obtain ⟨-, h2, h3, -⟩ := Process_answeredError e st sid _ _ l L s q _ _ _ hl hL hP hroom
    rw [h2, h3]
    exact ⟨rfl, rfl⟩

/-- C23: the removal of a controller leaves its sessions as they are.  With the admin
controller verified on session 0 and the controller `other` on session 1, the
`RemovePairing` of `other` sent on session 0 is answered `{State=M2}`, frees the record
of `other` and calls the update callback, and that is all: session 1 is open, secured and
bound as before, no chunk is sent to it, and its next `GET /accessories` is answered with
`HTTP 200` and the database. -/
theorem removed_controller_session_stays :
    (Server.twoBound.sess 0).secured = true ∧ (Server.twoBound.sess 0).ios = some 0 ∧
    (Server.twoBound.sess 1).opened = true ∧ (Server.twoBound.sess 1).secured = true ∧
    (Server.twoBound.sess 1).ios = Server.twoBound.pairings.Get (cstr "other") ∧
    Server.twoBound.pairings.Get (cstr "other") = some 1 ∧
    (((Server.twoBound.step Op.sampleRemove).sess 0).rsp.data =
      Data.tlv [⟨Tlv.Kind.State, [Tlv.State.M2]⟩]) ∧
    (Server.twoBound.step Op.sampleRemove).pairings.Get (cstr "other") = none ∧
    (Server.twoBound.step Op.sampleRemove).pairings.Count Controller.None = 1 ∧
    (Server.twoBound.since (Server.twoBound.step Op.sampleRemove)).count Event.configUpdate
      = 1 ∧
    (∀ ev ∈ Server.twoBound.since (Server.twoBound.step Op.sampleRemove),
      ev.isSendTo 1 = false) ∧
    ((Server.twoBound.step Op.sampleRemove).sess 1).opened = true ∧
    ((Server.twoBound.step Op.sampleRemove).sess 1).secured = true ∧
    ((Server.twoBound.step Op.sampleRemove).sess 1).ios = some 1 ∧
    (((Server.twoBound.step Op.sampleRemove).Process Ext.sampleAccessories 1
      [RecvEv.data (record [5, 6, 7] (List.replicate 16 0))]).1 = some true) ∧
    ((((Server.twoBound.step Op.sampleRemove).Process Ext.sampleAccessories 1
      [RecvEv.data (record [5, 6, 7] (List.replicate 16 0))]).2.sess 1).rsp.calls.head? =
        some (Call.start Status.HTTP_200)) ∧
    ((((Server.twoBound.step Op.sampleRemove).Process Ext.sampleAccessories 1
      [RecvEv.data (record [5, 6, 7] (List.replicate 16 0))]).2.sess 1).rsp.data =
        Data.json (Ext.sampleAccessories.getDb 1 Ext.sampleAccessories.rspSize)) := by
  decide

/-- C24: a `ListPairing` request parsed on a valid secured session whose bound controller
is an admin, the store holding the records `rs` in the order `forEach` visits them, the
response region having room for the state item.  (1) When the region has room for all
the items, the TLV of the reply is `State=M2` followed by the groups (`Identifier`,
`PublicKey`, `Permissions`) of the records, in order, with one `Separator` between each
two consecutive groups, none before the first or after the last: one less than there are
records.  (2) When the region overflows, the items before the first that does not fit
stay, and an `Error=Unknown` item is appended after them, the region having room for the
3 bytes the item takes.  In both cases the store is unchanged and the update callback is
not called. -/
theorem listPairing_layout (e : Ext) (st : Server) (sid : Nat) (recv : List RecvEv)
    (req : Request) (hsid : sid < MaxHttpSessions) (hreq : st.request e sid recv = some req)
    (hs : (st.sess sid).secured = true)
    (hp : req.isPairingsOf e Tlv.Method.ListPairing = true)
    (hadmin : st.iosPerm (st.sess sid) = Controller.Admin) (hroom : 3 ≤ e.rspSize) :
    (3 + Tlv.size (List.intercalate [(⟨Tlv.Kind.Separator, []⟩ : Tlv.Item)]
        (st.pairings.records.map Controller.group)) ≤ e.rspSize →
      ((st.Process e sid recv).2.sess sid).rsp.data =
        Data.tlv (⟨Tlv.Kind.State, [Tlv.State.M2]⟩ ::
          List.intercalate [(⟨Tlv.Kind.Separator, []⟩ : Tlv.Item)]
            (st.pairings.records.map Controller.group)) ∧
      ((List.intercalate [(⟨Tlv.Kind.Separator, []⟩ : Tlv.Item)]
        (st.pairings.records.map Controller.group)).filter
          (fun x => x.type = Tlv.Kind.Separator)).length = st.pairings.records.length - 1) ∧
    (e.rspSize < 3 + Tlv.size (List.intercalate [(⟨Tlv.Kind.Separator, []⟩ : Tlv.Item)]
        (st.pairings.records.map Controller.group)) →
      ∃ pre next post,
        List.intercalate [(⟨Tlv.Kind.Separator, []⟩ : Tlv.Item)]
          (st.pairings.records.map Controller.group) = pre ++ next :: post ∧
        3 + Tlv.size pre ≤ e.rspSize ∧
        e.rspSize < 3 + Tlv.size pre + Tlv.itemSize next.val.length ∧
        (3 + Tlv.size pre + 3 ≤ e.rspSize →
          ((st.Process e sid recv).2.sess sid).rsp.data =
            Data.tlv (⟨Tlv.Kind.State, [Tlv.State.M2]⟩ :: pre ++
              [⟨Tlv.Kind.Error, [Tlv.Error.Unknown]⟩]))) ∧
    (st.Process e sid recv).2.pairings = st.pairings ∧
    (st.since (st.Process e sid recv).2).count Event.configUpdate = 0 := by
  obtain ⟨l, s, L, q, hl, hL, hP⟩ := Process_pairingsOf e st sid recv req _ hsid hreq hs hp
  rw [if_neg (by decide), if_neg (by decide), if_pos rfl] at hP
  obtain ⟨-, -, -, -, -, -, hpair, hlog⟩ := start_of_handler e st sid req l s
  obtain ⟨-, hperm⟩ := start_of_pairings e st sid req l s
  have hadmin2 : ((st.parsed sid l s).withTlv e sid req.data).iosPerm
      (((st.parsed sid l s).withTlv e sid req.data).sess sid) = Controller.Admin := by
    rw [hperm]; exact hadmin
  obtain ⟨hfit, hover⟩ := pairingList_items e _ sid hadmin2 hroom
  obtain ⟨hfp, hfl⟩ := pairingList_frame e _ sid hadmin2
  rw [hpair, listLayout_intercalate] at hfit hover
  have hdata : ((st.Process e sid recv).2.sess sid).rsp.data =
      ((((st.parsed sid l s).withTlv e sid req.data)._pairingList e sid).sess sid).rsp.data := by
    rw [hP]
    simp [Server.sent]
  rw [hdata]
  refine ⟨fun h => ⟨hfit h, ?_⟩, fun h => ?_, ?_, ?_⟩
  · rw [← listLayout_intercalate]
    exact (listLayout_separators _).2
  · obtain ⟨pre, next, post, e1, e2, e3, e4, -⟩ := hover h
    exact ⟨pre, next, post, e1, e2, e3, e4⟩
  · rw [hP]
    simp only [sent_pairings, hfp, hpair]
  · rw [hP, since_append st _ (l ++ [Event.handler "_pairingList"] ++ L)
      (by simp [Server.sent, hfl, hlog, List.append_assoc])]
    simp [List.count_append, count_wire Event.configUpdate rfl l hl,
      count_wire Event.configUpdate rfl L hL, List.count_cons]

/-- C25, counterexample: an `AddPairing` from the admin for its own identifier, with the
stored key and the stored permission.  The request is answered `{State=M2}`, the store is
left as it was, and the update callback is called once. -/
theorem update_callback_counterexample :
    (Server.securedSample Controller.Admin).request
      (Ext.samplePairingsOf (Tlv.sampleAdd (cstr "controller") (List.replicate 32 9)
        Controller.Admin)) 0 RecvEv.sampleRecord = some Request.samplePairings ∧
    (((Server.securedSample Controller.Admin).Process
      (Ext.samplePairingsOf (Tlv.sampleAdd (cstr "controller") (List.replicate 32 9)
        Controller.Admin)) 0 RecvEv.sampleRecord).2.sess 0).rsp.data =
      Data.tlv [⟨Tlv.Kind.State, [Tlv.State.M2]⟩] ∧
    ((Server.securedSample Controller.Admin).Process
      (Ext.samplePairingsOf (Tlv.sampleAdd (cstr "controller") (List.replicate 32 9)
        Controller.Admin)) 0 RecvEv.sampleRecord).2.pairings =
      (Server.securedSample Controller.Admin).pairings ∧
    ((Server.securedSample Controller.Admin).since
      ((Server.securedSample Controller.Admin).Process
        (Ext.samplePairingsOf (Tlv.sampleAdd (cstr "controller") (List.replicate 32 9)
          Controller.Admin)) 0 RecvEv.sampleRecord).2).count Event.configUpdate = 1 := by
  decide

/-- C25, amended: in a call of `Process` the update callback is called at most once; it
is called once by every call that changes the pairings store, and by every successful
Pair-Setup M5 (on the owning session, the tag verifying, the three items there, the store
taking the record), successful `AddPairing` insert or permission update (also when the
permission sent is the stored one and the store is left as it was) and successful
`RemovePairing` from an admin on a secured session; it is not called, and the store is
unchanged, when the reply is a TLV with an `Error` item, and for a `ListPairing`. -/
theorem update_callback_calls (e : Ext) (st : Server) (sid : Nat) (recv : List RecvEv)
    (req : Request) (hsid : sid < MaxHttpSessions) (hreq : st.request e sid recv = some req) :
    (st.since (st.Process e sid recv).2).count Event.configUpdate ≤ 1 ∧
    ((st.Process e sid recv).2.pairings ≠ st.pairings →
      (st.since (st.Process e sid recv).2).count Event.configUpdate = 1) ∧
    (∀ id ltpk sg, req.isPairSetupM5 e = true → st.srp.isSome = true →
      st.srp_owner = (st.sess sid).sid → req.m5TagOk e (st.sess sid).key = some true →
      Tlv.get (req.m5Sub e (st.sess sid).key) Tlv.Kind.Identifier = some id →
      Tlv.get (req.m5Sub e (st.sess sid).key) Tlv.Kind.PublicKey = some ltpk →
      Tlv.get (req.m5Sub e (st.sess sid).key) Tlv.Kind.Signature = some sg →
      (st.pairings.Add id ltpk Controller.Admin).1 = true →
      (st.since (st.Process e sid recv).2).count Event.configUpdate = 1 ∧
      (st.Process e sid recv).2.pairings = (st.pairings.Add id ltpk Controller.Admin).2) ∧
    (∀ id key perm, (st.sess sid).secured = true →
      req.isPairingsOf e Tlv.Method.AddPairing = true →
      st.iosPerm (st.sess sid) = Controller.Admin →
      Tlv.get (e.tlvParse req.data) Tlv.Kind.Identifier = some id →
      Tlv.get (e.tlvParse req.data) Tlv.Kind.PublicKey = some key →
      Tlv.getByte (e.tlvParse req.data) Tlv.Kind.Permissions = some perm →
      (∀ ios, st.pairings.Get id = some ios → key.length = Controller.KeyLen →
        key = (st.pairings.deref ios).key →
        (st.since (st.Process e sid recv).2).count Event.configUpdate = 1 ∧
        (st.Process e sid recv).2.pairings = (st.pairings.Update id perm).2) ∧
      (st.pairings.Get id = none → (st.pairings.Add id key perm).1 = true →
        (st.since (st.Process e sid recv).2).count Event.configUpdate = 1 ∧
        (st.Process e sid recv).2.pairings = (st.pairings.Add id key perm).2)) ∧
    (∀ id ios, (st.sess sid).secured = true →
      req.isPairingsOf e Tlv.Method.RemovePairing = true →
      st.iosPerm (st.sess sid) = Controller.Admin →
      Tlv.get (e.tlvParse req.data) Tlv.Kind.Identifier = some id →
      st.pairings.Get id = some ios →
      (st.since (st.Process e sid recv).2).count Event.configUpdate = 1 ∧
      (st.Process e sid recv).2.pairings = (st.pairings.Remove id).2) ∧
    (∀ items, ((st.Process e sid recv).2.sess sid).rsp.data = Data.tlv items →
      (∃ x ∈ items, x.type = Tlv.Kind.Error) →
      (st.since (st.Process e sid recv).2).count Event.configUpdate = 0 ∧
      (st.Process e sid recv).2.pairings = st.pairings) ∧
    (req.isPairingsOf e Tlv.Method.ListPairing = true →
      (st.since (st.Process e sid recv).2).count Event.configUpdate = 0 ∧
      (st.Process e sid recv).2.pairings = st.pairings) := by
  obtain ⟨hnone, hsome⟩ := Process_link e st sid recv
  have hcall : ∀ P, st.Process_update e sid recv = some P →
      (st.since (st.Process e sid recv).2).count Event.configUpdate = 1 ∧
      (st.Process e sid recv).2.pairings = P := by
    intro P h
    obtain ⟨-, h2, h3, -⟩ := hsome P h
    exact ⟨h3, h2⟩
  refine ⟨?_, ?_, ?_, ?_, ?_, ?_, ?_⟩
  · cases hu : st.Process_update e sid recv with
    | none => rw [(hnone hu).2]; exact Nat.zero_le 1
    | some P => rw [(hcall P hu).1]
  · intro hne
    cases hu : st.Process_update e sid recv with
    | none => exact absurd (hnone hu).1 hne
    | some P => exact (hcall P hu).1
  · intro id ltpk sg hM5 hsrp hown htag hid hpk hsg hadd
    exact hcall _ (Process_update_M5 e st sid recv req id ltpk sg hsid hreq hM5 hsrp hown htag
      hid hpk hsg hadd)
  · intro id key perm hs hp hadmin hid hkey hpm
    obtain ⟨h1, h2⟩ := Process_update_add e st sid recv req id key perm hsid hreq hs hp hadmin
      hid hkey hpm
    exact ⟨fun ios hget hlen hk => hcall _ (h1 ios hget hlen hk),
      fun hget hadd => hcall _ (h2 hget hadd)⟩
  · intro id ios hs hp hadmin hid hget
    exact hcall _ (Process_update_remove e st sid recv req id ios hsid hreq hs hp hadmin hid
      hget)
  · intro items hdata ⟨x, hx, hxe⟩
    cases hu : st.Process_update e sid recv with
    | none => exact ⟨(hnone hu).2, (hnone hu).1⟩
    | some P =>
      obtain ⟨-, -, -, hd, hn⟩ := hsome P hu
      rw [hd] at hdata
      simp only [Data.tlv.injEq] at hdata
      rw [hdata] at hn
      exact absurd hxe (hn x hx)
  · intro hp
    have hu := Process_update_list e st sid recv req hreq hp
    exact ⟨(hnone hu).2, (hnone hu).1⟩

/-- C26: (1) the update callback `myConfig.Update` on a byte of status flags, the store
holding `count` records: afterwards the bit `NotPaired` is set exactly when `count = 0`,
every other bit is as it was, `mdns->Update()` is called exactly when the bit changed,
which is when the flags changed.  (2) A call of `Process` that changes the pairings store
calls the callback, once, and the store the callback finds is the store the call leaves.
(3) Hence, the flags being changed by the callback only: if before a call of `Process`
the bit `NotPaired` is set exactly when the store is empty, then it is so after the call,
and the other bits are as they were. -/
theorem status_flag_invariant :
    (∀ sf count, sf < 256 →
      ((Config.Update sf count).1 &&& Bonjour.NotPaired ≠ 0 ↔ count = 0) ∧
      (Config.Update sf count).1 &&& (0xFF ^^^ Bonjour.NotPaired) =
        sf &&& (0xFF ^^^ Bonjour.NotPaired) ∧
      ((Config.Update sf count).2 = true ↔
        (Config.Update sf count).1 &&& Bonjour.NotPaired ≠ sf &&& Bonjour.NotPaired) ∧
      ((Config.Update sf count).2 = true ↔ (Config.Update sf count).1 ≠ sf) ∧
      (Config.Update sf count).1 < 256) ∧
    (∀ (e : Ext) (st : Server) (sid : Nat) (recv : List RecvEv),
      (st.Process e sid recv).2.pairings ≠ st.pairings →
      st.Process_update e sid recv = some (st.Process e sid recv).2.pairings ∧
      (st.since (st.Process e sid recv).2).count Event.configUpdate = 1) ∧
    (∀ (e : Ext) (st : Server) (sid : Nat) (recv : List RecvEv) (sf : Nat), sf < 256 →
      (sf &&& Bonjour.NotPaired ≠ 0 ↔ st.pairings.Count Controller.None = 0) →
      ((st.ProcessFlags e sid recv sf).1 &&& Bonjour.NotPaired ≠ 0 ↔
        (st.Process e sid recv).2.pairings.Count Controller.None = 0) ∧
      (st.ProcessFlags e sid recv sf).1 &&& (0xFF ^^^ Bonjour.NotPaired) =
        sf &&& (0xFF ^^^ Bonjour.NotPaired) ∧
      (st.ProcessFlags e sid recv sf).1 < 256) := by
  refine ⟨fun sf count h => ?_, fun e st sid recv hne => ?_, fun e st sid recv sf h hinv => ?_⟩
  · exact update_spec sf count h
  · obtain ⟨hnone, hsome⟩ := Process_link e st sid recv
    cases hu : st.Process_update e sid recv with
    | none => exact absurd (hnone hu).1 hne
    | some P =>
      obtain ⟨-, h2, h3, -⟩ := hsome P hu
      exact ⟨by rw [h2], h3⟩
  · obtain ⟨hnone, hsome⟩ := Process_link e st sid recv
    unfold Server.ProcessFlags
    cases hu : st.Process_update e sid recv with
    | none =>
      rw [(hnone hu).1]
      exact ⟨hinv, rfl, h⟩
    | some P =>
      obtain ⟨-, h2, -, -⟩ := hsome P hu
      obtain ⟨u1, u2, -, -, u4⟩ := update_spec sf (P.Count Controller.None) h
      rw [h2]
      exact ⟨u1, u2, u4⟩

/-- C27, counterexample: a `GET` request for the path `/nothing`, which no handler takes,
parsed on a session that is not secured, is answered with `HTTP 470` and not with
`HTTP 400`; and a parsed request of the method `DELETE` leaves the response buffer as
`Init` made it, with no status written. -/
theorem unknown_request_counterexample :
    (Server.sample.sess 0).secured = false ∧
    Server.sample.request
      (Ext.sample (ParseStatus.Success (Request.sample "GET" "/nothing")) [] []) 0
      [RecvEv.data [71]] = some (Request.sample "GET" "/nothing") ∧
    ((Server.sample.Process
      (Ext.sample (ParseStatus.Success (Request.sample "GET" "/nothing")) [] []) 0
      [RecvEv.data [71]]).2.sess 0).rsp =
        ⟨[Call.start Status.HTTP_470, Call.end_], Data.none⟩ ∧
    ((Server.sample.Process
      (Ext.sample (ParseStatus.Success (Request.sample "GET" "/nothing")) [] []) 0
      [RecvEv.data [71]]).2.sess 0).rsp ≠
        ⟨[Call.start Status.HTTP_400, Call.end_], Data.none⟩ ∧
    Server.sample.request
      (Ext.sample (ParseStatus.Success (Request.sample "DELETE" "/accessories")) [] []) 0
      [RecvEv.data [68]] = some (Request.sample "DELETE" "/accessories") ∧
    ((Server.sample.Process
      (Ext.sample (ParseStatus.Success (Request.sample "DELETE" "/accessories")) [] []) 0
      [RecvEv.data [68]]).2.sess 0).rsp = Response.init := by
  decide

/-- C27, amended: a request parsed on a valid session whose method is `POST` or `PUT` and
whose path is not one its method has a handler for (`/identify`, `/pair-setup`,
`/pair-verify`, `/pairings` for `POST`, `/characteristics` for `PUT`), or whose method is
`GET` on a secured session with a path that is neither `/accessories` nor starts with
`/characteristics?`, is answered with `HTTP 400`: `Process` returns true, the response
`start(HTTP_400); end()` is what is sent, as one chunk or as the records of its blocks,
and the pairings store, the secured flag and the other sessions are as they were.  A `GET`
request on a session that is not secured is answered with `HTTP 470` in the same way,
whatever its path. -/
theorem unknown_path_answered (e : Ext) (st : Server) (sid : Nat) (recv : List RecvEv)
    (req : Request) (hsid : sid < MaxHttpSessions) (hreq : st.request e sid recv = some req) :
    (((req.method = "POST" ∧ req.path ≠ "/identify" ∧ req.path ≠ "/pair-setup" ∧
          req.path ≠ "/pair-verify" ∧ req.path ≠ "/pairings") ∨
        (req.method = "PUT" ∧ req.path ≠ "/characteristics") ∨
        (req.method = "GET" ∧ (st.sess sid).secured = true ∧ req.path ≠ "/accessories" ∧
          (cstr "/characteristics?").isPrefixOf (cstr req.path) = false)) →
      (st.Process e sid recv).1 = some true ∧
      ((st.Process e sid recv).2.sess sid).rsp =
        (Response.start Status.HTTP_400).call Call.end_ ∧
      (∃ pre L, st.since (st.Process e sid recv).2 = pre ++ L ∧
        (∀ ev ∈ pre, ev.isSend = false) ∧
        ((st.sess sid).secured = false →
          L = [Event.send (st.sess sid).sid
            (e.render ((Response.start Status.HTTP_400).call Call.end_))]) ∧
        ((st.sess sid).secured = true →
          L = recordEvents e (st.sess sid).sid (st.sess sid).AccessoryToControllerKey
            (st.sess sid).sendSeq
            (blocks (e.render ((Response.start Status.HTTP_400).call Call.end_))))) ∧
      (st.Process e sid recv).2.pairings = st.pairings ∧
      ((st.Process e sid recv).2.sess sid).secured = (st.sess sid).secured ∧
      (∀ j, j ≠ sid → (st.Process e sid recv).2.sess j = st.sess j)) ∧
    ((req.method = "GET" ∧ (st.sess sid).secured = false) →
      (st.Process e sid recv).1 = some true ∧
      ((st.Process e sid recv).2.sess sid).rsp =
        (Response.start Status.HTTP_470).call Call.end_ ∧
      (∃ pre, st.since (st.Process e sid recv).2 = pre ++ [Event.send (st.sess sid).sid
          (e.render ((Response.start Status.HTTP_470).call Call.end_))] ∧
        (∀ ev ∈ pre, ev.isSend = false)) ∧
      (st.Process e sid recv).2.pairings = st.pairings ∧
      ((st.Process e sid recv).2.sess sid).secured = false ∧
      (∀ j, j ≠ sid → (st.Process e sid recv).2.sess j = st.sess j)) := by
  refine ⟨fun h => ?_, fun h => ?_⟩
  · refine Process_plain_reply e st sid recv req Status.HTTP_400 hsid hreq (fun l s => ?_)
    refine route_bad e _ sid req _ ?_
    rw [parsed_secured]
    exact h
  · obtain ⟨h1, h2, ⟨pre, L, h3, h4, h5, -⟩, h6, h7, h8⟩ :=
      Process_plain_reply e st sid recv req Status.HTTP_470 hsid hreq (fun l s =>
        route_get_unsecured e _ sid req _ h.1 (by rw [parsed_secured]; exact h.2))
    refine ⟨h1, h2, ⟨pre, ?_, h4⟩, h6, ?_, h8⟩
    · rw [h3, h5 h.2]
    · rw [h7, h.2]

/-- C28: `Close(sid)` returns true exactly when `sid ≤ sid_max` and the session is open.
When it returns true: the slot is not open, no other slot changes, the first thing the
call does is `_db.Close(sid)`, the pairings store is as it was, and the pairing in
progress is released (`srp` is `NULL`, `srp_owner` is `sid_invalid`, `SRP_free` is
called) when this session owns it, and is as it was, with no call of `SRP_free`, when
there is none or another session owns it.  When it returns false the state is as it was.
A second `Close` of the same `sid` returns false. -/
theorem close_outcomes (st : Server) (sid : Nat) :
    ((st.Close sid).1 = true ↔ sid ≤ sid_max ∧ (st.sess sid).opened = true) ∧
    ((st.Close sid).1 = true →
      ((st.Close sid).2.sess sid).opened = false ∧
      (∀ j, j ≠ sid → (st.Close sid).2.sess j = st.sess j) ∧
      (st.Close sid).2.pairings = st.pairings ∧
      (st.srp.isSome = true ∧ st.srp_owner = sid →
        (st.Close sid).2.srp = none ∧ (st.Close sid).2.srp_owner = sid_invalid ∧
        st.since (st.Close sid).2 = [Event.dbClose sid, Event.SRP_free]) ∧
      (¬ (st.srp.isSome = true ∧ st.srp_owner = sid) →
        (st.Close sid).2.srp = st.srp ∧ (st.Close sid).2.srp_owner = st.srp_owner ∧
        st.since (st.Close sid).2 = [Event.dbClose sid])) ∧
    ((st.Close sid).1 = false → (st.Close sid).2 = st) ∧
    ((st.Close sid).2.Close sid).1 = false := by
  have hfst := close_iff_aux st sid
  have hfalse : (st.Close sid).1 = false → (st.Close sid).2 = st := by
    unfold Server.Close
    dsimp only
    split
    · intro _; rfl
    · split
      · intro _; rfl
      · split <;> intro h <;> cases h
  have htrue : (st.Close sid).1 = true →
      ((st.Close sid).2.sess sid).opened = false ∧
      (∀ j, j ≠ sid → (st.Close sid).2.sess j = st.sess j) ∧
      (st.Close sid).2.pairings = st.pairings ∧
      (st.srp.isSome = true ∧ st.srp_owner = sid →
        (st.Close sid).2.srp = none ∧ (st.Close sid).2.srp_owner = sid_invalid ∧
        st.since (st.Close sid).2 = [Event.dbClose sid, Event.SRP_free]) ∧
      (¬ (st.srp.isSome = true ∧ st.srp_owner = sid) →
        (st.Close sid).2.srp = st.srp ∧ (st.Close sid).2.srp_owner = st.srp_owner ∧
        st.since (st.Close sid).2 = [Event.dbClose sid]) := by
    intro h
    obtain ⟨h1, h2⟩ := hfst.mp h
    have h1b : ¬ sid > sid_max := by omega
    by_cases hown : st.srp.isSome = true ∧ st.srp_owner = sid
    · have hc : (st.Close sid).2 =
          { (((st.emit (Event.dbClose sid)).setSess sid Session.closed).emit Event.SRP_free) with
            srp := none, srp_owner := sid_invalid } := by
        unfold Server.Close
        simp [h1b, h2, hown.1, hown.2]
      rw [hc]
      refine ⟨by simp [Server.setSess, Server.emit, Session.closed], ?_, rfl, ?_, ?_⟩
      · intro j hj
        simp [Server.setSess, Server.emit, hj]
      · intro _
        exact ⟨rfl, rfl, since_append st _ _ (by simp [Server.setSess, Server.emit])⟩
      · intro hn; exact absurd hown hn
    · have hc : (st.Close sid).2 = (st.emit (Event.dbClose sid)).setSess sid Session.closed := by
        unfold Server.Close
        have hown2 : ¬ (st.srp.isSome = true ∧ st.srp_owner = sid) := hown
        simp only [not_and] at hown2
        by_cases hs : st.srp.isSome = true
        · simp [h1b, h2, hs, hown2 hs]
        · simp [h1b, h2, hs]
      rw [hc]
      refine ⟨by simp [Server.setSess, Server.emit, Session.closed], ?_, rfl, ?_, ?_⟩
      · intro j hj
        simp [Server.setSess, Server.emit, hj]
      · intro hn; exact absurd hn hown
      · intro _
        exact ⟨rfl, rfl, since_append st _ _ (by simp [Server.setSess, Server.emit])⟩
  refine ⟨hfst, htrue, hfalse, ?_⟩
  cases h : (st.Close sid).1 with
  | false => rw [hfalse h]; exact h
  | true =>
    have h3 := (htrue h).1
    cases h4 : ((st.Close sid).2.Close sid).1 with
    | false => rfl
    | true =>
      have := ((close_iff_aux (st.Close sid).2 sid).mp h4).2
      rw [h3] at this
      cases this

/-- C29: `Open` returns a session index above `sid_max`.  The session table has
`MaxHttpSessions + 1` slots, the last being the slot `_sess[MaxHttpSessions]` that
`Process` addresses in its branch for too many sessions.  After `MaxHttpSessions` calls
of `Open` on a new server the slots `0` to `sid_max` are open, and the next `Open`
returns `MaxHttpSessions`, which is not `sid_invalid` and is above `sid_max`, and marks
that slot open.  `Process` on this index returns false, `Close` on it returns false and
leaves the slot open, and every later `Open` returns `sid_invalid`. -/
theorem open_returns_above_sid_max :
    ((Server.start (MaxHttpSessions + 1) Pairings.Init).run
      (List.replicate MaxHttpSessions Op.Open)).nsess = MaxHttpSessions + 1 ∧
    (∀ j, j < MaxHttpSessions →
      ((((Server.start (MaxHttpSessions + 1) Pairings.Init).run
        (List.replicate MaxHttpSessions Op.Open)).sess j).opened = true)) ∧
    ((Server.start (MaxHttpSessions + 1) Pairings.Init).run
      (List.replicate MaxHttpSessions Op.Open)).Open.1 = MaxHttpSessions ∧
    ((Server.start (MaxHttpSessions + 1) Pairings.Init).run
      (List.replicate MaxHttpSessions Op.Open)).Open.1 ≠ sid_invalid ∧
    ¬ ((Server.start (MaxHttpSessions + 1) Pairings.Init).run
      (List.replicate MaxHttpSessions Op.Open)).Open.1 ≤ sid_max ∧
    ((((Server.start (MaxHttpSessions + 1) Pairings.Init).run
      (List.replicate MaxHttpSessions Op.Open)).Open.2.sess MaxHttpSessions).opened = true) ∧
    (((Server.start (MaxHttpSessions + 1) Pairings.Init).run
      (List.replicate MaxHttpSessions Op.Open)).Open.2.Process Ext.sampleIdentify
        MaxHttpSessions [RecvEv.data [80]]).1 = some false ∧
    (((Server.start (MaxHttpSessions + 1) Pairings.Init).run
      (List.replicate MaxHttpSessions Op.Open)).Open.2.Close MaxHttpSessions).1 = false ∧
    (((((Server.start (MaxHttpSessions + 1) Pairings.Init).run
      (List.replicate MaxHttpSessions Op.Open)).Open.2.Close MaxHttpSessions).2.sess
        MaxHttpSessions).opened = true) ∧
    ((((Server.start (MaxHttpSessions + 1) Pairings.Init).run
      (List.replicate MaxHttpSessions Op.Open)).Open.2.Close MaxHttpSessions).2.Open).1 =
      sid_invalid := by
  decide

/-- C30: `Poll` on a session that is not secured changes nothing.  On a secured session it
asks the database for the events (`getEvents`); if the status is not `HTTP_200` or no byte
is returned, nothing is handed to `send` and the session, its send counter included, is as
it was; otherwise the response buffer is written by `event(HTTP_200)`, the JSON content
type and `end(body)` with the bytes returned, it goes out through `_send`, that is as the
records of its blocks under the send counter, and the counter advances by their number. -/
theorem poll_outcomes (e : Ext) (st : Server) (sid : Nat) :
    ((st.sess sid).secured = false → st.Poll e sid = st) ∧
    ((st.sess sid).secured = true →
      (((e.getEvents sid e.sizeofdata).1 ≠ Status.HTTP_200 ∨
          (e.getEvents sid e.sizeofdata).2.length = 0) →
        st.Poll e sid = st.emit (Event.getEvents sid) ∧
        st.since (st.Poll e sid) = [Event.getEvents sid] ∧
        (st.Poll e sid).sess sid = st.sess sid ∧
        ((st.Poll e sid).sess sid).sendSeq = (st.sess sid).sendSeq) ∧
      (((e.getEvents sid e.sizeofdata).1 = Status.HTTP_200 ∧
          (e.getEvents sid e.sizeofdata).2.length ≠ 0) →
        st.Poll e sid =
          (((st.emit (Event.getEvents sid)).setSess sid
            { st.sess sid with rsp :=
              ⟨[Call.event Status.HTTP_200, Call.addContentType ContentTypeJson,
                Call.endBody (e.getEvents sid e.sizeofdata).2], Data.none⟩ })._send e sid).2 ∧
        ((st.Poll e sid).sess sid).rsp =
          ⟨[Call.event Status.HTTP_200, Call.addContentType ContentTypeJson,
            Call.endBody (e.getEvents sid e.sizeofdata).2], Data.none⟩ ∧
        st.since (st.Poll e sid) =
          Event.getEvents sid ::
            recordEvents e (st.sess sid).sid (st.sess sid).AccessoryToControllerKey
              (st.sess sid).sendSeq
              (blocks (e.render ⟨[Call.event Status.HTTP_200,
                Call.addContentType ContentTypeJson,
                Call.endBody (e.getEvents sid e.sizeofdata).2], Data.none⟩)) ∧
        ((st.Poll e sid).sess sid).sendSeq =
          seqAfter (st.sess sid).sendSeq
            (blocks (e.render ⟨[Call.event Status.HTTP_200,
              Call.addContentType ContentTypeJson,
              Call.endBody (e.getEvents sid e.sizeofdata).2], Data.none⟩)).length ∧
        (∀ j, j ≠ sid → (st.Poll e sid).sess j = st.sess j))) := by
  refine ⟨fun hs => ?_, fun hs => ⟨fun hq => ?_, fun hq => ?_⟩⟩
  · unfold Server.Poll
    simp [hs]
  · have hP : st.Poll e sid = st.emit (Event.getEvents sid) := by
      unfold Server.Poll
      dsimp only
      rw [if_neg (by simp [hs])]
      rcases hq with hq | hq
      · rw [if_pos hq]
      · by_cases h1 : (e.getEvents sid e.sizeofdata).1 ≠ Status.HTTP_200
        · rw [if_pos h1]
        · rw [if_neg h1, if_pos hq]
    rw [hP]
    exact ⟨rfl, since_append st _ _ rfl, rfl, rfl⟩
  · have hP : st.Poll e sid =
        (((st.emit (Event.getEvents sid)).setSess sid
          { st.sess sid with rsp :=
            ⟨[Call.event Status.HTTP_200, Call.addContentType ContentTypeJson,
              Call.endBody (e.getEvents sid e.sizeofdata).2], Data.none⟩ })._send e sid).2 := by
      unfold Server.Poll
      dsimp only
      rw [if_neg (by simp [hs]), if_neg (by simp [hq.1]), if_neg hq.2, hq.1]
      rfl
    have hsec2 : (((st.emit (Event.getEvents sid)).setSess sid
        { st.sess sid with rsp :=
          ⟨[Call.event Status.HTTP_200, Call.addContentType ContentTypeJson,
            Call.endBody (e.getEvents sid e.sizeofdata).2], Data.none⟩ }).sess sid).secured =
        true := by
      simp [Server.setSess, hs]
    refine ⟨hP, ?_, ?_, ?_, ?_⟩
    · rw [hP, send_records e _ sid hsec2]
      simp [Server.sent, Server.setSess]
    · rw [hP, send_records e _ sid hsec2]
      exact since_append st _ _ (by simp [Server.sent, Server.setSess, Server.emit])
    · rw [hP, send_records e _ sid hsec2]
      simp [Server.sent, Server.setSess]
    · intro j hj
      rw [hP, send_records e _ sid hsec2]
      simp [Server.sent, Server.setSess, Server.emit, hj]

/-- C31: the message signed with the accessory long-term secret key is the specified
concatenation.  (1) A Pair-Setup M5 parsed on the valid session that owns the pairing,
whose `EncryptedData` verifies and whose sub-TLV holds `Identifier`, `PublicKey` and
`Signature`, the store accepting the record: the reply is `{State=M6, EncryptedData}`
where the encrypted sub-TLV, sealed under the session key with the nonce `PS-Msg06`,
carries `Identifier` = device id, `PublicKey` = accessory LTPK and `Signature` = the
signature of `AccessoryX || device id || accessory LTPK`, `AccessoryX` being the 32 bytes
asked of HKDF over the SRP shared secret with the salt `Pair-Setup-Accessory-Sign-Salt`
and the info `Pair-Setup-Accessory-Sign-Info`.  (2) A Pair-Verify M1 parsed on a valid
session whose TLV holds the `PublicKey` of the controller: the reply is
`{State=M2, PublicKey, EncryptedData}` with the new Curve25519 public key of the accessory
and the sub-TLV, sealed under the new session key with the nonce `PV-Msg02`, that carries
`Identifier` = device id and `Signature` = the signature of
`accessory Curve25519 public key || device id || controller Curve25519 public key`.  In
both cases the sub-TLV is what the cipher is called to encrypt.  (The response region has
room for the items.) -/
theorem signed_accessory_info (e : Ext) (st : Server) (sid : Nat) (recv : List RecvEv)
    (req : Request) (hsid : sid < MaxHttpSessions)
    (hreq : st.request e sid recv = some req) :
    (∀ id ltpk sg : List Nat, req.isPairSetupM5 e = true → st.srp.isSome = true →
      st.srp_owner = (st.sess sid).sid →
      req.m5TagOk e (st.sess sid).key = some true →
      Tlv.get (req.m5Sub e (st.sess sid).key) Tlv.Kind.Identifier = some id →
      Tlv.get (req.m5Sub e (st.sess sid).key) Tlv.Kind.PublicKey = some ltpk →
      Tlv.get (req.m5Sub e (st.sess sid).key) Tlv.Kind.Signature = some sg →
      (st.pairings.Add id ltpk Controller.Admin).1 = true →
      3 + Tlv.itemSize (sealedSub e (st.sess sid).key noncePS06
        (setupSubTlv e (setupAccessoryInfo e st.srp_shared_secret))).length ≤ e.rspSize →
      ((st.Process e sid recv).2.sess sid).rsp.data =
        Data.tlv [⟨Tlv.Kind.State, [Tlv.State.M6]⟩,
          ⟨Tlv.Kind.EncryptedData, sealedSub e (st.sess sid).key noncePS06
            (setupSubTlv e (setupAccessoryInfo e st.srp_shared_secret))⟩] ∧
      setupSubTlv e (setupAccessoryInfo e st.srp_shared_secret) =
        e.tlvEncode [⟨Tlv.Kind.Identifier, e.deviceId⟩, ⟨Tlv.Kind.PublicKey, e.PubKey⟩,
          ⟨Tlv.Kind.Signature, e.Sign (e.hkdf (cstr "Pair-Setup-Accessory-Sign-Salt")
            st.srp_shared_secret (cstr "Pair-Setup-Accessory-Sign-Info") 32 ++ e.deviceId ++
              e.PubKey)⟩] ∧
      Event.aead true (st.sess sid).key noncePS06
        (setupSubTlv e (setupAccessoryInfo e st.srp_shared_secret)).length ∈
          st.since (st.Process e sid recv).2) ∧
    (∀ iosKey : List Nat, req.isPairVerifyM1 e = true →
      Tlv.get (e.tlvParse req.data) Tlv.Kind.PublicKey = some iosKey →
      3 + Tlv.itemSize e.curveInit.1.length + Tlv.itemSize (sealedSub e
        (verifyKey e (e.curveShared e.curveInit.2 iosKey)) noncePV02
        (verifySubTlv e (verifyAccessoryInfo e e.curveInit.1 iosKey))).length ≤ e.rspSize →
      ((st.Process e sid recv).2.sess sid).rsp.data =
        Data.tlv [⟨Tlv.Kind.State, [Tlv.State.M2]⟩, ⟨Tlv.Kind.PublicKey, e.curveInit.1⟩,
          ⟨Tlv.Kind.EncryptedData, sealedSub e
            (verifyKey e (e.curveShared e.curveInit.2 iosKey)) noncePV02
            (verifySubTlv e (verifyAccessoryInfo e e.curveInit.1 iosKey))⟩] ∧
      verifySubTlv e (verifyAccessoryInfo e e.curveInit.1 iosKey) =
        e.tlvEncode [⟨Tlv.Kind.Identifier, e.deviceId⟩,
          ⟨Tlv.Kind.Signature, e.Sign (e.curveInit.1 ++ e.deviceId ++ iosKey)⟩] ∧
      ((st.Process e sid recv).2.sess sid).curve.pub = e.curveInit.1 ∧
      Event.aead true (verifyKey e (e.curveShared e.curveInit.2 iosKey)) noncePV02
        (verifySubTlv e (verifyAccessoryInfo e e.curveInit.1 iosKey)).length ∈
          st.since (st.Process e sid recv).2) := by
  refine ⟨?_, ?_⟩
  · intro id ltpk sg hM5 hsrp hown htag hid hpk hsg hadd hroom
    obtain ⟨l, s, L, q, hl, hL, hP⟩ := Process_pairSetupM5 e st sid recv req hsid hreq hM5
    obtain ⟨htlvi, hkey, hsidf, hsrp2, hown2, hsh, hpair, hlog⟩ :=
      start_of_handler e st sid req l s
    have hdata := m5_of_tlvi e st sid req l s
    simp only [Request.m5TagOk, Option.map_eq_some'] at htag
    obtain ⟨enc, henc, htag⟩ := htag
    simp only [Request.m5Sub, henc] at hid hpk hsg
    obtain ⟨-, hacc⟩ := pairSetup5_owner e ((st.parsed sid l s).withTlv e sid req.data) sid
      enc id ltpk sg (by rw [hsrp2]; exact hsrp) (by rw [hown2, hsidf]; exact hown)
      (by rw [hdata, henc]) (by rw [hkey]; exact htag) (by rw [hkey]; exact hid)
      (by rw [hkey]; exact hpk) (by rw [hkey]; exact hsg)
    have hm6 : accessoryM6 e ((st.parsed sid l s).withTlv e sid req.data)
        (((st.parsed sid l s).withTlv e sid req.data).sess sid) =
        (sealedSub e (st.sess sid).key noncePS06
          (setupSubTlv e (setupAccessoryInfo e st.srp_shared_secret)),
         Event.aead true (st.sess sid).key noncePS06
          (setupSubTlv e (setupAccessoryInfo e st.srp_shared_secret)).length) := by
      simp only [accessoryM6, hsh, hkey, sealedSub, setupSubTlv, setupAccessoryInfo, AccessoryX]
    have hadd2 : (((st.parsed sid l s).withTlv e sid req.data).pairings.Add id ltpk
        Controller.Admin).1 = true := by rw [hpair]; exact hadd
    rw [hP, hacc hadd2, hm6, hlog]
    refine ⟨?_, rfl, ?_⟩
    · simp [Session.tlvBegin, Session.tlvEnd, tlv_put_after_state _ _ _ _ hroom, Server.sent,
        Server.setSess]
    · rw [since_append st _ (l ++ [Event.handler "_pairSetup5",
        Event.aead false (((st.parsed sid l s).withTlv e sid req.data).sess sid).key noncePS05
          (openEncrypted e (((st.parsed sid l s).withTlv e sid req.data).sess sid).key
            noncePS05 enc).1,
        Event.aead true (st.sess sid).key noncePS06
          (setupSubTlv e (setupAccessoryInfo e st.srp_shared_secret)).length,
        Event.configUpdate, Event.SRP_free] ++ L)
        (by simp [Server.sent, Server.setSess, List.append_assoc])]
      simp
  · intro iosKey hM1 hk hroom
    obtain ⟨l, s, L, q, hl, hL, hP⟩ := Process_pairVerifyM1 e st sid recv req hsid hreq hM1
    obtain ⟨htlvi, -, -, -, -, -, -, hlog⟩ := start_of_handler e st sid req l s
    obtain ⟨hc, -, -, -, hlg, hrsp⟩ := pairVerify1_key e
      ((st.parsed sid l s).withTlv e sid req.data) sid iosKey (by rw [htlvi]; exact hk)
    rw [hP]
    refine ⟨?_, rfl, ?_, ?_⟩
    · rw [(sent_sess _ sid L q _).1]
      exact hrsp hroom
    · have : ((((st.parsed sid l s).withTlv e sid req.data)._pairVerify1 e sid).sent sid L q
          (st.sess sid).secured).sess sid =
          { ((((st.parsed sid l s).withTlv e sid req.data)._pairVerify1 e sid).sess sid) with
            sendSeq := q, secured := (st.sess sid).secured } := by
        simp [Server.sent]
      rw [this]
      show ((((st.parsed sid l s).withTlv e sid req.data)._pairVerify1 e sid).sess sid).curve.pub
        = _
      rw [hc]
    · rw [since_append st _ (l ++ [Event.handler "_pairVerify1",
        Event.aead true (verifyKey e (e.curveShared e.curveInit.2 iosKey)) noncePV02
          (verifySubTlv e (verifyAccessoryInfo e e.curveInit.1 iosKey)).length] ++ L)
        (by
          show (((st.parsed sid l s).withTlv e sid req.data)._pairVerify1 e sid).log ++ L = _
          rw [hlg, hlog]
          simp [List.append_assoc])]
      simp

/-- C32: the SRP group of Pair-Setup M1 is the 3072-bit group.  `srp_modulus` has 384
bytes, its first byte has the most significant bit set (so the big-endian value has 3072
bits) and its last byte is odd; `srp_generator` is the single byte `0x05`.  For a
Pair-Setup M1 that `_pairSetup1` accepts on a valid session, the library calls
succeeding: the SRP context has the username `Pair-Setup`, this modulus and generator,
and as salt the 16 bytes `t_random` produced, and the reply is
`{State=M2, PublicKey, Salt}` whose `Salt` item is that same 16-byte value.  (The response
region has room for the items.) -/
theorem srp_group_parameters (e : Ext) (st : Server) (sid : Nat) (recv : List RecvEv)
    (req : Request) (pub : List Nat) (hsid : sid < MaxHttpSessions)
    (hreq : st.request e sid recv = some req) (hM1 : req.isPairSetupM1 e = true)
    (hacc : st.acceptedM1 e sid req = true) (hu : e.SRP_set_username = true)
    (hp : e.SRP_set_params = true) (ha : e.SRP_set_auth_password = true)
    (hg : e.SRP_gen_pub (SRP.pairSetup (e.random 16) e.setupCode) = some pub)
    (hrand : (e.random 16).length = 16)
    (hroom : 3 + Tlv.itemSize pub.length + Tlv.itemSize 16 ≤ e.rspSize) :
    srp_modulus.length = 384 ∧ 128 ≤ srp_modulus.headD 0 ∧
    srp_modulus.getLastD 0 % 2 = 1 ∧ beValue srp_modulus >>> 3071 = 1 ∧
    srp_generator = [0x05] ∧
    (∃ srp, (st.Process e sid recv).2.srp = some srp ∧ srp.username = cstr "Pair-Setup" ∧
      srp.modulus = srp_modulus ∧ srp.generator = srp_generator ∧
      srp.salt = e.random 16 ∧ srp.salt.length = 16 ∧
      ((st.Process e sid recv).2.sess sid).rsp.data =
        Data.tlv [⟨Tlv.Kind.State, [Tlv.State.M2]⟩, ⟨Tlv.Kind.PublicKey, pub⟩,
          ⟨Tlv.Kind.Salt, srp.salt⟩]) := by
  obtain ⟨h1, -, h2, h3, h4, h5⟩ := srp_modulus_facts
  refine ⟨h1, h2, h3, h4, h5, SRP.pairSetup (e.random 16) e.setupCode, ?_, rfl, rfl, rfl, rfl,
    hrand, ?_⟩
  · obtain ⟨l, s, L, q, hl, hL, hP, _⟩ := Process_parsed e st sid recv req hsid hreq
    rw [hP, route_pairSetupM1 e _ sid req _ hM1]
    have hd := pairSetup1_done e ((st.parsed sid l s).withTlv e sid req.data) sid pub
      ((acceptsM1_parsed e st sid req l s hM1).mpr hacc) hu hp ha hg
    rw [(sent_sess _ sid L q _).2.2.2.2.2.2.1]
    exact hd.1
  · obtain ⟨l, s, L, q, hl, hL, hP, _⟩ := Process_parsed e st sid recv req hsid hreq
    rw [hP, route_pairSetupM1 e _ sid req _ hM1]
    have hd := pairSetup1_done e ((st.parsed sid l s).withTlv e sid req.data) sid pub
      ((acceptsM1_parsed e st sid req l s hM1).mpr hacc) hu hp ha hg
    rw [(sent_sess _ sid L q _).1, hd.2.2.2,
      tlv_put3 _ _ _ _ _ _ (by rw [hrand]; exact hroom)]
    rfl

/-- C33: a Pair-Setup M1 without a valid `Method` item frees the pairing of another
session.  Session 0 of the sample server owns the pairing in progress (`srp ≠ NULL`,
`srp_owner = 0`) and session 1, whose id is 1, does not.  A Pair-Setup M1 on session 1
whose TLV has no `Method` item, and one whose `Method` is 1 rather than
`PairSetupNonMfi`, are each answered `{State=M2, Error=Unknown}`, `SRP_free` is called,
and afterwards `srp` is `NULL` and `srp_owner` is `sid_invalid`: the label `RetErr` of
`_pairSetup1` releases the context whoever owns it. -/
theorem pairSetupM1_error_frees_foreign_pairing :
    Server.pairing.srp.isSome = true ∧ Server.pairing.srp_owner = 0 ∧
    (Server.pairing.sess 1).sid = 1 ∧
    Server.pairing.request Ext.sampleNoMethod 1 [RecvEv.data [80]] = some Request.sampleM1 ∧
    Request.sampleM1.isPairSetupM1 Ext.sampleNoMethod = true ∧
    Request.sampleM1.tlvMethod Ext.sampleNoMethod = none ∧
    (Server.pairing.Process Ext.sampleNoMethod 1 [RecvEv.data [80]]).1 = some true ∧
    ((Server.pairing.Process Ext.sampleNoMethod 1 [RecvEv.data [80]]).2.sess 1).rsp.data =
      Data.tlv [⟨Tlv.Kind.State, [Tlv.State.M2]⟩, ⟨Tlv.Kind.Error, [Tlv.Error.Unknown]⟩] ∧
    (Server.pairing.since
      (Server.pairing.Process Ext.sampleNoMethod 1 [RecvEv.data [80]]).2).count
        Event.SRP_free = 1 ∧
    (Server.pairing.Process Ext.sampleNoMethod 1 [RecvEv.data [80]]).2.srp = none ∧
    (Server.pairing.Process Ext.sampleNoMethod 1 [RecvEv.data [80]]).2.srp_owner =
      sid_invalid ∧
    Server.pairing.request (Ext.sampleMethod 1) 1 [RecvEv.data [80]] =
      some Request.sampleM1 ∧
    Request.sampleM1.isPairSetupM1 (Ext.sampleMethod 1) = true ∧
    Request.sampleM1.tlvMethod (Ext.sampleMethod 1) = some 1 ∧
    Tlv.Method.PairSetupNonMfi ≠ 1 ∧
    ((Server.pairing.Process (Ext.sampleMethod 1) 1 [RecvEv.data [80]]).2.sess 1).rsp.data =
      Data.tlv [⟨Tlv.Kind.State, [Tlv.State.M2]⟩, ⟨Tlv.Kind.Error, [Tlv.Error.Unknown]⟩] ∧
    (Server.pairing.Process (Ext.sampleMethod 1) 1 [RecvEv.data [80]]).2.srp = none ∧
    (Server.pairing.Process (Ext.sampleMethod 1) 1 [RecvEv.data [80]]).2.srp_owner =
      sid_invalid := by
  decide

/-- C34: singleton consistency is an invariant of the dispatcher operations.  Take a
state in which `srp = NULL` exactly when `srp_owner = sid_invalid` and every open slot of
the session table holds the session of its index, as at process start, and any sequence
of operations `Open`, `Close`, `Process` with whatever `recv` delivers, and `Poll`, in
which `Process` is called for open sessions, as the transport calls it.  After the
sequence, and after every operation of it, `srp = NULL` exactly when
`srp_owner = sid_invalid`: an owner exists exactly while an SRP context exists. -/
theorem singleton_consistency (st : Server) (ops : List Op) (hc : st.Consistent)
    (hi : st.Indexed) (hl : st.legalRun ops = true) :
    ((st.run ops).srp = none ↔ (st.run ops).srp_owner = sid_invalid) ∧
    (st.run ops).Indexed ∧
    (∀ n, ((st.run (ops.take n)).srp = none ↔
      (st.run (ops.take n)).srp_owner = sid_invalid)) ∧
    (∀ op : Op, op.legal (st.run ops) = true →
      (((st.run ops).step op).srp = none ↔ ((st.run ops).step op).srp_owner = sid_invalid)) := by
  have hrun := run_consistent ops st hc hi hl
  have htake : ∀ (ops : List Op) (st : Server) (n : Nat), st.legalRun ops = true →
      st.legalRun (ops.take n) = true := by
    intro ops
    induction ops with
    | nil => intro st n _; simp [Server.legalRun]
    | cons op rest ih =>
      intro st n h
      cases n with
      | zero => simp [Server.legalRun]
      | succ n =>
        simp only [Server.legalRun, Bool.and_eq_true, List.take_succ_cons] at h ⊢
        exact ⟨h.1, ih _ n h.2⟩
  refine ⟨hrun.1, hrun.2, ?_, ?_⟩
  · intro n
    exact (run_consistent (ops.take n) st hc hi (htake ops st n hl)).1
  · intro op hop
    exact (step_consistent (st.run ops) op hrun.1 hrun.2 hop).1

/-- C35: the 16-bit subtraction `iosTlv_size -= 16` wraps around for an `EncryptedData`
item shorter than 16 bytes, and the handlers decrypt over the wrapped length.  A
Pair-Setup M5 on session 0 of the sample server, which owns the pairing, and a
Pair-Verify M3 on session 1, each with an `EncryptedData` item of four bytes: the length
the handler computes is 65524, not 4 - 16, `Hap::Crypt::aead` is called to decrypt 65524
bytes under the session key with the nonce `PS-Msg05` and `PV-Msg03`, and only then is
the request answered with an `Error` item. -/
theorem short_encrypted_data_wraps :
    Server.pairing.srp.isSome = true ∧
    Server.pairing.srp_owner = (Server.pairing.sess 0).sid ∧
    Server.pairing.request Ext.sampleShortM5 0 [RecvEv.data [80]] = some Request.sampleM1 ∧
    Request.sampleM1.isPairSetupM5 Ext.sampleShortM5 = true ∧
    Tlv.getBuf (Ext.sampleShortM5.tlvParse Request.sampleM1.data) Tlv.Kind.EncryptedData
      Ext.sampleShortM5.sizeofdata = some [1, 2, 3, 4] ∧
    (splitEncrypted Ext.sampleShortM5 [1, 2, 3, 4]).1 = 65524 ∧
    (Server.pairing.since (Server.pairing.Process Ext.sampleShortM5 0 [RecvEv.data [80]]).2).count
      (Event.aead false (Server.pairing.sess 0).key noncePS05 65524) = 1 ∧
    ((Server.pairing.Process Ext.sampleShortM5 0 [RecvEv.data [80]]).2.sess 0).rsp.data =
      Data.tlv [⟨Tlv.Kind.State, [Tlv.State.M6]⟩,
        ⟨Tlv.Kind.Error, [Tlv.Error.Authentication]⟩] ∧
    Server.pairing.request Ext.sampleShortM3 1 [RecvEv.data [80]] = some Request.sampleM3 ∧
    Request.sampleM3.isPairVerifyM3 Ext.sampleShortM3 = true ∧
    Tlv.getBuf (Ext.sampleShortM3.tlvParse Request.sampleM3.data) Tlv.Kind.EncryptedData
      Ext.sampleShortM3.sizeofdata = some [1, 2, 3, 4] ∧
    (splitEncrypted Ext.sampleShortM3 [1, 2, 3, 4]).1 = 65524 ∧
    (Server.pairing.since (Server.pairing.Process Ext.sampleShortM3 1 [RecvEv.data [80]]).2).count
      (Event.aead false (Server.pairing.sess 1).key noncePV03 65524) = 1 ∧
    ((Server.pairing.Process Ext.sampleShortM3 1 [RecvEv.data [80]]).2.sess 1).rsp.data =
      Data.tlv [⟨Tlv.Kind.State, [Tlv.State.M4]⟩,
        ⟨Tlv.Kind.Error, [Tlv.Error.Authentication]⟩] := by
  decide

/-- C36, counterexample: sessions 0 and 1 of the sample server were opened and nothing
else was done, so no Pair-Verify M1 was processed on session 0: no handler has run, its
curve and session key are as `Open` left them.  A Pair-Verify M3 on session 0 whose
`EncryptedData` verifies under that key and names the stored controller is answered
`{State=M4}`, binds the controller, derives the transport keys from the shared secret of
the curve as it is, and the session becomes secured. -/
theorem verify_without_m1_counterexample :
    (∀ ev ∈ (Server.paired Controller.Admin).log, ev.isHandler = false) ∧
    ((Server.paired Controller.Admin).sess 0).curve = ⟨[], [], []⟩ ∧
    ((Server.paired Controller.Admin).sess 0).key = [] ∧
    ((Server.paired Controller.Admin).sess 0).secured = false ∧
    ((Server.paired Controller.Admin).sess 0).ios = none ∧
    (Server.paired Controller.Admin).request (Ext.sampleVerifyOf (cstr "controller")) 0
      [RecvEv.data [80]] = some Request.sampleM3 ∧
    Request.sampleM3.isPairVerifyM3 (Ext.sampleVerifyOf (cstr "controller")) = true ∧
    ((Server.paired Controller.Admin).Process (Ext.sampleVerifyOf (cstr "controller")) 0
      [RecvEv.data [80]]).1 = some true ∧
    (((Server.paired Controller.Admin).Process (Ext.sampleVerifyOf (cstr "controller")) 0
      [RecvEv.data [80]]).2.sess 0).rsp.data = Data.tlv [⟨Tlv.Kind.State, [Tlv.State.M4]⟩] ∧
    (((Server.paired Controller.Admin).Process (Ext.sampleVerifyOf (cstr "controller")) 0
      [RecvEv.data [80]]).2.sess 0).ios = some 0 ∧
    (((Server.paired Controller.Admin).Process (Ext.sampleVerifyOf (cstr "controller")) 0
      [RecvEv.data [80]]).2.sess 0).AccessoryToControllerKey =
      (Ext.sampleVerifyOf (cstr "controller")).hkdf (cstr "Control-Salt") []
        (cstr "Control-Read-Encryption-Key") 32 ∧
    (((Server.paired Controller.Admin).Process (Ext.sampleVerifyOf (cstr "controller")) 0
      [RecvEv.data [80]]).2.sess 0).ControllerToAccessoryKey =
      (Ext.sampleVerifyOf (cstr "controller")).hkdf (cstr "Control-Salt") []
        (cstr "Control-Write-Encryption-Key") 32 ∧
    (((Server.paired Controller.Admin).Process (Ext.sampleVerifyOf (cstr "controller")) 0
      [RecvEv.data [80]]).2.sess 0).secured = true := by
  decide

/-- C36, amended: Pair-Verify M3 binds a controller to a session whenever its
`EncryptedData` verifies under the session key the session holds and its sub-TLV, with
`Identifier` and `Signature`, names a stored controller; the handler does not ask whether
Pair-Verify M1 was processed on the session.  Such a request parsed on a valid session
sets `ios`, derives the transport keys from the Curve25519 shared secret the session
holds, and the session becomes secured.  When the state is the one a Pair-Verify M1 with
the `PublicKey` of the controller left on the session, the session key and the curve are
the ones that exchange established: the new key pair, its shared secret with the key of
the controller, and the key derived from it. -/
theorem verify_m3_binds (e : Ext) (st : Server) (sid : Nat) (recv : List RecvEv)
    (req : Request) (id sg : List Nat) (ios : Nat) (hsid : sid < MaxHttpSessions)
    (hreq : st.request e sid recv = some req) (hM3 : req.isPairVerifyM3 e = true)
    (htag : req.m3TagOk e (st.sess sid).key = some true)
    (hid : Tlv.get (req.m3Sub e (st.sess sid).key) Tlv.Kind.Identifier = some id)
    (hsg : Tlv.get (req.m3Sub e (st.sess sid).key) Tlv.Kind.Signature = some sg)
    (hget : st.pairings.Get id = some ios) :
    (st.Process e sid recv).1 = some true ∧
    ((st.Process e sid recv).2.sess sid).ios = some ios ∧
    ((st.Process e sid recv).2.sess sid).AccessoryToControllerKey =
      e.hkdf (cstr "Control-Salt") (st.sess sid).curve.shared
        (cstr "Control-Read-Encryption-Key") 32 ∧
    ((st.Process e sid recv).2.sess sid).ControllerToAccessoryKey =
      e.hkdf (cstr "Control-Salt") (st.sess sid).curve.shared
        (cstr "Control-Write-Encryption-Key") 32 ∧
    ((st.Process e sid recv).2.sess sid).secured = true ∧
    (∀ (e1 : Ext) (st0 : Server) (recv1 : List RecvEv) (req1 : Request) (iosKey : List Nat),
      st = (st0.Process e1 sid recv1).2 → st0.request e1 sid recv1 = some req1 →
      req1.isPairVerifyM1 e1 = true →
      Tlv.get (e1.tlvParse req1.data) Tlv.Kind.PublicKey = some iosKey →
      (st.sess sid).key = verifyKey e1 (e1.curveShared e1.curveInit.2 iosKey) ∧
      (st.sess sid).curve =
        ⟨e1.curveInit.1, e1.curveInit.2, e1.curveShared e1.curveInit.2 iosKey⟩) := by
  obtain ⟨h1, h2, h3, h4, h5⟩ := Process_M3_keys e st sid recv req id sg ios hsid hreq hM3 htag
    hid hsg hget
  refine ⟨h1, h4, h2, h3, h5, ?_⟩
  intro e1 st0 recv1 req1 iosKey hst hreq1 hM1 hk
  obtain ⟨hc, hkey, -, -⟩ := Process_verifyM1_keys e1 st0 sid recv1 req1 iosKey hsid hreq1 hM1 hk
  rw [hst]
  exact ⟨hkey, hc⟩

/-- C37: a `POST /pair-setup` or `POST /pair-verify` request with the TLV content type and
a content length, parsed on a valid session, whose TLV has no `State` item or a `State`
other than M1, M3, M5 (M1, M3 for `/pair-verify`).  No pairing handler is invoked; the
Pair-Setup singleton (`srp`, `srp_owner`, the shared secret), the attempt counter, the
pairings store, the keys of the session, its bound controller and its `secured` flag are
unchanged; the other sessions are unchanged; the response buffer is as `Session::Init`
left it, no status line written; and `Process` returns true. -/
theorem stray_state_no_handler (e : Ext) (st : Server) (sid : Nat) (recv : List RecvEv)
    (req : Request) (hsid : sid < MaxHttpSessions) (hreq : st.request e sid recv = some req)
    (h : req.isStrayState e = true) :
    (st.Process e sid recv).1 = some true ∧
    (∀ ev ∈ st.since (st.Process e sid recv).2, ev.isHandler = false) ∧
    (st.Process e sid recv).2.srp = st.srp ∧
    (st.Process e sid recv).2.srp_owner = st.srp_owner ∧
    (st.Process e sid recv).2.srp_shared_secret = st.srp_shared_secret ∧
    (st.Process e sid recv).2.srp_auth_count = st.srp_auth_count ∧
    (st.Process e sid recv).2.pairings = st.pairings ∧
    ((st.Process e sid recv).2.sess sid).key = (st.sess sid).key ∧
    ((st.Process e sid recv).2.sess sid).curve = (st.sess sid).curve ∧
    ((st.Process e sid recv).2.sess sid).AccessoryToControllerKey =
      (st.sess sid).AccessoryToControllerKey ∧
    ((st.Process e sid recv).2.sess sid).ControllerToAccessoryKey =
      (st.sess sid).ControllerToAccessoryKey ∧
    ((st.Process e sid recv).2.sess sid).ios = (st.sess sid).ios ∧
    ((st.Process e sid recv).2.sess sid).secured = (st.sess sid).secured ∧
    ((st.Process e sid recv).2.sess sid).rsp = Response.init ∧
    ((st.Process e sid recv).2.sess sid).rsp.calls = [] ∧
    (∀ j, j ≠ sid → (st.Process e sid recv).2.sess j = st.sess j) := by
  obtain ⟨l, s, L, q, hl, hL, hP, -⟩ := Process_parsed e st sid recv req hsid hreq
  rw [route_stray e _ sid req _ h] at hP
  have hsince : st.since (st.Process e sid recv).2 = l ++ L := by
    apply since_append
    rw [hP]
    simp [Server.sent, Server.withTlv, Server.setSess, Server.parsed, Server.touched,
      List.append_assoc]
  refine ⟨by rw [hP], ?_, by rw [hP]; rfl, by rw [hP]; rfl, by rw [hP]; rfl, by rw [hP]; rfl,
    by rw [hP]; rfl, ?_, ?_, ?_, ?_, ?_, ?_, ?_, ?_, ?_⟩
  · intro ev hev
    rw [hsince] at hev
    have hw : ev.isWire = true := by
      rcases List.mem_append.mp hev with h1 | h1
      · exact hl ev h1
      · exact hL ev h1
    cases ev <;> first | rfl | cases hw
  all_goals rw [hP]
  all_goals
    simp [Server.sent, Server.withTlv, Server.setSess, Server.parsed, Server.touched,
      Session.Init, Response.init]
  intro j hj
  simp [hj]

/-- C38: `ListPairing` emits all `Controller::IdLen` bytes of the identifier array, not
the bytes the controller was stored with.  On the sample server, whose store holds the
controller `controller` (10 bytes), the admin on session 0 adds the controller of the
4-byte identifier `[7, 7, 7, 7]` with `AddPairing` and then sends `ListPairing`: the two
`Identifier` items of the reply have 36 bytes each, the identifier followed by zeros, so
neither has the length or the content the controller was stored with. -/
theorem listPairing_identifier_padded :
    (cstr "controller").length = 10 ∧
    (Server.securedSample Controller.Admin).pairings.records =
      [⟨Controller.Admin, padTo Controller.IdLen (cstr "controller"),
        List.replicate 32 9⟩] ∧
    (((Server.securedSample Controller.Admin).step (Op.sampleAdd [7, 7, 7, 7])).sess 0).rsp.data =
      Data.tlv [⟨Tlv.Kind.State, [Tlv.State.M2]⟩] ∧
    ((Server.securedSample Controller.Admin).step (Op.sampleAdd [7, 7, 7, 7])).request
      Ext.sampleList 0 RecvEv.sampleRecord = some Request.samplePairings ∧
    Request.samplePairings.isPairingsOf Ext.sampleList Tlv.Method.ListPairing = true ∧
    ((((Server.securedSample Controller.Admin).step (Op.sampleAdd [7, 7, 7, 7])).Process
      Ext.sampleList 0 RecvEv.sampleRecord).2.sess 0).rsp.data =
      Data.tlv [⟨Tlv.Kind.State, [Tlv.State.M2]⟩,
        ⟨Tlv.Kind.Identifier, cstr "controller" ++ List.replicate 26 0⟩,
        ⟨Tlv.Kind.PublicKey, List.replicate 32 9⟩,
        ⟨Tlv.Kind.Permissions, [Controller.Admin]⟩,
        ⟨Tlv.Kind.Separator, []⟩,
        ⟨Tlv.Kind.Identifier, [7, 7, 7, 7] ++ List.replicate 32 0⟩,
        ⟨Tlv.Kind.PublicKey, List.replicate 32 9⟩,
        ⟨Tlv.Kind.Permissions, [Controller.Admin]⟩] ∧
    (cstr "controller" ++ List.replicate 26 0).length = 36 ∧
    ([7, 7, 7, 7] ++ List.replicate 32 0 : List Nat).length = 36 ∧
    ([7, 7, 7, 7] ++ List.replicate 32 0 : List Nat) ≠ [7, 7, 7, 7] := by
  decide

/-- C39, counterexample: session 0 of the sample server is secured and `recv` delivers two
records of the same request in one chunk, which fits the buffer.  `Process` decrypts the
first record, answers it and returns true; the state it leaves is the one it leaves when
`recv` delivers the first record alone, so the second record is kept nowhere.  The next
call of `Process`, to which the transport has nothing more to deliver, waits in `recv`
with nothing decrypted or parsed, although a whole record was delivered beyond the end of
the first one. -/
theorem surplus_bytes_counterexample :
    ((Server.securedSample Controller.Admin).sess 0).secured = true ∧
    (record [5, 6, 7] (List.replicate 16 0) ++ record [5, 6, 7] (List.replicate 16 0)).length
      ≤ Ext.sampleRecord.sizeofdata ∧
    ((Server.securedSample Controller.Admin).Process Ext.sampleRecord 0
      [RecvEv.data (record [5, 6, 7] (List.replicate 16 0) ++
        record [5, 6, 7] (List.replicate 16 0))]).1 = some true ∧
    ((Server.securedSample Controller.Admin).Process Ext.sampleRecord 0
      [RecvEv.data (record [5, 6, 7] (List.replicate 16 0) ++
        record [5, 6, 7] (List.replicate 16 0))]).2.log =
      ((Server.securedSample Controller.Admin).Process Ext.sampleRecord 0
        [RecvEv.data (record [5, 6, 7] (List.replicate 16 0))]).2.log ∧
    (((Server.securedSample Controller.Admin).Process Ext.sampleRecord 0
      [RecvEv.data (record [5, 6, 7] (List.replicate 16 0) ++
        record [5, 6, 7] (List.replicate 16 0))]).2.sess 0) =
      (((Server.securedSample Controller.Admin).Process Ext.sampleRecord 0
        [RecvEv.data (record [5, 6, 7] (List.replicate 16 0))]).2.sess 0) ∧
    ((Server.securedSample Controller.Admin).since
      ((Server.securedSample Controller.Admin).Process Ext.sampleRecord 0
        [RecvEv.data (record [5, 6, 7] (List.replicate 16 0) ++
          record [5, 6, 7] (List.replicate 16 0))]).2).count
      (Event.aead false [] (nonceOf 0) 3) = 1 ∧
    ((Server.securedSample Controller.Admin).since
      ((Server.securedSample Controller.Admin).Process Ext.sampleRecord 0
        [RecvEv.data (record [5, 6, 7] (List.replicate 16 0) ++
          record [5, 6, 7] (List.replicate 16 0))]).2).count
      (Event.aead false [] (nonceOf 1) 3) = 0 ∧
    ((((Server.securedSample Controller.Admin).Process Ext.sampleRecord 0
      [RecvEv.data (record [5, 6, 7] (List.replicate 16 0) ++
        record [5, 6, 7] (List.replicate 16 0))]).2.Process Ext.sampleRecord 0 []).1 = none) ∧
    (((Server.securedSample Controller.Admin).Process Ext.sampleRecord 0
      [RecvEv.data (record [5, 6, 7] (List.replicate 16 0) ++
        record [5, 6, 7] (List.replicate 16 0))]).2.since
      (((Server.securedSample Controller.Admin).Process Ext.sampleRecord 0
        [RecvEv.data (record [5, 6, 7] (List.replicate 16 0) ++
          record [5, 6, 7] (List.replicate 16 0))]).2.Process Ext.sampleRecord 0 []).2) = [] := by
  decide

/-- C39, amended: on a secured session `Process` decrypts and parses the bytes of one
record, the first `2 + len + 16` bytes `recv` delivered, and the bytes delivered beyond
the end of that record are dropped.  For a record of at most `MaxHttpBlock` bytes that
`recv` delivers in any number of non-empty chunks, followed by the surplus `extra` within
the room of the buffer, and whatever `recv` would deliver afterwards: the call returns
what it returns, and leaves the state it leaves, when `recv` delivers the record alone;
so the next call of `Process` behaves as if the surplus had never been delivered, and
with nothing more from the transport it waits in `recv`. -/
theorem surplus_bytes_dropped (e : Ext) (st : Server) (sid : Nat) (ct tag extra : List Nat)
    (chunks : List (List Nat)) (tl : List RecvEv) (hsid : sid < MaxHttpSessions)
    (hsec : (st.sess sid).secured = true) (hn : ct.length ≤ MaxHttpBlock)
    (htl : tag.length = 16) (hfit : (record ct tag ++ extra).length ≤ e.sizeofdata)
    (hne : ∀ c ∈ chunks, c ≠ []) (hdel : chunks.flatten = record ct tag ++ extra) :
    st.Process e sid (chunks.map RecvEv.data ++ tl) =
      st.Process e sid [RecvEv.data (record ct tag)] ∧
    (∀ (e2 : Ext) (recv2 : List RecvEv),
      (st.Process e sid (chunks.map RecvEv.data ++ tl)).2.Process e2 sid recv2 =
        (st.Process e sid [RecvEv.data (record ct tag)]).2.Process e2 sid recv2) ∧
    (∀ e2 : Ext,
      ((st.Process e sid (chunks.map RecvEv.data ++ tl)).2.Process e2 sid []).1 = none) := by
  have h := Process_surplus e st sid ct tag extra chunks tl hn htl hsec hfit hne hdel
  refine ⟨h, fun e2 recv2 => by rw [h], fun e2 => ?_⟩
  have h1 : ¬ sid > MaxHttpSessions := by omega
  have h2 : sid ≠ MaxHttpSessions := by omega
  simp [Server.Process, h1, h2, Server.readLoop]

/-- C40: the hex codec of `Win/HapTest.cpp` round-trips.  For every sequence `b` of `n`
bytes, `bin2hex(b, n)` writes `2n` characters followed by a terminating NUL; the
characters are from `0-9A-F`, the characters `2i` and `2i + 1` being the digits of the
high and of the low nibble of the byte `i`; and `hex2bin` applied to that string with
size `n` yields `b` again. -/
theorem hex_codec_round_trip (b : List Nat) (hb : ∀ x ∈ b, x < 256) :
    bin2hex b b.length = hexText b ++ [0] ∧
    (hexText b).length = 2 * b.length ∧
    (bin2hex b b.length).length = 2 * b.length + 1 ∧
    (∀ c ∈ hexText b, isHexChar c = true) ∧
    (∀ i, i < b.length →
      (bin2hex b b.length).getD (2 * i) 0 = hexTable.getD (b.getD i 0 / 16) 0 ∧
      (bin2hex b b.length).getD (2 * i + 1) 0 = hexTable.getD (b.getD i 0 % 16) 0) ∧
    (bin2hex b b.length).getD (2 * b.length) 1 = 0 ∧
    hex2bin (bin2hex b b.length) b.length = b := by
  have ht := bin2hex_text b
  have hl := hexText_length b
  refine ⟨ht, hl, ?_, hexText_chars b hb, ?_, ?_, ?_⟩
  · rw [ht, List.length_append, hl]; rfl
  · intro i hi
    have hg := hexText_get b i hi
    rw [ht, List.getD_append _ _ _ _ (by rw [hl]; omega),
      List.getD_append _ _ _ _ (by rw [hl]; omega)]
    exact hg
  · rw [ht, List.getD_append_right _ _ _ _ (by rw [hl]), hl]
    simp
  · rw [ht]; exact hex2bin_text b [0] hb

theorem verify_response_sent_in_clear_witness :
    (0 < MaxHttpSessions ∧
      (Server.paired Controller.Admin).request (Ext.sampleM3 (List.replicate 16 0)) 0
        [RecvEv.data [80]] = some Request.sampleM3 ∧
      ((Server.paired Controller.Admin).sess 0).secured = false ∧
      Request.sampleM3.isPairVerifyM3 (Ext.sampleM3 (List.replicate 16 0)) = true ∧
      Request.sampleM3.m3TagOk (Ext.sampleM3 (List.replicate 16 0))
        ((Server.paired Controller.Admin).sess 0).key = some true ∧
      Tlv.get (Request.sampleM3.m3Sub (Ext.sampleM3 (List.replicate 16 0))
        ((Server.paired Controller.Admin).sess 0).key) Tlv.Kind.Identifier = some (cstr "controller") ∧
      Tlv.get (Request.sampleM3.m3Sub (Ext.sampleM3 (List.replicate 16 0))
        ((Server.paired Controller.Admin).sess 0).key) Tlv.Kind.Signature =
          some (List.replicate 64 0) ∧
      (Server.paired Controller.Admin).pairings.Get (cstr "controller") = some 0 ∧
      3 ≤ (Ext.sampleM3 (List.replicate 16 0)).rspSize) ∧
    ∃ l s, (∀ ev ∈ l, ev.isWire = true) ∧
      (((Server.paired Controller.Admin).handled (Ext.sampleM3 (List.replicate 16 0)) 0
        Request.sampleM3 l s).sess 0).secured = false ∧
      (((Server.paired Controller.Admin).handedOff (Ext.sampleM3 (List.replicate 16 0)) 0
        Request.sampleM3 l s).sess 0).secured = false ∧
      (((Server.paired Controller.Admin).Process (Ext.sampleM3 (List.replicate 16 0)) 0
        [RecvEv.data [80]]).2.sess 0).secured = true :=
  ⟨⟨by decide, by decide, by decide, by decide, by decide, by decide, by decide, by decide,
      by decide⟩,
    (verify_response_sent_in_clear (Ext.sampleM3 (List.replicate 16 0))
      (Server.paired Controller.Admin) 0 [RecvEv.data [80]] Request.sampleM3 (cstr "controller")
      (List.replicate 64 0) 0 (by decide) (by decide) (by decide) (by decide) (by decide)
      (by decide) (by decide) (by decide) (by decide)).imp
      (fun _ h => h.imp (fun _ h2 => ⟨h2.1, h2.2.1, h2.2.2.2.2.2.1, h2.2.2.2.2.2.2.2.2.2⟩))⟩

theorem auth_attempt_cap_witness :
    (Server.sample.srp_auth_count = 0 ∧
      Server.sample.allGoodM1 (List.replicate 101 Op.sampleM1) = true ∧
      (List.replicate 101 Op.sampleM1).length = 101 ∧
      1 < MaxHttpSessions ∧ 6 ≤ Ext.sampleM1.rspSize ∧
      ((Server.sample.run (List.replicate 101 Op.sampleM1)).run []).request Ext.sampleM1 1
        [RecvEv.data [80]] = some Request.sampleM1 ∧
      Request.sampleM1.isPairSetupM1 Ext.sampleM1 = true ∧
      Request.sampleM1.tlvMethod Ext.sampleM1 = some Tlv.Method.PairSetupNonMfi ∧
      ((Server.sample.run (List.replicate 101 Op.sampleM1)).run []).pairings.Count Controller.None = 0) ∧
    (Server.sample.run (List.replicate 101 Op.sampleM1)).srp_auth_count = 101 ∧
    ((((Server.sample.run (List.replicate 101 Op.sampleM1)).run []).Process Ext.sampleM1 1
        [RecvEv.data [80]]).2.sess 1).rsp.data =
      Data.tlv [⟨Tlv.Kind.State, [Tlv.State.M2]⟩, ⟨Tlv.Kind.Error, [Tlv.Error.MaxTries]⟩] :=
  ⟨⟨by decide, by decide, by decide, by decide, by decide, by decide, by decide, by decide,
      by decide⟩,
    (auth_attempt_cap Server.sample (List.replicate 101 Op.sampleM1) (by decide) (by decide)
      (by decide)).1,
    ((auth_attempt_cap Server.sample (List.replicate 101 Op.sampleM1) (by decide) (by decide)
      (by decide)).2.1 [] Ext.sampleM1 1 [RecvEv.data [80]] Request.sampleM1 (by decide)
      (by decide) (by decide) (by decide) (by decide) (by decide)).1⟩

theorem pairSetupM1_paired_unavailable_witness :
    (0 < MaxHttpSessions ∧
      (Server.paired Controller.Admin).request Ext.sampleM1 0 [RecvEv.data [80]] =
        some Request.sampleM1 ∧
      Request.sampleM1.isPairSetupM1 Ext.sampleM1 = true ∧
      Request.sampleM1.tlvMethod Ext.sampleM1 = some Tlv.Method.PairSetupNonMfi ∧
      (Server.paired Controller.Admin).pairings.Count Controller.None ≠ 0 ∧
      6 ≤ Ext.sampleM1.rspSize) ∧
    (((Server.paired Controller.Admin).Process Ext.sampleM1 0 [RecvEv.data [80]]).2.sess 0).rsp.data =
      Data.tlv [⟨Tlv.Kind.State, [Tlv.State.M2]⟩,
        ⟨Tlv.Kind.Error, [Tlv.Error.Unavailable]⟩] :=
  ⟨⟨by decide, by decide, by decide, by decide, by decide, by decide⟩,
    (pairSetupM1_paired_unavailable Ext.sampleM1 (Server.paired Controller.Admin) 0 [RecvEv.data [80]]
      Request.sampleM1 (by decide) (by decide) (by decide) (by decide) (by decide)
      (by decide)).1⟩

theorem identify_response_witness :
    (0 < MaxHttpSessions ∧
      Server.sample.request Ext.sampleIdentify 0 [RecvEv.data [80]] =
        some Request.sampleIdentify ∧
      Request.sampleIdentify.method = "POST" ∧ Request.sampleIdentify.path = "/identify" ∧
      Server.sample.pairings.Count Controller.None = 0) ∧
    ((Server.sample.Process Ext.sampleIdentify 0 [RecvEv.data [80]]).2.sess 0).rsp =
      ⟨[Call.start Status.HTTP_204, Call.end_], Data.none⟩ :=
  ⟨⟨by decide, by decide, by decide, by decide, by decide⟩,
    (identify_response Ext.sampleIdentify Server.sample 0 [RecvEv.data [80]]
      Request.sampleIdentify (by decide) (by decide) (by decide) (by decide)).2.1 (by decide)⟩

theorem record_size_limit_witness :
    (0 < MaxHttpSessions ∧ ((Server.securedSample Controller.Admin).sess 0).secured = true ∧
      ((Server.securedSample Controller.Admin).sess 0).opened = true ∧
      MaxHttpFrame ≤ Ext.sampleRecord.sizeofdata ∧
      firstTwo [RecvEv.data [1], RecvEv.data [4, 0]] = some (1, 4) ∧
      MaxHttpBlock < 1 + 4 * 256 ∧
      [80, 79, 83].length ≤ MaxHttpBlock ∧ (List.replicate 16 0).length = 16 ∧
      (record [80, 79, 83] (List.replicate 16 0) ++ [7]).length ≤ Ext.sampleRecord.sizeofdata ∧
      (Ext.sampleRecord.aead false
        ((Server.securedSample Controller.Admin).sess 0).ControllerToAccessoryKey
        (nonceOf ((Server.securedSample Controller.Admin).sess 0).recvSeq) [80, 79, 83]
        (lenBytes [80, 79, 83].length)).2 = List.replicate 16 0 ∧
      (∀ c ∈ [[3], [0, 80, 79], 83 :: List.replicate 16 0 ++ [7]], c ≠ []) ∧
      [[3], [0, 80, 79], 83 :: List.replicate 16 0 ++ [7]].flatten =
        record [80, 79, 83] (List.replicate 16 0) ++ [7] ∧
      Ext.sampleRecord.parse (Ext.sampleRecord.aead false
        ((Server.securedSample Controller.Admin).sess 0).ControllerToAccessoryKey
        (nonceOf ((Server.securedSample Controller.Admin).sess 0).recvSeq) [80, 79, 83]
        (lenBytes [80, 79, 83].length)).1 = ParseStatus.Success Request.sampleIdentify) ∧
    (Server.securedSample Controller.Admin).Process Ext.sampleRecord 0
        [RecvEv.data [1], RecvEv.data [4, 0]] =
      (some false, (Server.securedSample Controller.Admin).setSess 0
        ((Server.securedSample Controller.Admin).sess 0).Init) ∧
    ((Server.securedSample Controller.Admin).Process Ext.sampleRecord 0
      ([[3], [0, 80, 79], 83 :: List.replicate 16 0 ++ [7]].map RecvEv.data ++ [])).1 =
        some true :=
  ⟨⟨by decide, by decide, by decide, by decide, by decide, by decide, by decide, by decide,
      by decide, by decide, by decide, by decide, by decide⟩,
    ((record_size_limit Ext.sampleRecord (Server.securedSample Controller.Admin) 0 (by decide)
      (by decide) (by decide) (by decide)).1 [RecvEv.data [1], RecvEv.data [4, 0]] 1 4 0
      (by decide) (by decide)).1,
    (((record_size_limit Ext.sampleRecord (Server.securedSample Controller.Admin) 0 (by decide)
      (by decide) (by decide) (by decide)).2 [80, 79, 83] (List.replicate 16 0) [7]
      [[3], [0, 80, 79], 83 :: List.replicate 16 0 ++ [7]] [] (by decide) (by decide)
      (by decide) (by decide) (by decide) (by decide)).2.2 Request.sampleIdentify
      (by decide)).2⟩

theorem unsecured_access_470_witness :
    (0 < MaxHttpSessions ∧
      Server.sample.request
        (Ext.sample (ParseStatus.Success (Request.sample "GET" "/accessories")) [] [])
        0 [RecvEv.data [71]] = some (Request.sample "GET" "/accessories") ∧
      (Server.sample.sess 0).secured = false ∧
      (Request.sample "GET" "/accessories").isSecuredResource = true) ∧
    ((Server.sample.Process
        (Ext.sample (ParseStatus.Success (Request.sample "GET" "/accessories")) [] [])
        0 [RecvEv.data [71]]).2.sess 0).rsp =
      ⟨[Call.start Status.HTTP_470, Call.end_], Data.none⟩ :=
  ⟨⟨by decide, by decide, by decide, by decide⟩,
    (unsecured_access_470
      (Ext.sample (ParseStatus.Success (Request.sample "GET" "/accessories")) [] [])
      Server.sample 0 [RecvEv.data [71]] (Request.sample "GET" "/accessories")
      (by decide) (by decide) (by decide) (by decide)).2.1⟩

theorem sequence_monotonic_witness :
    (0 < MaxHttpSessions ∧
      ((Server.securedSample Controller.Admin).sess 0).opened = true ∧
      (∀ op ∈ [Op.sampleRecord, Op.Poll Ext.sampleEvents 0, Op.sampleRecord],
        op.closes 0 = false) ∧
      ((Server.securedSample Controller.Admin).sess 0).sendSeq = 0 ∧
      ((Server.securedSample Controller.Admin).sess 0).recvSeq = 0) ∧
    (Server.securedSample Controller.Admin).sentOver 0
      [Op.sampleRecord, Op.Poll Ext.sampleEvents 0, Op.sampleRecord] =
      [[0, 0, 0, 0, 0, 0, 0, 0, 0, 0, 0, 0], [0, 0, 0, 0, 1, 0, 0, 0, 0, 0, 0, 0],
       [0, 0, 0, 0, 2, 0, 0, 0, 0, 0, 0, 0]] ∧
    (Server.securedSample Controller.Admin).recvOver 0
      [Op.sampleRecord, Op.Poll Ext.sampleEvents 0, Op.sampleRecord] =
      [[0, 0, 0, 0, 0, 0, 0, 0, 0, 0, 0, 0], [0, 0, 0, 0, 1, 0, 0, 0, 0, 0, 0, 0]] ∧
    (Server.securedSample Controller.Admin).sentOver 0
      [Op.sampleRecord, Op.Poll Ext.sampleEvents 0, Op.sampleRecord] =
      [nonceOf 0, nonceOf 1, nonceOf 2] ∧
    ((Server.securedSample Controller.Admin).sentOver 0
        [Op.sampleRecord, Op.Poll Ext.sampleEvents 0, Op.sampleRecord])[1]? =
      some ([0, 0, 0, 0] ++ (List.range 8).map
        (fun j => (((Server.securedSample Controller.Admin).sess 0).sendSeq + 1) / 256 ^ j %
          256)) ∧
    ((Server.securedSample Controller.Admin).sentOver 0
        [Op.sampleRecord, Op.Poll Ext.sampleEvents 0, Op.sampleRecord])[1]? ≠
      ((Server.securedSample Controller.Admin).sentOver 0
        [Op.sampleRecord, Op.Poll Ext.sampleEvents 0, Op.sampleRecord])[2]? ∧
    (((Server.securedSample Controller.Admin).run
        [Op.sampleRecord, Op.Poll Ext.sampleEvents 0, Op.sampleRecord]).sess 0).sendSeq = 3 ∧
    (((Server.securedSample Controller.Admin).run
        [Op.sampleRecord, Op.Poll Ext.sampleEvents 0, Op.sampleRecord]).sess 0).recvSeq = 2 ∧
    (((Server.securedSample Controller.Admin).run
        [Op.sampleRecord, Op.Poll Ext.sampleEvents 0, Op.sampleRecord]).sess 0).sendSeq =
      seqAfter ((Server.securedSample Controller.Admin).sess 0).sendSeq
        ((Server.securedSample Controller.Admin).sentOver 0
          [Op.sampleRecord, Op.Poll Ext.sampleEvents 0, Op.sampleRecord]).length ∧
    (((Server.securedSample Controller.Admin).run
        [Op.sampleRecord, Op.Poll Ext.sampleEvents 0, Op.sampleRecord]).sess 0).recvSeq =
      seqAfter ((Server.securedSample Controller.Admin).sess 0).recvSeq
        ((Server.securedSample Controller.Admin).recvOver 0
          [Op.sampleRecord, Op.Poll Ext.sampleEvents 0, Op.sampleRecord]).length :=
  ⟨⟨by decide, by decide, by decide, by decide, by decide⟩, by decide, by decide, by decide,
    ((sequence_monotonic 0 (Server.securedSample Controller.Admin)
      [Op.sampleRecord, Op.Poll Ext.sampleEvents 0, Op.sampleRecord] (by decide) (by decide)
      (by decide)).1 1 (by decide)).2.1,
    (sequence_monotonic 0 (Server.securedSample Controller.Admin)
      [Op.sampleRecord, Op.Poll Ext.sampleEvents 0, Op.sampleRecord] (by decide) (by decide)
      (by decide)).2.2.1 1 2 (by decide) (by decide) (by decide),
    by decide, by decide,
    (sequence_monotonic 0 (Server.securedSample Controller.Admin)
      [Op.sampleRecord, Op.Poll Ext.sampleEvents 0, Op.sampleRecord] (by decide) (by decide)
      (by decide)).2.2.2.2.1,
    (sequence_monotonic 0 (Server.securedSample Controller.Admin)
      [Op.sampleRecord, Op.Poll Ext.sampleEvents 0, Op.sampleRecord] (by decide) (by decide)
      (by decide)).2.2.2.2.2.1⟩

theorem send_slices_response_witness :
    (((Server.securedSample Controller.Admin).sess 0).secured = true ∧
      Ext.sampleLong.render ((Server.securedSample Controller.Admin).sess 0).rsp =
        sampleLongBytes ∧
      sampleLongBytes.length = 2500 ∧ sampleLongBytes.length < 65536) ∧
    (Server.securedSample Controller.Admin)._send Ext.sampleLong 0 =
      (true, (Server.securedSample Controller.Admin).sent 0
        (recordEvents Ext.sampleLong ((Server.securedSample Controller.Admin).sess 0).sid
          ((Server.securedSample Controller.Admin).sess 0).AccessoryToControllerKey
          ((Server.securedSample Controller.Admin).sess 0).sendSeq (blocks sampleLongBytes))
        (seqAfter ((Server.securedSample Controller.Admin).sess 0).sendSeq
          (blocks sampleLongBytes).length) true) ∧
    (blocks sampleLongBytes).length = 3 ∧
    (blocks sampleLongBytes).flatten = sampleLongBytes ∧
    (blocks sampleLongBytes).getD 0 [] = (sampleLongBytes.drop (0 * 1024)).take 1024 ∧
    (blocks sampleLongBytes).getD 1 [] = (sampleLongBytes.drop (1 * 1024)).take 1024 ∧
    (blocks sampleLongBytes).getD 2 [] = (sampleLongBytes.drop (2 * 1024)).take 1024 ∧
    ((blocks sampleLongBytes).getD 1 [])[0]? = some (1024 % 251) ∧
    ((blocks sampleLongBytes).getD 2 [])[451]? = some (2499 % 251) ∧
    ((blocks sampleLongBytes).getD 0 []).length = 1024 ∧
    ((blocks sampleLongBytes).getD 1 []).length = 1024 ∧
    ((blocks sampleLongBytes).getD 2 []).length = 452 ∧
    (recordEvents Ext.sampleLong ((Server.securedSample Controller.Admin).sess 0).sid
        ((Server.securedSample Controller.Admin).sess 0).AccessoryToControllerKey
        ((Server.securedSample Controller.Admin).sess 0).sendSeq
        (blocks sampleLongBytes))[2 * 1 + 1]? =
      some (Event.send ((Server.securedSample Controller.Admin).sess 0).sid
        (sealed Ext.sampleLong
          ((Server.securedSample Controller.Admin).sess 0).AccessoryToControllerKey
          (nonceOf (((Server.securedSample Controller.Admin).sess 0).sendSeq + 1))
          ((blocks sampleLongBytes).getD 1 []))) ∧
    (sealed Ext.sampleLong
        ((Server.securedSample Controller.Admin).sess 0).AccessoryToControllerKey
        (nonceOf (((Server.securedSample Controller.Admin).sess 0).sendSeq + 1))
        ((blocks sampleLongBytes).getD 1 [])).length = 1042 ∧
    (sealed Ext.sampleLong
        ((Server.securedSample Controller.Admin).sess 0).AccessoryToControllerKey
        (nonceOf (((Server.securedSample Controller.Admin).sess 0).sendSeq + 2))
        ((blocks sampleLongBytes).getD 2 [])).length = 470 ∧
    (recordEvents Ext.sampleLong ((Server.securedSample Controller.Admin).sess 0).sid
        ((Server.securedSample Controller.Admin).sess 0).AccessoryToControllerKey
        ((Server.securedSample Controller.Admin).sess 0).sendSeq
        (blocks sampleLongBytes)).length = 6 ∧
    (((Server.securedSample Controller.Admin)._send Ext.sampleLong 0).2.sess 0).sendSeq =
      ((Server.securedSample Controller.Admin).sess 0).sendSeq + 3 := by
  have hlen : sampleLongBytes.length = 2500 := by
    simp [sampleLongBytes]
  have hseq : ((Server.securedSample Controller.Admin).sess 0).sendSeq = 0 := by
    decide
  obtain ⟨h1, h2, -, h4, h5, h6, h7⟩ := send_slices_response Ext.sampleLong
    (Server.securedSample Controller.Admin) 0 sampleLongBytes (by decide) rfl
    (by rw [hlen]; norm_num)
  have hb : (blocks sampleLongBytes).length = 3 := by
    rw [h2, hlen]
  obtain ⟨a0, b0, -, -, -, -, -, -⟩ := h5 0 (by rw [hb]; norm_num)
  obtain ⟨a1, b1, -, -, -, d1, e1, -⟩ := h5 1 (by rw [hb]; norm_num)
  obtain ⟨a2, b2, -, -, -, -, e2, -⟩ := h5 2 (by rw [hb]; norm_num)
  rw [hb, hlen] at b0 b1 b2
  rw [hb] at h6 h7
  have c0 : ((blocks sampleLongBytes).getD 0 []).length = 1024 := b0.trans (by decide)
  have c1 : ((blocks sampleLongBytes).getD 1 []).length = 1024 := b1.trans (by decide)
  have c2 : ((blocks sampleLongBytes).getD 2 []).length = 452 := b2.trans (by decide)
  have g1 : ((blocks sampleLongBytes).getD 1 [])[0]? = some (1024 % 251) := by
    rw [a1]
    simp [sampleLongBytes, List.getElem?_take, List.getElem?_drop, List.getElem?_map,
      List.getElem?_range]
  have g2 : ((blocks sampleLongBytes).getD 2 [])[451]? = some (2499 % 251) := by
    rw [a2]
    simp [sampleLongBytes, List.getElem?_take, List.getElem?_drop, List.getElem?_map,
      List.getElem?_range]
  rw [c1] at e1
  rw [c2] at e2
  exact ⟨⟨by decide, rfl, hlen, by rw [hlen]; norm_num⟩, h1, hb, h4, a0, a1, a2, g1, g2, c0, c1, c2,
    d1, e1, e2, h6, h7 (by rw [hseq]; norm_num)⟩

theorem record_format_witness :
    (0 < MaxHttpSessions ∧ ((Server.securedSample Controller.Admin).sess 0).secured = true) ∧
    (∀ n, n < 65536 →
      lenBytes n = [n % 256, n / 256] ∧
      (lenBytes n).getD 0 0 + 256 * (lenBytes n).getD 1 0 = n) ∧
    (∀ seq, nonceOf seq = [0, 0, 0, 0] ++ le64 seq ∧ (nonceOf seq).length = 12 ∧
      (∀ b ∈ le64 seq, b < 256) ∧
      ((List.range 8).map (fun i => (le64 seq).getD i 0 * 256 ^ i)).sum = seq % 2 ^ 64) :=
  ⟨⟨by decide, by decide⟩,
    (record_format Ext.sampleRecord (Server.securedSample Controller.Admin) 0 (by decide)
      (by decide)).1,
    (record_format Ext.sampleRecord (Server.securedSample Controller.Admin) 0 (by decide)
      (by decide)).2.1⟩

theorem transport_keys_witness :
    (0 < MaxHttpSessions ∧
      (Server.paired Controller.Admin).request (Ext.sampleM3 (List.replicate 16 0)) 0
        [RecvEv.data [80]] = some Request.sampleM3 ∧
      Request.sampleM3.isPairVerifyM3 (Ext.sampleM3 (List.replicate 16 0)) = true ∧
      Request.sampleM3.m3TagOk (Ext.sampleM3 (List.replicate 16 0))
        ((Server.paired Controller.Admin).sess 0).key = some true ∧
      Tlv.get (Request.sampleM3.m3Sub (Ext.sampleM3 (List.replicate 16 0))
        ((Server.paired Controller.Admin).sess 0).key) Tlv.Kind.Identifier =
          some (cstr "controller") ∧
      Tlv.get (Request.sampleM3.m3Sub (Ext.sampleM3 (List.replicate 16 0))
        ((Server.paired Controller.Admin).sess 0).key) Tlv.Kind.Signature =
          some (List.replicate 64 0) ∧
      (Server.paired Controller.Admin).pairings.Get (cstr "controller") = some 0) ∧
    (((Server.paired Controller.Admin).Process (Ext.sampleM3 (List.replicate 16 0)) 0
        [RecvEv.data [80]]).1 = some true ∧
      (((Server.paired Controller.Admin).Process (Ext.sampleM3 (List.replicate 16 0)) 0
        [RecvEv.data [80]]).2.sess 0).AccessoryToControllerKey =
          (Ext.sampleM3 (List.replicate 16 0)).hkdf (cstr "Control-Salt")
            ((Server.paired Controller.Admin).sess 0).curve.shared
            (cstr "Control-Read-Encryption-Key") 32 ∧
      (((Server.paired Controller.Admin).Process (Ext.sampleM3 (List.replicate 16 0)) 0
        [RecvEv.data [80]]).2.sess 0).ControllerToAccessoryKey =
          (Ext.sampleM3 (List.replicate 16 0)).hkdf (cstr "Control-Salt")
            ((Server.paired Controller.Admin).sess 0).curve.shared
            (cstr "Control-Write-Encryption-Key") 32) ∧
    (((Server.securedSample Controller.Admin).sess 0).secured = true ∧
      ∃ L q, (Server.securedSample Controller.Admin)._send Ext.sampleRecord 0 =
          (true, (Server.securedSample Controller.Admin).sent 0 L q true) ∧
        L = recordEvents Ext.sampleRecord ((Server.securedSample Controller.Admin).sess 0).sid
          ((Server.securedSample Controller.Admin).sess 0).AccessoryToControllerKey
          ((Server.securedSample Controller.Admin).sess 0).sendSeq
          (blocks (Ext.sampleRecord.render
            ((Server.securedSample Controller.Admin).sess 0).rsp)) ∧
        ∀ ev ∈ L, ev.cipherIs true
          ((Server.securedSample Controller.Admin).sess 0).AccessoryToControllerKey) :=
  ⟨⟨by decide, by decide, by decide, by decide, by decide, by decide, by decide⟩,
    (transport_keys (Ext.sampleM3 (List.replicate 16 0)) (Server.paired Controller.Admin) 0
      (by decide)).1 [RecvEv.data [80]] Request.sampleM3 (cstr "controller")
      (List.replicate 64 0) 0 (by decide) (by decide) (by decide) (by decide) (by decide)
      (by decide),
    by decide,
    (transport_keys Ext.sampleRecord (Server.securedSample Controller.Admin) 0
      (by decide)).2.1 (by decide)⟩

theorem process_returns_false_exactly_witness :
    0 < MaxHttpSessions ∧
    ((Server.securedSample Controller.Admin).Process Ext.sampleRecord 0
      [RecvEv.data (record [5, 6, 7] (List.replicate 16 1))]).1 = some false ∧
    (∃ pre ev post, [RecvEv.data (record [5, 6, 7] (List.replicate 16 1))] = pre ++ ev :: post ∧
      ((Server.securedSample Controller.Admin).Process Ext.sampleRecord 0 pre).1 = none ∧
      (Server.securedSample Controller.Admin).rejects Ext.sampleRecord 0
        (buffered Ext.sampleRecord pre []) ev) ∧
    ((Server.securedSample Controller.Admin).Process Ext.sampleRecord 0
      [RecvEv.data (record [5, 6, 7] (List.replicate 16 0))]).1 = some true :=
  ⟨by decide, by decide,
    (process_returns_false_exactly Ext.sampleRecord (Server.securedSample Controller.Admin) 0
      [RecvEv.data (record [5, 6, 7] (List.replicate 16 1))] (by decide)).1.mp (by decide),
    (process_returns_false_exactly Ext.sampleRecord (Server.securedSample Controller.Admin) 0
      [RecvEv.data (record [5, 6, 7] (List.replicate 16 0))] (by decide)).2.1.mpr
      ⟨Request.sampleIdentify, by decide⟩⟩

theorem pairSetup_needs_owner_witness :
    (0 < MaxHttpSessions ∧ Server.sample.srp = none ∧
      6 ≤ (Ext.sampleSetup Tlv.sampleM3 true none).rspSize ∧
      Server.sample.request (Ext.sampleSetup Tlv.sampleM3 true none) 0 [RecvEv.data [80]] =
        some Request.sampleM1 ∧
      Request.sampleM1.isPairSetupM3 (Ext.sampleSetup Tlv.sampleM3 true none) = true ∧
      Server.sample.request (Ext.sampleSigned "/pair-setup" Tlv.State.M5) 0
        [RecvEv.data [1]] = some (Request.sampleSigned "/pair-setup" [1]) ∧
      (Request.sampleSigned "/pair-setup" [1]).isPairSetupM5
        (Ext.sampleSigned "/pair-setup" Tlv.State.M5) = true) ∧
    ((Server.sample.Process (Ext.sampleSetup Tlv.sampleM3 true none) 0
        [RecvEv.data [80]]).2.sess 0).rsp.data =
      Data.tlv [⟨Tlv.Kind.State, [Tlv.State.M4]⟩, ⟨Tlv.Kind.Error, [Tlv.Error.Unknown]⟩] ∧
    ((Server.sample.Process (Ext.sampleSigned "/pair-setup" Tlv.State.M5) 0
        [RecvEv.data [1]]).2.sess 0).rsp.data =
      Data.tlv [⟨Tlv.Kind.State, [Tlv.State.M6]⟩, ⟨Tlv.Kind.Error, [Tlv.Error.Unknown]⟩] ∧
    ((Server.sample.Process (Ext.sampleSetup Tlv.sampleM3 true none) 0
        [RecvEv.data [80]]).1 = some true ∧
      (Server.sample.Process (Ext.sampleSetup Tlv.sampleM3 true none) 0
        [RecvEv.data [80]]).2.srp = Server.sample.srp ∧
      (Server.sample.Process (Ext.sampleSetup Tlv.sampleM3 true none) 0
        [RecvEv.data [80]]).2.srp_owner = Server.sample.srp_owner ∧
      (Server.sample.Process (Ext.sampleSetup Tlv.sampleM3 true none) 0
        [RecvEv.data [80]]).2.srp_shared_secret = Server.sample.srp_shared_secret ∧
      (Server.sample.Process (Ext.sampleSetup Tlv.sampleM3 true none) 0
        [RecvEv.data [80]]).2.pairings = Server.sample.pairings ∧
      ((Server.sample.Process (Ext.sampleSetup Tlv.sampleM3 true none) 0
        [RecvEv.data [80]]).2.sess 0).key = (Server.sample.sess 0).key) :=
  ⟨⟨by decide, by decide, by decide, by decide, by decide, by decide, by decide⟩,
    (pairSetup_needs_owner (Ext.sampleSetup Tlv.sampleM3 true none) Server.sample 0
      [RecvEv.data [80]] Request.sampleM1 (by decide) (by decide) (Or.inl (by decide))
      (by decide)).1.1 (by decide),
    (pairSetup_needs_owner (Ext.sampleSigned "/pair-setup" Tlv.State.M5) Server.sample 0
      [RecvEv.data [1]] (Request.sampleSigned "/pair-setup" [1]) (by decide) (by decide)
      (Or.inl (by decide)) (by decide)).1.2 (by decide),
    (pairSetup_needs_owner (Ext.sampleSetup Tlv.sampleM3 true none) Server.sample 0
      [RecvEv.data [80]] Request.sampleM1 (by decide) (by decide) (Or.inl (by decide))
      (by decide)).2 (Or.inl (by decide))⟩

theorem pairSetupM3_outcomes_witness :
    (0 < MaxHttpSessions ∧ Server.pairing.srp = some SRP.sample ∧
      Server.pairing.srp_owner = (Server.pairing.sess 0).sid) ∧
    ((Server.pairing.request (Ext.sampleSetup Tlv.sampleM3 false none) 0 [RecvEv.data [80]] =
        some Request.sampleM1 ∧
      Request.sampleM1.isPairSetupM3 (Ext.sampleSetup Tlv.sampleM3 false none) = true ∧
      Tlv.getBuf ((Ext.sampleSetup Tlv.sampleM3 false none).tlvParse Request.sampleM1.data)
        Tlv.Kind.PublicKey 384 = some (List.replicate 384 6) ∧
      Tlv.getBuf ((Ext.sampleSetup Tlv.sampleM3 false none).tlvParse Request.sampleM1.data)
        Tlv.Kind.Proof 64 = some (List.replicate 64 7) ∧
      (Ext.sampleSetup Tlv.sampleM3 false none).SRP_compute_key SRP.sample
        (List.replicate 384 6) = some (List.replicate 64 7) ∧
      (Ext.sampleSetup Tlv.sampleM3 false none).SRP_verify SRP.sample
        ((List.replicate 64 7 ++ (Ext.sampleSetup Tlv.sampleM3 false none).scratch).take 64) =
          false ∧
      6 ≤ (Ext.sampleSetup Tlv.sampleM3 false none).rspSize) ∧
      ((Server.pairing.Process (Ext.sampleSetup Tlv.sampleM3 false none) 0
          [RecvEv.data [80]]).2.sess 0).rsp.data =
        Data.tlv [⟨Tlv.Kind.State, [Tlv.State.M4]⟩,
          ⟨Tlv.Kind.Error, [Tlv.Error.Authentication]⟩] ∧
      (Server.pairing.Process (Ext.sampleSetup Tlv.sampleM3 false none) 0
        [RecvEv.data [80]]).2.srp = Server.pairing.srp ∧
      (Server.pairing.Process (Ext.sampleSetup Tlv.sampleM3 false none) 0
        [RecvEv.data [80]]).2.srp_owner = Server.pairing.srp_owner) ∧
    ((Server.pairing.request (Ext.sampleSetup Tlv.sampleM3 true none) 0 [RecvEv.data [80]] =
        some Request.sampleM1 ∧
      Request.sampleM1.isPairSetupM3 (Ext.sampleSetup Tlv.sampleM3 true none) = true ∧
      (Ext.sampleSetup Tlv.sampleM3 true none).SRP_verify SRP.sample
        ((List.replicate 64 7 ++ (Ext.sampleSetup Tlv.sampleM3 true none).scratch).take 64) =
          true ∧
      (Ext.sampleSetup Tlv.sampleM3 true none).SRP_respond SRP.sample = none) ∧
      ((Server.pairing.Process (Ext.sampleSetup Tlv.sampleM3 true none) 0
          [RecvEv.data [80]]).2.sess 0).rsp.data =
        Data.tlv [⟨Tlv.Kind.State, [Tlv.State.M4]⟩, ⟨Tlv.Kind.Error, [Tlv.Error.Unknown]⟩] ∧
      (Server.pairing.Process (Ext.sampleSetup Tlv.sampleM3 true none) 0
        [RecvEv.data [80]]).2.srp = none ∧
      (Server.pairing.Process (Ext.sampleSetup Tlv.sampleM3 true none) 0
        [RecvEv.data [80]]).2.srp_owner = sid_invalid) ∧
    ((Server.pairing.request (Ext.sampleSetup Tlv.sampleM3 true (some (List.replicate 64 8))) 0
        [RecvEv.data [80]] = some Request.sampleM1 ∧
      Request.sampleM1.isPairSetupM3
        (Ext.sampleSetup Tlv.sampleM3 true (some (List.replicate 64 8))) = true ∧
      (Ext.sampleSetup Tlv.sampleM3 true (some (List.replicate 64 8))).SRP_respond SRP.sample =
        some (List.replicate 64 8) ∧
      3 + Tlv.itemSize (List.replicate 64 8).length ≤
        (Ext.sampleSetup Tlv.sampleM3 true (some (List.replicate 64 8))).rspSize) ∧
      ((Server.pairing.Process (Ext.sampleSetup Tlv.sampleM3 true (some (List.replicate 64 8)))
          0 [RecvEv.data [80]]).2.sess 0).rsp.data =
        Data.tlv [⟨Tlv.Kind.State, [Tlv.State.M4]⟩,
          ⟨Tlv.Kind.Proof, List.replicate 64 8⟩] ∧
      (Server.pairing.Process (Ext.sampleSetup Tlv.sampleM3 true (some (List.replicate 64 8)))
        0 [RecvEv.data [80]]).2.srp = Server.pairing.srp ∧
      (Server.pairing.Process (Ext.sampleSetup Tlv.sampleM3 true (some (List.replicate 64 8)))
        0 [RecvEv.data [80]]).2.srp_owner = Server.pairing.srp_owner) :=
  ⟨⟨by decide, by decide, by decide⟩,
    ⟨⟨by decide, by decide, by decide, by decide, by decide, by decide, by decide⟩,
      (pairSetupM3_outcomes (Ext.sampleSetup Tlv.sampleM3 false none) Server.pairing 0
        [RecvEv.data [80]] Request.sampleM1 SRP.sample (by decide) (by decide) (by decide)
        (by decide) (by decide)).1 (List.replicate 384 6) (List.replicate 64 7)
        (List.replicate 64 7) (by decide) (by decide) (by decide) (by decide) (by decide)⟩,
    ⟨⟨by decide, by decide, by decide, by decide⟩,
      (pairSetupM3_outcomes (Ext.sampleSetup Tlv.sampleM3 true none) Server.pairing 0
        [RecvEv.data [80]] Request.sampleM1 SRP.sample (by decide) (by decide) (by decide)
        (by decide) (by decide)).2.1
        (Or.inr (Or.inr (Or.inr ⟨List.replicate 384 6, List.replicate 64 7,
          List.replicate 64 7, by decide, by decide, by decide, by decide, by decide⟩)))
        (by decide)⟩,
    ⟨⟨by decide, by decide, by decide, by decide⟩,
      (pairSetupM3_outcomes (Ext.sampleSetup Tlv.sampleM3 true (some (List.replicate 64 8)))
        Server.pairing 0 [RecvEv.data [80]] Request.sampleM1 SRP.sample (by decide) (by decide)
        (by decide) (by decide) (by decide)).2.2 (List.replicate 384 6) (List.replicate 64 7)
        (List.replicate 64 7) (List.replicate 64 8) (by decide) (by decide) (by decide)
        (by decide) (by decide) (by decide)⟩⟩

theorem pairSetupM5_adds_pairing_witness :
    (0 < MaxHttpSessions ∧
      Server.pairing.request (Ext.sampleSigned "/pair-setup" Tlv.State.M5) 0
        [RecvEv.data [1]] = some (Request.sampleSigned "/pair-setup" [1]) ∧
      (Request.sampleSigned "/pair-setup" [1]).isPairSetupM5
        (Ext.sampleSigned "/pair-setup" Tlv.State.M5) = true ∧
      Server.pairing.srp.isSome = true ∧
      Server.pairing.srp_owner = (Server.pairing.sess 0).sid ∧
      (Request.sampleSigned "/pair-setup" [1]).m5TagOk
        (Ext.sampleSigned "/pair-setup" Tlv.State.M5) (Server.pairing.sess 0).key =
          some true ∧
      Tlv.get ((Request.sampleSigned "/pair-setup" [1]).m5Sub
        (Ext.sampleSigned "/pair-setup" Tlv.State.M5) (Server.pairing.sess 0).key)
        Tlv.Kind.Identifier = some (cstr "controller") ∧
      Tlv.get ((Request.sampleSigned "/pair-setup" [1]).m5Sub
        (Ext.sampleSigned "/pair-setup" Tlv.State.M5) (Server.pairing.sess 0).key)
        Tlv.Kind.PublicKey = some (List.replicate 32 9) ∧
      Tlv.get ((Request.sampleSigned "/pair-setup" [1]).m5Sub
        (Ext.sampleSigned "/pair-setup" Tlv.State.M5) (Server.pairing.sess 0).key)
        Tlv.Kind.Signature = some [1] ∧
      (Server.pairing.pairings.Add (cstr "controller") (List.replicate 32 9)
        Controller.Admin).1 = true) ∧
    ((Server.pairing.Process (Ext.sampleSigned "/pair-setup" Tlv.State.M5) 0
        [RecvEv.data [1]]).2.pairings =
        (Server.pairing.pairings.Add (cstr "controller") (List.replicate 32 9)
          Controller.Admin).2 ∧
      (⟨Controller.Admin, padTo Controller.IdLen (cstr "controller"),
        padTo Controller.KeyLen (List.replicate 32 9)⟩ : Controller) ∈
        (Server.pairing.Process (Ext.sampleSigned "/pair-setup" Tlv.State.M5) 0
          [RecvEv.data [1]]).2.pairings.db ∧
      (Server.pairing.since (Server.pairing.Process
        (Ext.sampleSigned "/pair-setup" Tlv.State.M5) 0 [RecvEv.data [1]]).2).count
          Event.configUpdate = 1 ∧
      (Server.pairing.Process (Ext.sampleSigned "/pair-setup" Tlv.State.M5) 0
        [RecvEv.data [1]]).2.srp = none ∧
      (Server.pairing.Process (Ext.sampleSigned "/pair-setup" Tlv.State.M5) 0
        [RecvEv.data [1]]).2.srp_owner = sid_invalid) ∧
    (Server.pairingFull.request (Ext.sampleSigned "/pair-setup" Tlv.State.M5) 0
        [RecvEv.data [1]] = some (Request.sampleSigned "/pair-setup" [1]) ∧
      Server.pairingFull.srp.isSome = true ∧
      Server.pairingFull.srp_owner = (Server.pairingFull.sess 0).sid ∧
      (Server.pairingFull.pairings.Add (cstr "controller") (List.replicate 32 9)
        Controller.Admin).1 = false ∧
      6 ≤ (Ext.sampleSigned "/pair-setup" Tlv.State.M5).rspSize) ∧
    (((Server.pairingFull.Process (Ext.sampleSigned "/pair-setup" Tlv.State.M5) 0
        [RecvEv.data [1]]).2.sess 0).rsp.data =
        Data.tlv [⟨Tlv.Kind.State, [Tlv.State.M6]⟩, ⟨Tlv.Kind.Error, [Tlv.Error.MaxPeers]⟩] ∧
      (Server.pairingFull.Process (Ext.sampleSigned "/pair-setup" Tlv.State.M5) 0
        [RecvEv.data [1]]).2.pairings = Server.pairingFull.pairings ∧
      (Server.pairingFull.since (Server.pairingFull.Process
        (Ext.sampleSigned "/pair-setup" Tlv.State.M5) 0 [RecvEv.data [1]]).2).count
          Event.configUpdate = 0) :=
  ⟨⟨by decide, by decide, by decide, by decide, by decide, by decide, by decide, by decide,
      by decide, by decide⟩,
    (fun h => ⟨h.1, h.2.1, h.2.2.2.1, h.2.2.2.2.1, h.2.2.2.2.2⟩)
      ((pairSetupM5_adds_pairing (Ext.sampleSigned "/pair-setup" Tlv.State.M5) Server.pairing 0
        [RecvEv.data [1]] (Request.sampleSigned "/pair-setup" [1]) (cstr "controller")
        (List.replicate 32 9) [1] (by decide) (by decide) (by decide) (by decide) (by decide)
        (by decide) (by decide) (by decide) (by decide)).1 (by decide)),
    ⟨by decide, by decide, by decide, by decide, by decide⟩,
    (fun h => ⟨h.1 (by decide), h.2.1, h.2.2⟩)
      ((pairSetupM5_adds_pairing (Ext.sampleSigned "/pair-setup" Tlv.State.M5)
        Server.pairingFull 0 [RecvEv.data [1]] (Request.sampleSigned "/pair-setup" [1])
        (cstr "controller") (List.replicate 32 9) [1] (by decide) (by decide) (by decide)
        (by decide) (by decide) (by decide) (by decide) (by decide) (by decide)).2
        (by decide))⟩

theorem signature_not_verified_witness :
    (0 < MaxHttpSessions ∧
      Server.pairing.request (Ext.sampleSigned "/pair-setup" Tlv.State.M5) 0 [RecvEv.data [1]] =
        some (Request.sampleSigned "/pair-setup" [1]) ∧
      Server.pairing.request (Ext.sampleSigned "/pair-setup" Tlv.State.M5) 0 [RecvEv.data [2]] =
        some (Request.sampleSigned "/pair-setup" [2]) ∧
      (Request.sampleSigned "/pair-setup" [1]).isPairSetupM5
        (Ext.sampleSigned "/pair-setup" Tlv.State.M5) = true ∧
      (Request.sampleSigned "/pair-setup" [2]).isPairSetupM5
        (Ext.sampleSigned "/pair-setup" Tlv.State.M5) = true ∧
      (Request.sampleSigned "/pair-setup" [1]).m5TagOk
          (Ext.sampleSigned "/pair-setup" Tlv.State.M5) (Server.pairing.sess 0).key =
        (Request.sampleSigned "/pair-setup" [2]).m5TagOk
          (Ext.sampleSigned "/pair-setup" Tlv.State.M5) (Server.pairing.sess 0).key ∧
      Tlv.get ((Request.sampleSigned "/pair-setup" [1]).m5Sub
          (Ext.sampleSigned "/pair-setup" Tlv.State.M5) (Server.pairing.sess 0).key)
          Tlv.Kind.Identifier =
        Tlv.get ((Request.sampleSigned "/pair-setup" [2]).m5Sub
          (Ext.sampleSigned "/pair-setup" Tlv.State.M5) (Server.pairing.sess 0).key)
          Tlv.Kind.Identifier ∧
      Tlv.get ((Request.sampleSigned "/pair-setup" [1]).m5Sub
          (Ext.sampleSigned "/pair-setup" Tlv.State.M5) (Server.pairing.sess 0).key)
          Tlv.Kind.PublicKey =
        Tlv.get ((Request.sampleSigned "/pair-setup" [2]).m5Sub
          (Ext.sampleSigned "/pair-setup" Tlv.State.M5) (Server.pairing.sess 0).key)
          Tlv.Kind.PublicKey ∧
      Tlv.get ((Request.sampleSigned "/pair-setup" [1]).m5Sub
          (Ext.sampleSigned "/pair-setup" Tlv.State.M5) (Server.pairing.sess 0).key)
          Tlv.Kind.Signature = some [1] ∧
      Tlv.get ((Request.sampleSigned "/pair-setup" [2]).m5Sub
          (Ext.sampleSigned "/pair-setup" Tlv.State.M5) (Server.pairing.sess 0).key)
          Tlv.Kind.Signature = some [2]) ∧
    ((Server.pairing.Process (Ext.sampleSigned "/pair-setup" Tlv.State.M5) 0
          [RecvEv.data [1]]).1 =
        (Server.pairing.Process (Ext.sampleSigned "/pair-setup" Tlv.State.M5) 0
          [RecvEv.data [2]]).1 ∧
      ((Server.pairing.Process (Ext.sampleSigned "/pair-setup" Tlv.State.M5) 0
          [RecvEv.data [1]]).2.sess 0).rsp =
        ((Server.pairing.Process (Ext.sampleSigned "/pair-setup" Tlv.State.M5) 0
          [RecvEv.data [2]]).2.sess 0).rsp ∧
      (Server.pairing.Process (Ext.sampleSigned "/pair-setup" Tlv.State.M5) 0
          [RecvEv.data [1]]).2.pairings =
        (Server.pairing.Process (Ext.sampleSigned "/pair-setup" Tlv.State.M5) 0
          [RecvEv.data [2]]).2.pairings ∧
      (Server.pairing.Process (Ext.sampleSigned "/pair-setup" Tlv.State.M5) 0
          [RecvEv.data [1]]).2.srp =
        (Server.pairing.Process (Ext.sampleSigned "/pair-setup" Tlv.State.M5) 0
          [RecvEv.data [2]]).2.srp ∧
      (Server.pairing.Process (Ext.sampleSigned "/pair-setup" Tlv.State.M5) 0
          [RecvEv.data [1]]).2.srp_owner =
        (Server.pairing.Process (Ext.sampleSigned "/pair-setup" Tlv.State.M5) 0
          [RecvEv.data [2]]).2.srp_owner) ∧
    (0 < MaxHttpSessions ∧
      (Server.paired Controller.Admin).request (Ext.sampleSigned "/pair-verify" Tlv.State.M3) 0
        [RecvEv.data [1]] = some (Request.sampleSigned "/pair-verify" [1]) ∧
      (Server.paired Controller.Admin).request (Ext.sampleSigned "/pair-verify" Tlv.State.M3) 0
        [RecvEv.data [2]] = some (Request.sampleSigned "/pair-verify" [2]) ∧
      (Request.sampleSigned "/pair-verify" [1]).isPairVerifyM3
        (Ext.sampleSigned "/pair-verify" Tlv.State.M3) = true ∧
      (Request.sampleSigned "/pair-verify" [2]).isPairVerifyM3
        (Ext.sampleSigned "/pair-verify" Tlv.State.M3) = true ∧
      (Request.sampleSigned "/pair-verify" [1]).m3TagOk
          (Ext.sampleSigned "/pair-verify" Tlv.State.M3)
          ((Server.paired Controller.Admin).sess 0).key =
        (Request.sampleSigned "/pair-verify" [2]).m3TagOk
          (Ext.sampleSigned "/pair-verify" Tlv.State.M3)
          ((Server.paired Controller.Admin).sess 0).key ∧
      Tlv.get ((Request.sampleSigned "/pair-verify" [1]).m3Sub
          (Ext.sampleSigned "/pair-verify" Tlv.State.M3)
          ((Server.paired Controller.Admin).sess 0).key) Tlv.Kind.Identifier =
        Tlv.get ((Request.sampleSigned "/pair-verify" [2]).m3Sub
          (Ext.sampleSigned "/pair-verify" Tlv.State.M3)
          ((Server.paired Controller.Admin).sess 0).key) Tlv.Kind.Identifier ∧
      Tlv.get ((Request.sampleSigned "/pair-verify" [1]).m3Sub
          (Ext.sampleSigned "/pair-verify" Tlv.State.M3)
          ((Server.paired Controller.Admin).sess 0).key) Tlv.Kind.Signature = some [1] ∧
      Tlv.get ((Request.sampleSigned "/pair-verify" [2]).m3Sub
          (Ext.sampleSigned "/pair-verify" Tlv.State.M3)
          ((Server.paired Controller.Admin).sess 0).key) Tlv.Kind.Signature = some [2]) ∧
    (((Server.paired Controller.Admin).Process (Ext.sampleSigned "/pair-verify" Tlv.State.M3) 0
          [RecvEv.data [1]]).1 =
        ((Server.paired Controller.Admin).Process
          (Ext.sampleSigned "/pair-verify" Tlv.State.M3) 0 [RecvEv.data [2]]).1 ∧
      (((Server.paired Controller.Admin).Process
          (Ext.sampleSigned "/pair-verify" Tlv.State.M3) 0 [RecvEv.data [1]]).2.sess 0).rsp =
        (((Server.paired Controller.Admin).Process
          (Ext.sampleSigned "/pair-verify" Tlv.State.M3) 0 [RecvEv.data [2]]).2.sess 0).rsp ∧
      (((Server.paired Controller.Admin).Process
          (Ext.sampleSigned "/pair-verify" Tlv.State.M3) 0 [RecvEv.data [1]]).2.sess 0).ios =
        (((Server.paired Controller.Admin).Process
          (Ext.sampleSigned "/pair-verify" Tlv.State.M3) 0 [RecvEv.data [2]]).2.sess 0).ios ∧
      (((Server.paired Controller.Admin).Process
          (Ext.sampleSigned "/pair-verify" Tlv.State.M3) 0
          [RecvEv.data [1]]).2.sess 0).AccessoryToControllerKey =
        (((Server.paired Controller.Admin).Process
          (Ext.sampleSigned "/pair-verify" Tlv.State.M3) 0
          [RecvEv.data [2]]).2.sess 0).AccessoryToControllerKey ∧
      (((Server.paired Controller.Admin).Process
          (Ext.sampleSigned "/pair-verify" Tlv.State.M3) 0
          [RecvEv.data [1]]).2.sess 0).ControllerToAccessoryKey =
        (((Server.paired Controller.Admin).Process
          (Ext.sampleSigned "/pair-verify" Tlv.State.M3) 0
          [RecvEv.data [2]]).2.sess 0).ControllerToAccessoryKey ∧
      (((Server.paired Controller.Admin).Process
          (Ext.sampleSigned "/pair-verify" Tlv.State.M3) 0
          [RecvEv.data [1]]).2.sess 0).secured =
        (((Server.paired Controller.Admin).Process
          (Ext.sampleSigned "/pair-verify" Tlv.State.M3) 0
          [RecvEv.data [2]]).2.sess 0).secured) :=
  ⟨⟨by decide, by decide, by decide, by decide, by decide, by decide, by decide, by decide,
      by decide, by decide⟩,
    (signature_not_verified (Ext.sampleSigned "/pair-setup" Tlv.State.M5) Server.pairing 0
      [RecvEv.data [1]] [RecvEv.data [2]] (Request.sampleSigned "/pair-setup" [1])
      (Request.sampleSigned "/pair-setup" [2]) (by decide) (by decide) (by decide)).1
      (by decide) (by decide) (by decide) (by decide) (by decide) (by decide),
    ⟨by decide, by decide, by decide, by decide, by decide, by decide, by decide, by decide,
      by decide⟩,
    (signature_not_verified (Ext.sampleSigned "/pair-verify" Tlv.State.M3)
      (Server.paired Controller.Admin) 0
      [RecvEv.data [1]] [RecvEv.data [2]] (Request.sampleSigned "/pair-verify" [1])
      (Request.sampleSigned "/pair-verify" [2]) (by decide) (by decide) (by decide)).2
      (by decide) (by decide) (by decide) (by decide) (by decide)⟩

theorem addPairing_store_full_witness :
    (Server.tenAdded.pairings.db.length = MaxPairings ∧
      Server.tenAdded.pairings.Count Controller.None = MaxPairings ∧
      Server.tenAdded.pairings.Get [100] = none ∧
      (Server.securedSample Controller.Admin).pairings.db.length = MaxPairings ∧
      sampleIds.length = MaxPairings ∧
      (Server.securedSample Controller.Admin).addsOnly (sampleIds.map Op.sampleAdd) sampleIds
        = true ∧
      ((sampleIds ++ [[100]]).map (padTo Controller.IdLen)).Nodup) ∧
    ((Server.tenAdded.Process
        (Ext.samplePairingsOf (Tlv.sampleAdd [100] (List.replicate 32 9) Controller.Admin))
        0 RecvEv.sampleRecord).2.sess 0).rsp.data =
      Data.tlv [⟨Tlv.Kind.State, [Tlv.State.M2]⟩, ⟨Tlv.Kind.Error, [Tlv.Error.MaxPeers]⟩] ∧
    ((((Server.securedSample Controller.Admin).run (sampleIds.map Op.sampleAdd)).Process
        (Ext.samplePairingsOf (Tlv.sampleAdd [100] (List.replicate 32 9) Controller.Admin))
        0 RecvEv.sampleRecord).2.sess 0).rsp.data =
      Data.tlv [⟨Tlv.Kind.State, [Tlv.State.M2]⟩, ⟨Tlv.Kind.Error, [Tlv.Error.MaxPeers]⟩] :=
  ⟨⟨by decide, by decide, by decide, by decide, by decide, by decide, by decide⟩,
    (addPairing_store_full.1
      (Ext.samplePairingsOf (Tlv.sampleAdd [100] (List.replicate 32 9) Controller.Admin))
      Server.tenAdded 0 RecvEv.sampleRecord Request.samplePairings [100] (List.replicate 32 9)
      Controller.Admin (by decide) (by decide) (by decide) (by decide) (by decide) (by decide)
      (by decide) (by decide) (by decide) (by decide) (by decide) (by decide)).1,
    (addPairing_store_full.2 (Server.securedSample Controller.Admin)
      (sampleIds.map Op.sampleAdd) sampleIds
      (Ext.samplePairingsOf (Tlv.sampleAdd [100] (List.replicate 32 9) Controller.Admin))
      0 RecvEv.sampleRecord [100] (by decide) (by decide) (by decide) (by decide)
      (by decide)).1⟩

theorem addPairing_outcomes_witness :
    (0 < MaxHttpSessions ∧
      ((Server.securedSample Controller.Admin).sess 0).secured = true ∧
      (Server.securedSample Controller.Admin).iosPerm
        ((Server.securedSample Controller.Admin).sess 0) = Controller.Admin ∧
      (Server.securedSample Controller.Admin).pairings.Get (cstr "controller") = some 0 ∧
      (Server.securedSample Controller.Admin).pairings.Get (cstr "other") = none) ∧
    (((Server.securedSample Controller.Admin).Process
        (Ext.samplePairingsOf (Tlv.sampleAdd (cstr "controller") (List.replicate 32 9)
          Controller.Regular)) 0 RecvEv.sampleRecord).2.pairings.deref 0 =
        { (Server.securedSample Controller.Admin).pairings.deref 0 with
          perm := Controller.Regular }) ∧
    (((Server.securedSample Controller.Admin).Process
        (Ext.samplePairingsOf (Tlv.sampleAdd (cstr "controller") (List.replicate 32 7)
          Controller.Regular)) 0 RecvEv.sampleRecord).2.pairings =
        (Server.securedSample Controller.Admin).pairings) ∧
    (((Server.securedSample Controller.Admin).Process
        (Ext.samplePairingsOf (Tlv.sampleAdd (cstr "other") (List.replicate 32 7)
          Controller.Regular)) 0 RecvEv.sampleRecord).2.pairings =
        ((Server.securedSample Controller.Admin).pairings.Add (cstr "other")
          (List.replicate 32 7) Controller.Regular).2) ∧
    (((Server.securedSample Controller.Admin).Process
        (Ext.samplePairingsOf [⟨Tlv.Kind.State, [Tlv.State.M1]⟩,
          ⟨Tlv.Kind.Method, [Tlv.Method.AddPairing]⟩]) 0 RecvEv.sampleRecord).2.pairings =
        (Server.securedSample Controller.Admin).pairings) :=
  ⟨⟨by decide, by decide, by decide, by decide, by decide⟩,
    ((((addPairing_outcomes
      (Ext.samplePairingsOf (Tlv.sampleAdd (cstr "controller") (List.replicate 32 9)
        Controller.Regular)) (Server.securedSample Controller.Admin) 0 RecvEv.sampleRecord
      Request.samplePairings (by decide) (by decide) (by decide) (by decide) (by decide)).1
      (cstr "controller") (List.replicate 32 9) Controller.Regular 0 (by decide) (by decide)
      (by decide) (by decide)).1 (by decide) (by decide)).2.2.2.1),
    ((((addPairing_outcomes
      (Ext.samplePairingsOf (Tlv.sampleAdd (cstr "controller") (List.replicate 32 7)
        Controller.Regular)) (Server.securedSample Controller.Admin) 0 RecvEv.sampleRecord
      Request.samplePairings (by decide) (by decide) (by decide) (by decide) (by decide)).1
      (cstr "controller") (List.replicate 32 7) Controller.Regular 0 (by decide) (by decide)
      (by decide) (by decide)).2 (by decide) (by decide)).2),
    (((addPairing_outcomes
      (Ext.samplePairingsOf (Tlv.sampleAdd (cstr "other") (List.replicate 32 7)
        Controller.Regular)) (Server.securedSample Controller.Admin) 0 RecvEv.sampleRecord
      Request.samplePairings (by decide) (by decide) (by decide) (by decide) (by decide)).2.1
      (cstr "other") (List.replicate 32 7) Controller.Regular (by decide) (by decide)
      (by decide) (by decide) ⟨Pairings.free, by decide, by decide⟩ (by decide)).2.1),
    (((addPairing_outcomes
      (Ext.samplePairingsOf [⟨Tlv.Kind.State, [Tlv.State.M1]⟩,
        ⟨Tlv.Kind.Method, [Tlv.Method.AddPairing]⟩]) (Server.securedSample Controller.Admin) 0
      RecvEv.sampleRecord Request.samplePairings (by decide) (by decide) (by decide)
      (by decide) (by decide)).2.2 (Or.inl (by decide)) (by decide)).2)⟩

theorem listPairing_layout_witness :
    (0 < MaxHttpSessions ∧
      Server.twoBound.request Ext.sampleList 0 RecvEv.sampleRecord =
        some Request.samplePairings ∧
      Server.twoBound.request Ext.sampleListTight 0 RecvEv.sampleRecord =
        some Request.samplePairings ∧
      (Server.twoBound.sess 0).secured = true ∧
      Request.samplePairings.isPairingsOf Ext.sampleList Tlv.Method.ListPairing = true ∧
      Request.samplePairings.isPairingsOf Ext.sampleListTight Tlv.Method.ListPairing = true ∧
      Server.twoBound.iosPerm (Server.twoBound.sess 0) = Controller.Admin ∧
      3 ≤ Ext.sampleList.rspSize ∧ 3 ≤ Ext.sampleListTight.rspSize ∧
      3 + Tlv.size (List.intercalate [(⟨Tlv.Kind.Separator, []⟩ : Tlv.Item)]
        (Server.twoBound.pairings.records.map Controller.group)) ≤ Ext.sampleList.rspSize ∧
      Ext.sampleListTight.rspSize <
        3 + Tlv.size (List.intercalate [(⟨Tlv.Kind.Separator, []⟩ : Tlv.Item)]
          (Server.twoBound.pairings.records.map Controller.group))) ∧
    Server.twoBound.pairings.records =
      [⟨Controller.Admin, padTo Controller.IdLen (cstr "controller"), List.replicate 32 9⟩,
       ⟨Controller.Regular, padTo Controller.IdLen (cstr "other"), List.replicate 32 8⟩] ∧
    List.intercalate [(⟨Tlv.Kind.Separator, []⟩ : Tlv.Item)]
        (Server.twoBound.pairings.records.map Controller.group) =
      [⟨Tlv.Kind.Identifier, padTo Controller.IdLen (cstr "controller")⟩,
       ⟨Tlv.Kind.PublicKey, List.replicate 32 9⟩,
       ⟨Tlv.Kind.Permissions, [Controller.Admin]⟩,
       ⟨Tlv.Kind.Separator, []⟩,
       ⟨Tlv.Kind.Identifier, padTo Controller.IdLen (cstr "other")⟩,
       ⟨Tlv.Kind.PublicKey, List.replicate 32 8⟩,
       ⟨Tlv.Kind.Permissions, [Controller.Regular]⟩] ∧
    ((Server.twoBound.Process Ext.sampleList 0 RecvEv.sampleRecord).2.sess 0).rsp.data =
      Data.tlv (⟨Tlv.Kind.State, [Tlv.State.M2]⟩ ::
        List.intercalate [(⟨Tlv.Kind.Separator, []⟩ : Tlv.Item)]
          (Server.twoBound.pairings.records.map Controller.group)) ∧
    ((List.intercalate [(⟨Tlv.Kind.Separator, []⟩ : Tlv.Item)]
      (Server.twoBound.pairings.records.map Controller.group)).filter
        (fun x => x.type = Tlv.Kind.Separator)).length =
      Server.twoBound.pairings.records.length - 1 ∧
    Server.twoBound.pairings.records.length - 1 = 1 ∧
    (∃ pre next post,
      List.intercalate [(⟨Tlv.Kind.Separator, []⟩ : Tlv.Item)]
        (Server.twoBound.pairings.records.map Controller.group) = pre ++ next :: post ∧
      3 + Tlv.size pre ≤ Ext.sampleListTight.rspSize ∧
      Ext.sampleListTight.rspSize < 3 + Tlv.size pre + Tlv.itemSize next.val.length ∧
      (3 + Tlv.size pre + 3 ≤ Ext.sampleListTight.rspSize →
        ((Server.twoBound.Process Ext.sampleListTight 0 RecvEv.sampleRecord).2.sess 0).rsp.data =
          Data.tlv (⟨Tlv.Kind.State, [Tlv.State.M2]⟩ :: pre ++
            [⟨Tlv.Kind.Error, [Tlv.Error.Unknown]⟩]))) ∧
    ((Server.twoBound.Process Ext.sampleListTight 0 RecvEv.sampleRecord).2.sess 0).rsp.data =
      Data.tlv [⟨Tlv.Kind.State, [Tlv.State.M2]⟩,
        ⟨Tlv.Kind.Identifier, padTo Controller.IdLen (cstr "controller")⟩,
        ⟨Tlv.Kind.PublicKey, List.replicate 32 9⟩,
        ⟨Tlv.Kind.Permissions, [Controller.Admin]⟩,
        ⟨Tlv.Kind.Separator, []⟩,
        ⟨Tlv.Kind.Error, [Tlv.Error.Unknown]⟩] ∧
    (Server.twoBound.Process Ext.sampleListTight 0 RecvEv.sampleRecord).2.pairings =
      Server.twoBound.pairings :=
  ⟨⟨by decide, by decide, by decide, by decide, by decide, by decide, by decide, by decide,
      by decide, by decide, by decide⟩,
    by decide, by decide,
    ((listPairing_layout Ext.sampleList Server.twoBound 0 RecvEv.sampleRecord
      Request.samplePairings (by decide) (by decide) (by decide) (by decide) (by decide)
      (by decide)).1 (by decide)).1,
    ((listPairing_layout Ext.sampleList Server.twoBound 0 RecvEv.sampleRecord
      Request.samplePairings (by decide) (by decide) (by decide) (by decide) (by decide)
      (by decide)).1 (by decide)).2,
    by decide,
    (listPairing_layout Ext.sampleListTight Server.twoBound 0 RecvEv.sampleRecord
      Request.samplePairings (by decide) (by decide) (by decide) (by decide) (by decide)
      (by decide)).2.1 (by decide),
    by decide,
    (listPairing_layout Ext.sampleListTight Server.twoBound 0 RecvEv.sampleRecord
      Request.samplePairings (by decide) (by decide) (by decide) (by decide) (by decide)
      (by decide)).2.2.1⟩

theorem update_callback_calls_witness :
    (0 < MaxHttpSessions ∧
      Server.twoBound.request
        (Ext.samplePairingsOf [⟨Tlv.Kind.State, [Tlv.State.M1]⟩,
          ⟨Tlv.Kind.Method, [Tlv.Method.RemovePairing]⟩,
          ⟨Tlv.Kind.Identifier, cstr "other"⟩]) 0 RecvEv.sampleRecord =
        some Request.samplePairings ∧
      Server.twoBound.pairings.Get (cstr "other") = some 1 ∧
      (Server.securedSample Controller.Admin).request Ext.sampleList 0 RecvEv.sampleRecord =
        some Request.samplePairings) ∧
    ((Server.twoBound.since (Server.twoBound.Process
        (Ext.samplePairingsOf [⟨Tlv.Kind.State, [Tlv.State.M1]⟩,
          ⟨Tlv.Kind.Method, [Tlv.Method.RemovePairing]⟩,
          ⟨Tlv.Kind.Identifier, cstr "other"⟩]) 0 RecvEv.sampleRecord).2).count
        Event.configUpdate = 1 ∧
      (Server.twoBound.Process
        (Ext.samplePairingsOf [⟨Tlv.Kind.State, [Tlv.State.M1]⟩,
          ⟨Tlv.Kind.Method, [Tlv.Method.RemovePairing]⟩,
          ⟨Tlv.Kind.Identifier, cstr "other"⟩]) 0 RecvEv.sampleRecord).2.pairings =
        (Server.twoBound.pairings.Remove (cstr "other")).2) ∧
    (((Server.securedSample Controller.Admin).since
        ((Server.securedSample Controller.Admin).Process Ext.sampleList 0
          RecvEv.sampleRecord).2).count Event.configUpdate = 0 ∧
      ((Server.securedSample Controller.Admin).Process Ext.sampleList 0
        RecvEv.sampleRecord).2.pairings = (Server.securedSample Controller.Admin).pairings) :=
  ⟨⟨by decide, by decide, by decide, by decide⟩,
    (update_callback_calls
      (Ext.samplePairingsOf [⟨Tlv.Kind.State, [Tlv.State.M1]⟩,
        ⟨Tlv.Kind.Method, [Tlv.Method.RemovePairing]⟩,
        ⟨Tlv.Kind.Identifier, cstr "other"⟩]) Server.twoBound 0 RecvEv.sampleRecord
      Request.samplePairings (by decide) (by decide)).2.2.2.2.1 (cstr "other") 1 (by decide)
      (by decide) (by decide) (by decide) (by decide),
    (update_callback_calls Ext.sampleList (Server.securedSample Controller.Admin) 0
      RecvEv.sampleRecord Request.samplePairings (by decide) (by decide)).2.2.2.2.2.2
      (by decide)⟩

theorem status_flag_invariant_witness :
    ((2 : Nat) < 256 ∧
      ((2 : Nat) &&& Bonjour.NotPaired ≠ 0 ↔
        (Server.securedSample Controller.Admin).pairings.Count Controller.None = 0) ∧
      ((Server.securedSample Controller.Admin).Process
        (Ext.samplePairingsOf [⟨Tlv.Kind.State, [Tlv.State.M1]⟩,
          ⟨Tlv.Kind.Method, [Tlv.Method.RemovePairing]⟩,
          ⟨Tlv.Kind.Identifier, cstr "controller"⟩]) 0 RecvEv.sampleRecord).2.pairings ≠
        (Server.securedSample Controller.Admin).pairings ∧
      ((Server.securedSample Controller.Admin).ProcessFlags
        (Ext.samplePairingsOf [⟨Tlv.Kind.State, [Tlv.State.M1]⟩,
          ⟨Tlv.Kind.Method, [Tlv.Method.RemovePairing]⟩,
          ⟨Tlv.Kind.Identifier, cstr "controller"⟩]) 0 RecvEv.sampleRecord 2) = (3, true)) ∧
    ((Config.Update 2 0).1 &&& Bonjour.NotPaired ≠ 0 ↔ (0 : Nat) = 0) ∧
    ((Server.securedSample Controller.Admin).since
      ((Server.securedSample Controller.Admin).Process
        (Ext.samplePairingsOf [⟨Tlv.Kind.State, [Tlv.State.M1]⟩,
          ⟨Tlv.Kind.Method, [Tlv.Method.RemovePairing]⟩,
          ⟨Tlv.Kind.Identifier, cstr "controller"⟩]) 0 RecvEv.sampleRecord).2).count
        Event.configUpdate = 1 ∧
    (((Server.securedSample Controller.Admin).ProcessFlags
        (Ext.samplePairingsOf [⟨Tlv.Kind.State, [Tlv.State.M1]⟩,
          ⟨Tlv.Kind.Method, [Tlv.Method.RemovePairing]⟩,
          ⟨Tlv.Kind.Identifier, cstr "controller"⟩]) 0 RecvEv.sampleRecord 2).1 &&&
        Bonjour.NotPaired ≠ 0 ↔
      ((Server.securedSample Controller.Admin).Process
        (Ext.samplePairingsOf [⟨Tlv.Kind.State, [Tlv.State.M1]⟩,
          ⟨Tlv.Kind.Method, [Tlv.Method.RemovePairing]⟩,
          ⟨Tlv.Kind.Identifier, cstr "controller"⟩]) 0 RecvEv.sampleRecord).2.pairings.Count
        Controller.None = 0) :=
  ⟨⟨by decide, by decide, by decide, by decide⟩,
    (status_flag_invariant.1 2 0 (by decide)).1,
    (status_flag_invariant.2.1
      (Ext.samplePairingsOf [⟨Tlv.Kind.State, [Tlv.State.M1]⟩,
        ⟨Tlv.Kind.Method, [Tlv.Method.RemovePairing]⟩,
        ⟨Tlv.Kind.Identifier, cstr "controller"⟩]) (Server.securedSample Controller.Admin) 0
      RecvEv.sampleRecord (by decide)).2,
    (status_flag_invariant.2.2
      (Ext.samplePairingsOf [⟨Tlv.Kind.State, [Tlv.State.M1]⟩,
        ⟨Tlv.Kind.Method, [Tlv.Method.RemovePairing]⟩,
        ⟨Tlv.Kind.Identifier, cstr "controller"⟩]) (Server.securedSample Controller.Admin) 0
      RecvEv.sampleRecord 2 (by decide) (by decide)).1⟩

theorem unknown_path_answered_witness :
    0 < MaxHttpSessions ∧
    Server.sample.request
      (Ext.sample (ParseStatus.Success (Request.sample "POST" "/nothing")) [] []) 0
      [RecvEv.data [80]] = some (Request.sample "POST" "/nothing") ∧
    ((Server.sample.Process
      (Ext.sample (ParseStatus.Success (Request.sample "POST" "/nothing")) [] []) 0
      [RecvEv.data [80]]).2.sess 0).rsp = (Response.start Status.HTTP_400).call Call.end_ ∧
    Server.sample.request
      (Ext.sample (ParseStatus.Success (Request.sample "GET" "/nothing")) [] []) 0
      [RecvEv.data [71]] = some (Request.sample "GET" "/nothing") ∧
    ((Server.sample.Process
      (Ext.sample (ParseStatus.Success (Request.sample "GET" "/nothing")) [] []) 0
      [RecvEv.data [71]]).2.sess 0).rsp = (Response.start Status.HTTP_470).call Call.end_ :=
  ⟨by decide, by decide,
    ((unknown_path_answered
      (Ext.sample (ParseStatus.Success (Request.sample "POST" "/nothing")) [] []) Server.sample 0
      [RecvEv.data [80]] (Request.sample "POST" "/nothing") (by decide) (by decide)).1
      (Or.inl (by decide))).2.1,
    by decide,
    ((unknown_path_answered
      (Ext.sample (ParseStatus.Success (Request.sample "GET" "/nothing")) [] []) Server.sample 0
      [RecvEv.data [71]] (Request.sample "GET" "/nothing") (by decide) (by decide)).2
      (by decide)).2.1⟩

theorem close_outcomes_witness :
    ((Server.pairing.Close 0).1 = true ∧ Server.pairing.srp.isSome = true ∧
      Server.pairing.srp_owner = 0 ∧ (Server.pairing.Close 1).1 = true ∧
      ¬ (Server.pairing.srp.isSome = true ∧ Server.pairing.srp_owner = 1) ∧
      (Server.pairing.Close 5).1 = false) ∧
    ((Server.pairing.Close 0).2.srp = none ∧
      (Server.pairing.Close 0).2.srp_owner = sid_invalid ∧
      Server.pairing.since (Server.pairing.Close 0).2 =
        [Event.dbClose 0, Event.SRP_free]) ∧
    ((Server.pairing.Close 1).2.srp = Server.pairing.srp ∧
      (Server.pairing.Close 1).2.srp_owner = Server.pairing.srp_owner ∧
      Server.pairing.since (Server.pairing.Close 1).2 = [Event.dbClose 1]) ∧
    (Server.pairing.Close 5).2 = Server.pairing :=
  ⟨⟨by decide, by decide, by decide, by decide, by decide, by decide⟩,
    ((close_outcomes Server.pairing 0).2.1 (by decide)).2.2.2.1 ⟨by decide, by decide⟩,
    ((close_outcomes Server.pairing 1).2.1 (by decide)).2.2.2.2 (by decide),
    (close_outcomes Server.pairing 5).2.2.1 (by decide)⟩

theorem poll_outcomes_witness :
    ((Server.securedSample Controller.Admin).sess 1).secured = false ∧
    ((Server.securedSample Controller.Admin).sess 0).secured = true ∧
    ((Ext.sampleRecord.getEvents 0 Ext.sampleRecord.sizeofdata).1 ≠ Status.HTTP_200 ∨
      (Ext.sampleRecord.getEvents 0 Ext.sampleRecord.sizeofdata).2.length = 0) ∧
    ((Ext.sampleEvents.getEvents 0 Ext.sampleEvents.sizeofdata).1 = Status.HTTP_200 ∧
      (Ext.sampleEvents.getEvents 0 Ext.sampleEvents.sizeofdata).2.length ≠ 0) ∧
    (Server.securedSample Controller.Admin).Poll Ext.sampleEvents 1 =
      Server.securedSample Controller.Admin ∧
    (Server.securedSample Controller.Admin).since
      ((Server.securedSample Controller.Admin).Poll Ext.sampleRecord 0) =
        [Event.getEvents 0] ∧
    (((Server.securedSample Controller.Admin).Poll Ext.sampleEvents 0).sess 0).rsp =
      ⟨[Call.event Status.HTTP_200, Call.addContentType ContentTypeJson,
        Call.endBody (Ext.sampleEvents.getEvents 0 Ext.sampleEvents.sizeofdata).2],
        Data.none⟩ :=
  ⟨by decide, by decide, by decide, by decide,
    (poll_outcomes Ext.sampleEvents (Server.securedSample Controller.Admin) 1).1 (by decide),
    (((poll_outcomes Ext.sampleRecord (Server.securedSample Controller.Admin) 0).2
      (by decide)).1 (by decide)).2.1,
    (((poll_outcomes Ext.sampleEvents (Server.securedSample Controller.Admin) 0).2
      (by decide)).2 (by decide)).2.1⟩

theorem signed_accessory_info_witness :
    (0 < MaxHttpSessions ∧
      Server.pairing.request (Ext.sampleSigner "/pair-setup" Tlv.State.M5) 0
        [RecvEv.data [1]] = some (Request.sampleSigned "/pair-setup" [1]) ∧
      (Request.sampleSigned "/pair-setup" [1]).isPairSetupM5
        (Ext.sampleSigner "/pair-setup" Tlv.State.M5) = true ∧
      Server.pairing.srp.isSome = true ∧
      Server.pairing.srp_owner = (Server.pairing.sess 0).sid ∧
      (Request.sampleSigned "/pair-setup" [1]).m5TagOk
        (Ext.sampleSigner "/pair-setup" Tlv.State.M5) (Server.pairing.sess 0).key =
          some true ∧
      (Server.pairing.pairings.Add (cstr "controller") (List.replicate 32 9)
        Controller.Admin).1 = true ∧
      Server.sample.request (Ext.sampleSigner "/pair-verify" Tlv.State.M1) 1
        [RecvEv.data [1]] = some (Request.sampleSigned "/pair-verify" [1]) ∧
      (Request.sampleSigned "/pair-verify" [1]).isPairVerifyM1
        (Ext.sampleSigner "/pair-verify" Tlv.State.M1) = true) ∧
    (sealedSub (Ext.sampleSigner "/pair-setup" Tlv.State.M5) (Server.pairing.sess 0).key
        noncePS06 (setupSubTlv (Ext.sampleSigner "/pair-setup" Tlv.State.M5)
          (setupAccessoryInfo (Ext.sampleSigner "/pair-setup" Tlv.State.M5)
            Server.pairing.srp_shared_secret)) =
      cstr "00:11:22:33:44:55" ++ List.replicate 32 1 ++
        (List.replicate 32 0 ++ cstr "00:11:22:33:44:55" ++ List.replicate 32 1) ++
        List.replicate 16 0 ∧
      sealedSub (Ext.sampleSigner "/pair-verify" Tlv.State.M1)
        (verifyKey (Ext.sampleSigner "/pair-verify" Tlv.State.M1)
          ((Ext.sampleSigner "/pair-verify" Tlv.State.M1).curveShared
            (Ext.sampleSigner "/pair-verify" Tlv.State.M1).curveInit.2 (List.replicate 32 9)))
        noncePV02 (verifySubTlv (Ext.sampleSigner "/pair-verify" Tlv.State.M1)
          (verifyAccessoryInfo (Ext.sampleSigner "/pair-verify" Tlv.State.M1)
            (Ext.sampleSigner "/pair-verify" Tlv.State.M1).curveInit.1 (List.replicate 32 9))) =
      cstr "00:11:22:33:44:55" ++
        (List.replicate 32 3 ++ cstr "00:11:22:33:44:55" ++ List.replicate 32 9) ++
        List.replicate 16 0) ∧
    ((Server.pairing.Process (Ext.sampleSigner "/pair-setup" Tlv.State.M5) 0
        [RecvEv.data [1]]).2.sess 0).rsp.data =
      Data.tlv [⟨Tlv.Kind.State, [Tlv.State.M6]⟩,
        ⟨Tlv.Kind.EncryptedData, sealedSub (Ext.sampleSigner "/pair-setup" Tlv.State.M5)
          (Server.pairing.sess 0).key noncePS06
          (setupSubTlv (Ext.sampleSigner "/pair-setup" Tlv.State.M5)
            (setupAccessoryInfo (Ext.sampleSigner "/pair-setup" Tlv.State.M5)
              Server.pairing.srp_shared_secret))⟩] ∧
    ((Server.sample.Process (Ext.sampleSigner "/pair-verify" Tlv.State.M1) 1
        [RecvEv.data [1]]).2.sess 1).rsp.data =
      Data.tlv [⟨Tlv.Kind.State, [Tlv.State.M2]⟩,
        ⟨Tlv.Kind.PublicKey, (Ext.sampleSigner "/pair-verify" Tlv.State.M1).curveInit.1⟩,
        ⟨Tlv.Kind.EncryptedData, sealedSub (Ext.sampleSigner "/pair-verify" Tlv.State.M1)
          (verifyKey (Ext.sampleSigner "/pair-verify" Tlv.State.M1)
            ((Ext.sampleSigner "/pair-verify" Tlv.State.M1).curveShared
              (Ext.sampleSigner "/pair-verify" Tlv.State.M1).curveInit.2
              (List.replicate 32 9)))
          noncePV02 (verifySubTlv (Ext.sampleSigner "/pair-verify" Tlv.State.M1)
            (verifyAccessoryInfo (Ext.sampleSigner "/pair-verify" Tlv.State.M1)
              (Ext.sampleSigner "/pair-verify" Tlv.State.M1).curveInit.1
              (List.replicate 32 9)))⟩] :=
  ⟨by decide, by decide,
   ((signed_accessory_info (Ext.sampleSigner "/pair-setup" Tlv.State.M5) Server.pairing 0
      [RecvEv.data [1]] (Request.sampleSigned "/pair-setup" [1]) (by decide) (by decide)).1
      (cstr "controller") (List.replicate 32 9) [1] (by decide) (by decide) (by decide)
      (by decide) (by decide) (by decide) (by decide) (by decide) (by decide)).1,
   ((signed_accessory_info (Ext.sampleSigner "/pair-verify" Tlv.State.M1) Server.sample 1
      [RecvEv.data [1]] (Request.sampleSigned "/pair-verify" [1]) (by decide) (by decide)).2
      (List.replicate 32 9) (by decide) (by decide) (by decide)).1⟩

theorem srp_group_parameters_witness :
    ((0 : Nat) < MaxHttpSessions ∧
      Server.sample.request Ext.sampleM1 0 [RecvEv.data [80]] = some Request.sampleM1 ∧
      Request.sampleM1.isPairSetupM1 Ext.sampleM1 = true ∧
      Server.sample.acceptedM1 Ext.sampleM1 0 Request.sampleM1 = true ∧
      Ext.sampleM1.SRP_set_username = true ∧ Ext.sampleM1.SRP_set_params = true ∧
      Ext.sampleM1.SRP_set_auth_password = true ∧
      Ext.sampleM1.SRP_gen_pub (SRP.pairSetup (Ext.sampleM1.random 16) Ext.sampleM1.setupCode) =
        some (List.replicate 384 6) ∧
      (Ext.sampleM1.random 16).length = 16 ∧
      3 + Tlv.itemSize (List.replicate 384 6).length + Tlv.itemSize 16 ≤
        Ext.sampleM1.rspSize) ∧
    (srp_modulus.length = 384 ∧ 128 ≤ srp_modulus.headD 0 ∧
      srp_modulus.getLastD 0 % 2 = 1 ∧ beValue srp_modulus >>> 3071 = 1 ∧
      srp_generator = [0x05] ∧
      (∃ srp, (Server.sample.Process Ext.sampleM1 0 [RecvEv.data [80]]).2.srp = some srp ∧
        srp.username = cstr "Pair-Setup" ∧ srp.modulus = srp_modulus ∧
        srp.generator = srp_generator ∧ srp.salt = Ext.sampleM1.random 16 ∧
        srp.salt.length = 16 ∧
        ((Server.sample.Process Ext.sampleM1 0 [RecvEv.data [80]]).2.sess 0).rsp.data =
          Data.tlv [⟨Tlv.Kind.State, [Tlv.State.M2]⟩,
            ⟨Tlv.Kind.PublicKey, List.replicate 384 6⟩, ⟨Tlv.Kind.Salt, srp.salt⟩])) :=
  ⟨by decide,
   srp_group_parameters Ext.sampleM1 Server.sample 0 [RecvEv.data [80]] Request.sampleM1
     (List.replicate 384 6) (by decide) (by decide) (by decide) (by decide) (by decide)
     (by decide) (by decide) (by decide) (by decide) (by decide)⟩

theorem singleton_consistency_witness :
    ((Server.start (MaxHttpSessions + 1) Pairings.Init).Consistent ∧
      (Server.start (MaxHttpSessions + 1) Pairings.Init).Indexed ∧
      (Server.start (MaxHttpSessions + 1) Pairings.Init).legalRun
        [Op.Open, Op.Open, Op.sampleM1, Op.Process Ext.sampleNoMethod 1 [RecvEv.data [80]],
          Op.sampleM1, Op.Poll Ext.sampleM1 0, Op.Close 0] = true) ∧
    (((Server.start (MaxHttpSessions + 1) Pairings.Init).run
        [Op.Open, Op.Open, Op.sampleM1]).srp.isSome = true ∧
      ((Server.start (MaxHttpSessions + 1) Pairings.Init).run
        [Op.Open, Op.Open, Op.sampleM1]).srp_owner = 0) ∧
    (((Server.start (MaxHttpSessions + 1) Pairings.Init).run
        [Op.Open, Op.Open, Op.sampleM1, Op.Process Ext.sampleNoMethod 1 [RecvEv.data [80]],
          Op.sampleM1, Op.Poll Ext.sampleM1 0, Op.Close 0]).srp = none ↔
      ((Server.start (MaxHttpSessions + 1) Pairings.Init).run
        [Op.Open, Op.Open, Op.sampleM1, Op.Process Ext.sampleNoMethod 1 [RecvEv.data [80]],
          Op.sampleM1, Op.Poll Ext.sampleM1 0, Op.Close 0]).srp_owner = sid_invalid) :=
  ⟨⟨(start_consistent _ _).1, (start_consistent _ _).2, by decide⟩, by decide,
   (singleton_consistency (Server.start (MaxHttpSessions + 1) Pairings.Init)
      [Op.Open, Op.Open, Op.sampleM1, Op.Process Ext.sampleNoMethod 1 [RecvEv.data [80]],
        Op.sampleM1, Op.Poll Ext.sampleM1 0, Op.Close 0]
      (start_consistent _ _).1 (start_consistent _ _).2 (by decide)).1⟩

theorem verify_m3_binds_witness :
    ((0 : Nat) < MaxHttpSessions ∧
      Server.verifying.request (Ext.sampleVerifyOf (cstr "controller")) 0
        [RecvEv.data [80]] = some Request.sampleM3 ∧
      Request.sampleM3.isPairVerifyM3 (Ext.sampleVerifyOf (cstr "controller")) = true ∧
      Request.sampleM3.m3TagOk (Ext.sampleVerifyOf (cstr "controller"))
        (Server.verifying.sess 0).key = some true ∧
      Tlv.get (Request.sampleM3.m3Sub (Ext.sampleVerifyOf (cstr "controller"))
        (Server.verifying.sess 0).key) Tlv.Kind.Identifier = some (cstr "controller") ∧
      Tlv.get (Request.sampleM3.m3Sub (Ext.sampleVerifyOf (cstr "controller"))
        (Server.verifying.sess 0).key) Tlv.Kind.Signature = some (List.replicate 64 0) ∧
      Server.verifying.pairings.Get (cstr "controller") = some 0 ∧
      (Server.paired Controller.Admin).request Ext.sampleVerifyM1 0 [RecvEv.data [80]] =
        some Request.sampleM3 ∧
      Request.sampleM3.isPairVerifyM1 Ext.sampleVerifyM1 = true ∧
      Tlv.get (Ext.sampleVerifyM1.tlvParse Request.sampleM3.data) Tlv.Kind.PublicKey =
        some (List.replicate 32 9)) ∧
    ((Server.verifying.Process (Ext.sampleVerifyOf (cstr "controller")) 0
        [RecvEv.data [80]]).2.sess 0).ios = some 0 ∧
    ((Server.verifying.Process (Ext.sampleVerifyOf (cstr "controller")) 0
        [RecvEv.data [80]]).2.sess 0).secured = true ∧
    ((Server.verifying.sess 0).key =
        verifyKey Ext.sampleVerifyM1
          (Ext.sampleVerifyM1.curveShared Ext.sampleVerifyM1.curveInit.2
            (List.replicate 32 9)) ∧
      (Server.verifying.sess 0).curve =
        ⟨Ext.sampleVerifyM1.curveInit.1, Ext.sampleVerifyM1.curveInit.2,
          Ext.sampleVerifyM1.curveShared Ext.sampleVerifyM1.curveInit.2
            (List.replicate 32 9)⟩) :=
  ⟨by decide,
   (verify_m3_binds (Ext.sampleVerifyOf (cstr "controller")) Server.verifying 0
      [RecvEv.data [80]] Request.sampleM3 (cstr "controller") (List.replicate 64 0) 0
      (by decide) (by decide) (by decide) (by decide) (by decide) (by decide)
      (by decide)).2.1,
   (verify_m3_binds (Ext.sampleVerifyOf (cstr "controller")) Server.verifying 0
      [RecvEv.data [80]] Request.sampleM3 (cstr "controller") (List.replicate 64 0) 0
      (by decide) (by decide) (by decide) (by decide) (by decide) (by decide)
      (by decide)).2.2.2.2.1,
   (verify_m3_binds (Ext.sampleVerifyOf (cstr "controller")) Server.verifying 0
      [RecvEv.data [80]] Request.sampleM3 (cstr "controller") (List.replicate 64 0) 0
      (by decide) (by decide) (by decide) (by decide) (by decide) (by decide)
      (by decide)).2.2.2.2.2 Ext.sampleVerifyM1 (Server.paired Controller.Admin)
      [RecvEv.data [80]] Request.sampleM3 (List.replicate 32 9) rfl (by decide) (by decide)
      (by decide)⟩

theorem stray_state_no_handler_witness :
    ((0 : Nat) < MaxHttpSessions ∧
      Server.pairing.request (Ext.sampleStray "/pair-setup" [⟨Tlv.Kind.State, [2]⟩]) 0
        [RecvEv.data [80]] = some (Request.sample "POST" "/pair-setup") ∧
      (Request.sample "POST" "/pair-setup").isStrayState
        (Ext.sampleStray "/pair-setup" [⟨Tlv.Kind.State, [2]⟩]) = true ∧
      (Request.sample "POST" "/pair-verify").isStrayState
        (Ext.sampleStray "/pair-verify" []) = true) ∧
    Server.pairing.srp.isSome = true ∧
    (Server.pairing.Process (Ext.sampleStray "/pair-setup" [⟨Tlv.Kind.State, [2]⟩]) 0
      [RecvEv.data [80]]).1 = some true ∧
    (Server.pairing.Process (Ext.sampleStray "/pair-setup" [⟨Tlv.Kind.State, [2]⟩]) 0
      [RecvEv.data [80]]).2.srp = Server.pairing.srp ∧
    ((Server.pairing.Process (Ext.sampleStray "/pair-verify" []) 1
      [RecvEv.data [80]]).2.sess 1).rsp = Response.init :=
  ⟨by decide, by decide,
   (stray_state_no_handler (Ext.sampleStray "/pair-setup" [⟨Tlv.Kind.State, [2]⟩])
      Server.pairing 0 [RecvEv.data [80]] (Request.sample "POST" "/pair-setup") (by decide)
      (by decide) (by decide)).1,
   (stray_state_no_handler (Ext.sampleStray "/pair-setup" [⟨Tlv.Kind.State, [2]⟩])
      Server.pairing 0 [RecvEv.data [80]] (Request.sample "POST" "/pair-setup") (by decide)
      (by decide) (by decide)).2.2.1,
   (stray_state_no_handler (Ext.sampleStray "/pair-verify" [])
      Server.pairing 1 [RecvEv.data [80]] (Request.sample "POST" "/pair-verify") (by decide)
      (by decide) (by decide)).2.2.2.2.2.2.2.2.2.2.2.2.2.1⟩

theorem surplus_bytes_dropped_witness :
    ((0 : Nat) < MaxHttpSessions ∧
      ((Server.securedSample Controller.Admin).sess 0).secured = true ∧
      ([5, 6, 7] : List Nat).length ≤ MaxHttpBlock ∧
      (List.replicate 16 0 : List Nat).length = 16 ∧
      (record [5, 6, 7] (List.replicate 16 0) ++ [9, 9]).length ≤
        Ext.sampleRecord.sizeofdata ∧
      (∀ c ∈ [record [5, 6, 7] (List.replicate 16 0) ++ [9, 9]], c ≠ []) ∧
      [record [5, 6, 7] (List.replicate 16 0) ++ [9, 9]].flatten =
        record [5, 6, 7] (List.replicate 16 0) ++ [9, 9]) ∧
    (Server.securedSample Controller.Admin).Process Ext.sampleRecord 0
      ([record [5, 6, 7] (List.replicate 16 0) ++ [9, 9]].map RecvEv.data ++ []) =
    (Server.securedSample Controller.Admin).Process Ext.sampleRecord 0
      [RecvEv.data (record [5, 6, 7] (List.replicate 16 0))] :=
  ⟨by decide,
   (surplus_bytes_dropped Ext.sampleRecord (Server.securedSample Controller.Admin) 0 [5, 6, 7]
      (List.replicate 16 0) [9, 9] [record [5, 6, 7] (List.replicate 16 0) ++ [9, 9]] []
      (by decide) (by decide) (by decide) (by decide) (by decide) (by decide)
      (by decide)).1⟩

theorem hex_codec_round_trip_witness :
    (∀ x ∈ [0, 171, 255], x < 256) ∧
    bin2hex [0, 171, 255] 3 = cstr "00ABFF" ++ [0] ∧
    hex2bin (bin2hex [0, 171, 255] 3) 3 = [0, 171, 255] :=
  ⟨by decide,
   (hex_codec_round_trip [0, 171, 255] (by decide)).1,
   (hex_codec_round_trip [0, 171, 255] (by decide)).2.2.2.2.2.2⟩

end Hap
